import Mathlib

/-!
Record store of the property-rental backend.

A shallow embedding of the request handlers and storage helpers of the backend
(`src/Services/*.js`, `src/Utility/*.js`) together with the properties that the
specification states about them.

Modelling conventions.

* A collection file holds JSON text.  `Json` is the parsed document; writing a
  document with `JSON.stringify` and parsing it again is the identity on `Json`.
* Numbers are integers (`Int`): every identifier, timestamp and counter of the
  program is one.  Not-a-number is kept apart (`JsVal.nan`, or `none` where a
  function returns `Option Int`).  The identifier allocators add in double
  precision: their sum is `roundDouble` of the exact sum, which is exact up to
  `2 ^ 53` in magnitude.
* Conversions that ECMAScript defines on strings (`Number`, `Date.parse`,
  `parseInt`, `trim`, `toLowerCase`) are fields of a `JsRuntime` record; the
  general theorems hold for every runtime.  `isoRuntime` is one concrete
  instance used to evaluate examples.
* A JavaScript exception (`TypeError` on reading a property of `null`, on calling
  a missing method, on assigning a property of a primitive value in module code)
  is the result `none`.
* The clock (`Date.now()`, `todayYMD()`) is an argument of the handler.
* A promise is known by how it settles (`Settled`).  A handler that awaits is cut
  at its `await`s (`stepPost`), and a schedule names the request that runs up to
  its next `await`.
* `bcrypt` is an oracle (`Bcrypt`) and local time a `LocalCalendar`; the general
  theorems hold for every oracle and every calendar whose midnights increase
  with the day.
-/

namespace Sprint3

/-! ## JSON documents and JavaScript values -/

/-- JSON documents: what `JSON.parse` returns and `JSON.stringify` accepts. -/
inductive Json where
  | null
  | bool (b : Bool)
  | num (n : Int)
  | str (s : String)
  | arr (xs : List Json)
  | obj (fields : List (String × Json))

/-- Values of a JavaScript expression over JSON data: a JSON value, `undefined`
or `NaN`. -/
inductive JsVal where
  | undefined
  | nan
  | json (j : Json)

/-- String conversions supplied by the JavaScript engine.  `none` stands for
`NaN` (for `dateParse`: an invalid date). -/
structure JsRuntime where
  stringToNumber : String → Option Int
  dateParse : String → Option Int
  parseInt : String → Option Int
  trim : String → String
  toLowerCase : String → String

/-- Length of a string in UTF-16 code units (`s.length`). -/
def utf16Len (s : String) : Nat :=
  s.data.foldl (fun n c => n + (if c.toNat < 65536 then 1 else 2)) 0

/-- First value bound to key `k` in a field list. -/
def lookupField (k : String) : List (String × Json) → Option Json
  | [] => none
  | (k', v) :: rest => if k' = k then some v else lookupField k rest

/-- Property read `j.k` on a value that is neither `null` nor `undefined`, for
the data property names read by the handlers. -/
def Json.field (j : Json) (k : String) : JsVal :=
  match j with
  | .obj fs =>
    match lookupField k fs with
    | some v => .json v
    | none => .undefined
  | .arr xs => if k = "length" then .json (.num xs.length) else .undefined
  | .str s => if k = "length" then .json (.num (utf16Len s)) else .undefined
  | _ => .undefined

/-- Property read `v.k`; `none` is the `TypeError` raised on `null` and
`undefined`. -/
def JsVal.getProp? (v : JsVal) (k : String) : Option JsVal :=
  match v with
  | .undefined => none
  | .json .null => none
  | .nan => some .undefined
  | .json j => some (j.field k)

/-- Truthiness of a JSON value. -/
def Json.truthy : Json → Bool
  | .null => false
  | .bool b => b
  | .num n => n != 0
  | .str s => s != ""
  | .arr _ => true
  | .obj _ => true

/-- Truthiness (`ToBoolean`). -/
def JsVal.truthy : JsVal → Bool
  | .undefined => false
  | .nan => false
  | .json j => j.truthy

/-- The operator `a || b`. -/
def jsOr (a b : JsVal) : JsVal := if a.truthy then a else b

/-- The operator `a && b`. -/
def jsAnd (a b : JsVal) : JsVal := if a.truthy then b else a

/-- The operator `a ?? b`. -/
def jsCoalesce (a b : JsVal) : JsVal :=
  match a with
  | .undefined => b
  | .json .null => b
  | _ => a

mutual
/-- The conversion `String(j)`. -/
def Json.toStr : Json → String
  | .null => "null"
  | .bool b => if b then "true" else "false"
  | .num n => toString n
  | .str s => s
  | .arr xs => Json.joinStr xs
  | .obj _ => "[object Object]"
/-- The method `Array.prototype.join` with the default separator. -/
def Json.joinStr : List Json → String
  | [] => ""
  | [x] => Json.elemStr x
  | x :: y :: rest => Json.elemStr x ++ "," ++ Json.joinStr (y :: rest)
/-- String of an array element inside `join`: `null` gives the empty string. -/
def Json.elemStr : Json → String
  | .null => ""
  | .bool b => if b then "true" else "false"
  | .num n => toString n
  | .str s => s
  | .arr xs => Json.joinStr xs
  | .obj _ => "[object Object]"
end

/-- The conversion `String(v)`. -/
def JsVal.toStr : JsVal → String
  | .undefined => "undefined"
  | .nan => "NaN"
  | .json j => j.toStr

/-- The conversion `Number(v)`; `none` is `NaN`. -/
def toNumber (rt : JsRuntime) : JsVal → Option Int
  | .undefined => none
  | .nan => none
  | .json .null => some 0
  | .json (.bool b) => some (if b then 1 else 0)
  | .json (.num n) => some n
  | .json (.str s) => rt.stringToNumber s
  | .json (.arr xs) => rt.stringToNumber (Json.toStr (.arr xs))
  | .json (.obj fs) => rt.stringToNumber (Json.toStr (.obj fs))

/-- A numeric result as a value. -/
def ofNumber : Option Int → JsVal
  | some n => .json (.num n)
  | none => .nan

/-- Strict equality `a === b`.  Arrays and objects are compared by reference;
two values read from parsed documents or request bodies are never the same
reference. -/
def strictEq : JsVal → JsVal → Bool
  | .undefined, .undefined => true
  | .json .null, .json .null => true
  | .json (.bool a), .json (.bool b) => a == b
  | .json (.num a), .json (.num b) => a == b
  | .json (.str a), .json (.str b) => a == b
  | _, _ => false

/-- Holds for strings, which make `+` a concatenation; arrays and objects turn
into strings under `ToPrimitive`. -/
def concatOperand : JsVal → Bool
  | .json (.str _) => true
  | .json (.arr _) => true
  | .json (.obj _) => true
  | _ => false

/-- The least `k`, counted from the given one, with `a / 2 ^ k < 2 ^ 53`: the
number of binary digits of `a` that a double cannot keep.  `fuel` bounds the
search; `a` steps are always enough. -/
def excessBits : Nat → Nat → Nat → Nat
  | 0, _, k => k
  | fuel + 1, a, k => if a / 2 ^ k < 9007199254740992 then k else excessBits fuel a (k + 1)

/-- The double nearest to the natural number `a`: 53 significant binary digits,
round to nearest, ties to the even significand. -/
def roundNat (a : Nat) : Nat :=
  let k := excessBits a a 0
  let q := a / 2 ^ k
  let r := a % 2 ^ k
  if 2 * r < 2 ^ k then q * 2 ^ k
  else if 2 ^ k < 2 * r then (q + 1) * 2 ^ k
  else if q % 2 = 0 then q * 2 ^ k
  else (q + 1) * 2 ^ k

/-- The double nearest to the integer `n`: the value of an arithmetic result
whose exact value is `n`. -/
def roundDouble (n : Int) : Int :=
  if n < 0 then -((roundNat n.natAbs : Nat) : Int) else ((roundNat n.natAbs : Nat) : Int)

/-- The operator `a + 1`: a concatenation when `a` is a string, an array or an
object, and else the sum of two doubles. -/
def jsPlusOne (rt : JsRuntime) (a : JsVal) : JsVal :=
  if concatOperand a then .json (.str (a.toStr ++ "1"))
  else
    match toNumber rt a with
    | some x => .json (.num (roundDouble (x + 1)))
    | none => .nan

/-- The comparison `v < n` against a number. -/
def jsLtNum (rt : JsRuntime) (v : JsVal) (n : Int) : Bool :=
  match toNumber rt v with
  | some m => decide (m < n)
  | none => false

/-- Largest magnitude of a time value (`8.64e15` ms). -/
def maxTime : Int := 8640000000000000

/-- The time value of `new Date(v)` in milliseconds since the epoch; `none` is
an invalid date. -/
def newDate (rt : JsRuntime) : JsVal → Option Int
  | .undefined => none
  | .nan => none
  | .json .null => some 0
  | .json (.bool b) => some (if b then 1 else 0)
  | .json (.num n) => if -maxTime ≤ n ∧ n ≤ maxTime then some n else none
  | .json (.str s) => rt.dateParse s
  | .json (.arr xs) => rt.dateParse (Json.toStr (.arr xs))
  | .json (.obj fs) => rt.dateParse (Json.toStr (.obj fs))

/-- The comparison `a <= b` of two `Date` objects: false when either is
invalid. -/
def dateLe : Option Int → Option Int → Bool
  | some a, some b => decide (a ≤ b)
  | _, _ => false

/-- The test `isNaN(d)` on a `Date`. -/
def dateIsNaN (d : Option Int) : Bool := d.isNone

/-- Replace the first binding of `k`, or append one. -/
def setField (k : String) (v : Json) : List (String × Json) → List (String × Json)
  | [] => [(k, v)]
  | (k', w) :: rest => if k' = k then (k, v) :: rest else (k', w) :: setField k v rest

/-- Remove the bindings of `k`. -/
def eraseField (k : String) (fs : List (String × Json)) : List (String × Json) :=
  fs.filter (fun p => p.1 != k)

/-- Fields of an object after the assignment `o.k = v`, as `JSON.stringify`
sees them: an `undefined` value is left out and `NaN` is written as `null`. -/
def assignField (k : String) (v : JsVal) (fs : List (String × Json)) : List (String × Json) :=
  match v with
  | .json j => setField k j fs
  | .nan => setField k .null fs
  | .undefined => eraseField k fs

/-- The assignment `j.k = v` followed by serialisation.  A named property set on
an array is not serialised; assigning to a property of a primitive value is a
`TypeError` in module code. -/
def Json.assign? (j : Json) (k : String) (v : JsVal) : Option Json :=
  match j with
  | .obj fs => some (.obj (assignField k v fs))
  | .arr xs => some (.arr xs)
  | _ => none

/-- Serialisation of an object literal whose property values are `vs`. -/
def mkObj : List (String × JsVal) → Json
  | kvs => .obj (kvs.foldl (fun acc kv => assignField kv.1 kv.2 acc) [])

/-- The array behind a value on which an array method is called; `none` is the
`TypeError` for a value without that method. -/
def JsVal.asArray? : JsVal → Option (List Json)
  | .json (.arr xs) => some xs
  | _ => none

/-- The test `Array.isArray(v)`. -/
def isArray : JsVal → Bool
  | .json (.arr _) => true
  | _ => false

/-! ## Files -/

/-- State of a collection file. -/
inductive FileState where
  | missing
  | empty
  | malformed (raw : String)
  | json (v : Json)

/-- An HTTP response: status code and JSON body. -/
structure Reply where
  status : Nat
  body : Json

/-- Body of a response that carries one message. -/
def messageBody (m : String) : Json := .obj [("message", .str m)]

/-- Body of a response that carries one error text. -/
def errorBody (m : String) : Json := .obj [("error", .str m)]

/-! ## A concrete runtime for examples -/

/-- Decimal value of a digit character. -/
def digitOf (c : Char) : Option Nat :=
  if 48 ≤ c.toNat ∧ c.toNat ≤ 57 then some (c.toNat - 48) else none

/-- Decimal value of a run of digits, continuing from `acc`. -/
def natOfDigits (acc : Nat) : List Char → Option Nat
  | [] => some acc
  | c :: cs =>
    match digitOf c with
    | some d => natOfDigits (acc * 10 + d) cs
    | none => none

/-- Whether `y` is a leap year of the Gregorian calendar. -/
def isLeapYear (y : Nat) : Bool := (y % 4 == 0 && y % 100 != 0) || y % 400 == 0

/-- Number of days of month `m` in year `y`. -/
def daysInMonth (y m : Nat) : Nat :=
  if m = 2 then (if isLeapYear y then 29 else 28)
  else if m = 4 ∨ m = 6 ∨ m = 9 ∨ m = 11 then 30 else 31

/-- Days from 1970-01-01 to the civil date `y-m-d` (for `y ≥ 1`). -/
def daysFromCivil (y m d : Nat) : Int :=
  let y1 : Nat := if m ≤ 2 then y - 1 else y
  let era : Nat := y1 / 400
  let yoe : Nat := y1 - era * 400
  let mp : Nat := if m ≤ 2 then m + 9 else m - 3
  let doy : Nat := (153 * mp + 2) / 5 + d - 1
  let doe : Nat := yoe * 365 + yoe / 4 - yoe / 100 + doy
  (era * 146097 + doe : Nat) - 719468

/-- The function `Date.parse` on date-only ISO strings `YYYY-MM-DD` naming a
calendar day (midnight UTC, in milliseconds); every other string is reported
invalid. -/
def isoDateParse (s : String) : Option Int :=
  match s.data with
  | [y1, y2, y3, y4, '-', m1, m2, '-', d1, d2] =>
    match natOfDigits 0 [y1, y2, y3, y4], natOfDigits 0 [m1, m2], natOfDigits 0 [d1, d2] with
    | some y, some m, some d =>
      if 1 ≤ y ∧ 1 ≤ m ∧ m ≤ 12 ∧ 1 ≤ d ∧ d ≤ daysInMonth y m then
        some (daysFromCivil y m d * 86400000)
      else none
    | _, _, _ => none
  | _ => none

/-- ASCII white space. -/
def isSpaceChar (c : Char) : Bool := c = ' ' || c = '\t' || c = '\n' || c = '\r'

/-- Characters of a string without leading and trailing ASCII white space. -/
def trimChars (cs : List Char) : List Char :=
  ((cs.dropWhile isSpaceChar).reverse.dropWhile isSpaceChar).reverse

/-- Value of an optional sign followed by decimal digits only. -/
def signedDigits : List Char → Option Int
  | [] => none
  | '-' :: c :: cs => (natOfDigits 0 (c :: cs)).map (fun n => -(n : Int))
  | '+' :: c :: cs => (natOfDigits 0 (c :: cs)).map (fun n => (n : Int))
  | c :: cs => (natOfDigits 0 (c :: cs)).map (fun n => (n : Int))

/-- The conversion `Number(s)` on decimal integer literals and blank strings;
every other string is reported as `NaN`. -/
def isoStringToNumber (s : String) : Option Int :=
  match trimChars s.data with
  | [] => some 0
  | cs => signedDigits cs

/-- The function `parseInt(s)` on strings that are decimal integer literals up to
surrounding white space; every other string is reported as `NaN`. -/
def isoParseInt (s : String) : Option Int := signedDigits (trimChars s.data)

/-- A runtime that agrees with ECMAScript on calendar dates written
`YYYY-MM-DD`, on decimal integer literals and on ASCII text. -/
def isoRuntime : JsRuntime where
  stringToNumber := isoStringToNumber
  dateParse := isoDateParse
  parseInt := isoParseInt
  trim := fun s => String.mk (trimChars s.data)
  toLowerCase := fun s => String.mk (s.data.map Char.toLower)

/-! ## `src/Services/ClientServices.js`: bookings -/

/-- The helper `readJSON(filePath)`: the parsed document, or `{}` when reading or
parsing fails. -/
def readJSON : FileState → Json
  | .json v => v
  | _ => .obj []

/-- The helper `writeJSON(filePath, data)`. -/
def writeJSON (data : Json) : FileState := .json data

/-- The callback scan `bookings.some(b => ...)` of `POST /bookings`: `pid` is
the requested `propertyId`, `ci` and `co` the requested dates. -/
def hasOverlap (rt : JsRuntime) (pid : JsVal) (ci co : Option Int) : List Json → Option Bool
  | [] => some false
  | b :: rest =>
    match (JsVal.json b).getProp? "propertyId" with
    | none => none
    | some bpid =>
      if !strictEq bpid pid then hasOverlap rt pid ci co rest
      else
        let bci := newDate rt (b.field "checkInDate")
        let bco := newDate rt (b.field "checkOutDate")
        if dateLe ci bco && dateLe bci co then some true
        else hasOverlap rt pid ci co rest

/-- The handler `router.post("/bookings")`: the response and the booking file
afterwards; `none` when the handler throws (nothing is written then).  `now` is
`Date.now()`. -/
def postBooking (rt : JsRuntime) (now : Int) (file : FileState) (body : Json) :
    Option (Reply × FileState) :=
  match (JsVal.json (readJSON file)).getProp? "bookings" with
  | none => none
  | some stored =>
    let bookings := jsOr stored (.json (.arr []))
    match (JsVal.json body).getProp? "propertyId" with
    | none => none
    | some pid =>
      let cin := body.field "checkInDate"
      let cout := body.field "checkOutDate"
      if !pid.truthy || !cin.truthy || !cout.truthy then
        some (⟨400, messageBody "Missing propertyId / checkInDate / checkOutDate"⟩, file)
      else
        let ci := newDate rt cin
        let co := newDate rt cout
        if dateIsNaN ci || dateIsNaN co then
          some (⟨400, messageBody "Invalid dates"⟩, file)
        else
          match bookings.asArray? with
          | none => none
          | some rows =>
            match hasOverlap rt pid ci co rows with
            | none => none
            | some true =>
              some (⟨400, messageBody "Property already booked for selected dates"⟩, file)
            | some false =>
              match body.assign? "bookingId" (jsOr (body.field "bookingId") (.json (.num now))) with
              | none => none
              | some newBooking =>
                some (⟨200, .obj [("message", .str "Booking saved"), ("booking", newBooking)]⟩,
                  writeJSON (.obj [("bookings", .arr (rows ++ [newBooking]))]))

/-- The callback scan `bookings.filter(b => b.bookingId !== id)` of
`DELETE /bookings/:id`. -/
def keepOtherBookings (id : JsVal) : List Json → Option (List Json)
  | [] => some []
  | b :: rest =>
    match (JsVal.json b).getProp? "bookingId" with
    | none => none
    | some bid =>
      match keepOtherBookings id rest with
      | none => none
      | some kept => some (if !strictEq bid id then b :: kept else kept)

/-- The handler `router.delete("/bookings/:id")`; `idParam` is the path
parameter. -/
def deleteBooking (rt : JsRuntime) (file : FileState) (idParam : String) :
    Option (Reply × FileState) :=
  let id := ofNumber (rt.parseInt idParam)
  match (JsVal.json (readJSON file)).getProp? "bookings" with
  | none => none
  | some stored =>
    match (jsOr stored (.json (.arr []))).asArray? with
    | none => none
    | some rows =>
      match keepOtherBookings id rows with
      | none => none
      | some filtered =>
        some (⟨200, messageBody "Booking deleted"⟩, writeJSON (.obj [("bookings", .arr filtered)]))

/-- The bookings a file holds: `data.bookings || []` when that is an array. -/
def storedBookings (file : FileState) : List Json :=
  match (readJSON file).field "bookings" with
  | .json (.arr xs) => xs
  | _ => []

/-- The booking file that holds exactly the rows `rows`. -/
def bookingFile (rows : List Json) : FileState := .json (.obj [("bookings", .arr rows)])

/-- The booking file after a handler ran: unchanged when the handler threw. -/
def fileAfter (file : FileState) (r : Option (Reply × FileState)) : FileState :=
  match r with
  | some (_, f) => f
  | none => file

/-- The response of a handler, if it produced one. -/
def replyOf (r : Option (Reply × FileState)) : Option Reply := r.map Prod.fst

/-- A booking row with the fields the overlap rule reads. -/
def mkBooking (bookingId propertyId : Int) (checkIn checkOut : String) (status : Bool) : Json :=
  .obj [("bookingId", .num bookingId), ("propertyId", .num propertyId),
    ("checkInDate", .str checkIn), ("checkOutDate", .str checkOut),
    ("bookingStatus", .bool status)]

/-- Fields of a request body for `POST /bookings` without a `bookingId`. -/
def requestFields (propertyId : Int) (checkIn checkOut : String) : List (String × Json) :=
  [("propertyId", .num propertyId), ("checkInDate", .str checkIn),
    ("checkOutDate", .str checkOut), ("bookingStatus", .bool true)]

/-- A request body for `POST /bookings` without a `bookingId`. -/
def mkRequest (propertyId : Int) (checkIn checkOut : String) : Json :=
  .obj (requestFields propertyId checkIn checkOut)

/-- Two `POST /bookings` requests handled one after the other, each running to
completion: both responses and the file afterwards. -/
def postTwoBookings (rt : JsRuntime) (now1 now2 : Int) (file : FileState) (body1 body2 : Json) :
    Option (Reply × Reply × FileState) :=
  match postBooking rt now1 file body1 with
  | none => none
  | some (r1, f1) =>
    match postBooking rt now2 f1 body2 with
    | none => none
    | some (r2, f2) => some (r1, r2, f2)


/-- A date value that `POST /bookings` accepts: present (truthy) and parsed by
`new Date` to a valid date. -/
abbrev validDate (rt : JsRuntime) (v : JsVal) : Prop :=
  v.truthy = true ∧ (newDate rt v).isSome = true

/-- The response `400 Property already booked for selected dates`. -/
def conflictReply : Reply := ⟨400, messageBody "Property already booked for selected dates"⟩

/-- The closed intervals `[ci1, co1]` and `[ci2, co2]` share a day. -/
def intervalsOverlap (ci1 co1 ci2 co2 : Int) : Prop := ci1 ≤ co2 ∧ ci2 ≤ co1

/-- Row `b` is a booking of property `pid` whose closed interval overlaps
`[ci, co]`. -/
def blocks (rt : JsRuntime) (pid : JsVal) (ci co : Int) (b : Json) : Prop :=
  strictEq (b.field "propertyId") pid = true ∧
    ∃ bci bco, newDate rt (b.field "checkInDate") = some bci ∧
      newDate rt (b.field "checkOutDate") = some bco ∧ intervalsOverlap ci co bci bco

/-- The record that `POST /bookings` stores for a body with fields `fs`: the
body with `bookingId` set to `bookingId || Date.now()`. -/
def storedBooking (now : Int) (fs : List (String × Json)) : Json :=
  .obj (assignField "bookingId" (jsOr ((Json.obj fs).field "bookingId") (.json (.num now))) fs)

/-- The response `200 Booking saved` carrying the stored record. -/
def savedReply (booking : Json) : Reply :=
  ⟨200, .obj [("message", .str "Booking saved"), ("booking", booking)]⟩

/-- The stored booking of the overlap examples: property 7, 2024-06-10 to
2024-06-15, confirmed. -/
def juneBooking : Json := mkBooking 1 7 "2024-06-10" "2024-06-15" true

/-- A booking that takes part in the overlap rule: `bookingStatus === true`. -/
def activeBooking (b : Json) : Bool := strictEq (b.field "bookingStatus") (.json (.bool true))

/-- The closed date intervals of two booking rows overlap: `ci1 <= co2` and
`ci2 <= co1` on the parsed dates. -/
def overlapping (rt : JsRuntime) (b1 b2 : Json) : Prop :=
  ∃ ci1 co1 ci2 co2, newDate rt (b1.field "checkInDate") = some ci1 ∧
    newDate rt (b1.field "checkOutDate") = some co1 ∧
    newDate rt (b2.field "checkInDate") = some ci2 ∧
    newDate rt (b2.field "checkOutDate") = some co2 ∧ intervalsOverlap ci1 co1 ci2 co2

/-- The booking invariant of the specification: any two stored bookings that are
both active and carry the same `propertyId` have non-overlapping closed
intervals. -/
def NoDoubleBooking (rt : JsRuntime) (rows : List Json) : Prop :=
  rows.Pairwise (fun b1 b2 => activeBooking b1 = true → activeBooking b2 = true →
    strictEq (b1.field "propertyId") (b2.field "propertyId") = true → ¬ overlapping rt b1 b2)

/-- A second stored booking of property 7: 2024-06-16 to 2024-06-20, confirmed. -/
def laterBooking : Json := mkBooking 2 7 "2024-06-16" "2024-06-20" true

/-! ## `src/Utility/storageHandler.js`: the complaints file -/

/-- The value of `Number(v) || 0` for a numeric conversion result. -/
def numberOrZero : Option Int → Int
  | some n => n
  | none => 0

/-- The scan `rows.reduce((m, c) => Math.max(m, Number(c[key]) || 0), m0)` of the
two identifier allocators; `none` when a row is `null`. -/
def maxIdFrom (rt : JsRuntime) (key : String) : Int → List Json → Option Int
  | m, [] => some m
  | m, c :: rest =>
    match (JsVal.json c).getProp? key with
    | none => none
    | some id => maxIdFrom rt key (max m (numberOrZero (toNumber rt id))) rest

namespace storageHandler

/-- The document `{ complaints: [] }`. -/
def emptyStorage : Json := .obj [("complaints", .arr [])]

/-- The function `ensureStorageFile()`: the complaints file afterwards. -/
def ensureStorageFile : FileState → FileState
  | .missing => .json emptyStorage
  | .empty => .json emptyStorage
  | .malformed _ => .json emptyStorage
  | .json obj =>
    if !obj.truthy || !isArray (obj.field "complaints") then .json emptyStorage
    else .json obj

/-- The function `readStorage()`: the parsed document and the file afterwards. -/
def readStorage (file : FileState) : Option (Json × FileState) :=
  match ensureStorageFile file with
  | .json obj =>
    match (JsVal.json obj).getProp? "complaints" with
    | none => none
    | some c =>
      if !c.truthy then
        match obj.assign? "complaints" (.json (.arr [])) with
        | none => none
        | some obj1 => some (obj1, .json obj)
      else some (obj, .json obj)
  | _ => none

/-- The function `writeStorage(data)` when the queued write completes: the file
is checked, the temporary file is written and renamed over it. -/
def writeStorage (file : FileState) (data : Json) : FileState :=
  match ensureStorageFile file with
  | _ => .json data

/-- The function `getNextComplaintId()`: the identifier and the file
afterwards. -/
def getNextComplaintId (rt : JsRuntime) (file : FileState) : Option (Int × FileState) :=
  match readStorage file with
  | none => none
  | some (storage, file1) =>
    match (jsOr (storage.field "complaints") (.json (.arr []))).asArray? with
    | none => none
    | some complaints =>
      match maxIdFrom rt "complaintId" 0 complaints with
      | none => none
      | some m => some (roundDouble (m + 1), file1)

end storageHandler

/-! ## `src/Utility/notificationHandler.js`: the notification file -/

namespace notificationHandler

/-- The document `{ notification: [] }`. -/
def emptyStorage : Json := .obj [("notification", .arr [])]

/-- The function `ensureStorageFile()`: the notification file afterwards. -/
def ensureStorageFile : FileState → FileState
  | .missing => .json emptyStorage
  | .empty => .json emptyStorage
  | .malformed _ => .json emptyStorage
  | .json obj =>
    match (JsVal.json obj).getProp? "notification" with
    | none => .json emptyStorage
    | some n => if !n.truthy || !isArray n then .json emptyStorage else .json obj

/-- The function `readNotificationStorage()`. -/
def readNotificationStorage (file : FileState) : Option (Json × FileState) :=
  match ensureStorageFile file with
  | .json obj =>
    match (JsVal.json obj).getProp? "notification" with
    | none => none
    | some n =>
      if !n.truthy then
        match obj.assign? "notification" (.json (.arr [])) with
        | none => none
        | some obj1 => some (obj1, .json obj)
      else some (obj, .json obj)
  | _ => none

/-- The function `writeNotificationStorage(data)` when the queued write
completes. -/
def writeNotificationStorage (file : FileState) (data : Json) : FileState :=
  match ensureStorageFile file with
  | _ => .json data

/-- The function `getNextNotificationId()`. -/
def getNextNotificationId (rt : JsRuntime) (file : FileState) : Option (Int × FileState) :=
  match readNotificationStorage file with
  | none => none
  | some (storage, file1) =>
    match (storage.field "notification").asArray? with
    | none => none
    | some rows =>
      match maxIdFrom rt "notificationId" 0 rows with
      | none => none
      | some m => some (roundDouble (m + 1), file1)

end notificationHandler

/-! ## `src/Services/ComplaintServices.js` -/

/-- A request to the complaints router: the two identity headers (absent when
`none`), the path parameter `:id` and the JSON body. -/
structure ComplaintRequest where
  userIdHeader : Option String
  roleHeader : Option String
  idParam : String
  body : Json

/-- The header middleware of the complaints router: the response that ends the
request, or `req.user` as the pair of `id` and `role`. -/
def requireUser (rt : JsRuntime) (req : ComplaintRequest) : Except Reply (Int × String) :=
  match req.userIdHeader, req.roleHeader with
  | some rawId, some rawRole =>
    if rawId = "" ∨ rawRole = "" then
      .error ⟨400, errorBody "Missing x-user-id or x-user-role headers"⟩
    else
      let role := rt.toLowerCase rawRole
      match rt.stringToNumber rawId with
      | none => .error ⟨400, errorBody "Invalid x-user-id header"⟩
      | some id =>
        if id ≤ 0 then .error ⟨400, errorBody "Invalid x-user-id header"⟩
        else if ¬ (role = "client" ∨ role = "host" ∨ role = "admin") then
          .error ⟨400, errorBody "Invalid x-user-role header (must be client|host|admin)"⟩
        else .ok (id, role)
  | _, _ => .error ⟨400, errorBody "Missing x-user-id or x-user-role headers"⟩

/-- The response `500 Internal server error` of the `catch` blocks. -/
def internalError : Reply := ⟨500, errorBody "Internal server error"⟩

/-- The complaint record built by `POST /api/complaints`. -/
def newComplaint (newId bookingId userId : Int) (role description today : String) : Json :=
  mkObj [("complaintId", .json (.num newId)), ("bookingId", .json (.num bookingId)),
    ("userId", .json (.num userId)), ("clientOrHost", .json (.str role)),
    ("complaintDescription", .json (.str description)),
    ("complaintStatus", .json (.str "active")), ("createdOn", .json (.str today)),
    ("resolvedOn", .json (.str ""))]

/-- The handler `router.post('/')` of the complaints router, after the header
middleware: the response and the complaints file afterwards.  `today` is
`todayYMD()`. -/
def postComplaint (rt : JsRuntime) (today : String) (file : FileState) (req : ComplaintRequest) :
    Reply × FileState :=
  match requireUser rt req with
  | .error r => (r, file)
  | .ok (headerUserId, role) =>
    if role = "admin" then (⟨403, errorBody "admin users cannot create complaints"⟩, file)
    else
      match jsOr (.json req.body) (.json (.obj [])) with
      | .json body =>
        let bookingId := body.field "bookingId"
        let complaintDescription := body.field "complaintDescription"
        if !bookingId.truthy then (⟨400, errorBody "bookingId is required"⟩, file)
        else if !complaintDescription.truthy || rt.trim complaintDescription.toStr = "" then
          (⟨400, errorBody "complaintDescription is required"⟩, file)
        else
          match toNumber rt bookingId with
          | none => (⟨400, errorBody "bookingId must be a number"⟩, file)
          | some numericBookingId =>
            match storageHandler.readStorage file with
            | none => (internalError, storageHandler.ensureStorageFile file)
            | some (storage, file1) =>
              match storageHandler.getNextComplaintId rt file1 with
              | none => (internalError, storageHandler.ensureStorageFile file1)
              | some (newId, file2) =>
                let created := newComplaint newId numericBookingId headerUserId role
                  (rt.trim complaintDescription.toStr) today
                match (storage.field "complaints").asArray? with
                | none => (internalError, file2)
                | some rows =>
                  match storage.assign? "complaints" (.json (.arr (created :: rows))) with
                  | none => (internalError, file2)
                  | some storage1 => (⟨201, created⟩, storageHandler.writeStorage file2 storage1)
      | _ => (internalError, file)

/-- The complaints a file holds. -/
def storedComplaints (file : FileState) : List Json :=
  match file with
  | .json v =>
    match v.field "complaints" with
    | .json (.arr xs) => xs
    | _ => []
  | _ => []

/-! ## `src/Services/NotificationsService.js` -/

/-- The notification record built by `POST /api/notifications` from the body
`body` (not `null`). -/
def newNotification (rt : JsRuntime) (notificationId : Int) (body : Json) (today : String) :
    Json :=
  mkObj [("notificationId", .json (.num notificationId)),
    ("userId", ofNumber (toNumber rt (body.field "userId"))),
    ("notificationTitle", .json (.str (body.field "notificationTitle").toStr)),
    ("message", .json (.str (body.field "message").toStr)),
    ("notificationType", jsOr (body.field "notificationType") (.json (.str "general"))),
    ("target", jsOr (body.field "target") (.json (.str ""))),
    ("createdBy", jsOr (body.field "createdBy")
      (.json (.str ("user-" ++ (body.field "userId").toStr)))),
    ("createdon", .json (.str today)), ("isRead", .json (.bool false)),
    ("readOn", .json (.str ""))]

/-- The handler `router.post("/")` of the notifications router. -/
def postNotification (rt : JsRuntime) (today : String) (file : FileState) (body : Json) :
    Reply × FileState :=
  match (JsVal.json body).getProp? "userId" with
  | none => (⟨500, errorBody "Failed to save notification"⟩, file)
  | some userId =>
    if !userId.truthy || !(body.field "notificationTitle").truthy
        || !(body.field "message").truthy then
      (⟨400, errorBody "userId, notificationTitle, and message are required"⟩, file)
    else
      match notificationHandler.readNotificationStorage file with
      | none =>
        (⟨500, errorBody "Failed to save notification"⟩,
          notificationHandler.ensureStorageFile file)
      | some (storage, file1) =>
        match notificationHandler.getNextNotificationId rt file1 with
        | none =>
          (⟨500, errorBody "Failed to save notification"⟩,
            notificationHandler.ensureStorageFile file1)
        | some (notificationId, file2) =>
          let created := newNotification rt notificationId body today
          match (storage.field "notification").asArray? with
          | none => (⟨500, errorBody "Failed to save notification"⟩, file2)
          | some rows =>
            match storage.assign? "notification" (.json (.arr (created :: rows))) with
            | none => (⟨500, errorBody "Failed to save notification"⟩, file2)
            | some storage1 =>
              (⟨201, created⟩, notificationHandler.writeNotificationStorage file2 storage1)

/-- The notifications a file holds. -/
def storedNotifications (file : FileState) : List Json :=
  match file with
  | .json v =>
    match v.field "notification" with
    | .json (.arr xs) => xs
    | _ => []
  | _ => []

/-- The identifiers stored under `key` in the rows of a collection. -/
def idsOf (key : String) (rows : List Json) : List JsVal := rows.map (fun r => r.field key)

/-- A complaints row that carries only its identifier. -/
def complaintRow (id : Int) : Json := .obj [("complaintId", .num id)]

/-- A notification row that carries only its identifier. -/
def notificationRow (id : Int) : Json := .obj [("notificationId", .num id)]

/-- A request that creates a complaint: user 42 as `Client` about booking 17. -/
def sampleComplaintRequest : ComplaintRequest :=
  ⟨some "42", some "Client", "",
    .obj [("bookingId", .str "17"), ("complaintDescription", .str "  broken heater ")]⟩

/-- A complaints document with the identifiers 3, 5 and 4. -/
def sampleComplaints : Json :=
  .obj [("complaints", .arr [complaintRow 3, complaintRow 5, complaintRow 4])]

/-- A request body that creates a notification for user 4. -/
def sampleNotificationBody : Json :=
  .obj [("userId", .num 4), ("notificationTitle", .str "Welcome"), ("message", .str "Hello")]

/-- A notification document with the identifiers 2 and 7. -/
def sampleNotifications : Json :=
  .obj [("notification", .arr [notificationRow 2, notificationRow 7])]

/-- A request body for `POST /bookings` that carries its own `bookingId`. -/
def requestWithId (bookingId propertyId : Int) (checkIn checkOut : String) : Json :=
  .obj (("bookingId", .num bookingId) :: requestFields propertyId checkIn checkOut)

/-! ## `src/Utility/fileDb.js` -/

namespace fileDb

/-- The function `readJson(name)`, where `file` is the state of the file that
`name` designates: the parsed document, the empty collection of that name when
reading or parsing fails, and `undefined` for a name the function does not
know. -/
def readJson (name : String) (file : FileState) : JsVal :=
  if name = "properties.json" ∨ name = "bookings.json" ∨ name = "users.json" then
    match file with
    | .json v => .json v
    | _ =>
      if name = "properties.json" then .json (.obj [("properties", .arr [])])
      else if name = "bookings.json" then .json (.obj [("bookings", .arr [])])
      else .json (.obj [("users", .arr [])])
  else .undefined

/-- The function `writeJson(name, data)`: the file that `name` designates
afterwards. -/
def writeJson (name : String) (data : Json) (file : FileState) : FileState :=
  if name = "properties.json" ∨ name = "bookings.json" ∨ name = "users.json" then .json data
  else file

end fileDb

/-! ## `src/Services/Controller/HostController.js` -/

namespace HostController

/-- The helper `response(success, message, data = null)`. -/
def response (success : Bool) (message : String) (data : Json) : Json :=
  .obj [("success", .bool success), ("message", .str message), ("data", data)]

/-- The object returned by `normalizePropertyRequest`. -/
structure Normalized where
  propertyId : Option Int
  userId : Option Int
  propertyName : JsVal
  propertyDescription : JsVal
  noOfRooms : Option Int
  noOfBathrooms : Option Int
  maxNoOfGuests : Option Int
  pricePerDay : Option Int
  imageURL : JsVal
  propertyAccountNumber : Option Int
  address : JsVal
  hasWifi : Bool
  hasParking : Bool
  hasPool : Bool
  hasAc : Bool
  hasHeater : Bool
  hasPetFriendly : Bool
  propertyStatus : JsVal
  propertyRate : Option Int
  propertyRatingCount : Option Int

/-- The function `normalizePropertyRequest(body)` on a body that is neither
`null` nor `undefined`. -/
def normalizePropertyRequest (rt : JsRuntime) (body : Json) : Normalized :=
  let one : JsVal := .json (.num 1)
  let zero : JsVal := .json (.num 0)
  let blank : JsVal := .json (.str "")
  { propertyId := toNumber rt (jsOr (body.field "propertyId") zero)
    userId := toNumber rt (jsOr (body.field "userId") (jsOr (body.field "hostId") one))
    propertyName := jsOr (body.field "propertyName")
      (jsOr (body.field "propertyTitle") (jsOr (body.field "name") blank))
    propertyDescription := jsOr (body.field "propertyDescription")
      (jsOr (body.field "description") blank)
    noOfRooms := toNumber rt (jsCoalesce (body.field "noOfRooms")
      (jsCoalesce (body.field "rooms") one))
    noOfBathrooms := toNumber rt (jsCoalesce (body.field "noOfBathrooms")
      (jsCoalesce (body.field "noOfBathroom") (jsCoalesce (body.field "bathrooms") one)))
    maxNoOfGuests := toNumber rt (jsCoalesce (body.field "maxNoOfGuests")
      (jsCoalesce (body.field "maxNumberOfGuest") (jsCoalesce (body.field "maxNumberOfGuest")
        (jsCoalesce (body.field "maxGuests") one))))
    pricePerDay := toNumber rt (jsCoalesce (body.field "pricePerDay")
      (jsCoalesce (body.field "pricePreDay") (jsCoalesce (body.field "priceDay") zero)))
    imageURL := jsOr (body.field "imageURL")
      (jsOr (body.field "imageUrl") (jsOr (body.field "image") blank))
    propertyAccountNumber := toNumber rt (jsOr (body.field "propertyAccountNumber")
      (jsOr (body.field "accountNumber") zero))
    address := jsOr (body.field "address") (.json (mkObj [
      ("buildingNo", jsOr (body.field "buildingNo") blank),
      ("street", jsOr (body.field "street") blank),
      ("city", jsOr (body.field "city") blank),
      ("state", jsOr (body.field "state") blank),
      ("country", jsOr (body.field "country") blank),
      ("postalCode", jsOr (body.field "postalCode") (jsOr (body.field "pincode")
        (jsOr (body.field "postal") (jsOr (body.field "zip") blank))))]))
    hasWifi := (jsCoalesce (body.field "hasWifi") (body.field "hasWIFI")).truthy
    hasParking := (body.field "hasParking").truthy
    hasPool := (body.field "hasPool").truthy
    hasAc := (jsCoalesce (body.field "hasAc") (body.field "hasAC")).truthy
    hasHeater := (body.field "hasHeater").truthy
    hasPetFriendly := (body.field "hasPetFriendly").truthy
    propertyStatus := jsOr (jsAnd (body.field "propertyStatus")
      (.json (.str (body.field "propertyStatus").toStr))) (.json (.str "AVAILABLE"))
    propertyRate := toNumber rt (jsCoalesce (body.field "propertyRating")
      (jsCoalesce (body.field "propertyRate") zero))
    propertyRatingCount := toNumber rt (jsCoalesce (body.field "propertyRatingCount") zero) }

/-- The test `!n || n < k` on a numeric field. -/
def numberBelow (n : Option Int) (k : Int) : Bool :=
  match n with
  | none => true
  | some m => m == 0 || decide (m < k)

/-- The test `!s || s.length < k` on a text field. -/
def textShorter (rt : JsRuntime) (s : JsVal) (k : Int) : Bool :=
  match s with
  | .json j => !j.truthy || jsLtNum rt (j.field "length") k
  | _ => true

/-- Property read `a.k` on the truthy value `a`. -/
def partOf (a : JsVal) (k : String) : JsVal :=
  match a with
  | .json j => j.field k
  | _ => .undefined

/-- The record `newProp` built by `addProperty`. -/
def newProperty (newPropId : JsVal) (n : Normalized) : Json :=
  let blank : JsVal := .json (.str "")
  mkObj [("propertyId", newPropId), ("userId", ofNumber n.userId),
    ("propertyName", n.propertyName), ("propertyDescription", n.propertyDescription),
    ("noOfRooms", ofNumber n.noOfRooms), ("noOfBathrooms", ofNumber n.noOfBathrooms),
    ("maxNoOfGuests", ofNumber n.maxNoOfGuests), ("pricePerDay", ofNumber n.pricePerDay),
    ("imageURL", n.imageURL), ("propertyAccountNumber", ofNumber n.propertyAccountNumber),
    ("address", .json (mkObj [
      ("buildingNo", jsOr (partOf n.address "buildingNo") blank),
      ("street", jsOr (partOf n.address "street") blank),
      ("city", jsOr (partOf n.address "city") blank),
      ("state", jsOr (partOf n.address "state") blank),
      ("country", jsOr (partOf n.address "country") blank),
      ("postalCode", jsOr (partOf n.address "postalCode") blank)])),
    ("hasWifi", .json (.bool n.hasWifi)), ("hasParking", .json (.bool n.hasParking)),
    ("hasPool", .json (.bool n.hasPool)), ("hasAc", .json (.bool n.hasAc)),
    ("hasHeater", .json (.bool n.hasHeater)),
    ("hasPetFriendly", .json (.bool n.hasPetFriendly)),
    ("propertyStatus", jsOr n.propertyStatus (.json (.str "AVAILABLE"))),
    ("propertyRate", .json (.num (numberOrZero n.propertyRate))),
    ("propertyRatingCount", .json (.num (numberOrZero n.propertyRatingCount)))]

/-- The expression `(properties.length ? properties.at(-1).propertyId : 0) + 1`;
`none` when the last row is `null`. -/
def nextPropertyId (rt : JsRuntime) (properties : List Json) : Option JsVal :=
  match properties.getLast? with
  | none => some (jsPlusOne rt (.json (.num 0)))
  | some last =>
    match (JsVal.json last).getProp? "propertyId" with
    | none => none
    | some id => some (jsPlusOne rt id)

/-- The handler `addProperty`: the response and the properties file afterwards;
`none` when the handler throws (nothing is written then). -/
def addProperty (rt : JsRuntime) (file : FileState) (reqBody : Json) :
    Option (Reply × FileState) :=
  match jsOr (.json reqBody) (.json (.obj [])) with
  | .json body =>
    let normalized := normalizePropertyRequest rt body
    if textShorter rt normalized.propertyName 5 then
      some (⟨200, response false "Property name must be at least 5 chars" .null⟩, file)
    else if textShorter rt normalized.propertyDescription 20 then
      some (⟨200, response false "Description must be >=20 chars" .null⟩, file)
    else if numberBelow normalized.noOfRooms 1 then
      some (⟨200, response false "Rooms must be >=1" .null⟩, file)
    else if numberBelow normalized.noOfBathrooms 1 then
      some (⟨200, response false "Bathrooms must be >=1" .null⟩, file)
    else if numberBelow normalized.maxNoOfGuests 1 then
      some (⟨200, response false "Guests must be >=1" .null⟩, file)
    else if numberBelow normalized.pricePerDay 100 then
      some (⟨200, response false "Price must be >=100" .null⟩, file)
    else
      match fileDb.readJson "properties.json" file with
      | .json propDB =>
        match (JsVal.json propDB).getProp? "properties" with
        | none => none
        | some stored =>
          let ensured : Option (Json × List Json) :=
            match stored with
            | .json (.arr rows) => some (propDB, rows)
            | _ => (propDB.assign? "properties" (.json (.arr []))).map (fun db => (db, []))
          match ensured with
          | none => none
          | some (propDB1, properties) =>
            match nextPropertyId rt properties with
            | none => none
            | some newPropId =>
              let newProp := newProperty newPropId normalized
              match propDB1.assign? "properties" (.json (.arr (properties ++ [newProp]))) with
              | none => none
              | some propDB2 =>
                some (⟨200, response true "Property Added Successfully" newProp⟩,
                  fileDb.writeJson "properties.json" propDB2 file)
      | _ => none
  | _ => none

end HostController

/-- The properties a file holds. -/
def storedProperties (file : FileState) : List Json :=
  match file with
  | .json v =>
    match v.field "properties" with
    | .json (.arr xs) => xs
    | _ => []
  | _ => []

/-- A properties row that carries only its identifier. -/
def propertyRow (id : Int) : Json := .obj [("propertyId", .num id)]

/-- A request body that `addProperty` accepts. -/
def samplePropertyBody : Json :=
  .obj [("propertyName", .str "Sea view flat"),
    ("propertyDescription", .str "Two rooms with a balcony over the bay"),
    ("pricePerDay", .num 1500), ("userId", .num 9)]

/-- A properties document whose identifiers, in stored order, are 3 and 2. -/
def unsortedProperties : Json := .obj [("properties", .arr [propertyRow 3, propertyRow 2])]

/-- A properties document whose identifiers, in stored order, are 2 and 5. -/
def sortedProperties : Json := .obj [("properties", .arr [propertyRow 2, propertyRow 5])]

/-- The record `addProperty` builds from `samplePropertyBody` under identifier 6. -/
def sampleCreated : Json :=
  HostController.newProperty (.json (.num 6))
    (HostController.normalizePropertyRequest isoRuntime samplePropertyBody)

/-! ## Locating a row -/

/-- The method `rows.findIndex(p)` (and the position of `rows.find(p)`) for a
callback that may throw: `none` when the callback throws before a match,
`some none` for the result `-1`. -/
def findIndexM (p : Json → Option Bool) : List Json → Option (Option Nat)
  | [] => some none
  | c :: rest =>
    match p c with
    | none => none
    | some true => some (some 0)
    | some false =>
      match findIndexM p rest with
      | none => none
      | some none => some none
      | some (some i) => some (some (i + 1))

/-- The callback `c => Number(c.complaintId) === id`. -/
def complaintIdIs (rt : JsRuntime) (id : Int) (c : Json) : Option Bool :=
  match (JsVal.json c).getProp? "complaintId" with
  | none => none
  | some cid => some (decide (toNumber rt cid = some id))

/-! ## `src/Services/ComplaintServices.js`: resolve and soft-delete -/

/-- The handler `router.patch('/:id/resolve')`. -/
def resolveComplaint (rt : JsRuntime) (today : String) (file : FileState)
    (req : ComplaintRequest) : Reply × FileState :=
  match requireUser rt req with
  | .error r => (r, file)
  | .ok (_, role) =>
    if role ≠ "admin" then (⟨403, errorBody "Only admin can resolve complaints"⟩, file)
    else
      match rt.stringToNumber req.idParam with
      | none => (⟨400, errorBody "Invalid complaint id"⟩, file)
      | some id =>
        match storageHandler.readStorage file with
        | none => (internalError, storageHandler.ensureStorageFile file)
        | some (storage, file1) =>
          match (jsOr (storage.field "complaints") (.json (.arr []))).asArray? with
          | none => (internalError, file1)
          | some rows =>
            match findIndexM (complaintIdIs rt id) rows with
            | none => (internalError, file1)
            | some none => (⟨404, errorBody "Complaint not found"⟩, file1)
            | some (some idx) =>
              match rows[idx]? with
              | none => (internalError, file1)
              | some row =>
                match row.assign? "complaintStatus" (.json (.str "closed")) with
                | none => (internalError, file1)
                | some row1 =>
                  match row1.assign? "resolvedOn" (.json (.str today)) with
                  | none => (internalError, file1)
                  | some row2 =>
                    match storage.assign? "complaints" (.json (.arr (rows.set idx row2))) with
                    | none => (internalError, file1)
                    | some storage1 => (⟨200, row2⟩, storageHandler.writeStorage file1 storage1)

/-- The handler `router.patch('/:id/delete')`. -/
def softDeleteComplaint (rt : JsRuntime) (file : FileState) (req : ComplaintRequest) :
    Reply × FileState :=
  match requireUser rt req with
  | .error r => (r, file)
  | .ok (headerUserId, role) =>
    if role = "admin" then (⟨403, errorBody "admin users cannot delete complaints"⟩, file)
    else
      match rt.stringToNumber req.idParam with
      | none => (⟨400, errorBody "Invalid complaint id"⟩, file)
      | some id =>
        match storageHandler.readStorage file with
        | none => (internalError, storageHandler.ensureStorageFile file)
        | some (storage, file1) =>
          match (jsOr (storage.field "complaints") (.json (.arr []))).asArray? with
          | none => (internalError, file1)
          | some rows =>
            match findIndexM (complaintIdIs rt id) rows with
            | none => (internalError, file1)
            | some none => (⟨404, errorBody "Complaint not found"⟩, file1)
            | some (some idx) =>
              match rows[idx]? with
              | none => (internalError, file1)
              | some complaint =>
                if toNumber rt (complaint.field "userId") ≠ some headerUserId then
                  (⟨403, errorBody "You can only delete your own complaints"⟩, file1)
                else
                  match complaint.assign? "complaintStatus" (.json (.str "deleted")) with
                  | none => (internalError, file1)
                  | some complaint1 =>
                    match storage.assign? "complaints"
                        (.json (.arr (rows.set idx complaint1))) with
                    | none => (internalError, file1)
                    | some storage1 =>
                      (⟨200, complaint1⟩, storageHandler.writeStorage file1 storage1)

/-- The complaints document that holds exactly the rows `rows`. -/
def complaintsDoc (rows : List Json) : Json := .obj [("complaints", .arr rows)]

/-- A complaint row with the fields the handlers read and write. -/
def mkComplaint (complaintId userId : Int) (status resolvedOn : String) : Json :=
  .obj [("complaintId", .num complaintId), ("bookingId", .num 17), ("userId", .num userId),
    ("clientOrHost", .str "client"), ("complaintDescription", .str "broken heater"),
    ("complaintStatus", .str status), ("createdOn", .str "2024-05-30"),
    ("resolvedOn", .str resolvedOn)]

/-- A request to the complaints router with the given headers and path
parameter and an empty body. -/
def mkComplaintRequest (userId role idParam : String) : ComplaintRequest :=
  ⟨some userId, some role, idParam, .obj []⟩

/-- The row stored by `PATCH /api/complaints/:id/resolve` for a complaint with
fields `fs`. -/
def resolvedRow (today : String) (fs : List (String × Json)) : Json :=
  .obj (setField "resolvedOn" (.str today) (setField "complaintStatus" (.str "closed") fs))

/-- Row `c` is a complaint record whose `complaintId` is not `id` under
`Number(c.complaintId) === id`. -/
def otherComplaint (rt : JsRuntime) (id : Int) (c : Json) : Prop :=
  c ≠ Json.null ∧ toNumber rt (c.field "complaintId") ≠ some id

/-- The row stored by `PATCH /api/complaints/:id/delete` for a complaint with
fields `fs`. -/
def deletedRow (fs : List (String × Json)) : Json :=
  .obj (setField "complaintStatus" (.str "deleted") fs)

/-- The first complaint of `rows` whose `complaintId` is `id` is the record with
fields `fs`, found after `pre` and before `post`. -/
def firstComplaint (rt : JsRuntime) (id : Int) (rows pre : List Json)
    (fs : List (String × Json)) (post : List Json) : Prop :=
  rows = pre ++ Json.obj fs :: post ∧ (∀ c ∈ pre, otherComplaint rt id c) ∧
    toNumber rt ((Json.obj fs).field "complaintId") = some id

/-- The caller `uid` owns the complaint `id`: the first stored complaint with
that `complaintId` has `userId` equal to `uid` (as numbers). -/
def ownsComplaint (rt : JsRuntime) (id uid : Int) (rows : List Json) : Prop :=
  ∃ pre fs post, firstComplaint rt id rows pre fs post ∧
    toNumber rt ((Json.obj fs).field "userId") = some uid

/-! ## `src/Services/NotificationsService.js`: delete -/

/-- The callback scan `storage.notification.filter(n => n.notificationId !== id)`
of `DELETE /api/notifications/:id`. -/
def keepOtherNotifications (id : JsVal) : List Json → Option (List Json)
  | [] => some []
  | n :: rest =>
    match (JsVal.json n).getProp? "notificationId" with
    | none => none
    | some nid =>
      match keepOtherNotifications id rest with
      | none => none
      | some kept => some (if !strictEq nid id then n :: kept else kept)

/-- The handler `router.delete("/:id")` of the notifications router. -/
def deleteNotification (rt : JsRuntime) (file : FileState) (idParam : String) :
    Reply × FileState :=
  let id := ofNumber (rt.stringToNumber idParam)
  match notificationHandler.readNotificationStorage file with
  | none =>
    (⟨500, errorBody "Failed to delete notification"⟩, notificationHandler.ensureStorageFile file)
  | some (storage, file1) =>
    match (storage.field "notification").asArray? with
    | none => (⟨500, errorBody "Failed to delete notification"⟩, file1)
    | some rows =>
      match keepOtherNotifications id rows with
      | none => (⟨500, errorBody "Failed to delete notification"⟩, file1)
      | some kept =>
        match storage.assign? "notification" (.json (.arr kept)) with
        | none => (⟨500, errorBody "Failed to delete notification"⟩, file1)
        | some storage1 =>
          (⟨200, messageBody "Notification deleted"⟩,
            notificationHandler.writeNotificationStorage file1 storage1)

/-! ## Shape of a collection file -/

/-- The document is the wrapper of a collection: an object whose property `key`
is an array. -/
def isWrapper (key : String) (v : Json) : Prop :=
  ∃ top rows, v = Json.obj top ∧ (Json.obj top).field key = .json (.arr rows)

/-! ## `src/Utility/fileDb.js`: read failures -/

/-- What `fs.readFile` yields for a collection file: the content of the file in
its current state (a missing file is the error `ENOENT`), or another I/O error
such as `EACCES` or `EIO`. -/
inductive ReadAttempt where
  | content (file : FileState)
  | ioError (code : String)

namespace fileDb

/-- The empty collection that `readJson` returns from its `catch` block. -/
def defaultFor (name : String) : JsVal :=
  if name = "properties.json" then .json (.obj [("properties", .arr [])])
  else if name = "bookings.json" then .json (.obj [("bookings", .arr [])])
  else if name = "users.json" then .json (.obj [("users", .arr [])])
  else .json (.obj [])

/-- The function `readJson(name)` as a promise: `.ok` is the value it resolves
to, `.error` the error it would reject with.  The `catch (e)` block does not
look at `e`. -/
def readJsonOutcome (name : String) (a : ReadAttempt) : Except String JsVal :=
  if name = "properties.json" ∨ name = "bookings.json" ∨ name = "users.json" then
    match a with
    | .content (.json v) => .ok (.json v)
    | .content _ => .ok (defaultFor name)
    | .ioError _ => .ok (defaultFor name)
  else .ok .undefined

end fileDb

/-! ## `src/Services/UserServices.js` -/

namespace UserServices

/-- The helper `cleanUsername(name)`.  `strip` is the engine's
`replace(/\s+/g, "")` on strings; a value that is not a string has no `replace`
method and the call throws (`none`). -/
def cleanUsername (rt : JsRuntime) (strip : String → String) (name : JsVal) : Option String :=
  match name with
  | .json (.str s) => some (rt.toLowerCase (strip s))
  | _ => none

/-- Own enumerable properties copied by the spread `{ ...v }`, numbered from
`i` for the elements of an array. -/
def indexedFrom (i : Nat) : List Json → List (String × Json)
  | [] => []
  | x :: rest => (toString i, x) :: indexedFrom (i + 1) rest

/-- The properties copied by the spread `{ ...v }`.  A string spreads into its
characters (characters outside the basic plane are kept whole here). -/
def spreadFields : Json → List (String × Json)
  | .obj fs => fs
  | .arr xs => indexedFrom 0 xs
  | .str s => indexedFrom 0 (s.data.map (fun c => Json.str (String.singleton c)))
  | _ => []

/-- The helper `normalizeIds(users)` from element `index` on: each user is copied
with `userId: user.userId || Date.now() + index`; `nowAt index` is the clock
read for that element.  `none` when a user is `null`. -/
def normalizeIdsFrom (nowAt : Nat → Int) (index : Nat) : List Json → Option (List Json)
  | [] => some []
  | user :: rest =>
    match (JsVal.json user).getProp? "userId" with
    | none => none
    | some userId =>
      match normalizeIdsFrom nowAt (index + 1) rest with
      | none => none
      | some others =>
        some (Json.obj (assignField "userId"
          (jsOr userId (.json (.num (nowAt index + index)))) (spreadFields user)) :: others)

/-- The helper `normalizeIds(users)`. -/
def normalizeIds (nowAt : Nat → Int) (users : List Json) : Option (List Json) :=
  normalizeIdsFrom nowAt 0 users

/-- The helper `writeUsers(users)`. -/
def writeUsers (users : Json) : FileState := .json users

/-- The document `{ Users: [] }` returned by the `catch` block of `readUsers`. -/
def noUsers : Json := .obj [("Users", .arr [])]

/-- The helper `readUsers()`: the document it returns and the users file
afterwards (it writes the document back when it holds `Users`). -/
def readUsers (nowAt : Nat → Int) (file : FileState) : Json × FileState :=
  match file with
  | .json parsed =>
    match (JsVal.json parsed).getProp? "Users" with
    | none => (noUsers, file)
    | some users =>
      if users.truthy then
        match users.asArray? with
        | none => (noUsers, file)
        | some rows =>
          match normalizeIds nowAt rows with
          | none => (noUsers, file)
          | some rows1 =>
            match parsed.assign? "Users" (.json (.arr rows1)) with
            | none => (noUsers, file)
            | some parsed1 => (parsed1, writeUsers parsed1)
      else (parsed, file)
  | _ => (noUsers, file)

/-- The callback `u => u.username === cleaned`. -/
def usernameIs (cleaned : String) (u : Json) : Option Bool :=
  match (JsVal.json u).getProp? "username" with
  | none => none
  | some name => some (strictEq name (.json (.str cleaned)))

/-- Replace the first binding of `k` in the properties of an in-memory object,
or append one. -/
def setProp (k : String) (v : JsVal) : List (String × JsVal) → List (String × JsVal)
  | [] => [(k, v)]
  | (k1, w) :: rest => if k1 = k then (k, v) :: rest else (k1, w) :: setProp k v rest

/-- The properties of `updated` when `PUT /update` merges it: the body without
`password`, `hashedPassword` and `securityAnswer`, with `status` set to
`updated.status || user.status`. -/
def updateProps (fs : List (String × Json)) (user : Json) : List (String × JsVal) :=
  let kept := eraseField "securityAnswer" (eraseField "hashedPassword" (eraseField "password" fs))
  setProp "status" (jsOr ((Json.obj kept).field "status") (user.field "status"))
    (kept.map (fun p => (p.1, JsVal.json p.2)))

/-- The fields of the merge `{ ...user, ...updated }` as serialised. -/
def mergeFields (user : Json) (props : List (String × JsVal)) : List (String × Json) :=
  props.foldl (fun acc kv => assignField kv.1 kv.2 acc) (spreadFields user)

/-- The response of the `catch` blocks of the users router. -/
def serverError : Reply := ⟨500, .obj [("success", .bool false), ("message", .str "Server error")]⟩

/-- The response `404 User not found`. -/
def userNotFound : Reply :=
  ⟨404, .obj [("success", .bool false), ("message", .str "User not found")]⟩

/-- The handler `router.put("/update")`: the response and the users file
afterwards. -/
def updateUser (rt : JsRuntime) (strip : String → String) (nowAt : Nat → Int)
    (file : FileState) (body : Json) : Reply × FileState :=
  if !body.truthy || !(body.field "username").truthy then
    (⟨400, .obj [("success", .bool false), ("message", .str "username required")]⟩, file)
  else
    match cleanUsername rt strip (body.field "username") with
    | none => (serverError, file)
    | some cleaned =>
      match readUsers nowAt file with
      | (users, file1) =>
        match (users.field "Users").asArray? with
        | none => (serverError, file1)
        | some usersArray =>
          match findIndexM (usernameIs cleaned) usersArray with
          | none => (serverError, file1)
          | some none => (userNotFound, file1)
          | some (some idx) =>
            match usersArray[idx]?, body with
            | some user, .obj fs =>
              let merged := mergeFields user (updateProps fs user)
              let safe := eraseField "securityAnswer" (eraseField "hashedPassword" merged)
              (⟨200, .obj [("success", .bool true), ("message", .str "Profile updated"),
                  ("user", .obj safe)]⟩,
                writeUsers (.obj [("Users", .arr (usersArray.set idx (.obj merged)))]))
            | _, _ => (serverError, file1)

/-- The handler `router.post("/delete")`: the response, `none` when the handler
throws, and the users file afterwards. -/
def softDeleteUser (rt : JsRuntime) (strip : String → String) (nowAt : Nat → Int)
    (file : FileState) (body : Json) : Option Reply × FileState :=
  match (JsVal.json body).getProp? "username" with
  | none => (none, file)
  | some username =>
    match cleanUsername rt strip (jsOr username (.json (.str ""))) with
    | none => (none, file)
    | some cleaned =>
      match readUsers nowAt file with
      | (users, file1) =>
        match (users.field "Users").asArray? with
        | none => (none, file1)
        | some usersArray =>
          match findIndexM (usernameIs cleaned) usersArray with
          | none => (none, file1)
          | some none => (some userNotFound, file1)
          | some (some idx) =>
            match usersArray[idx]? with
            | none => (none, file1)
            | some user =>
              match user.assign? "status" (.json (.str "deleted")) with
              | none => (none, file1)
              | some user1 =>
                (some ⟨200, .obj [("success", .bool true),
                    ("message", .str "Account soft deleted")]⟩,
                  writeUsers (.obj [("Users", .arr (usersArray.set idx user1))]))

end UserServices

/-- The users a file holds. -/
def storedUsers (file : FileState) : List Json :=
  match file with
  | .json v =>
    match v.field "Users" with
    | .json (.arr xs) => xs
    | _ => []
  | _ => []

/-- The users document that holds exactly the rows `rows`. -/
def usersDoc (rows : List Json) : Json := .obj [("Users", .arr rows)]

/-- A clock that always reads 1700000000000. -/
def fixedClock : Nat → Int := fun _ => 1700000000000

/-- Removal of ASCII white space, the instance of `replace(/\s+/g, "")` used in
examples. -/
def stripSpaces (s : String) : String := String.mk (s.data.filter (fun c => !isSpaceChar c))

/-- A stored user with the fields the handlers read and write. -/
def mkUser (userId : Int) (username status : String) : Json :=
  .obj [("userId", .num userId), ("username", .str username), ("email", .str "a@example.org"),
    ("hashedPassword", .str "$2b$10$hash"), ("status", .str status), ("role", .str "user"),
    ("securityAnswer", .str "$2b$10$answer")]

/-! ## `src/Services/AdminServices.js`: soft deletes -/

namespace AdminServices

/-- The helper `readJSON(filePath)`: the parsed document, or `null` when reading
or parsing fails. -/
def readJSON : FileState → Json
  | .json v => v
  | _ => .null

/-- The helper `writeJSON(filePath, data)`. -/
def writeJSON (data : Json) : FileState := .json data

/-- The response of the `catch` blocks of the admin router. -/
def serverError : Reply := ⟨500, .obj [("success", .bool false), ("message", .str "Server error")]⟩

/-- The callback `r => r[idKey] === parseInt(id)`. -/
def idIs (rt : JsRuntime) (idKey id : String) (r : Json) : Option Bool :=
  match (JsVal.json r).getProp? idKey with
  | none => none
  | some v => some (strictEq v (ofNumber (rt.parseInt id)))

/-- The common body of the two soft-delete handlers of the admin router: the
collection is `data[collection]`, the row is found by `idKey` and its
`statusKey` becomes `"DELETED"`. -/
def softDelete (rt : JsRuntime) (collection idKey statusKey failure notFound done : String)
    (file : FileState) (id : String) : Reply × FileState :=
  let data := readJSON file
  if !data.truthy || !(data.field collection).truthy then
    (⟨500, .obj [("success", .bool false), ("message", .str failure)]⟩, file)
  else
    match (data.field collection).asArray? with
    | none => (serverError, file)
    | some rows =>
      match findIndexM (idIs rt idKey id) rows with
      | none => (serverError, file)
      | some none => (⟨404, .obj [("success", .bool false), ("message", .str notFound)]⟩, file)
      | some (some idx) =>
        match rows[idx]? with
        | none => (serverError, file)
        | some row =>
          match row.assign? statusKey (.json (.str "DELETED")) with
          | none => (serverError, file)
          | some row1 =>
            match data.assign? collection (.json (.arr (rows.set idx row1))) with
            | none => (serverError, file)
            | some data1 =>
              (⟨200, .obj [("success", .bool true), ("message", .str done)]⟩, writeJSON data1)

/-- The handler `router.delete("/users/:id")`. -/
def deleteUser (rt : JsRuntime) (file : FileState) (id : String) : Reply × FileState :=
  softDelete rt "Users" "userId" "status" "Failed to read users" "User not found"
    "User deleted successfully" file id

/-- The handler `router.delete("/properties/:id")`. -/
def deleteProperty (rt : JsRuntime) (file : FileState) (id : String) : Reply × FileState :=
  softDelete rt "properties" "propertyId" "propertyStatus" "Failed to read properties"
    "Property not found" "Property deleted successfully" file id

end AdminServices

/-! ## `src/Services/Controller/HostController.js`: update and soft delete -/

namespace HostController

/-- The test of `/^\d{4}-\d{2}-\d{2}$/` on a string. -/
def matchesDatePattern (s : String) : Bool :=
  match s.data with
  | [y1, y2, y3, y4, '-', m1, m2, '-', d1, d2] =>
    [y1, y2, y3, y4, m1, m2, d1, d2].all (fun c => (digitOf c).isSome)
  | _ => false

/-- The helper `isValidISODate(s)`. -/
def isValidISODate (rt : JsRuntime) (s : JsVal) : Bool :=
  match s with
  | .json (.str t) => t != "" && (newDate rt (.json (.str t))).isSome && matchesDatePattern t
  | _ => false

/-- The comparison `a <= b` of two strings, by code units. -/
def strLe : List Char → List Char → Bool
  | [], _ => true
  | _ :: _, [] => false
  | a :: as, b :: bs => if a.toNat < b.toNat then true else if b.toNat < a.toNat then false
    else strLe as bs

/-- The helper `isDateTodayBetween(start, end)`; `today` is
`new Date().toISOString().split("T")[0]`. -/
def isDateTodayBetween (rt : JsRuntime) (today : String) (start stop : JsVal) : Bool :=
  match start, stop with
  | .json (.str ts), .json (.str te) =>
    isValidISODate rt start && isValidISODate rt stop &&
      strLe ts.data today.data && strLe today.data te.data
  | _, _ => false

/-- The callback `p => p.propertyId === id`. -/
def propertyIdIs (id : JsVal) (p : Json) : Option Bool :=
  match (JsVal.json p).getProp? "propertyId" with
  | none => none
  | some v => some (strictEq v id)

/-- The statement `if (!Array.isArray(propDB.properties)) propDB.properties = []`:
the document and its `properties` afterwards; `none` when it throws. -/
def ensureProperties (propDB : Json) : Option (Json × List Json) :=
  match (JsVal.json propDB).getProp? "properties" with
  | none => none
  | some (.json (.arr rows)) => some (propDB, rows)
  | some _ => (propDB.assign? "properties" (.json (.arr []))).map (fun db => (db, []))

/-- The scan `.some(b => ...)` of `deleteProperty` over the bookings: whether an
active booking of the property ends today or later. -/
def blockedBy (rt : JsRuntime) (today : String) (propertyId : JsVal) :
    List Json → Option Bool
  | [] => some false
  | b :: rest =>
    match (JsVal.json b).getProp? "propertyId" with
    | none => none
    | some pid =>
      if !strictEq pid propertyId then blockedBy rt today propertyId rest
      else if !isValidISODate rt (b.field "checkOutDate") then
        blockedBy rt today propertyId rest
      else if strLe today.data (b.field "checkOutDate").toStr.data
          && strictEq (b.field "bookingStatus") (.json (.bool true)) then some true
      else blockedBy rt today propertyId rest

/-- The handler `deleteProperty` (soft delete): the response and the properties
file afterwards; `none` when the handler throws.  `param` is the path parameter
`:propertyId`. -/
def deleteProperty (rt : JsRuntime) (today : String) (file bookings : FileState)
    (param : String) : Option (Reply × FileState) :=
  let propertyId := ofNumber (rt.stringToNumber param)
  match fileDb.readJson "properties.json" file, fileDb.readJson "bookings.json" bookings with
  | .json propDB0, .json bookingDB =>
    match ensureProperties propDB0 with
    | none => none
    | some (propDB, properties) =>
      match findIndexM (propertyIdIs propertyId) properties with
      | none => none
      | some none => some (⟨200, response false "Property not found" .null⟩, file)
      | some (some idx) =>
        match (JsVal.json bookingDB).getProp? "bookings" with
        | none => none
        | some stored =>
          match (jsOr stored (.json (.arr []))).asArray? with
          | none => none
          | some rows =>
            match blockedBy rt today propertyId rows with
            | none => none
            | some true =>
              some (⟨200, response false "Cannot delete: Property has active/future bookings"
                .null⟩, file)
            | some false =>
              match properties[idx]? with
              | none => none
              | some prop =>
                match prop.assign? "propertyStatus" (.json (.str "DELETED")) with
                | none => none
                | some prop1 =>
                  match propDB.assign? "properties" (.json (.arr (properties.set idx prop1))) with
                  | none => none
                  | some propDB1 =>
                    some (⟨200, response true "Property Soft Deleted" .null⟩,
                      fileDb.writeJson "properties.json" propDB1 file)
  | _, _ => none

/-- The scan `.filter(b => ...)` of `updateProperty` over the bookings: whether
some active booking of the property covers today. -/
def bookedToday (rt : JsRuntime) (today : String) (propertyId : JsVal) :
    List Json → Option Bool
  | [] => some false
  | b :: rest =>
    match (JsVal.json b).getProp? "propertyId" with
    | none => none
    | some pid =>
      match bookedToday rt today propertyId rest with
      | none => none
      | some later =>
        some ((strictEq pid propertyId
          && isDateTodayBetween rt today (b.field "checkInDate") (b.field "checkOutDate")
          && strictEq (b.field "bookingStatus") (.json (.bool true))) || later)

/-- The value `n || old` for a normalized number `n`. -/
def numberOr (n : Option Int) (old : JsVal) : JsVal :=
  match n with
  | some m => if m = 0 then old else .json (.num m)
  | none => old

/-- The six assignments `prop.address.k = normalized.address.k || prop.address.k || ""`
on the address object `addr`. -/
def updateAddress (n : Normalized) (addr : Json) : Option Json :=
  ["buildingNo", "street", "city", "state", "country", "postalCode"].foldlM
    (fun a k => a.assign? k (jsOr (partOf n.address k) (jsOr (a.field k) (.json (.str "")))))
    addr

/-- The record `prop` after the assignments of `updateProperty`. -/
def updatedProperty (n : Normalized) (prop : Json) : Option Json :=
  match jsOr (prop.field "address") (.json (.obj [])) with
  | .json addr0 =>
    match updateAddress n addr0 with
    | none => none
    | some addr =>
      [("address", JsVal.json addr),
        ("propertyName", jsOr n.propertyName (prop.field "propertyName")),
        ("propertyDescription", jsOr n.propertyDescription (prop.field "propertyDescription")),
        ("noOfRooms", numberOr n.noOfRooms (prop.field "noOfRooms")),
        ("noOfBathrooms", numberOr n.noOfBathrooms (prop.field "noOfBathrooms")),
        ("maxNoOfGuests", numberOr n.maxNoOfGuests (prop.field "maxNoOfGuests")),
        ("pricePerDay", numberOr n.pricePerDay (prop.field "pricePerDay")),
        ("imageURL", jsOr n.imageURL (prop.field "imageURL")),
        ("propertyAccountNumber",
          numberOr n.propertyAccountNumber (prop.field "propertyAccountNumber")),
        ("propertyStatus", jsOr n.propertyStatus (prop.field "propertyStatus"))].foldlM
        (fun p kv => p.assign? kv.1 kv.2) prop
  | _ => none

/-- The handler `updateProperty`: the response and the properties file
afterwards; `none` when the handler throws. -/
def updateProperty (rt : JsRuntime) (today : String) (file bookings : FileState)
    (reqBody : Json) : Option (Reply × FileState) :=
  match jsOr (.json reqBody) (.json (.obj [])) with
  | .json body =>
    let normalized := normalizePropertyRequest rt body
    match fileDb.readJson "properties.json" file, fileDb.readJson "bookings.json" bookings with
    | .json propDB0, .json bookingDB =>
      match ensureProperties propDB0 with
      | none => none
      | some (propDB, properties) =>
        let wanted := ofNumber (toNumber rt
          (jsOr (numberOr normalized.propertyId (.json (.num 0)))
            (jsOr (body.field "propertyId") (.json (.num 0)))))
        match findIndexM (propertyIdIs wanted) properties with
        | none => none
        | some none => some (⟨200, response false "Property not found" .null⟩, file)
        | some (some idx) =>
          match properties[idx]? with
          | none => none
          | some prop =>
            match (JsVal.json bookingDB).getProp? "bookings" with
            | none => none
            | some stored =>
              match (jsOr stored (.json (.arr []))).asArray? with
              | none => none
              | some rows =>
                match bookedToday rt today (prop.field "propertyId") rows with
                | none => none
                | some true =>
                  some (⟨200, response false
                    "Cannot update: Property is currently booked during this date" .null⟩, file)
                | some false =>
                  match updatedProperty normalized prop with
                  | none => none
                  | some prop1 =>
                    match propDB.assign? "properties"
                        (.json (.arr (properties.set idx prop1))) with
                    | none => none
                    | some propDB1 =>
                      some (⟨200, response true "Property Updated Successfully" prop1⟩,
                        fileDb.writeJson "properties.json" propDB1 file)
    | _, _ => none
  | _ => none

end HostController

/-- The properties document that holds exactly the rows `rows`. -/
def propertiesDoc (rows : List Json) : Json := .obj [("properties", .arr rows)]

/-- A stored property with the fields `updateProperty` reads and writes. -/
def mkProperty (propertyId rooms : Int) (name status : String) : Json :=
  .obj [("propertyId", .num propertyId), ("userId", .num 9), ("propertyName", .str name),
    ("propertyDescription", .str "Two rooms with a balcony over the bay"),
    ("noOfRooms", .num rooms), ("noOfBathrooms", .num 2), ("maxNoOfGuests", .num 4),
    ("pricePerDay", .num 1500), ("imageURL", .str "flat.png"),
    ("propertyAccountNumber", .num 5511),
    ("address", .obj [("buildingNo", .str "12"), ("street", .str "Shore Road"),
      ("city", .str "Kochi"), ("state", .str "Kerala"), ("country", .str "India"),
      ("postalCode", .str "682001")]),
    ("propertyStatus", .str status)]

/-- The request body of an update that carries only the identifier 1 and a new
name. -/
def renameRequest : Json := .obj [("propertyId", .num 1), ("propertyName", .str "Renamed flat")]

/-- The record that `updateProperty` stores for `mkProperty 1 3 "Sea view flat"
"DELETED"` under `renameRequest`. -/
def renamedProperty : Json :=
  .obj [("propertyId", .num 1), ("userId", .num 9), ("propertyName", .str "Renamed flat"),
    ("propertyDescription", .str "Two rooms with a balcony over the bay"),
    ("noOfRooms", .num 1), ("noOfBathrooms", .num 1), ("maxNoOfGuests", .num 1),
    ("pricePerDay", .num 1500), ("imageURL", .str "flat.png"),
    ("propertyAccountNumber", .num 5511),
    ("address", .obj [("buildingNo", .str "12"), ("street", .str "Shore Road"),
      ("city", .str "Kochi"), ("state", .str "Kerala"), ("country", .str "India"),
      ("postalCode", .str "682001")]),
    ("propertyStatus", .str "AVAILABLE")]

/-- Field `k` of a stored user is kept from `a` to `b`; for `k = "userId"` this
is asked only of a user whose `userId` is assigned (truthy). -/
def keepsField (k : String) (a b : Json) : Prop :=
  (k = "userId" → (a.field "userId").truthy = true) → b.field k = a.field k

/-- The rows stored under `key` in a collection file. -/
def storedAt (key : String) (file : FileState) : List Json :=
  match file with
  | .json v =>
    match v.field key with
    | .json (.arr xs) => xs
    | _ => []
  | _ => []

/-- The sequence `rows1` is `rows` itself, or `rows` with the field `key` of the
targeted record set to `v` and nothing else touched: same length, same order,
every other record and every other field of that record as before.  The
targeted record is the first one that the callback `target` accepts: it accepts
that record and rejects every record stored before it. -/
def statusOnlyChanged (target : Json → Option Bool) (key : String) (v : Json)
    (rows rows1 : List Json) : Prop :=
  rows1 = rows ∨ ∃ pre fs post, rows = pre ++ Json.obj fs :: post ∧
    (∀ c ∈ pre, target c = some false) ∧ target (.obj fs) = some true ∧
    rows1 = pre ++ Json.obj (setField key v fs) :: post

/-- The record that a request to `router.patch('/:id/delete')` names: the
callback `c => Number(c.complaintId) === id` of its `findIndex` with
`id = Number(req.params.id)`; no record when that is `NaN`. -/
def complaintTarget (rt : JsRuntime) (req : ComplaintRequest) (c : Json) : Option Bool :=
  match rt.stringToNumber req.idParam with
  | none => none
  | some id => complaintIdIs rt id c

/-- The record that a request to `router.post("/delete")` of the users router
names: the callback `u => u.username === cleaned` of its `findIndex` with
`cleaned = cleanUsername(username || "")` for the `username` of the body; no
record when reading or cleaning the name throws. -/
def deletedUserTarget (rt : JsRuntime) (strip : String → String) (body : Json) (u : Json) :
    Option Bool :=
  match (JsVal.json body).getProp? "username" with
  | none => none
  | some username =>
    match UserServices.cleanUsername rt strip (jsOr username (.json (.str ""))) with
    | none => none
    | some cleaned => UserServices.usernameIs cleaned u

/-- A users collection without identifiers: bob has no `userId`. -/
def usersWithoutId : Json :=
  usersDoc [.obj [("username", .str "bob"), ("status", .str "Active")]]

/-! ## `src/Utility/storageHandler.js`, `src/Utility/notificationHandler.js`: the queued write -/

/-- The canonical collection file and the temporary file `STORAGE_FILE + '.tmp'`
next to it. -/
structure Disk where
  canonical : FileState
  tmp : FileState

/-- The I/O failure met by one queued write: none, `fs.writeFile(tmp, ...)`
raises `err` and leaves the temporary file in state `left`, or `fs.rename`
raises `err` (the process may as well be killed at that point). -/
inductive WriteFault where
  | none
  | tempWrite (err : String) (left : FileState)
  | rename (err : String)

/-- How a promise settles: fulfilled, or rejected with an error. -/
inductive Settled where
  | fulfilled
  | rejected (err : String)

namespace storageHandler

/-- The callback that `writeStorage(data)` queues: `ensureStorageFile()`, the
write of the temporary file and the rename over the canonical file.  The result
is how the callback settles and the two files afterwards. -/
def writeSteps (fault : WriteFault) (d : Disk) (data : Json) : Settled × Disk :=
  let canonical1 := ensureStorageFile d.canonical
  match fault with
  | .tempWrite err left => (.rejected err, ⟨canonical1, left⟩)
  | .rename err => (.rejected err, ⟨canonical1, .json data⟩)
  | .none => (.fulfilled, ⟨.json data, .missing⟩)

/-- The call `writeStorage(data)`, where `queue` is how the promise `writeQueue`
settles: `writeQueue.then(callback).catch(err => { ...; throw err })` runs the
callback only when `writeQueue` is fulfilled; on a rejected `writeQueue` the
rejection passes through `then` and is thrown again by the `catch` handler.
The result is how the returned promise, the new `writeQueue`, settles and the
two files afterwards. -/
def writeStorageQueued (queue : Settled) (fault : WriteFault) (d : Disk) (data : Json) :
    Settled × Disk :=
  match queue with
  | .rejected err => (.rejected err, d)
  | .fulfilled => writeSteps fault d data

/-- A sequence of `writeStorage` calls, each with its data and the I/O failure
its callback would meet: how each returned promise settles, and the queue and
the files afterwards. -/
def writeAll : Settled → Disk → List (WriteFault × Json) → List Settled × Settled × Disk
  | queue, d, [] => ([], queue, d)
  | queue, d, (fault, data) :: rest =>
    match writeStorageQueued queue fault d data with
    | (queue1, d1) =>
      match writeAll queue1 d1 rest with
      | (results, queue2, d2) => (queue1 :: results, queue2, d2)

end storageHandler

namespace notificationHandler

/-- The callback that `writeNotificationStorage(data)` queues. -/
def writeSteps (fault : WriteFault) (d : Disk) (data : Json) : Settled × Disk :=
  let canonical1 := ensureStorageFile d.canonical
  match fault with
  | .tempWrite err left => (.rejected err, ⟨canonical1, left⟩)
  | .rename err => (.rejected err, ⟨canonical1, .json data⟩)
  | .none => (.fulfilled, ⟨.json data, .missing⟩)

/-- The call `writeNotificationStorage(data)`: `writeQueue.then(callback)` runs
the callback only when `writeQueue` is fulfilled. -/
def writeStorageQueued (queue : Settled) (fault : WriteFault) (d : Disk) (data : Json) :
    Settled × Disk :=
  match queue with
  | .rejected err => (.rejected err, d)
  | .fulfilled => writeSteps fault d data

/-- A sequence of `writeNotificationStorage` calls. -/
def writeAll : Settled → Disk → List (WriteFault × Json) → List Settled × Settled × Disk
  | queue, d, [] => ([], queue, d)
  | queue, d, (fault, data) :: rest =>
    match writeStorageQueued queue fault d data with
    | (queue1, d1) =>
      match writeAll queue1 d1 rest with
      | (results, queue2, d2) => (queue1 :: results, queue2, d2)

end notificationHandler

/-! ## `POST /api/complaints` between its `await`s -/

/-- Progress of one `POST /api/complaints` request: received; past
`await readStorage()` holding its snapshot `storage`; past
`await getNextComplaintId()` holding `newId` as well; answered. -/
inductive PostProgress where
  | received (req : ComplaintRequest)
  | read (headerUserId : Int) (role : String) (numericBookingId : Int) (description : String)
      (storage : Json)
  | numbered (headerUserId : Int) (role : String) (numericBookingId : Int)
      (description : String) (storage : Json) (newId : Int)
  | answered (reply : Reply)

/-- The handler `router.post('/')` of the complaints router run up to its next
`await`, on the complaints file as it is at that moment: the progress made and
the file afterwards.  The last step builds the record, puts it in front of the
request's own snapshot and passes the snapshot to `writeStorage`. -/
def stepPost (rt : JsRuntime) (today : String) (file : FileState) :
    PostProgress → PostProgress × FileState
  | .received req =>
    match requireUser rt req with
    | .error r => (.answered r, file)
    | .ok (headerUserId, role) =>
      if role = "admin" then
        (.answered ⟨403, errorBody "admin users cannot create complaints"⟩, file)
      else
        match jsOr (.json req.body) (.json (.obj [])) with
        | .json body =>
          let bookingId := body.field "bookingId"
          let complaintDescription := body.field "complaintDescription"
          if !bookingId.truthy then (.answered ⟨400, errorBody "bookingId is required"⟩, file)
          else if !complaintDescription.truthy || rt.trim complaintDescription.toStr = "" then
            (.answered ⟨400, errorBody "complaintDescription is required"⟩, file)
          else
            match toNumber rt bookingId with
            | none => (.answered ⟨400, errorBody "bookingId must be a number"⟩, file)
            | some numericBookingId =>
              match storageHandler.readStorage file with
              | none => (.answered internalError, storageHandler.ensureStorageFile file)
              | some (storage, file1) =>
                (.read headerUserId role numericBookingId
                  (rt.trim complaintDescription.toStr) storage, file1)
        | _ => (.answered internalError, file)
  | .read headerUserId role numericBookingId description storage =>
    match storageHandler.getNextComplaintId rt file with
    | none => (.answered internalError, storageHandler.ensureStorageFile file)
    | some (newId, file1) =>
      (.numbered headerUserId role numericBookingId description storage newId, file1)
  | .numbered headerUserId role numericBookingId description storage newId =>
    let created := newComplaint newId numericBookingId headerUserId role description today
    match (storage.field "complaints").asArray? with
    | none => (.answered internalError, file)
    | some rows =>
      match storage.assign? "complaints" (.json (.arr (created :: rows))) with
      | none => (.answered internalError, file)
      | some storage1 => (.answered ⟨201, created⟩, storageHandler.writeStorage file storage1)
  | .answered reply => (.answered reply, file)

/-- The requests in flight and the complaints file they share. -/
structure InFlight where
  file : FileState
  requests : List PostProgress

/-- Request number `i` runs up to its next `await`. -/
def stepAt (rt : JsRuntime) (today : String) (s : InFlight) (i : Nat) : InFlight :=
  match s.requests[i]? with
  | none => s
  | some p =>
    match stepPost rt today s.file p with
    | (p1, file1) => ⟨file1, s.requests.set i p1⟩

/-- An interleaving: the requests run in the order the schedule names them. -/
def runSchedule (rt : JsRuntime) (today : String) (s : InFlight) (schedule : List Nat) :
    InFlight :=
  schedule.foldl (stepAt rt today) s

/-- The response of a request, once answered. -/
def PostProgress.reply? : PostProgress → Option Reply
  | .answered r => some r
  | _ => none

/-- Requests served one after the other, each to its response before the next
is received: the responses and the file afterwards. -/
def serveInTurn (rt : JsRuntime) (today : String) :
    FileState → List ComplaintRequest → List Reply × FileState
  | file, [] => ([], file)
  | file, req :: rest =>
    match postComplaint rt today file req with
    | (r, file1) =>
      match serveInTurn rt today file1 rest with
      | (rs, file2) => (r :: rs, file2)

/-- Of two requests in flight, the one that a schedule runs last: request 0
when the schedule ends in 0, request 1 otherwise. -/
def lastServed (req1 req2 : ComplaintRequest) (schedule : List Nat) : ComplaintRequest :=
  if schedule.getLast? = some 0 then req1 else req2

/-- A second request that creates a complaint: user 43 as `host` about booking
18. -/
def secondComplaintRequest : ComplaintRequest :=
  ⟨some "43", some "host", "",
    .obj [("bookingId", .num 18), ("complaintDescription", .str "no hot water")]⟩

/-- Two requests in flight on the complaints 3, 5 and 4: user 42 about booking
17 and user 43 about booking 18. -/
def twoInFlight : InFlight :=
  ⟨.json sampleComplaints, [.received sampleComplaintRequest, .received secondComplaintRequest]⟩

/-- The record that `POST /api/complaints` builds for `sampleComplaintRequest`
under the identifier `newId` on 2024-06-01. -/
def firstCreated (newId : Int) : Json :=
  newComplaint newId 17 42 "client" "broken heater" "2024-06-01"

/-- The record that `POST /api/complaints` builds for `secondComplaintRequest`
under the identifier `newId` on 2024-06-01. -/
def secondCreated (newId : Int) : Json :=
  newComplaint newId 18 43 "host" "no hot water" "2024-06-01"

/-! ## `src/Services/UserServices.js`: bookings eligible for a complaint -/

/-- Local time as the engine keeps it: `dayOf y m d` is the local calendar day
of `new Date(y, m, d)` counted in days from 1970-01-01 (`none` for an invalid
date), and `midnight n` is the time value of the start of local day `n`. -/
structure LocalCalendar where
  dayOf : Int → Int → Int → Option Int
  midnight : Int → Int

/-- The pieces of `s.split('-')`. -/
def splitDash : List Char → List (List Char)
  | [] => [[]]
  | c :: cs =>
    match splitDash cs with
    | [] => [[]]
    | p :: ps => if c = '-' then [] :: p :: ps else (c :: p) :: ps

/-- The comparison `a < b` of two numbers: false when either is `NaN`. -/
def numLt : Option Int → Option Int → Bool
  | some a, some b => decide (a < b)
  | _, _ => false

/-- The comparison `a === b` of two numbers: false when either is `NaN`. -/
def numEq : Option Int → Option Int → Bool
  | some a, some b => decide (a = b)
  | _, _ => false

namespace UserServices

/-- The helper `parseLocalDate(dateStr)` of the eligible-bookings handler: the
local day of `new Date(y, m - 1, d)` for `[y, m, d] = dateStr.split('-').map(Number)`,
`some none` for an invalid date; `none` is the `TypeError` for a `dateStr` that
is not a string. -/
def parseLocalDate (rt : JsRuntime) (cal : LocalCalendar) (dateStr : JsVal) :
    Option (Option Int) :=
  match dateStr with
  | .json (.str s) =>
    match (splitDash s.data).map (fun p => rt.stringToNumber (String.mk p)) with
    | some y :: some m :: some d :: _ => some (cal.dayOf y (m - 1) d)
    | _ => some none
  | _ => none

/-- The date test of the filter callback: `today`, `checkIn` and `checkOut` are
local days, compared through `getTime()`; `sevenDaysAfterCheckout` is the
check-out moved by `setDate(getDate() + 7)`. -/
def isEligible (cal : LocalCalendar) (today : Int) (checkIn checkOut : Option Int) : Bool :=
  let t := some (cal.midnight today)
  let ci := checkIn.map cal.midnight
  let co := checkOut.map cal.midnight
  let seven := checkOut.map (fun d => cal.midnight (d + 7))
  let isCheckInToday := numEq ci t
  let isBetweenDates := dateLe ci t && dateLe t co
  let isWithinSevenDaysAfter := numLt co t && dateLe t seven
  isCheckInToday || isBetweenDates || isWithinSevenDaysAfter

/-- The filter callback of the eligible-bookings handler on one booking. -/
def eligibleRow (rt : JsRuntime) (cal : LocalCalendar) (today userId : Int) (userRole : String)
    (booking : Json) : Option Bool :=
  match (JsVal.json booking).getProp? (if userRole = "client" then "userId" else "hostId") with
  | none => none
  | some owner =>
    if !numEq (toNumber rt owner) (some userId) then some false
    else
      match parseLocalDate rt cal (booking.field "checkInDate") with
      | none => none
      | some checkIn =>
        match parseLocalDate rt cal (booking.field "checkOutDate") with
        | none => none
        | some checkOut => some (isEligible cal today checkIn checkOut)

/-- The scan `bookings.filter(booking => ...)`; `none` when the callback
throws. -/
def keepEligible (rt : JsRuntime) (cal : LocalCalendar) (today userId : Int)
    (userRole : String) : List Json → Option (List Json)
  | [] => some []
  | b :: rest =>
    match eligibleRow rt cal today userId userRole b with
    | none => none
    | some keep =>
      match keepEligible rt cal today userId userRole rest with
      | none => none
      | some kept => some (if keep then b :: kept else kept)

/-- An element `b.bookingId` of the array `bookingIds` as serialised: `null`
when the booking has none. -/
def bookingIdOf (b : Json) : Json :=
  match b.field "bookingId" with
  | .json j => j
  | _ => .null

/-- The handler `router.get("/eligible-bookings/:userId")`: `param` is the path
parameter, `roleHeader` the header `x-user-role` and `today` the local day of
the request. -/
def eligibleBookings (rt : JsRuntime) (cal : LocalCalendar) (today : Int)
    (bookingsFile : FileState) (param : String) (roleHeader : Option String) : Reply :=
  match rt.stringToNumber param, roleHeader.map rt.toLowerCase with
  | some userId, some userRole =>
    if userId = 0 ∨ userRole = "" then
      ⟨400, .obj [("success", .bool false), ("message", .str "Missing userId or role")]⟩
    else
      match bookingsFile with
      | .json bookingsData =>
        match (JsVal.json bookingsData).getProp? "bookings" with
        | none => serverError
        | some stored =>
          match (jsOr stored (.json (.arr []))).asArray? with
          | none => serverError
          | some bookings =>
            match keepEligible rt cal today userId userRole bookings with
            | none => serverError
            | some eligible =>
              ⟨200, .obj [("success", .bool true),
                ("bookingIds", .arr (eligible.map bookingIdOf))]⟩
      | _ => serverError
  | _, _ => ⟨400, .obj [("success", .bool false), ("message", .str "Missing userId or role")]⟩

end UserServices

/-- A calendar that agrees with the engine, in the zone UTC+05:30, on the dates
`new Date(y, m, d)` with `100 ≤ y`, a month index `0..11` and a day of that
month; other arguments are reported invalid. -/
def istCalendar : LocalCalendar where
  dayOf := fun y m d =>
    if 100 ≤ y ∧ 0 ≤ m ∧ m ≤ 11 ∧ 1 ≤ d ∧ d ≤ daysInMonth y.toNat (m.toNat + 1) then
      some (daysFromCivil y.toNat (m.toNat + 1) d.toNat)
    else none
  midnight := fun n => n * 86400000 - 19800000

/-- A booking of guest `userId` with the host `hostId`. -/
def mkStay (bookingId userId hostId : Int) (checkIn checkOut : String) : Json :=
  .obj [("bookingId", .num bookingId), ("userId", .num userId), ("hostId", .num hostId),
    ("checkInDate", .str checkIn), ("checkOutDate", .str checkOut)]

/-! ## `src/Services/Controller/HostController.js`: revenue -/

/-- The sum `a + b` of two numbers; `none` is `NaN`. -/
def numAdd : Option Int → Option Int → Option Int
  | some a, some b => some (a + b)
  | _, _ => none

/-- The product `n * v` of a number and a value. -/
def numTimes (rt : JsRuntime) (n : Int) (v : JsVal) : Option Int :=
  (toNumber rt v).map (fun x => n * x)

namespace HostController

/-- The helper `countNights(start, end)`: `Math.round` of the difference in
days, and 1 when that is not positive; 0 for an invalid date. -/
def countNights (rt : JsRuntime) (start stop : JsVal) : Int :=
  match newDate rt start, newDate rt stop with
  | some s, some e =>
    let diff := (e - s + 43200000) / 86400000
    if diff > 0 then diff else 1
  | _, _ => 0

/-- The scan `.filter(p => p.userId === userId)` over the properties; `none`
when a property is `null`. -/
def ownedBy (userId : JsVal) : List Json → Option (List Json)
  | [] => some []
  | p :: rest =>
    match (JsVal.json p).getProp? "userId" with
    | none => none
    | some owner =>
      match ownedBy userId rest with
      | none => none
      | some kept => some (if strictEq owner userId then p :: kept else kept)

/-- The value `prop.pricePerDay || prop.pricePreDay || 0` for
`prop = hostProps.find(p => p.propertyId === propertyId) || {}`. -/
def priceFor (hostProps : List Json) (propertyId : JsVal) : JsVal :=
  match hostProps.find? (fun p => strictEq (p.field "propertyId") propertyId) with
  | some prop => jsOr (prop.field "pricePerDay") (jsOr (prop.field "pricePreDay") (.json (.num 0)))
  | none => .json (.num 0)

/-- The loop `for (const b of bookings)` of `revenue` from the running `total`;
`none` when a booking is `null`. -/
def revenueLoop (rt : JsRuntime) (userId : Option Int) (hostProps : List Json) :
    Option Int → List Json → Option (Option Int)
  | total, [] => some total
  | total, b :: rest =>
    match (JsVal.json b).getProp? "hostId" with
    | none => none
    | some hostId =>
      if !numEq (toNumber rt hostId) userId
          && !(hostProps.map (fun p => p.field "propertyId")).any
            (fun pid => strictEq pid (b.field "propertyId")) then
        revenueLoop rt userId hostProps total rest
      else if !strictEq (b.field "bookingStatus") (.json (.bool true)) then
        revenueLoop rt userId hostProps total rest
      else if dateIsNaN (newDate rt (b.field "checkInDate"))
          || dateIsNaN (newDate rt (b.field "checkOutDate")) then
        revenueLoop rt userId hostProps total rest
      else
        let nights := countNights rt (b.field "checkInDate") (b.field "checkOutDate")
        let price := priceFor hostProps (b.field "propertyId")
        revenueLoop rt userId hostProps (numAdd total (numTimes rt nights price)) rest

/-- The handler `revenue`: the response, `none` when the handler throws.
`param` is the path parameter `:userId`. -/
def revenue (rt : JsRuntime) (properties bookings : FileState) (param : String) :
    Option Reply :=
  let userId := rt.stringToNumber param
  match fileDb.readJson "properties.json" properties, fileDb.readJson "bookings.json" bookings
  with
  | .json propsDB, .json bookingDB =>
    match (JsVal.json propsDB).getProp? "properties" with
    | none => none
    | some storedProps =>
      match (jsOr storedProps (.json (.arr []))).asArray? with
      | none => none
      | some props =>
        match ownedBy (ofNumber userId) props with
        | none => none
        | some hostProps =>
          match (JsVal.json bookingDB).getProp? "bookings" with
          | none => none
          | some stored =>
            match jsOr stored (.json (.arr [])) with
            | .json (.arr rows) =>
              match revenueLoop rt userId hostProps (some 0) rows with
              | none => none
              | some total =>
                some ⟨200, response true "Revenue calculated"
                  (mkObj [("totalRevenue", ofNumber total)])⟩
            | .json (.str _) =>
              some ⟨200, response true "Revenue calculated"
                (mkObj [("totalRevenue", .json (.num 0))])⟩
            | _ => none
  | _, _ => none

/-- The total revenue in the words of the specification: the sum, over the
stored bookings with `bookingStatus === true` and valid dates whose
`propertyId` is that of a property owned by `userId`, of the nights times the
price of that property. -/
def revenueBySpec (rt : JsRuntime) (userId : Option Int) (props bookings : List Json) :
    Option Int :=
  let owned := props.filter (fun p => strictEq (p.field "userId") (ofNumber userId))
  let counted := bookings.filter (fun b =>
    strictEq (b.field "bookingStatus") (.json (.bool true))
      && (newDate rt (b.field "checkInDate")).isSome
      && (newDate rt (b.field "checkOutDate")).isSome
      && owned.any (fun p => strictEq (p.field "propertyId") (b.field "propertyId")))
  counted.foldl (fun total b =>
    numAdd total (numTimes rt (countNights rt (b.field "checkInDate") (b.field "checkOutDate"))
      (priceFor owned (b.field "propertyId")))) (some 0)

end HostController

/-- A stored booking of property `propertyId` made with host `hostId`. -/
def mkHostBooking (bookingId propertyId hostId : Int) (checkIn checkOut : String)
    (status : Bool) : Json :=
  .obj [("bookingId", .num bookingId), ("propertyId", .num propertyId),
    ("hostId", .num hostId), ("checkInDate", .str checkIn), ("checkOutDate", .str checkOut),
    ("bookingStatus", .bool status)]

/-! ## `src/Services/UserServices.js`: passwords, signup and login -/

/-- Line terminators, which `.` does not match. -/
def isLineTerminator (c : Char) : Bool :=
  c.toNat = 10 || c.toNat = 13 || c.toNat = 8232 || c.toNat = 8233

/-- The class `[a-z]`. -/
def isLowerAscii (c : Char) : Bool := decide (97 ≤ c.toNat ∧ c.toNat ≤ 122)

/-- The class `[A-Z]`. -/
def isUpperAscii (c : Char) : Bool := decide (65 ≤ c.toNat ∧ c.toNat ≤ 90)

/-- The class `\d`. -/
def isDigitAscii (c : Char) : Bool := decide (48 ≤ c.toNat ∧ c.toNat ≤ 57)

/-- The class `[@$!%*?&]`. -/
def isSpecialChar (c : Char) : Bool :=
  c.toNat = 64 || c.toNat = 36 || c.toNat = 33 || c.toNat = 37 || c.toNat = 42
    || c.toNat = 63 || c.toNat = 38

/-- The class `[A-Za-z\d@$!%*?&]`. -/
def isPasswordChar (c : Char) : Bool :=
  isUpperAscii c || isLowerAscii c || isDigitAscii c || isSpecialChar c

/-- The lookahead `(?=.*C)` at the start of the input `cs`, for the class with
membership test `inClass`: some character of the class is preceded by characters
other than line terminators only. -/
def lookahead (inClass : Char → Bool) : List Char → Bool
  | [] => false
  | c :: cs => inClass c || (!isLineTerminator c && lookahead inClass cs)

/-- The oracle behind `bcrypt.hash` and `bcrypt.compare`: `hash n s` is the hash
that the `n`-th call of a request produces for `s`, `verify s h` tells whether
`s` matches the hash `h`. -/
structure Bcrypt where
  hash : Nat → String → String
  verify : String → String → Bool

namespace UserServices

/-- The helper `isStrongPassword(password)`: the test of
`/^(?=.*[a-z])(?=.*[A-Z])(?=.*\d)(?=.*[@$!%*?&])[A-Za-z\d@$!%*?&]{8,}$/` on
`String(password)`. -/
def isStrongPassword (password : JsVal) : Bool :=
  let cs := password.toStr.data
  lookahead isLowerAscii cs && lookahead isUpperAscii cs && lookahead isDigitAscii cs
    && lookahead isSpecialChar cs && (cs.all isPasswordChar && decide (8 ≤ cs.length))

/-- The helper `hashPassword(password)` for the `n`-th call of a request; `none`
is the error that `bcrypt.hash` raises for a value that is not a string. -/
def hashPassword (bc : Bcrypt) (n : Nat) (password : JsVal) : Option String :=
  match password with
  | .json (.str s) => some (bc.hash n s)
  | _ => none

/-- The helper `verifyHashPassword(plaintext, hashedPassword)`; `none` is the
error that `bcrypt.compare` raises for an argument that is not a string. -/
def verifyHashPassword (bc : Bcrypt) (plaintext hashedPassword : JsVal) : Option Bool :=
  match plaintext, hashedPassword with
  | .json (.str s), .json (.str h) => some (bc.verify s h)
  | _, _ => none

/-- The response of a handler of the users router that fails with `message`. -/
def failure (status : Nat) (message : String) : Reply :=
  ⟨status, .obj [("success", .bool false), ("message", .str message)]⟩

/-- The response of a handler of the users router that succeeds with
`message`. -/
def success (message : String) : Reply :=
  ⟨200, .obj [("success", .bool true), ("message", .str message)]⟩

/-- The response to a weak password. -/
def weakPassword : Reply :=
  failure 400 "Weak password. Must be 8 chars incl uppercase, lowercase, number & special"

/-- The object `address` of a new user. -/
def newAddress (address : Json) : Json :=
  mkObj [("building", jsOr (address.field "building")
      (jsOr (address.field "buildingNo") (.json (.str "")))),
    ("street", jsOr (address.field "street") (.json (.str ""))),
    ("city", jsOr (address.field "city") (.json (.str ""))),
    ("pincode", jsOr (address.field "pincode") (.json (.str ""))),
    ("state", jsOr (address.field "state") (.json (.str ""))),
    ("country", jsOr (address.field "country") (.json (.str "India")))]

/-- The record `newUser` of the signup handler; `now` is `Date.now()`. -/
def newUser (now : Int) (cleaned : String) (body address : Json)
    (hashedPassword hashedSecurity : String) : Json :=
  mkObj [("userId", .json (.num now)), ("username", .json (.str cleaned)),
    ("email", jsOr (body.field "email") (.json (.str ""))),
    ("phone", jsOr (body.field "phone") (.json (.str ""))),
    ("address", .json (newAddress address)),
    ("hashedPassword", .json (.str hashedPassword)), ("status", .json (.str "Active")),
    ("role", jsOr (body.field "role") (.json (.str "user"))),
    ("securityQuestion", body.field "securityQuestion"),
    ("securityAnswer", .json (.str hashedSecurity))]

/-- The destructuring default `address = {}`: the empty object when the body has
no `address`. -/
def addressOf (body : Json) : JsVal :=
  match body.field "address" with
  | .undefined => .json (.obj [])
  | v => v

/-- The handler `router.post("/signup")`: the response and the users file
afterwards. -/
def signup (rt : JsRuntime) (strip : String → String) (nowAt : Nat → Int) (now : Int)
    (bc : Bcrypt) (file : FileState) (body : Json) : Reply × FileState :=
  match (JsVal.json body).getProp? "username" with
  | none => (serverError, file)
  | some username =>
    let password := body.field "password"
    let securityAnswer := body.field "securityAnswer"
    if !username.truthy || !password.truthy then
      (failure 400 "Username & password required", file)
    else if !(body.field "securityQuestion").truthy || !securityAnswer.truthy then
      (failure 400 "Security question required", file)
    else
      match cleanUsername rt strip username with
      | none => (serverError, file)
      | some cleaned =>
        if !isStrongPassword password then (weakPassword, file)
        else
          match readUsers nowAt file with
          | (users, file1) =>
            match (users.field "Users").asArray? with
            | none => (serverError, file1)
            | some usersArray =>
              match findIndexM (usernameIs cleaned) usersArray with
              | none => (serverError, file1)
              | some (some _) => (failure 400 "User already exists", file1)
              | some none =>
                match hashPassword bc 0 password, hashPassword bc 1 securityAnswer,
                  addressOf body with
                | some hashedPassword, some hashedSecurity, .json address =>
                  match (JsVal.json address).getProp? "building" with
                  | none => (serverError, file1)
                  | some _ =>
                    let user := newUser now cleaned body address hashedPassword hashedSecurity
                    (⟨200, .obj [("success", .bool true), ("message", .str "Signup successful"),
                        ("user", mkObj [("username", .json (.str cleaned)),
                          ("role", jsOr (body.field "role") (.json (.str "user")))])]⟩,
                      writeUsers (.obj [("Users", .arr (usersArray ++ [user]))]))
                | _, _, _ => (serverError, file1)

/-- The handler `router.post("/login")`: the response and the users file
afterwards. -/
def login (rt : JsRuntime) (strip : String → String) (nowAt : Nat → Int) (bc : Bcrypt)
    (file : FileState) (body : Json) : Reply × FileState :=
  match (JsVal.json body).getProp? "username" with
  | none => (serverError, file)
  | some username =>
    let password := body.field "password"
    if !username.truthy || !password.truthy then (failure 400 "Missing fields", file)
    else
      match cleanUsername rt strip username with
      | none => (serverError, file)
      | some cleaned =>
        match readUsers nowAt file with
        | (users, file1) =>
          match (users.field "Users").asArray? with
          | none => (serverError, file1)
          | some usersArray =>
            match findIndexM (usernameIs cleaned) usersArray with
            | none => (serverError, file1)
            | some none => (failure 400 "Invalid username", file1)
            | some (some idx) =>
              match usersArray[idx]? with
              | none => (serverError, file1)
              | some user =>
                if strictEq (user.field "status") (.json (.str "deleted")) then
                  (failure 403 "Account deleted", file1)
                else if strictEq (user.field "status") (.json (.str "blocked")) then
                  (failure 403 "Account blocked", file1)
                else
                  match verifyHashPassword bc password (user.field "hashedPassword") with
                  | none => (serverError, file1)
                  | some false => (failure 400 "Incorrect password", file1)
                  | some true =>
                    (⟨200, .obj [("success", .bool true), ("message", .str "Login successful"),
                        ("user", .obj (eraseField "securityAnswer"
                          (eraseField "hashedPassword" (spreadFields user))))]⟩, file1)

/-- The common end of the two password handlers: the new password is tested,
compared with the old hash, hashed and stored for the user at `idx`. -/
def storeNewPassword (bc : Bcrypt) (done : String) (file1 : FileState)
    (usersArray : List Json) (idx : Nat) (user : Json) (newPassword : JsVal) :
    Reply × FileState :=
  if !isStrongPassword newPassword then (weakPassword, file1)
  else
    match verifyHashPassword bc newPassword (user.field "hashedPassword") with
    | none => (serverError, file1)
    | some true => (failure 400 "New password must not be same as old password", file1)
    | some false =>
      match hashPassword bc 0 newPassword with
      | none => (serverError, file1)
      | some hashed =>
        match user.assign? "hashedPassword" (.json (.str hashed)) with
        | none => (serverError, file1)
        | some user1 =>
          (success done, writeUsers (.obj [("Users", .arr (usersArray.set idx user1))]))

/-- The handler `router.post("/reset-password")`. -/
def resetPassword (rt : JsRuntime) (strip : String → String) (nowAt : Nat → Int)
    (bc : Bcrypt) (file : FileState) (body : Json) : Reply × FileState :=
  match (JsVal.json body).getProp? "username" with
  | none => (serverError, file)
  | some username =>
    match cleanUsername rt strip (jsOr username (.json (.str ""))) with
    | none => (serverError, file)
    | some cleaned =>
      match readUsers nowAt file with
      | (users, file1) =>
        match (users.field "Users").asArray? with
        | none => (serverError, file1)
        | some usersArray =>
          match findIndexM (usernameIs cleaned) usersArray with
          | none => (serverError, file1)
          | some none => (failure 400 "User not found", file1)
          | some (some idx) =>
            match usersArray[idx]?, jsOr (body.field "answer") (.json (.str "")) with
            | some user, .json (.str answer) =>
              match verifyHashPassword bc (.json (.str (rt.trim answer)))
                  (jsOr (user.field "securityAnswer") (.json (.str ""))) with
              | none => (serverError, file1)
              | some false => (failure 400 "Incorrect security answer", file1)
              | some true =>
                storeNewPassword bc "Password reset successful" file1 usersArray idx user
                  (body.field "newPassword")
            | _, _ => (serverError, file1)

/-- The handler `router.post("/change-password")`. -/
def changePassword (rt : JsRuntime) (strip : String → String) (nowAt : Nat → Int)
    (bc : Bcrypt) (file : FileState) (body : Json) : Reply × FileState :=
  match (JsVal.json body).getProp? "username" with
  | none => (serverError, file)
  | some username =>
    let oldPassword := body.field "oldPassword"
    let newPassword := body.field "newPassword"
    if !username.truthy || !oldPassword.truthy || !newPassword.truthy then
      (failure 400 "Missing fields", file)
    else
      match cleanUsername rt strip username with
      | none => (serverError, file)
      | some cleaned =>
        match readUsers nowAt file with
        | (users, file1) =>
          match (users.field "Users").asArray? with
          | none => (serverError, file1)
          | some usersArray =>
            match findIndexM (usernameIs cleaned) usersArray with
            | none => (serverError, file1)
            | some none => (userNotFound, file1)
            | some (some idx) =>
              match usersArray[idx]? with
              | none => (serverError, file1)
              | some user =>
                match verifyHashPassword bc oldPassword (user.field "hashedPassword") with
                | none => (serverError, file1)
                | some false => (failure 400 "Old password incorrect", file1)
                | some true =>
                  storeNewPassword bc "Password changed successfully" file1 usersArray idx user
                    newPassword

end UserServices

/-- An oracle for examples: the hash of `s` is `s` behind the marker `hash:`. -/
def plainBcrypt : Bcrypt where
  hash := fun _ s => "hash:" ++ s
  verify := fun s h => h == "hash:" ++ s

/-- A stored user whose password is `password` under `plainBcrypt`. -/
def mkAccount (userId : Int) (username status password : String) : Json :=
  .obj [("userId", .num userId), ("username", .str username), ("email", .str "a@example.org"),
    ("phone", .str "555-0100"), ("hashedPassword", .str ("hash:" ++ password)),
    ("status", .str status), ("role", .str "user"),
    ("securityAnswer", .str "hash:rex")]

namespace AdminServices

/-- The handler `router.put("/users/:id/block")`. -/
def blockUser (rt : JsRuntime) (file : FileState) (id : String) (body : Json) :
    Reply × FileState :=
  match (JsVal.json body).getProp? "block" with
  | none => (serverError, file)
  | some block =>
    if strictEq block .undefined then
      (⟨400, .obj [("success", .bool false), ("message", .str "Block status is required")]⟩, file)
    else
      let data := readJSON file
      if !data.truthy || !(data.field "Users").truthy then
        (⟨500, .obj [("success", .bool false), ("message", .str "Failed to read users")]⟩, file)
      else
        match (data.field "Users").asArray? with
        | none => (serverError, file)
        | some rows =>
          match findIndexM (idIs rt "userId" id) rows with
          | none => (serverError, file)
          | some none =>
            (⟨404, .obj [("success", .bool false), ("message", .str "User not found")]⟩, file)
          | some (some idx) =>
            match rows[idx]? with
            | none => (serverError, file)
            | some row =>
              match row.assign? "status"
                  (.json (.str (if block.truthy then "Blocked" else "Active"))) with
              | none => (serverError, file)
              | some updated =>
                match data.assign? "Users" (.json (.arr (rows.set idx updated))) with
                | none => (serverError, file)
                | some data1 =>
                  (⟨200, .obj [("success", .bool true),
                      ("message", .str ("User " ++
                        (if block.truthy then "blocked" else "unblocked") ++ " successfully")),
                      ("data", mkObj [("userId", updated.field "userId"),
                        ("username", updated.field "username"),
                        ("userMail", updated.field "email"),
                        ("userPhone", updated.field "phone"),
                        ("userRole", updated.field "role"),
                        ("userStatus", updated.field "status")])]⟩,
                    writeJSON data1)

end AdminServices

namespace HostController

/-- The callback `b => hostProps.some(p => p.propertyId === b.propertyId)` of
`viewBookings`; `none` when it throws (a `null` booking met with a host
property at hand). -/
def onHostProperty (hostProps : List Json) (b : Json) : Option Bool :=
  match hostProps with
  | [] => some false
  | _ :: _ =>
    match (JsVal.json b).getProp? "propertyId" with
    | none => none
    | some pid => some (hostProps.any (fun p => strictEq (p.field "propertyId") pid))

/-- The scan `.filter(b => hostProps.some(...))` over the bookings. -/
def keepHostBookings (hostProps : List Json) : List Json → Option (List Json)
  | [] => some []
  | b :: rest =>
    match onHostProperty hostProps b with
    | none => none
    | some keep =>
      match keepHostBookings hostProps rest with
      | none => none
      | some kept => some (if keep then b :: kept else kept)

/-- The scan `.find(u => u.userId === userId)` over the users: the user found,
`undefined` when there is none; `none` when a user met is `null`. -/
def findGuest (userId : JsVal) : List Json → Option JsVal
  | [] => some .undefined
  | u :: rest =>
    match (JsVal.json u).getProp? "userId" with
    | none => none
    | some v => if strictEq v userId then some (.json u) else findGuest userId rest

/-- The value `v || {}` where it is an object that is read next. -/
def orEmptyObject (v : JsVal) : Json :=
  match v with
  | .json j => if j.truthy then j else .obj []
  | _ => .obj []

/-- The value `hostProps.find(p => p.propertyId === propertyId)`. -/
def findProperty (hostProps : List Json) (propertyId : JsVal) : JsVal :=
  match hostProps.find? (fun p => strictEq (p.field "propertyId") propertyId) with
  | some p => .json p
  | none => .undefined

/-- The entry that the `.map` callback of `viewBookings` returns for the
booking `b`. -/
def bookingEntry (hostProps : List Json) (userDB : Json) (b : Json) : Option Json :=
  let prop := orEmptyObject (findProperty hostProps (b.field "propertyId"))
  let addr := orEmptyObject (prop.field "address")
  match (JsVal.json userDB).getProp? "users" with
  | none => none
  | some users =>
    match (jsOr users (.json (.arr []))).asArray? with
    | none => none
    | some userRows =>
      match findGuest (b.field "userId") userRows with
      | none => none
      | some found =>
        let guest := orEmptyObject found
        some (.obj ([("propertyName", jsOr (prop.field "propertyName") (.json (.str ""))),
          ("propertyImage", jsOr (prop.field "imageURL")
            (jsOr (prop.field "imageUrl") (.json (.str "")))),
          ("propertyDetails", .json (mkObj [
            ("description", jsOr (prop.field "propertyDescription") (.json (.str ""))),
            ("rooms", jsOr (prop.field "noOfRooms")
              (jsOr (prop.field "rooms") (.json (.num 0)))),
            ("bathrooms", jsOr (prop.field "noOfBathrooms")
              (jsOr (prop.field "noOfBathroom") (.json (.num 0)))),
            ("pricePerDay", jsOr (prop.field "pricePerDay")
              (jsOr (prop.field "pricePreDay") (.json (.num 0)))),
            ("maxGuests", jsOr (prop.field "maxNoOfGuests")
              (jsOr (prop.field "maxNumberOfGuest") (.json (.num 0)))),
            ("address", .json (mkObj [
              ("buildingNo", jsOr (addr.field "buildingNo") (.json (.str ""))),
              ("street", jsOr (addr.field "street") (.json (.str ""))),
              ("city", jsOr (addr.field "city") (.json (.str ""))),
              ("state", jsOr (addr.field "state") (.json (.str ""))),
              ("country", jsOr (addr.field "country") (.json (.str ""))),
              ("postalCode", jsOr (addr.field "postalCode")
                (jsOr (addr.field "pincode") (.json (.str ""))))]))])),
          ("guestInfo", .json (mkObj [
            ("name", jsOr (guest.field "username")
              (jsOr (guest.field "name") (.json (.str "")))),
            ("email", jsOr (guest.field "email") (.json (.str ""))),
            ("phone", jsOr (guest.field "phone") (.json (.str "")))]))].foldl
          (fun acc kv => assignField kv.1 kv.2 acc) (UserServices.spreadFields b)))

/-- The `.map` of `viewBookings` over the bookings kept. -/
def bookingEntries (hostProps : List Json) (userDB : Json) : List Json → Option (List Json)
  | [] => some []
  | b :: rest =>
    match bookingEntry hostProps userDB b with
    | none => none
    | some entry =>
      match bookingEntries hostProps userDB rest with
      | none => none
      | some entries => some (entry :: entries)

/-- The handler `viewBookings`: the response, `none` when the handler throws.
The three files are `PropertyStorage.json`, `BookingStorage.json` and
`UserStorage.json`; `param` is the path parameter `:userId`. -/
def viewBookings (rt : JsRuntime) (properties bookings users : FileState) (param : String) :
    Option Reply :=
  let userId := ofNumber (rt.stringToNumber param)
  match fileDb.readJson "properties.json" properties, fileDb.readJson "bookings.json" bookings,
    fileDb.readJson "users.json" users with
  | .json propsDB, .json bookingDB, .json userDB =>
    match (JsVal.json propsDB).getProp? "properties" with
    | none => none
    | some storedProps =>
      match (jsOr storedProps (.json (.arr []))).asArray? with
      | none => none
      | some props =>
        match ownedBy userId props with
        | none => none
        | some hostProps =>
          match (JsVal.json bookingDB).getProp? "bookings" with
          | none => none
          | some stored =>
            match (jsOr stored (.json (.arr []))).asArray? with
            | none => none
            | some rows =>
              match keepHostBookings hostProps rows with
              | none => none
              | some kept =>
                match bookingEntries hostProps userDB kept with
                | none => none
                | some result => some ⟨200, response true "Bookings loaded" (.arr result)⟩
  | _, _, _ => none

end HostController

/-- The `guestInfo` of an entry of `viewBookings` for which no guest was
found. -/
def noGuest : Json := .obj [("name", .str ""), ("email", .str ""), ("phone", .str "")]

/-- The users alice (7) and bob (8), both active, with their passwords under
`plainBcrypt`. -/
def twoAccounts : Json :=
  usersDoc [mkAccount 7 "alice" "Active" "AlicePass1!", mkAccount 8 "bob" "Active" "BobPass1!"]

/-- The users file `twoAccounts` with the status of bob replaced. -/
def bobWithStatus (status : String) : Json :=
  usersDoc [mkAccount 7 "alice" "Active" "AlicePass1!", mkAccount 8 "bob" status "BobPass1!"]

/-- The login request of bob with his password. -/
def bobLogin : Json := .obj [("username", .str "bob"), ("password", .str "BobPass1!")]

/-- The `user` object that a successful login of bob returns, with his stored
`status`. -/
def bobSafe (status : String) : Json :=
  .obj [("userId", .num 8), ("username", .str "bob"), ("email", .str "a@example.org"),
    ("phone", .str "555-0100"), ("status", .str status), ("role", .str "user")]

/-- A stored booking of property 1 made by guest 8 (bob). -/
def bobBooking : Json :=
  .obj [("bookingId", .num 11), ("propertyId", .num 1), ("userId", .num 8),
    ("checkInDate", .str "2024-06-10"), ("checkOutDate", .str "2024-06-13"),
    ("bookingStatus", .bool true)]

/-- The entry of `viewBookings` for `bobBooking` on the property
`mkProperty 1 3 "Sea view flat" "AVAILABLE"` with the guest details `guest`. -/
def bobEntry (guest : Json) : Json :=
  .obj [("bookingId", .num 11), ("propertyId", .num 1), ("userId", .num 8),
    ("checkInDate", .str "2024-06-10"), ("checkOutDate", .str "2024-06-13"),
    ("bookingStatus", .bool true), ("propertyName", .str "Sea view flat"),
    ("propertyImage", .str "flat.png"),
    ("propertyDetails", .obj [("description", .str "Two rooms with a balcony over the bay"),
      ("rooms", .num 3), ("bathrooms", .num 2), ("pricePerDay", .num 1500),
      ("maxGuests", .num 4),
      ("address", .obj [("buildingNo", .str "12"), ("street", .str "Shore Road"),
        ("city", .str "Kochi"), ("state", .str "Kerala"), ("country", .str "India"),
        ("postalCode", .str "682001")])]),
    ("guestInfo", guest)]

/-! # Properties -/

/-! ## Reading rows -/

theorem getProp_of_ne_null (b : Json) (k : String) (h : b ≠ Json.null) :
    (JsVal.json b).getProp? k = some (b.field k) := by
  cases b <;> simp [JsVal.getProp?] at h ⊢

theorem ne_null_of_truthy_field (b : Json) (k : String) (h : (b.field k).truthy = true) :
    b ≠ Json.null := by
  intro hb
  subst hb
  simp [Json.field, JsVal.truthy] at h

theorem dateLe_iff (a b : Option Int) :
    dateLe a b = true ↔ ∃ x y, a = some x ∧ b = some y ∧ x ≤ y := by
  cases a <;> cases b <;> simp [dateLe]

/-- The scan of `POST /bookings` finds a conflict exactly when some row blocks
the request, provided no row is `null`. -/
theorem hasOverlap_true_iff (rt : JsRuntime) (pid : JsVal) (ci co : Int) (rows : List Json)
    (hrows : ∀ b ∈ rows, b ≠ Json.null) :
    (hasOverlap rt pid (some ci) (some co) rows = some true ↔ ∃ b ∈ rows, blocks rt pid ci co b) ∧
    (hasOverlap rt pid (some ci) (some co) rows = some true ∨
      hasOverlap rt pid (some ci) (some co) rows = some false) := by
  induction rows with
  | nil => simp [hasOverlap]
  | cons b rest ih =>
    have hb : b ≠ Json.null := hrows b (List.mem_cons_self _ _)
    have ih1 := ih (fun x hx => hrows x (List.mem_cons_of_mem _ hx))
    rw [hasOverlap, getProp_of_ne_null b _ hb]
    by_cases hp : strictEq (b.field "propertyId") pid = true
    · by_cases hd : (dateLe (some ci) (newDate rt (b.field "checkOutDate")) &&
          dateLe (newDate rt (b.field "checkInDate")) (some co)) = true
      · simp only [hp, hd, Bool.not_true, Bool.false_eq_true, if_false, if_true]
        refine ⟨⟨fun _ => ⟨b, List.mem_cons_self _ _, hp, ?_⟩, fun _ => trivial⟩, Or.inl trivial⟩
        rw [Bool.and_eq_true, dateLe_iff, dateLe_iff] at hd
        obtain ⟨⟨x, y, hx, hy, hxy⟩, ⟨u, v, hu, hv, huv⟩⟩ := hd
        simp only [Option.some.injEq] at hx hv
        subst hx hv
        exact ⟨u, y, hu, hy, hxy, huv⟩
      · simp only [hp, hd, Bool.not_true, Bool.false_eq_true, if_false]
        refine ⟨?_, ih1.2⟩
        rw [ih1.1]
        constructor
        · rintro ⟨x, hx, hbl⟩
          exact ⟨x, List.mem_cons_of_mem _ hx, hbl⟩
        · rintro ⟨x, hx, hbl⟩
          rcases List.mem_cons.mp hx with rfl | hx
          · exfalso
            apply hd
            obtain ⟨_, bci, bco, h1, h2, h3, h4⟩ := hbl
            rw [Bool.and_eq_true, dateLe_iff, dateLe_iff]
            exact ⟨⟨ci, bco, rfl, h2, h3⟩, ⟨bci, co, h1, rfl, h4⟩⟩
          · exact ⟨x, hx, hbl⟩
    · simp only [hp, Bool.not_false, if_true]
      refine ⟨?_, ih1.2⟩
      rw [ih1.1]
      constructor
      · rintro ⟨x, hx, hbl⟩
        exact ⟨x, List.mem_cons_of_mem _ hx, hbl⟩
      · rintro ⟨x, hx, hbl⟩
        rcases List.mem_cons.mp hx with rfl | hx
        · exact absurd hbl.1 hp
        · exact ⟨x, hx, hbl⟩

theorem obj_of_truthy_field (j : Json) (k : String) (hk : k ≠ "length")
    (h : (j.field k).truthy = true) : ∃ fs, j = Json.obj fs := by
  cases j <;> simp [Json.field, JsVal.truthy, hk] at h ⊢

theorem storedBookings_of_asArray (file : FileState) (stored : JsVal) (rows : List Json)
    (h1 : (JsVal.json (readJSON file)).getProp? "bookings" = some stored)
    (h2 : (jsOr stored (.json (.arr []))).asArray? = some rows) :
    storedBookings file = rows := by
  have hne : readJSON file ≠ Json.null := by
    intro h
    rw [h] at h1
    simp [JsVal.getProp?] at h1
  rw [getProp_of_ne_null _ _ hne] at h1
  simp only [Option.some.injEq] at h1
  unfold storedBookings
  rw [h1]
  unfold jsOr at h2
  cases stored with
  | undefined => simpa [JsVal.truthy, JsVal.asArray?] using h2
  | nan => simpa [JsVal.truthy, JsVal.asArray?] using h2
  | json j =>
    cases j with
    | null => simpa [JsVal.truthy, Json.truthy, JsVal.asArray?] using h2
    | bool b =>
      cases b <;> simp [JsVal.truthy, Json.truthy, JsVal.asArray?] at h2 ⊢
      exact h2
    | num n =>
      by_cases hn : n = 0 <;> simp [JsVal.truthy, Json.truthy, JsVal.asArray?, hn] at h2 ⊢
      exact h2
    | str t =>
      by_cases ht : t = "" <;> simp [JsVal.truthy, Json.truthy, JsVal.asArray?, ht] at h2 ⊢
      exact h2
    | arr xs => simpa [JsVal.truthy, Json.truthy, JsVal.asArray?] using h2
    | obj fs => simp [JsVal.truthy, Json.truthy, JsVal.asArray?] at h2

/-- Every run of `POST /bookings` that returns either leaves the file alone or
appends one record after a scan of the stored rows that found no conflict. -/
theorem postBooking_cases (rt : JsRuntime) (now : Int) (file : FileState) (body : Json)
    (r : Reply) (f : FileState) (h : postBooking rt now file body = some (r, f)) :
    (f = file ∧ r.status = 400) ∨
    ∃ ci co nb, newDate rt (body.field "checkInDate") = some ci ∧
      newDate rt (body.field "checkOutDate") = some co ∧
      (body.field "propertyId").truthy = true ∧
      hasOverlap rt (body.field "propertyId") (some ci) (some co) (storedBookings file)
        = some false ∧
      body.assign? "bookingId" (jsOr (body.field "bookingId") (.json (.num now))) = some nb ∧
      f = bookingFile (storedBookings file ++ [nb]) ∧
      r = ⟨200, .obj [("message", .str "Booking saved"), ("booking", nb)]⟩ := by
  unfold postBooking at h
  cases hstored : (JsVal.json (readJSON file)).getProp? "bookings" with
  | none => simp [hstored] at h
  | some stored =>
    cases hpid : (JsVal.json body).getProp? "propertyId" with
    | none => simp [hstored, hpid] at h
    | some pid =>
      have hbody : body ≠ Json.null := by
        intro hb
        rw [hb] at hpid
        simp [JsVal.getProp?] at hpid
      have hpid2 := hpid
      rw [getProp_of_ne_null _ _ hbody] at hpid2
      simp only [Option.some.injEq] at hpid2
      subst hpid2
      simp only [hstored, hpid] at h
      by_cases hpresent : (!(body.field "propertyId").truthy || !(body.field "checkInDate").truthy ||
            !(body.field "checkOutDate").truthy) = true
      · rw [if_pos hpresent] at h
        simp only [Option.some.injEq, Prod.mk.injEq] at h
        exact Or.inl ⟨h.2.symm, by rw [← h.1]⟩
      · rw [if_neg hpresent] at h
        by_cases hdates : (dateIsNaN (newDate rt (body.field "checkInDate")) ||
            dateIsNaN (newDate rt (body.field "checkOutDate"))) = true
        · rw [if_pos hdates] at h
          simp only [Option.some.injEq, Prod.mk.injEq] at h
          exact Or.inl ⟨h.2.symm, by rw [← h.1]⟩
        · rw [if_neg hdates] at h
          cases hrows : (jsOr stored (.json (.arr []))).asArray? with
          | none => simp [hrows] at h
          | some rows =>
            have hst := storedBookings_of_asArray file stored rows hstored hrows
            simp only [hrows] at h
            cases hscan : hasOverlap rt (body.field "propertyId")
                (newDate rt (body.field "checkInDate"))
                (newDate rt (body.field "checkOutDate")) rows with
            | none => simp [hscan] at h
            | some found =>
              cases found with
              | true =>
                simp only [hscan, Option.some.injEq, Prod.mk.injEq] at h
                exact Or.inl ⟨h.2.symm, by rw [← h.1]⟩
              | false =>
                simp only [hscan] at h
                cases hnb : body.assign? "bookingId"
                    (jsOr (body.field "bookingId") (.json (.num now))) with
                | none => simp [hnb] at h
                | some nb =>
                  simp only [hnb, Option.some.injEq, Prod.mk.injEq] at h
                  right
                  simp only [Bool.or_eq_true, Bool.not_eq_true', not_or, Bool.not_eq_false,
                    dateIsNaN, Option.isNone_iff_eq_none] at hpresent hdates
                  obtain ⟨ci, hci⟩ := Option.ne_none_iff_exists'.mp hdates.1
                  obtain ⟨co, hco⟩ := Option.ne_none_iff_exists'.mp hdates.2
                  refine ⟨ci, co, nb, hci, hco, hpresent.1.1, ?_, rfl, ?_, h.1.symm⟩
                  · rw [hst, ← hci, ← hco]
                    exact hscan
                  · rw [hst, ← h.2]
                    rfl

theorem savedReply_ne_conflictReply (j : Json) : savedReply j ≠ conflictReply := by
  intro h
  have := congrArg Reply.status h
  simp [savedReply, conflictReply] at this

/-- On a file of non-null rows and a body that passes validation the handler
returns: a conflict when the scan finds one, the saved record otherwise. -/
theorem postBooking_eval (rt : JsRuntime) (now : Int) (rows : List Json)
    (fs : List (String × Json)) (ci co : Int)
    (hrows : ∀ b ∈ rows, b ≠ Json.null)
    (hpid : ((Json.obj fs).field "propertyId").truthy = true)
    (hcin : ((Json.obj fs).field "checkInDate").truthy = true)
    (hcout : ((Json.obj fs).field "checkOutDate").truthy = true)
    (hci : newDate rt ((Json.obj fs).field "checkInDate") = some ci)
    (hco : newDate rt ((Json.obj fs).field "checkOutDate") = some co) :
    postBooking rt now (bookingFile rows) (.obj fs) =
      if hasOverlap rt ((Json.obj fs).field "propertyId") (some ci) (some co) rows = some true
      then some (conflictReply, bookingFile rows)
      else some (savedReply (storedBooking now fs), bookingFile (rows ++ [storedBooking now fs])) := by
  have hscan := (hasOverlap_true_iff rt ((Json.obj fs).field "propertyId") ci co rows hrows).2
  have h1 : (JsVal.json (readJSON (bookingFile rows))).getProp? "bookings"
      = some (.json (.arr rows)) := by
    simp [bookingFile, readJSON, JsVal.getProp?, Json.field, lookupField]
  have h2 : (JsVal.json (Json.obj fs)).getProp? "propertyId"
      = some ((Json.obj fs).field "propertyId") := by
    simp [JsVal.getProp?]
  have h3 : (jsOr (.json (.arr rows)) (.json (.arr []))).asArray? = some rows := by
    simp [jsOr, JsVal.truthy, Json.truthy, JsVal.asArray?]
  unfold postBooking
  simp only [h1, h2, h3, hpid, hcin, hcout, hci, hco, dateIsNaN, Option.isNone_some,
    Bool.not_true, Bool.or_self, Bool.false_eq_true, if_false]
  rcases hscan with ht | hf
  · simp only [ht, if_true]
    rfl
  · simp only [hf, Json.assign?]
    simp [storedBooking, savedReply, writeJSON, bookingFile]

/-- C1. `POST /bookings` on a store of confirmed bookings with valid dates and
a request with a non-empty `propertyId` and valid dates: the response is the
conflict `400 Property already booked for selected dates` exactly when some
stored booking has the requested `propertyId` (under `===`) and its closed
interval overlaps the requested one, `checkIn <= b.checkOut` and
`b.checkIn <= checkOut`. -/
theorem postBooking_conflict_iff (rt : JsRuntime) (now : Int) (rows : List Json) (body : Json)
    (ci co : Int)
    (_hconfirmed : ∀ b ∈ rows, strictEq (b.field "bookingStatus") (.json (.bool true)) = true)
    (hstored : ∀ b ∈ rows, validDate rt (b.field "checkInDate") ∧
      validDate rt (b.field "checkOutDate"))
    (hpid : (body.field "propertyId").truthy = true)
    (hcin : validDate rt (body.field "checkInDate"))
    (hcout : validDate rt (body.field "checkOutDate"))
    (hci : newDate rt (body.field "checkInDate") = some ci)
    (hco : newDate rt (body.field "checkOutDate") = some co) :
    replyOf (postBooking rt now (bookingFile rows) body) = some conflictReply ↔
      ∃ b ∈ rows, strictEq (b.field "propertyId") (body.field "propertyId") = true ∧
        ∃ bci bco, newDate rt (b.field "checkInDate") = some bci ∧
          newDate rt (b.field "checkOutDate") = some bco ∧ ci ≤ bco ∧ bci ≤ co := by
  obtain ⟨fs, rfl⟩ := obj_of_truthy_field body "propertyId" (by decide) hpid
  have hrows : ∀ b ∈ rows, b ≠ Json.null :=
    fun b hb => ne_null_of_truthy_field b "checkInDate" (hstored b hb).1.1
  have hiff := (hasOverlap_true_iff rt ((Json.obj fs).field "propertyId") ci co rows hrows).1
  rw [postBooking_eval rt now rows fs ci co hrows hpid hcin.1 hcout.1 hci hco]
  unfold blocks intervalsOverlap at hiff
  rw [← hiff]
  by_cases hs : hasOverlap rt ((Json.obj fs).field "propertyId") (some ci) (some co) rows
      = some true
  · simp [hs, replyOf]
  · simp only [hs, if_false, replyOf, Option.map_some', Option.some.injEq, iff_false]
    exact savedReply_ne_conflictReply _

/-- C1, the overlap cases of the specification: against the stored booking
2024-06-10 to 2024-06-15 the requests 06-15 to 06-20 and 06-01 to 06-10 are
rejected as conflicts, the requests 06-16 to 06-20 and 06-01 to 06-09 are not
and are saved. -/
theorem postBooking_conflict_iff_witness :
    replyOf (postBooking isoRuntime 0 (bookingFile [juneBooking])
        (mkRequest 7 "2024-06-15" "2024-06-20")) = some conflictReply ∧
    replyOf (postBooking isoRuntime 0 (bookingFile [juneBooking])
        (mkRequest 7 "2024-06-01" "2024-06-10")) = some conflictReply ∧
    replyOf (postBooking isoRuntime 0 (bookingFile [juneBooking])
        (mkRequest 7 "2024-06-16" "2024-06-20")) ≠ some conflictReply ∧
    replyOf (postBooking isoRuntime 0 (bookingFile [juneBooking])
        (mkRequest 7 "2024-06-01" "2024-06-09")) ≠ some conflictReply ∧
    (replyOf (postBooking isoRuntime 0 (bookingFile [juneBooking])
        (mkRequest 7 "2024-06-16" "2024-06-20"))).map Reply.status = some 200 ∧
    (replyOf (postBooking isoRuntime 0 (bookingFile [juneBooking])
        (mkRequest 7 "2024-06-01" "2024-06-09"))).map Reply.status = some 200 := by
  have hconf : ∀ b ∈ [juneBooking],
      strictEq (b.field "bookingStatus") (.json (.bool true)) = true := by decide
  have hval : ∀ b ∈ [juneBooking], validDate isoRuntime (b.field "checkInDate") ∧
      validDate isoRuntime (b.field "checkOutDate") := by decide
  have hin : newDate isoRuntime (juneBooking.field "checkInDate") = some 1717977600000 := by
    decide
  have hout : newDate isoRuntime (juneBooking.field "checkOutDate") = some 1718409600000 := by
    decide
  refine ⟨?_, ?_, ?_, ?_, by decide, by decide⟩
  · exact (postBooking_conflict_iff isoRuntime 0 [juneBooking]
      (mkRequest 7 "2024-06-15" "2024-06-20") 1718409600000 1718841600000 hconf hval
      (by decide) (by decide) (by decide) (by decide) (by decide)).mpr
      ⟨juneBooking, List.mem_cons_self _ _, by decide, 1717977600000, 1718409600000,
        hin, hout, by decide, by decide⟩
  · exact (postBooking_conflict_iff isoRuntime 0 [juneBooking]
      (mkRequest 7 "2024-06-01" "2024-06-10") 1717200000000 1717977600000 hconf hval
      (by decide) (by decide) (by decide) (by decide) (by decide)).mpr
      ⟨juneBooking, List.mem_cons_self _ _, by decide, 1717977600000, 1718409600000,
        hin, hout, by decide, by decide⟩
  · refine (postBooking_conflict_iff isoRuntime 0 [juneBooking]
      (mkRequest 7 "2024-06-16" "2024-06-20") 1718496000000 1718841600000 hconf hval
      (by decide) (by decide) (by decide) (by decide) (by decide)).not.mpr ?_
    rintro ⟨b, hb, -, bci, bco, h1, h2, h3, h4⟩
    rw [List.mem_singleton] at hb
    subst hb
    rw [hout] at h2
    simp only [Option.some.injEq] at h2
    omega
  · refine (postBooking_conflict_iff isoRuntime 0 [juneBooking]
      (mkRequest 7 "2024-06-01" "2024-06-09") 1717200000000 1717891200000 hconf hval
      (by decide) (by decide) (by decide) (by decide) (by decide)).not.mpr ?_
    rintro ⟨b, hb, -, bci, bco, h1, h2, h3, h4⟩
    rw [List.mem_singleton] at hb
    subst hb
    rw [hin] at h1
    simp only [Option.some.injEq] at h1
    omega

/-- C2, evaluation at the failing input: a stored booking of property 7 with
`bookingStatus` false for 2024-06-10 to 2024-06-15 makes `POST /bookings`
reject the request 2024-06-12 to 2024-06-13 as a conflict and store nothing. -/
theorem postBooking_cancelled_blocks :
    strictEq ((mkBooking 1 7 "2024-06-10" "2024-06-15" false).field "bookingStatus")
      (.json (.bool false)) = true ∧
    postBooking isoRuntime 0 (bookingFile [mkBooking 1 7 "2024-06-10" "2024-06-15" false])
      (mkRequest 7 "2024-06-12" "2024-06-13")
      = some (conflictReply, bookingFile [mkBooking 1 7 "2024-06-10" "2024-06-15" false]) :=
  ⟨by decide, rfl⟩

/-! ## Field updates -/

theorem lookupField_setField_ne (k k' : String) (v : Json) (fs : List (String × Json))
    (h : k ≠ k') : lookupField k (setField k' v fs) = lookupField k fs := by
  induction fs with
  | nil => simp [setField, lookupField, Ne.symm h]
  | cons p rest ih =>
    obtain ⟨a, w⟩ := p
    by_cases ha : a = k'
    · subst ha
      simp [setField, lookupField, Ne.symm h]
    · by_cases hk : a = k
      · subst hk
        simp [setField, lookupField, h]
      · simp [setField, lookupField, ha, hk, ih]

theorem lookupField_eraseField_ne (k k' : String) (fs : List (String × Json))
    (h : k ≠ k') : lookupField k (eraseField k' fs) = lookupField k fs := by
  induction fs with
  | nil => simp [eraseField, lookupField]
  | cons p rest ih =>
    obtain ⟨a, w⟩ := p
    unfold eraseField at ih ⊢
    by_cases ha : a = k'
    · subst ha
      simp [lookupField, Ne.symm h, ih]
    · by_cases hk : a = k
      · subst hk
        simp [lookupField, h]
      · simp [lookupField, ha, hk, ih]

theorem lookupField_assignField_ne (k k' : String) (v : JsVal) (fs : List (String × Json))
    (h : k ≠ k') : lookupField k (assignField k' v fs) = lookupField k fs := by
  cases v with
  | undefined => exact lookupField_eraseField_ne k k' fs h
  | nan => exact lookupField_setField_ne k k' _ fs h
  | json j => exact lookupField_setField_ne k k' _ fs h

/-- The stored record of `POST /bookings` agrees with the request body on every
field other than `bookingId`. -/
theorem storedBooking_field (now : Int) (fs : List (String × Json)) (k : String)
    (h : k ≠ "bookingId") : (storedBooking now fs).field k = (Json.obj fs).field k := by
  simp only [storedBooking, Json.field]
  rw [lookupField_assignField_ne k "bookingId" _ fs h]

theorem lookupField_setField_self (k : String) (v : Json) (fs : List (String × Json)) :
    lookupField k (setField k v fs) = some v := by
  induction fs with
  | nil => simp [setField, lookupField]
  | cons p rest ih =>
    obtain ⟨a, w⟩ := p
    by_cases ha : a = k
    · simp [setField, lookupField, ha]
    · simp [setField, lookupField, ha, ih]

/-! ## The scan of `POST /bookings` -/

theorem hasOverlap_false_imp (rt : JsRuntime) (pid : JsVal) (ci co : Int) (rows : List Json)
    (h : hasOverlap rt pid (some ci) (some co) rows = some false) :
    (∀ b ∈ rows, b ≠ Json.null) ∧ ∀ b ∈ rows, ¬ blocks rt pid ci co b := by
  have hnn : ∀ b ∈ rows, b ≠ Json.null := by
    induction rows with
    | nil => simp
    | cons b rest ih =>
      unfold hasOverlap at h
      have hb : b ≠ Json.null := by
        intro hb
        subst hb
        simp [JsVal.getProp?] at h
      rw [getProp_of_ne_null b _ hb] at h
      simp only at h
      intro x hx
      rcases List.mem_cons.mp hx with rfl | hx
      · exact hb
      · apply ih _ x hx
        split at h
        · exact h
        · split at h
          · simp at h
          · exact h
  refine ⟨hnn, ?_⟩
  have hiff := (hasOverlap_true_iff rt pid ci co rows hnn).1
  intro b hb hbl
  have : hasOverlap rt pid (some ci) (some co) rows = some true := hiff.mpr ⟨b, hb, hbl⟩
  rw [h] at this
  simp at this

theorem storedBookings_bookingFile (rows : List Json) :
    storedBookings (bookingFile rows) = rows := by
  simp [storedBookings, bookingFile, readJSON, Json.field, lookupField]

theorem keepOtherBookings_sublist (id : JsVal) (rows kept : List Json)
    (h : keepOtherBookings id rows = some kept) : kept.Sublist rows := by
  induction rows generalizing kept with
  | nil =>
    simp only [keepOtherBookings, Option.some.injEq] at h
    subst h
    exact List.Sublist.refl _
  | cons b rest ih =>
    unfold keepOtherBookings at h
    cases hb : (JsVal.json b).getProp? "bookingId" with
    | none => simp [hb] at h
    | some bid =>
      cases hk : keepOtherBookings id rest with
      | none => simp [hb, hk] at h
      | some tail =>
        simp only [hb, hk, Option.some.injEq] at h
        subst h
        by_cases hne : (!strictEq bid id) = true
        · simp only [hne, if_true]
          exact (ih tail hk).cons₂ b
        · simp only [hne, if_false]
          exact (ih tail hk).cons b

/-- Every run of `DELETE /bookings/:id` that returns writes the rows kept by the
filter. -/
theorem deleteBooking_cases (rt : JsRuntime) (file : FileState) (idParam : String)
    (r : Reply) (f : FileState) (h : deleteBooking rt file idParam = some (r, f)) :
    ∃ kept, keepOtherBookings (ofNumber (rt.parseInt idParam)) (storedBookings file) = some kept ∧
      f = bookingFile kept ∧ r = ⟨200, messageBody "Booking deleted"⟩ := by
  unfold deleteBooking at h
  cases hstored : (JsVal.json (readJSON file)).getProp? "bookings" with
  | none => simp [hstored] at h
  | some stored =>
    cases hrows : (jsOr stored (.json (.arr []))).asArray? with
    | none => simp [hstored, hrows] at h
    | some rows =>
      have hst := storedBookings_of_asArray file stored rows hstored hrows
      cases hk : keepOtherBookings (ofNumber (rt.parseInt idParam)) rows with
      | none => simp [hstored, hrows, hk] at h
      | some kept =>
        simp only [hstored, hrows, hk, Option.some.injEq, Prod.mk.injEq] at h
        refine ⟨kept, by rw [hst, hk], ?_, h.1.symm⟩
        rw [← h.2]
        rfl

theorem assign_obj (fs : List (String × Json)) (k : String) (v : JsVal) :
    (Json.obj fs).assign? k v = some (.obj (assignField k v fs)) := rfl

/-- C3. The booking invariant (stored bookings that are both active and of the
same `propertyId` have pairwise non-overlapping closed intervals) is preserved
by every booking mutation of ClientServices: `POST /bookings` with any body at
any time, and `DELETE /bookings/:id` with any id, from every file content that
satisfies it. -/
theorem bookingMutations_preserve_noDoubleBooking (rt : JsRuntime) (file : FileState)
    (h : NoDoubleBooking rt (storedBookings file)) :
    (∀ now body,
      NoDoubleBooking rt (storedBookings (fileAfter file (postBooking rt now file body)))) ∧
    (∀ idParam,
      NoDoubleBooking rt (storedBookings (fileAfter file (deleteBooking rt file idParam)))) := by
  constructor
  · intro now body
    cases hr : postBooking rt now file body with
    | none => exact h
    | some p =>
      obtain ⟨r, f⟩ := p
      rcases postBooking_cases rt now file body r f hr with ⟨hf, -⟩ |
        ⟨ci, co, nb, hci, hco, hpid, hscan, hnb, hf, -⟩
      · simp only [fileAfter, hf]
        exact h
      · obtain ⟨fs, rfl⟩ := obj_of_truthy_field body "propertyId" (by decide) hpid
        rw [assign_obj] at hnb
        simp only [Option.some.injEq] at hnb
        have hnb2 : nb = storedBooking now fs := hnb.symm
        subst hnb2
        simp only [fileAfter, hf, storedBookings_bookingFile]
        unfold NoDoubleBooking
        rw [List.pairwise_append]
        refine ⟨h, List.pairwise_singleton _ _, ?_⟩
        intro a ha b hb _ _ hsame hov
        rw [List.mem_singleton] at hb
        subst hb
        rw [storedBooking_field now fs "propertyId" (by decide)] at hsame
        obtain ⟨ci1, co1, ci2, co2, h1, h2, h3, h4, h5, h6⟩ := hov
        rw [storedBooking_field now fs "checkInDate" (by decide), hci] at h3
        rw [storedBooking_field now fs "checkOutDate" (by decide), hco] at h4
        simp only [Option.some.injEq] at h3 h4
        subst h3 h4
        exact (hasOverlap_false_imp rt _ ci co _ hscan).2 a ha
          ⟨hsame, ci1, co1, h1, h2, h6, h5⟩
  · intro idParam
    cases hr : deleteBooking rt file idParam with
    | none => exact h
    | some p =>
      obtain ⟨r, f⟩ := p
      obtain ⟨kept, hk, hf, -⟩ := deleteBooking_cases rt file idParam r f hr
      simp only [fileAfter, hf, storedBookings_bookingFile]
      exact List.Pairwise.sublist (keepOtherBookings_sublist _ _ _ hk) h

/-- C3 at a concrete store: the file holding the bookings 2024-06-10 to
2024-06-15 and 2024-06-16 to 2024-06-20 of property 7 satisfies the invariant,
and so does the file after a `POST /bookings` for 2024-06-21 to 2024-06-25 and
after `DELETE /bookings/1`. -/
theorem bookingMutations_preserve_noDoubleBooking_witness :
    NoDoubleBooking isoRuntime (storedBookings (bookingFile [juneBooking, laterBooking])) ∧
    NoDoubleBooking isoRuntime (storedBookings
      (fileAfter (bookingFile [juneBooking, laterBooking])
        (postBooking isoRuntime 3 (bookingFile [juneBooking, laterBooking])
          (mkRequest 7 "2024-06-21" "2024-06-25")))) ∧
    NoDoubleBooking isoRuntime (storedBookings
      (fileAfter (bookingFile [juneBooking, laterBooking])
        (deleteBooking isoRuntime (bookingFile [juneBooking, laterBooking]) "1"))) :=
  have h0 : NoDoubleBooking isoRuntime
      (storedBookings (bookingFile [juneBooking, laterBooking])) := by
    rw [storedBookings_bookingFile]
    unfold NoDoubleBooking
    refine List.pairwise_pair.mpr ?_
    rintro - - - ⟨ci1, co1, ci2, co2, h1, h2, h3, h4, h5, h6⟩
    have e2 : newDate isoRuntime (juneBooking.field "checkOutDate") = some 1718409600000 := by
      decide
    have e3 : newDate isoRuntime (laterBooking.field "checkInDate") = some 1718496000000 := by
      decide
    rw [e2] at h2
    rw [e3] at h3
    simp only [Option.some.injEq] at h2 h3
    omega
  ⟨h0,
    (bookingMutations_preserve_noDoubleBooking isoRuntime
      (bookingFile [juneBooking, laterBooking]) h0).1 3 (mkRequest 7 "2024-06-21" "2024-06-25"),
    (bookingMutations_preserve_noDoubleBooking isoRuntime
      (bookingFile [juneBooking, laterBooking]) h0).2 "1"⟩

/-- C4, counterexample: on the empty store the request for property 7 with
`checkInDate` 2024-06-20 and `checkOutDate` 2024-06-10 (check-in later than
check-out) is answered `200 Booking saved` and the record is stored. -/
theorem postBooking_accepts_inverted_dates :
    newDate isoRuntime ((mkRequest 7 "2024-06-20" "2024-06-10").field "checkInDate")
      = some 1718841600000 ∧
    newDate isoRuntime ((mkRequest 7 "2024-06-20" "2024-06-10").field "checkOutDate")
      = some 1717977600000 ∧
    (1717977600000 : Int) < 1718841600000 ∧
    postBooking isoRuntime 5 (bookingFile []) (mkRequest 7 "2024-06-20" "2024-06-10")
      = some (savedReply (storedBooking 5 (requestFields 7 "2024-06-20" "2024-06-10")),
          bookingFile [storedBooking 5 (requestFields 7 "2024-06-20" "2024-06-10")]) ∧
    (savedReply (storedBooking 5 (requestFields 7 "2024-06-20" "2024-06-10"))).status = 200 :=
  ⟨by decide, by decide, by decide, rfl, rfl⟩

/-- C4 as amended. `POST /bookings` does not compare the two dates: a request
with a non-empty `propertyId` and present, valid dates whose check-in is later
than its check-out is rejected only as a conflict, with the store unchanged,
when a stored booking of that property has `checkIn <= b.checkOut` and
`b.checkIn <= checkOut`; otherwise it is accepted and its record is appended to
the stored sequence. -/
theorem postBooking_inverted_dates (rt : JsRuntime) (now : Int) (rows : List Json)
    (fs : List (String × Json)) (ci co : Int)
    (hrows : ∀ b ∈ rows, b ≠ Json.null)
    (hpid : ((Json.obj fs).field "propertyId").truthy = true)
    (hcin : validDate rt ((Json.obj fs).field "checkInDate"))
    (hcout : validDate rt ((Json.obj fs).field "checkOutDate"))
    (hci : newDate rt ((Json.obj fs).field "checkInDate") = some ci)
    (hco : newDate rt ((Json.obj fs).field "checkOutDate") = some co)
    (_hlt : co < ci) :
    ((∃ b ∈ rows, blocks rt ((Json.obj fs).field "propertyId") ci co b) ∧
      postBooking rt now (bookingFile rows) (.obj fs) = some (conflictReply, bookingFile rows)) ∨
    ((¬ ∃ b ∈ rows, blocks rt ((Json.obj fs).field "propertyId") ci co b) ∧
      postBooking rt now (bookingFile rows) (.obj fs)
        = some (savedReply (storedBooking now fs),
            bookingFile (rows ++ [storedBooking now fs]))) := by
  have hiff := (hasOverlap_true_iff rt ((Json.obj fs).field "propertyId") ci co rows hrows).1
  rw [postBooking_eval rt now rows fs ci co hrows hpid hcin.1 hcout.1 hci hco]
  by_cases hs : hasOverlap rt ((Json.obj fs).field "propertyId") (some ci) (some co) rows
      = some true
  · left
    exact ⟨hiff.mp hs, by rw [if_pos hs]⟩
  · right
    exact ⟨fun hex => hs (hiff.mpr hex), by rw [if_neg hs]⟩

/-- C4 as amended, at the store holding 2024-06-10 to 2024-06-15 and the request
2024-06-20 to 2024-06-01 for property 7. -/
theorem postBooking_inverted_dates_witness :
    (1717200000000 : Int) < 1718841600000 ∧
    (((∃ b ∈ [juneBooking], blocks isoRuntime
        ((Json.obj (requestFields 7 "2024-06-20" "2024-06-01")).field "propertyId")
        1718841600000 1717200000000 b) ∧
      postBooking isoRuntime 5 (bookingFile [juneBooking])
        (.obj (requestFields 7 "2024-06-20" "2024-06-01"))
        = some (conflictReply, bookingFile [juneBooking])) ∨
    ((¬ ∃ b ∈ [juneBooking], blocks isoRuntime
        ((Json.obj (requestFields 7 "2024-06-20" "2024-06-01")).field "propertyId")
        1718841600000 1717200000000 b) ∧
      postBooking isoRuntime 5 (bookingFile [juneBooking])
        (.obj (requestFields 7 "2024-06-20" "2024-06-01"))
        = some (savedReply (storedBooking 5 (requestFields 7 "2024-06-20" "2024-06-01")),
            bookingFile ([juneBooking] ++
              [storedBooking 5 (requestFields 7 "2024-06-20" "2024-06-01")])))) :=
  ⟨by decide,
    postBooking_inverted_dates isoRuntime 5 [juneBooking]
      (requestFields 7 "2024-06-20" "2024-06-01") 1718841600000 1717200000000
      (by simp [juneBooking, mkBooking]) (by decide) (by decide) (by decide) (by decide) (by decide) (by decide)⟩

theorem postBooking_then_conflict (rt : JsRuntime) (now1 now2 : Int) (rows : List Json)
    (fsA fsB : List (String × Json)) (P : JsVal) (ciA coA ciB coB : Int)
    (hrows : ∀ b ∈ rows, b ≠ Json.null)
    (hP : P.truthy = true) (hPP : strictEq P P = true)
    (hA : (Json.obj fsA).field "propertyId" = P) (hB : (Json.obj fsB).field "propertyId" = P)
    (hAin : validDate rt ((Json.obj fsA).field "checkInDate"))
    (hAout : validDate rt ((Json.obj fsA).field "checkOutDate"))
    (hBin : validDate rt ((Json.obj fsB).field "checkInDate"))
    (hBout : validDate rt ((Json.obj fsB).field "checkOutDate"))
    (hciA : newDate rt ((Json.obj fsA).field "checkInDate") = some ciA)
    (hcoA : newDate rt ((Json.obj fsA).field "checkOutDate") = some coA)
    (hciB : newDate rt ((Json.obj fsB).field "checkInDate") = some ciB)
    (hcoB : newDate rt ((Json.obj fsB).field "checkOutDate") = some coB)
    (hfreeA : ∀ b ∈ rows, ¬ blocks rt P ciA coA b)
    (hov : intervalsOverlap ciA coA ciB coB) :
    postTwoBookings rt now1 now2 (bookingFile rows) (.obj fsA) (.obj fsB)
      = some (savedReply (storedBooking now1 fsA), conflictReply,
          bookingFile (rows ++ [storedBooking now1 fsA])) := by
  have hiffA := (hasOverlap_true_iff rt P ciA coA rows hrows).1
  have hnotA : hasOverlap rt P (some ciA) (some coA) rows ≠ some true := by
    intro hs
    obtain ⟨b, hb, hbl⟩ := hiffA.mp hs
    exact hfreeA b hb hbl
  have hrows2 : ∀ b ∈ rows ++ [storedBooking now1 fsA], b ≠ Json.null := by
    intro b hb
    rcases List.mem_append.mp hb with hb | hb
    · exact hrows b hb
    · rw [List.mem_singleton] at hb
      subst hb
      simp [storedBooking]
  have hiffB := (hasOverlap_true_iff rt P ciB coB _ hrows2).1
  have hyesB : hasOverlap rt P (some ciB) (some coB) (rows ++ [storedBooking now1 fsA])
      = some true := by
    refine hiffB.mpr ⟨storedBooking now1 fsA, by simp, ?_, ciA, coA, ?_, ?_, hov.2, hov.1⟩
    · rw [storedBooking_field now1 fsA "propertyId" (by decide), hA]
      exact hPP
    · rw [storedBooking_field now1 fsA "checkInDate" (by decide)]
      exact hciA
    · rw [storedBooking_field now1 fsA "checkOutDate" (by decide)]
      exact hcoA
  unfold postTwoBookings
  rw [postBooking_eval rt now1 rows fsA ciA coA hrows (by rw [hA]; exact hP) hAin.1 hAout.1
    hciA hcoA, hA, if_neg hnotA]
  simp only
  rw [postBooking_eval rt now2 _ fsB ciB coB hrows2 (by rw [hB]; exact hP) hBin.1 hBout.1
    hciB hcoB, hB, if_pos hyesB]

/-- C5. Two `POST /bookings` requests for the same property `P` (a non-empty
identifier compared by `===`) with present, valid dates whose closed intervals
overlap each other, on a store of booking records none of which blocks either
request: handled one after the other, in either order, the first is accepted
and stored and the second is rejected as a conflict, so exactly one record is
added. -/
theorem overlapping_requests_one_succeeds (rt : JsRuntime) (now1 now2 : Int) (rows : List Json)
    (fsA fsB : List (String × Json)) (P : JsVal) (ciA coA ciB coB : Int)
    (hrows : ∀ b ∈ rows, b ≠ Json.null)
    (hP : P.truthy = true) (hPP : strictEq P P = true)
    (hA : (Json.obj fsA).field "propertyId" = P) (hB : (Json.obj fsB).field "propertyId" = P)
    (hAin : validDate rt ((Json.obj fsA).field "checkInDate"))
    (hAout : validDate rt ((Json.obj fsA).field "checkOutDate"))
    (hBin : validDate rt ((Json.obj fsB).field "checkInDate"))
    (hBout : validDate rt ((Json.obj fsB).field "checkOutDate"))
    (hciA : newDate rt ((Json.obj fsA).field "checkInDate") = some ciA)
    (hcoA : newDate rt ((Json.obj fsA).field "checkOutDate") = some coA)
    (hciB : newDate rt ((Json.obj fsB).field "checkInDate") = some ciB)
    (hcoB : newDate rt ((Json.obj fsB).field "checkOutDate") = some coB)
    (hfreeA : ∀ b ∈ rows, ¬ blocks rt P ciA coA b)
    (hfreeB : ∀ b ∈ rows, ¬ blocks rt P ciB coB b)
    (hov : intervalsOverlap ciA coA ciB coB) :
    postTwoBookings rt now1 now2 (bookingFile rows) (.obj fsA) (.obj fsB)
      = some (savedReply (storedBooking now1 fsA), conflictReply,
          bookingFile (rows ++ [storedBooking now1 fsA])) ∧
    postTwoBookings rt now1 now2 (bookingFile rows) (.obj fsB) (.obj fsA)
      = some (savedReply (storedBooking now1 fsB), conflictReply,
          bookingFile (rows ++ [storedBooking now1 fsB])) :=
  ⟨postBooking_then_conflict rt now1 now2 rows fsA fsB P ciA coA ciB coB hrows hP hPP hA hB
      hAin hAout hBin hBout hciA hcoA hciB hcoB hfreeA hov,
    postBooking_then_conflict rt now1 now2 rows fsB fsA P ciB coB ciA coA hrows hP hPP hB hA
      hBin hBout hAin hAout hciB hcoB hciA hcoA hfreeB ⟨hov.2, hov.1⟩⟩

/-- C5 at the store holding 2024-06-10 to 2024-06-15 of property 7 and the two
requests 2024-06-16 to 2024-06-20 and 2024-06-20 to 2024-06-25 for property 7:
whichever is handled first is saved, the other is rejected as a conflict. -/
theorem overlapping_requests_one_succeeds_witness :
    postTwoBookings isoRuntime 11 12 (bookingFile [juneBooking])
        (.obj (requestFields 7 "2024-06-16" "2024-06-20"))
        (.obj (requestFields 7 "2024-06-20" "2024-06-25"))
      = some (savedReply (storedBooking 11 (requestFields 7 "2024-06-16" "2024-06-20")),
          conflictReply,
          bookingFile ([juneBooking] ++
            [storedBooking 11 (requestFields 7 "2024-06-16" "2024-06-20")])) ∧
    postTwoBookings isoRuntime 11 12 (bookingFile [juneBooking])
        (.obj (requestFields 7 "2024-06-20" "2024-06-25"))
        (.obj (requestFields 7 "2024-06-16" "2024-06-20"))
      = some (savedReply (storedBooking 11 (requestFields 7 "2024-06-20" "2024-06-25")),
          conflictReply,
          bookingFile ([juneBooking] ++
            [storedBooking 11 (requestFields 7 "2024-06-20" "2024-06-25")])) := by
  have hout : newDate isoRuntime (juneBooking.field "checkOutDate") = some 1718409600000 := by
    decide
  refine overlapping_requests_one_succeeds isoRuntime 11 12 [juneBooking]
    (requestFields 7 "2024-06-16" "2024-06-20") (requestFields 7 "2024-06-20" "2024-06-25")
    (.json (.num 7)) 1718496000000 1718841600000 1718841600000 1719273600000
    (by simp [juneBooking, mkBooking]) (by decide) (by decide) rfl rfl
    (by decide) (by decide) (by decide) (by decide) (by decide) (by decide) (by decide)
    (by decide) ?_ ?_ ⟨by decide, by decide⟩
  · rintro b hb ⟨-, bci, bco, -, h2, h3, -⟩
    rw [List.mem_singleton] at hb
    subst hb
    rw [hout] at h2
    simp only [Option.some.injEq] at h2
    omega
  · rintro b hb ⟨-, bci, bco, -, h2, h3, -⟩
    rw [List.mem_singleton] at hb
    subst hb
    rw [hout] at h2
    simp only [Option.some.injEq] at h2
    omega

/-! ## Identifier allocation -/

/-- On rows whose identifiers are positive integers the scan of the allocators
returns the maximum of the start value and the identifiers. -/
theorem maxIdFrom_spec (rt : JsRuntime) (key : String) (rows : List Json) :
    ∀ m0 : Int, (∀ c ∈ rows, ∃ n : Int, 0 < n ∧ c.field key = .json (.num n)) →
    ∃ m, maxIdFrom rt key m0 rows = some m ∧ m0 ≤ m ∧
      (∀ c ∈ rows, ∀ n : Int, c.field key = .json (.num n) → n ≤ m) ∧
      (m = m0 ∨ ∃ c ∈ rows, c.field key = .json (.num m)) := by
  induction rows with
  | nil =>
    intro m0 _
    exact ⟨m0, rfl, le_refl _, by simp, Or.inl rfl⟩
  | cons c rest ih =>
    intro m0 hpos
    obtain ⟨n, hn, hc⟩ := hpos c (List.mem_cons_self _ _)
    have hcn : c ≠ Json.null := by
      intro h
      subst h
      simp [Json.field] at hc
    obtain ⟨m, hm, hle, hub, hatt⟩ := ih (max m0 n) (fun x hx => hpos x (List.mem_cons_of_mem _ hx))
    refine ⟨m, ?_, le_trans (le_max_left _ _) hle, ?_, ?_⟩
    · rw [maxIdFrom, getProp_of_ne_null c key hcn]
      simp only [hc, toNumber, numberOrZero]
      exact hm
    · intro x hx k hk
      rcases List.mem_cons.mp hx with rfl | hx
      · rw [hc] at hk
        simp only [JsVal.json.injEq, Json.num.injEq] at hk
        subst hk
        exact le_trans (le_max_right _ _) hle
      · exact hub x hx k hk
    · rcases hatt with hmax | ⟨x, hx, hxm⟩
      · rcases le_total m0 n with h | h
        · right
          refine ⟨c, List.mem_cons_self _ _, ?_⟩
          rw [hc, hmax, max_eq_right h]
        · left
          rw [hmax, max_eq_left h]
      · exact Or.inr ⟨x, List.mem_cons_of_mem _ hx, hxm⟩

theorem truthy_of_field_json (v : Json) (k : String) (j : Json) (hk : k ≠ "length")
    (h : v.field k = .json j) : ∃ fs, v = Json.obj fs := by
  cases v <;> simp [Json.field, hk] at h ⊢

theorem storageHandler_readStorage_eq (v : Json) (rows : List Json)
    (hfile : v.field "complaints" = .json (.arr rows)) :
    storageHandler.readStorage (.json v) = some (v, .json v) := by
  obtain ⟨fs, rfl⟩ := truthy_of_field_json v "complaints" _ (by decide) hfile
  simp [storageHandler.readStorage, storageHandler.ensureStorageFile, hfile, isArray,
    Json.truthy, JsVal.getProp?, JsVal.truthy]

theorem notificationHandler_readStorage_eq (v : Json) (rows : List Json)
    (hfile : v.field "notification" = .json (.arr rows)) :
    notificationHandler.readNotificationStorage (.json v) = some (v, .json v) := by
  obtain ⟨fs, rfl⟩ := truthy_of_field_json v "notification" _ (by decide) hfile
  simp [notificationHandler.readNotificationStorage, notificationHandler.ensureStorageFile,
    hfile, isArray, Json.truthy, JsVal.getProp?, JsVal.truthy]

theorem roundNat_small (a : Nat) (h : a < 9007199254740992) : roundNat a = a := by
  have hk : excessBits a a 0 = 0 := by
    cases a with
    | zero => rfl
    | succ b =>
      simp only [excessBits, pow_zero, Nat.div_one]
      rw [if_pos h]
  simp [roundNat, hk, Nat.mod_one]

/-- A sum whose exact value is at most `2 ^ 53` in magnitude is exact. -/
theorem roundDouble_exact (n : Int) (h1 : -9007199254740992 ≤ n) (h2 : n ≤ 9007199254740992) :
    roundDouble n = n := by
  by_cases hlt : n.natAbs < 9007199254740992
  · unfold roundDouble
    rw [roundNat_small _ hlt]
    split <;> omega
  · have : n = 9007199254740992 ∨ n = -9007199254740992 := by omega
    rcases this with rfl | rfl <;> decide

/-- The maximum `m` that the scan of an allocator finds on positive integer
identifiers: it bounds every stored identifier, is 0 on the empty collection
and is a stored identifier otherwise. -/
theorem maxIdFrom_zero_spec (rt : JsRuntime) (key : String) (rows : List Json)
    (hpos : ∀ c ∈ rows, ∃ n : Int, 0 < n ∧ c.field key = .json (.num n)) :
    ∃ m : Int, maxIdFrom rt key 0 rows = some m ∧ 0 ≤ m ∧
      (∀ c ∈ rows, ∀ n : Int, c.field key = .json (.num n) → n ≤ m) ∧
      (rows = [] → m = 0) ∧
      (rows ≠ [] → ∃ c ∈ rows, c.field key = .json (.num m)) := by
  obtain ⟨m, hm, h0, hub, hatt⟩ := maxIdFrom_spec rt key rows 0 hpos
  refine ⟨m, hm, h0, hub, ?_, ?_⟩
  · intro he
    subst he
    simpa [maxIdFrom] using hm.symm
  · intro hne
    rcases hatt with h0 | h
    · exfalso
      obtain ⟨c, hc⟩ := List.exists_mem_of_ne_nil rows hne
      obtain ⟨n, hn, hcn⟩ := hpos c hc
      have := hub c hc n hcn
      omega
    · exact h

/-- On positive integer identifiers `getNextComplaintId` returns the double sum
of the maximum and 1. -/
theorem getNextComplaintId_rounded (rt : JsRuntime) (vc : Json) (cs : List Json)
    (hcfile : vc.field "complaints" = .json (.arr cs))
    (hcpos : ∀ c ∈ cs, ∃ n : Int, 0 < n ∧ c.field "complaintId" = .json (.num n)) :
    ∃ m : Int, storageHandler.getNextComplaintId rt (.json vc)
        = some (roundDouble (m + 1), .json vc) ∧ 0 ≤ m ∧
      (∀ c ∈ cs, ∀ n : Int, c.field "complaintId" = .json (.num n) → n ≤ m) ∧
      (cs = [] → m = 0) ∧
      (cs ≠ [] → ∃ c ∈ cs, c.field "complaintId" = .json (.num m)) := by
  obtain ⟨m, hm, h0, hub, hnil, hcons⟩ := maxIdFrom_zero_spec rt "complaintId" cs hcpos
  refine ⟨m, ?_, h0, hub, hnil, hcons⟩
  simp [storageHandler.getNextComplaintId, storageHandler_readStorage_eq vc cs hcfile,
    hcfile, jsOr, JsVal.truthy, Json.truthy, JsVal.asArray?, hm]

theorem getNextNotificationId_rounded (rt : JsRuntime) (vn : Json) (ns : List Json)
    (hnfile : vn.field "notification" = .json (.arr ns))
    (hnpos : ∀ c ∈ ns, ∃ n : Int, 0 < n ∧ c.field "notificationId" = .json (.num n)) :
    ∃ m : Int, notificationHandler.getNextNotificationId rt (.json vn)
        = some (roundDouble (m + 1), .json vn) ∧ 0 ≤ m ∧
      (∀ c ∈ ns, ∀ n : Int, c.field "notificationId" = .json (.num n) → n ≤ m) ∧
      (ns = [] → m = 0) ∧
      (ns ≠ [] → ∃ c ∈ ns, c.field "notificationId" = .json (.num m)) := by
  obtain ⟨m, hm, h0, hub, hnil, hcons⟩ := maxIdFrom_zero_spec rt "notificationId" ns hnpos
  refine ⟨m, ?_, h0, hub, hnil, hcons⟩
  simp [notificationHandler.getNextNotificationId,
    notificationHandler_readStorage_eq vn ns hnfile, hnfile, JsVal.asArray?, hm]

/-- The largest identifier that is at most `bound` everywhere is at most
`bound`. -/
theorem max_le_of_rows (key : String) (rows : List Json) (m bound : Int) (hb : 0 ≤ bound)
    (hsafe : ∀ c ∈ rows, ∃ n : Int, 0 < n ∧ n ≤ bound ∧ c.field key = .json (.num n))
    (hnil : rows = [] → m = 0)
    (hcons : rows ≠ [] → ∃ c ∈ rows, c.field key = .json (.num m)) : m ≤ bound := by
  by_cases hr : rows = []
  · rw [hnil hr]
    exact hb
  · obtain ⟨c, hc, hcm⟩ := hcons hr
    obtain ⟨n, -, hn, hcn⟩ := hsafe c hc
    rw [hcm] at hcn
    simp only [JsVal.json.injEq, Json.num.injEq] at hcn
    omega

theorem getNextComplaintId_spec (rt : JsRuntime) (vc : Json) (cs : List Json)
    (hcfile : vc.field "complaints" = .json (.arr cs))
    (hcpos : ∀ c ∈ cs, ∃ n : Int, 0 < n ∧ n ≤ 9007199254740991 ∧
      c.field "complaintId" = .json (.num n)) :
    ∃ m : Int, storageHandler.getNextComplaintId rt (.json vc) = some (m + 1, .json vc) ∧
      (∀ c ∈ cs, ∀ n : Int, c.field "complaintId" = .json (.num n) → n ≤ m) ∧
      (cs = [] → m = 0) ∧
      (cs ≠ [] → ∃ c ∈ cs, c.field "complaintId" = .json (.num m)) := by
  obtain ⟨m, hm, h0, hub, hnil, hcons⟩ := getNextComplaintId_rounded rt vc cs hcfile
    (fun c hc => (hcpos c hc).imp (fun n h => ⟨h.1, h.2.2⟩))
  have hle := max_le_of_rows "complaintId" cs m 9007199254740991 (by decide) hcpos hnil hcons
  rw [roundDouble_exact (m + 1) (by omega) (by omega)] at hm
  exact ⟨m, hm, hub, hnil, hcons⟩

theorem getNextNotificationId_spec (rt : JsRuntime) (vn : Json) (ns : List Json)
    (hnfile : vn.field "notification" = .json (.arr ns))
    (hnpos : ∀ c ∈ ns, ∃ n : Int, 0 < n ∧ n ≤ 9007199254740991 ∧
      c.field "notificationId" = .json (.num n)) :
    ∃ m : Int, notificationHandler.getNextNotificationId rt (.json vn)
        = some (m + 1, .json vn) ∧
      (∀ c ∈ ns, ∀ n : Int, c.field "notificationId" = .json (.num n) → n ≤ m) ∧
      (ns = [] → m = 0) ∧
      (ns ≠ [] → ∃ c ∈ ns, c.field "notificationId" = .json (.num m)) := by
  obtain ⟨m, hm, h0, hub, hnil, hcons⟩ := getNextNotificationId_rounded rt vn ns hnfile
    (fun c hc => (hnpos c hc).imp (fun n h => ⟨h.1, h.2.2⟩))
  have hle := max_le_of_rows "notificationId" ns m 9007199254740991 (by decide) hnpos hnil hcons
  rw [roundDouble_exact (m + 1) (by omega) (by omega)] at hm
  exact ⟨m, hm, hub, hnil, hcons⟩

/-- C6, counterexample: the complaints file holds one complaint with
`complaintId` 9007199254740992 (`2 ^ 53`), a positive integer.  The sum
`max + 1` is computed in double precision and rounds to 9007199254740992:
`getNextComplaintId` returns the largest stored identifier itself, not one more;
`getNextNotificationId` does the same. -/
theorem getNextId_repeats_large_id :
    storageHandler.getNextComplaintId isoRuntime
        (.json (.obj [("complaints", .arr [complaintRow 9007199254740992])]))
      = some (9007199254740992,
          .json (.obj [("complaints", .arr [complaintRow 9007199254740992])])) ∧
    notificationHandler.getNextNotificationId isoRuntime
        (.json (.obj [("notification", .arr [notificationRow 9007199254740992])]))
      = some (9007199254740992,
          .json (.obj [("notification", .arr [notificationRow 9007199254740992])])) ∧
    (complaintRow 9007199254740992).field "complaintId" = .json (.num 9007199254740992) ∧
    (9007199254740992 : Int) ≠ 9007199254740992 + 1 ∧
    roundDouble (9007199254740992 + 1) = 9007199254740992 := by
  refine ⟨rfl, rfl, rfl, by decide, by decide⟩

/-- C6 as amended.  `getNextComplaintId` returns one more than the largest
`complaintId` when the stored identifiers are positive integers of at most
9007199254740991 (`2 ^ 53 - 1`), and 1 for the empty collection;
`getNextNotificationId` does the same over `notificationId`.  The number `m`
below is the maximum: it bounds every stored identifier, it is 0 on the empty
collection and it is a stored identifier otherwise. -/
theorem getNextId_is_max_plus_one (rt : JsRuntime) (vc vn : Json) (cs ns : List Json)
    (hcfile : vc.field "complaints" = .json (.arr cs))
    (hcpos : ∀ c ∈ cs, ∃ n : Int, 0 < n ∧ n ≤ 9007199254740991 ∧
      c.field "complaintId" = .json (.num n))
    (hnfile : vn.field "notification" = .json (.arr ns))
    (hnpos : ∀ c ∈ ns, ∃ n : Int, 0 < n ∧ n ≤ 9007199254740991 ∧
      c.field "notificationId" = .json (.num n)) :
    (∃ m : Int, storageHandler.getNextComplaintId rt (.json vc) = some (m + 1, .json vc) ∧
        (∀ c ∈ cs, ∀ n : Int, c.field "complaintId" = .json (.num n) → n ≤ m) ∧
        (cs = [] → m = 0) ∧
        (cs ≠ [] → ∃ c ∈ cs, c.field "complaintId" = .json (.num m))) ∧
    (∃ m : Int, notificationHandler.getNextNotificationId rt (.json vn)
          = some (m + 1, .json vn) ∧
        (∀ c ∈ ns, ∀ n : Int, c.field "notificationId" = .json (.num n) → n ≤ m) ∧
        (ns = [] → m = 0) ∧
        (ns ≠ [] → ∃ c ∈ ns, c.field "notificationId" = .json (.num m))) :=
  ⟨getNextComplaintId_spec rt vc cs hcfile hcpos,
    getNextNotificationId_spec rt vn ns hnfile hnpos⟩

/-- C6 as amended, on the complaints `[3, 5, 4]` and the notifications `[2, 7]`:
the allocators return 6 and 8, one more than a stored identifier that bounds
the others. -/
theorem getNextId_is_max_plus_one_witness :
    storageHandler.getNextComplaintId isoRuntime
        (.json (.obj [("complaints", .arr [complaintRow 3, complaintRow 5, complaintRow 4])]))
      = some (6, .json (.obj [("complaints",
          .arr [complaintRow 3, complaintRow 5, complaintRow 4])])) ∧
    notificationHandler.getNextNotificationId isoRuntime
        (.json (.obj [("notification", .arr [notificationRow 2, notificationRow 7])]))
      = some (8, .json (.obj [("notification",
          .arr [notificationRow 2, notificationRow 7])])) ∧
    ((∃ m : Int, storageHandler.getNextComplaintId isoRuntime
        (.json (.obj [("complaints", .arr [complaintRow 3, complaintRow 5, complaintRow 4])]))
      = some (m + 1, .json (.obj [("complaints",
          .arr [complaintRow 3, complaintRow 5, complaintRow 4])])) ∧
      (∀ c ∈ [complaintRow 3, complaintRow 5, complaintRow 4], ∀ n : Int,
        c.field "complaintId" = .json (.num n) → n ≤ m) ∧
      ([complaintRow 3, complaintRow 5, complaintRow 4] = [] → m = 0) ∧
      ([complaintRow 3, complaintRow 5, complaintRow 4] ≠ [] →
        ∃ c ∈ [complaintRow 3, complaintRow 5, complaintRow 4],
          c.field "complaintId" = .json (.num m))) ∧
    (∃ m : Int, notificationHandler.getNextNotificationId isoRuntime
        (.json (.obj [("notification", .arr [notificationRow 2, notificationRow 7])]))
      = some (m + 1, .json (.obj [("notification",
          .arr [notificationRow 2, notificationRow 7])])) ∧
      (∀ c ∈ [notificationRow 2, notificationRow 7], ∀ n : Int,
        c.field "notificationId" = .json (.num n) → n ≤ m) ∧
      ([notificationRow 2, notificationRow 7] = [] → m = 0) ∧
      ([notificationRow 2, notificationRow 7] ≠ [] →
        ∃ c ∈ [notificationRow 2, notificationRow 7],
          c.field "notificationId" = .json (.num m)))) :=
  ⟨rfl, rfl, getNextId_is_max_plus_one isoRuntime
      (.obj [("complaints", .arr [complaintRow 3, complaintRow 5, complaintRow 4])])
      (.obj [("notification", .arr [notificationRow 2, notificationRow 7])])
      [complaintRow 3, complaintRow 5, complaintRow 4] [notificationRow 2, notificationRow 7]
      rfl
      (by
        intro c hc
        simp only [List.mem_cons, List.mem_singleton, List.not_mem_nil, or_false] at hc
        rcases hc with rfl | rfl | rfl
        · exact ⟨3, by decide, by decide, rfl⟩
        · exact ⟨5, by decide, by decide, rfl⟩
        · exact ⟨4, by decide, by decide, rfl⟩)
      rfl
      (by
        intro c hc
        simp only [List.mem_cons, List.mem_singleton, List.not_mem_nil, or_false] at hc
        rcases hc with rfl | rfl
        · exact ⟨2, by decide, by decide, rfl⟩
        · exact ⟨7, by decide, by decide, rfl⟩)⟩

/-! ## Creating complaints and notifications -/

theorem requireUser_error_status (rt : JsRuntime) (req : ComplaintRequest) (e : Reply)
    (h : requireUser rt req = .error e) : e.status = 400 := by
  unfold requireUser at h
  split at h
  · split at h
    · simp only [Except.error.injEq] at h
      rw [← h]
    · split at h
      · simp only [Except.error.injEq] at h
        rw [← h]
      · split at h
        · simp only [Except.error.injEq] at h
          rw [← h]
        · dsimp only at h
          split at h
          · simp only [Except.error.injEq] at h
            rw [← h]
          · simp at h
  · simp only [Except.error.injEq] at h
    rw [← h]

theorem field_assign_self (fs : List (String × Json)) (k : String) (j : Json) :
    (Json.obj (assignField k (.json j) fs)).field k = .json j := by
  simp [Json.field, assignField, lookupField_setField_self]

theorem newComplaint_id (newId bookingId userId : Int) (role description today : String) :
    (newComplaint newId bookingId userId role description today).field "complaintId"
      = .json (.num newId) := by
  simp [newComplaint, mkObj, assignField, setField, Json.field, lookupField]

/-- A `201` response of `POST /api/complaints` on a well-formed file: the
identifier comes from `getNextComplaintId`, the response body is the new record
and the stored document holds the new record in front of the old rows. -/
theorem postComplaint_created (rt : JsRuntime) (today : String) (v : Json) (rows : List Json)
    (req : ComplaintRequest) (r : Reply) (f : FileState)
    (hfile : v.field "complaints" = .json (.arr rows))
    (hrun : postComplaint rt today (.json v) req = (r, f)) (hok : r.status = 201) :
    ∃ newId, storageHandler.getNextComplaintId rt (.json v) = some (newId, .json v) ∧
      r.body.field "complaintId" = .json (.num newId) ∧
      storedComplaints f = r.body :: rows := by
  obtain ⟨fs, rfl⟩ := truthy_of_field_json v "complaints" _ (by decide) hfile
  have hread := storageHandler_readStorage_eq (.obj fs) rows hfile
  unfold postComplaint at hrun
  cases hu : requireUser rt req with
  | error e =>
    simp only [hu, Prod.mk.injEq] at hrun
    have := requireUser_error_status rt req e hu
    rw [hrun.1] at this
    omega
  | ok p =>
    obtain ⟨uid, role⟩ := p
    simp only [hu] at hrun
    by_cases hadmin : role = "admin"
    · rw [if_pos hadmin] at hrun
      simp only [Prod.mk.injEq] at hrun
      rw [← hrun.1] at hok
      simp at hok
    · rw [if_neg hadmin] at hrun
      cases hbody : jsOr (.json req.body) (.json (.obj [])) with
      | undefined =>
        simp only [hbody, Prod.mk.injEq] at hrun
        rw [← hrun.1] at hok
        simp [internalError] at hok
      | nan =>
        simp only [hbody, Prod.mk.injEq] at hrun
        rw [← hrun.1] at hok
        simp [internalError] at hok
      | json body =>
        simp only [hbody] at hrun
        by_cases h1 : (!(body.field "bookingId").truthy) = true
        · rw [if_pos h1] at hrun
          simp only [Prod.mk.injEq] at hrun
          rw [← hrun.1] at hok
          simp at hok
        · rw [if_neg h1] at hrun
          by_cases h2 : (!(body.field "complaintDescription").truthy
              || decide (rt.trim (body.field "complaintDescription").toStr = "")) = true
          · rw [if_pos h2] at hrun
            simp only [Prod.mk.injEq] at hrun
            rw [← hrun.1] at hok
            simp at hok
          · rw [if_neg h2] at hrun
            cases hnum : toNumber rt (body.field "bookingId") with
            | none =>
              simp only [hnum, Prod.mk.injEq] at hrun
              rw [← hrun.1] at hok
              simp at hok
            | some nb =>
              simp only [hnum, hread] at hrun
              cases hid : storageHandler.getNextComplaintId rt (.json (.obj fs)) with
              | none =>
                simp only [hid, Prod.mk.injEq] at hrun
                rw [← hrun.1] at hok
                simp [internalError] at hok
              | some q =>
                obtain ⟨newId, file2⟩ := q
                have hfile2 : file2 = .json (.obj fs) := by
                  unfold storageHandler.getNextComplaintId at hid
                  rw [hread] at hid
                  simp only at hid
                  split at hid
                  · simp at hid
                  · split at hid
                    · simp at hid
                    · simp only [Option.some.injEq, Prod.mk.injEq] at hid
                      exact hid.2.symm
                subst hfile2
                simp only [hid, hfile, JsVal.asArray?, assign_obj, Prod.mk.injEq] at hrun
                obtain ⟨hr, hf⟩ := hrun
                refine ⟨newId, rfl, ?_, ?_⟩
                · rw [← hr]
                  exact newComplaint_id _ _ _ _ _ _
                · rw [← hf, ← hr]
                  simp only [storageHandler.writeStorage, storedComplaints]
                  rw [field_assign_self]

/-- C7, counterexample: the complaints file holds one complaint with
`complaintId` 9007199254740992 (`2 ^ 53`).  A `POST /api/complaints` of user 42
is answered `201` with `complaintId` 9007199254740992 again, because the sum
`max + 1` rounds in double precision: the stored identifiers were pairwise
distinct before the request and are `[2 ^ 53, 2 ^ 53]` after it. -/
theorem postComplaint_repeats_large_id :
    (postComplaint isoRuntime "2024-06-01"
        (.json (.obj [("complaints", .arr [complaintRow 9007199254740992])]))
        sampleComplaintRequest).1.status = 201 ∧
    (postComplaint isoRuntime "2024-06-01"
        (.json (.obj [("complaints", .arr [complaintRow 9007199254740992])]))
        sampleComplaintRequest).1.body.field "complaintId"
      = .json (.num 9007199254740992) ∧
    (idsOf "complaintId" [complaintRow 9007199254740992]).Nodup ∧
    idsOf "complaintId" (storedComplaints
        (postComplaint isoRuntime "2024-06-01"
          (.json (.obj [("complaints", .arr [complaintRow 9007199254740992])]))
          sampleComplaintRequest).2)
      = [.json (.num 9007199254740992), .json (.num 9007199254740992)] ∧
    ¬ (idsOf "complaintId" (storedComplaints
        (postComplaint isoRuntime "2024-06-01"
          (.json (.obj [("complaints", .arr [complaintRow 9007199254740992])]))
          sampleComplaintRequest).2)).Nodup := by
  have hids : idsOf "complaintId" (storedComplaints
        (postComplaint isoRuntime "2024-06-01"
          (.json (.obj [("complaints", .arr [complaintRow 9007199254740992])]))
          sampleComplaintRequest).2)
      = [.json (.num 9007199254740992), .json (.num 9007199254740992)] := rfl
  refine ⟨rfl, rfl, ?_, hids, ?_⟩
  · simp [idsOf]
  · rw [hids]
    simp

/-- C7 as amended.  Sequential complaint creation keeps identifiers unique
while the stored identifiers stay at or below 9007199254740991 (`2 ^ 53 - 1`):
on a collection whose `complaintId` values are pairwise-distinct positive
integers of at most that size, a `POST /api/complaints` answered `201` stores
the new record together with the old ones, its `complaintId` differs from every
stored one and the stored identifiers are again pairwise distinct. -/
theorem postComplaint_keeps_ids_distinct (rt : JsRuntime) (today : String) (v : Json)
    (rows : List Json) (req : ComplaintRequest) (r : Reply) (f : FileState)
    (hfile : v.field "complaints" = .json (.arr rows))
    (hpos : ∀ c ∈ rows, ∃ n : Int, 0 < n ∧ n ≤ 9007199254740991 ∧
      c.field "complaintId" = .json (.num n))
    (hnodup : (idsOf "complaintId" rows).Nodup)
    (hrun : postComplaint rt today (.json v) req = (r, f)) (hok : r.status = 201) :
    r.body.field "complaintId" ∉ idsOf "complaintId" rows ∧
    (∀ c, c ∈ storedComplaints f ↔ c = r.body ∨ c ∈ rows) ∧
    (idsOf "complaintId" (storedComplaints f)).Nodup := by
  obtain ⟨newId, hid, hbody, hstored⟩ := postComplaint_created rt today v rows req r f hfile hrun hok
  obtain ⟨m, hm, hub, -, -⟩ := getNextComplaintId_spec rt v rows hfile hpos
  rw [hid] at hm
  simp only [Option.some.injEq, Prod.mk.injEq, and_true] at hm
  have hnew : r.body.field "complaintId" ∉ idsOf "complaintId" rows := by
    intro hmem
    simp only [idsOf, List.mem_map] at hmem
    obtain ⟨c, hc, heq⟩ := hmem
    rw [hbody] at heq
    have := hub c hc newId heq
    omega
  refine ⟨hnew, ?_, ?_⟩
  · intro c
    rw [hstored, List.mem_cons]
  · rw [hstored]
    simp only [idsOf, List.map_cons, List.nodup_cons]
    exact ⟨hnew, hnodup⟩

/-- C7 as amended, on the complaints `[3, 5, 4]`: the request of user 42 is
answered `201` and the stored identifiers become `[6, 3, 5, 4]`. -/
theorem postComplaint_keeps_ids_distinct_witness :
    idsOf "complaintId" (storedComplaints
        (postComplaint isoRuntime "2024-06-01" (.json sampleComplaints)
          sampleComplaintRequest).2)
      = [.json (.num 6), .json (.num 3), .json (.num 5), .json (.num 4)] ∧
    ((postComplaint isoRuntime "2024-06-01" (.json sampleComplaints)
          sampleComplaintRequest).1.body.field "complaintId"
        ∉ idsOf "complaintId" [complaintRow 3, complaintRow 5, complaintRow 4] ∧
      (∀ c, c ∈ storedComplaints (postComplaint isoRuntime "2024-06-01"
          (.json sampleComplaints) sampleComplaintRequest).2 ↔
        c = (postComplaint isoRuntime "2024-06-01" (.json sampleComplaints)
          sampleComplaintRequest).1.body ∨
        c ∈ [complaintRow 3, complaintRow 5, complaintRow 4]) ∧
      (idsOf "complaintId" (storedComplaints
        (postComplaint isoRuntime "2024-06-01" (.json sampleComplaints)
          sampleComplaintRequest).2)).Nodup) :=
  ⟨rfl, postComplaint_keeps_ids_distinct isoRuntime "2024-06-01" sampleComplaints
    [complaintRow 3, complaintRow 5, complaintRow 4] sampleComplaintRequest _ _ rfl
    (by
      intro c hc
      simp only [List.mem_cons, List.mem_singleton, List.not_mem_nil, or_false] at hc
      rcases hc with rfl | rfl | rfl
      · exact ⟨3, by decide, by decide, rfl⟩
      · exact ⟨5, by decide, by decide, rfl⟩
      · exact ⟨4, by decide, by decide, rfl⟩)
    (by simp [idsOf, complaintRow, Json.field, lookupField])
    rfl (by decide)⟩

/-- A `201` response of `POST /api/notifications` on a well-formed file: the
stored document holds the new record in front of the old rows. -/
theorem postNotification_created (rt : JsRuntime) (today : String) (v : Json)
    (rows : List Json) (body : Json) (r : Reply) (f : FileState)
    (hfile : v.field "notification" = .json (.arr rows))
    (hrun : postNotification rt today (.json v) body = (r, f)) (hok : r.status = 201) :
    storedNotifications f = r.body :: rows := by
  obtain ⟨fs, rfl⟩ := truthy_of_field_json v "notification" _ (by decide) hfile
  have hread := notificationHandler_readStorage_eq (.obj fs) rows hfile
  unfold postNotification at hrun
  cases huid : (JsVal.json body).getProp? "userId" with
  | none =>
    simp only [huid, Prod.mk.injEq] at hrun
    rw [← hrun.1] at hok
    simp at hok
  | some userId =>
    simp only [huid] at hrun
    by_cases h1 : (!userId.truthy || !(body.field "notificationTitle").truthy
        || !(body.field "message").truthy) = true
    · rw [if_pos h1] at hrun
      simp only [Prod.mk.injEq] at hrun
      rw [← hrun.1] at hok
      simp at hok
    · rw [if_neg h1] at hrun
      simp only [hread] at hrun
      cases hid : notificationHandler.getNextNotificationId rt (.json (.obj fs)) with
      | none =>
        simp only [hid, Prod.mk.injEq] at hrun
        rw [← hrun.1] at hok
        simp at hok
      | some q =>
        obtain ⟨newId, file2⟩ := q
        simp only [hid, hfile, JsVal.asArray?, assign_obj, Prod.mk.injEq] at hrun
        obtain ⟨hr, hf⟩ := hrun
        rw [← hf, ← hr]
        simp only [notificationHandler.writeNotificationStorage, storedNotifications]
        rw [field_assign_self]

/-- C10, counterexample: after `POST /api/complaints` on the complaints
`[3, 5, 4]` the new record (identifier 6) is the first stored row, and the
stored sequence is not the old sequence followed by the new record. -/
theorem postComplaint_not_appended :
    (postComplaint isoRuntime "2024-06-01" (.json sampleComplaints)
      sampleComplaintRequest).1.status = 201 ∧
    storedComplaints (postComplaint isoRuntime "2024-06-01" (.json sampleComplaints)
        sampleComplaintRequest).2
      = [newComplaint 6 17 42 "client" "broken heater" "2024-06-01",
          complaintRow 3, complaintRow 5, complaintRow 4] ∧
    storedComplaints (postComplaint isoRuntime "2024-06-01" (.json sampleComplaints)
        sampleComplaintRequest).2
      ≠ [complaintRow 3, complaintRow 5, complaintRow 4] ++
          [newComplaint 6 17 42 "client" "broken heater" "2024-06-01"] := by
  refine ⟨rfl, rfl, ?_⟩
  intro h
  have h2 : storedComplaints (postComplaint isoRuntime "2024-06-01" (.json sampleComplaints)
        sampleComplaintRequest).2
      = [newComplaint 6 17 42 "client" "broken heater" "2024-06-01",
          complaintRow 3, complaintRow 5, complaintRow 4] := rfl
  rw [h2] at h
  have h3 := congrArg (fun l => idsOf "complaintId" l) h
  simp [idsOf, complaintRow, Json.field, lookupField, newComplaint_id] at h3

/-- C10 as amended.  Insert puts the new record in front: after a
`POST /api/complaints` answered `201` the stored complaints are the new record
followed by the previously stored sequence, unchanged and in order, and
likewise for `POST /api/notifications` on the notification sequence. -/
theorem created_record_is_first (rt : JsRuntime) (today : String) (vc vn : Json)
    (cs ns : List Json) (req : ComplaintRequest) (body : Json)
    (rc rn : Reply) (fc fn : FileState)
    (hcfile : vc.field "complaints" = .json (.arr cs))
    (hnfile : vn.field "notification" = .json (.arr ns))
    (hcrun : postComplaint rt today (.json vc) req = (rc, fc)) (hcok : rc.status = 201)
    (hnrun : postNotification rt today (.json vn) body = (rn, fn)) (hnok : rn.status = 201) :
    storedComplaints fc = rc.body :: cs ∧ storedNotifications fn = rn.body :: ns := by
  obtain ⟨_, -, -, hc⟩ := postComplaint_created rt today vc cs req rc fc hcfile hcrun hcok
  exact ⟨hc, postNotification_created rt today vn ns body rn fn hnfile hnrun hnok⟩

/-- C10 as amended, on the complaints `[3, 5, 4]` and the notifications
`[2, 7]`. -/
theorem created_record_is_first_witness :
    storedComplaints (postComplaint isoRuntime "2024-06-01" (.json sampleComplaints)
        sampleComplaintRequest).2
      = (postComplaint isoRuntime "2024-06-01" (.json sampleComplaints)
          sampleComplaintRequest).1.body ::
        [complaintRow 3, complaintRow 5, complaintRow 4] ∧
    storedNotifications (postNotification isoRuntime "2024-06-01" (.json sampleNotifications)
        sampleNotificationBody).2
      = (postNotification isoRuntime "2024-06-01" (.json sampleNotifications)
          sampleNotificationBody).1.body :: [notificationRow 2, notificationRow 7] :=
  created_record_is_first isoRuntime "2024-06-01" sampleComplaints sampleNotifications
    [complaintRow 3, complaintRow 5, complaintRow 4] [notificationRow 2, notificationRow 7]
    sampleComplaintRequest sampleNotificationBody _ _ _ _ rfl rfl rfl (by decide) rfl
    (by decide)

/-! ## Booking identifiers -/

theorem jsOr_json (a : JsVal) (b : Json) : ∃ j, jsOr a (.json b) = .json j := by
  cases a with
  | undefined => exact ⟨b, by simp [jsOr, JsVal.truthy]⟩
  | nan => exact ⟨b, by simp [jsOr, JsVal.truthy]⟩
  | json j =>
    by_cases h : (JsVal.json j).truthy = true
    · exact ⟨j, by simp [jsOr, h]⟩
    · exact ⟨b, by simp [jsOr, h]⟩

/-- C9, counterexample: the store holds one booking with `bookingId` 1; the
request for 2024-06-16 to 2024-06-20 that carries `bookingId` 1 is accepted and
stored under its own identifier, so two stored bookings share `bookingId` 1. -/
theorem postBooking_duplicates_caller_id :
    (idsOf "bookingId" [juneBooking]).Nodup ∧
    postBooking isoRuntime 99 (bookingFile [juneBooking])
        (requestWithId 1 7 "2024-06-16" "2024-06-20")
      = some (savedReply (requestWithId 1 7 "2024-06-16" "2024-06-20"),
          bookingFile [juneBooking, requestWithId 1 7 "2024-06-16" "2024-06-20"]) ∧
    idsOf "bookingId" [juneBooking, requestWithId 1 7 "2024-06-16" "2024-06-20"]
      = [.json (.num 1), .json (.num 1)] ∧
    ¬ (idsOf "bookingId"
      [juneBooking, requestWithId 1 7 "2024-06-16" "2024-06-20"]).Nodup := by
  refine ⟨?_, rfl, rfl, ?_⟩
  · simp [idsOf]
  · have h : idsOf "bookingId" [juneBooking, requestWithId 1 7 "2024-06-16" "2024-06-20"]
        = [.json (.num 1), .json (.num 1)] := rfl
    rw [h]
    simp

/-- C9 as amended.  The stored record keeps the `bookingId` of the request body
when that is truthy and gets `Date.now()` otherwise; on a collection with
pairwise-distinct `bookingId` values an accepted `POST /bookings` leaves the
stored identifiers pairwise distinct exactly when that value is not a stored
`bookingId`. -/
theorem postBooking_ids_distinct_iff (rt : JsRuntime) (now : Int) (rows : List Json)
    (body : Json) (r : Reply) (f : FileState)
    (hnodup : (idsOf "bookingId" rows).Nodup)
    (hrun : postBooking rt now (bookingFile rows) body = some (r, f))
    (hacc : r.status = 200) :
    ∃ nb, storedBookings f = rows ++ [nb] ∧
      nb.field "bookingId" = jsOr (body.field "bookingId") (.json (.num now)) ∧
      ((idsOf "bookingId" (storedBookings f)).Nodup ↔
        jsOr (body.field "bookingId") (.json (.num now)) ∉ idsOf "bookingId" rows) := by
  rcases postBooking_cases rt now _ body r f hrun with ⟨-, h400⟩ |
    ⟨ci, co, nb, -, -, hpid, -, hnb, hf, -⟩
  · omega
  · obtain ⟨fs, rfl⟩ := obj_of_truthy_field body "propertyId" (by decide) hpid
    rw [assign_obj] at hnb
    simp only [Option.some.injEq] at hnb
    have hid : nb.field "bookingId"
        = jsOr ((Json.obj fs).field "bookingId") (.json (.num now)) := by
      obtain ⟨j, hj⟩ := jsOr_json ((Json.obj fs).field "bookingId") (.num now)
      rw [← hnb, hj]
      exact field_assign_self fs "bookingId" j
    refine ⟨nb, ?_, hid, ?_⟩
    · rw [hf, storedBookings_bookingFile, storedBookings_bookingFile]
    · rw [hf, storedBookings_bookingFile, storedBookings_bookingFile]
      simp only [idsOf, List.map_append, List.map_cons, List.map_nil] at hnodup ⊢
      rw [hid, List.nodup_append]
      simp [hnodup]

/-- C9 as amended, on the store holding `bookingId` 1 and a request without a
`bookingId` handled at time 99. -/
theorem postBooking_ids_distinct_iff_witness :
    ∃ nb, storedBookings (bookingFile ([juneBooking] ++
          [storedBooking 99 (requestFields 7 "2024-06-16" "2024-06-20")]))
        = [juneBooking] ++ [nb] ∧
      nb.field "bookingId"
        = jsOr ((mkRequest 7 "2024-06-16" "2024-06-20").field "bookingId") (.json (.num 99)) ∧
      ((idsOf "bookingId" (storedBookings (bookingFile ([juneBooking] ++
          [storedBooking 99 (requestFields 7 "2024-06-16" "2024-06-20")])))).Nodup ↔
        jsOr ((mkRequest 7 "2024-06-16" "2024-06-20").field "bookingId") (.json (.num 99))
          ∉ idsOf "bookingId" [juneBooking]) :=
  postBooking_ids_distinct_iff isoRuntime 99 [juneBooking]
    (mkRequest 7 "2024-06-16" "2024-06-20")
    (savedReply (storedBooking 99 (requestFields 7 "2024-06-16" "2024-06-20")))
    (bookingFile ([juneBooking] ++
      [storedBooking 99 (requestFields 7 "2024-06-16" "2024-06-20")]))
    (by simp [idsOf]) rfl rfl

/-! ## Adding a property -/

theorem lookupField_foldl_assign_ne (k : String) (kvs : List (String × JsVal)) :
    ∀ init : List (String × Json), (∀ kv ∈ kvs, k ≠ kv.1) →
    lookupField k (kvs.foldl (fun acc kv => assignField kv.1 kv.2 acc) init)
      = lookupField k init := by
  induction kvs with
  | nil => intro init _; rfl
  | cons kv rest ih =>
    intro init h
    rw [List.foldl_cons, ih _ (fun x hx => h x (List.mem_cons_of_mem _ hx)),
      lookupField_assignField_ne k kv.1 kv.2 init (h kv (List.mem_cons_self _ _))]

theorem mkObj_head_field (k : String) (j : Json) (rest : List (String × JsVal))
    (h : ∀ kv ∈ rest, k ≠ kv.1) : (mkObj ((k, .json j) :: rest)).field k = .json j := by
  have hl : lookupField k
      (rest.foldl (fun acc kv => assignField kv.1 kv.2 acc) (assignField k (.json j) []))
      = some j := by
    rw [lookupField_foldl_assign_ne k rest _ h]
    simp [assignField, setField, lookupField]
  show (match lookupField k
      (rest.foldl (fun acc kv => assignField kv.1 kv.2 acc) (assignField k (.json j) [])) with
    | some v => JsVal.json v
    | none => JsVal.undefined) = JsVal.json j
  rw [hl]

theorem newProperty_id (j : Json) (n : HostController.Normalized) :
    (HostController.newProperty (.json j) n).field "propertyId" = .json j := by
  unfold HostController.newProperty
  refine mkObj_head_field "propertyId" j _ ?_
  intro kv hkv
  simp only [List.mem_cons, List.mem_singleton, List.not_mem_nil, or_false] at hkv
  rcases hkv with h | h | h | h | h | h | h | h | h | h | h | h | h | h | h | h | h | h | h
    <;> rw [h] <;> simp

theorem response_success (b : Bool) (m : String) (d : Json) :
    (HostController.response b m d).field "success" = .json (.bool b) := by
  simp [HostController.response, Json.field, lookupField]

/-- A successful `addProperty` on a well-formed file: the identifier is the one
computed from the last stored row and the new record is stored after the old
rows. -/
theorem addProperty_added (rt : JsRuntime) (v : Json) (rows : List Json) (reqBody : Json)
    (r : Reply) (f : FileState)
    (hfile : v.field "properties" = .json (.arr rows))
    (hrun : HostController.addProperty rt (.json v) reqBody = some (r, f))
    (hok : r.body.field "success" = .json (.bool true)) :
    ∃ newPropId created, HostController.nextPropertyId rt rows = some newPropId ∧
      (∀ j, newPropId = .json j → created.field "propertyId" = .json j) ∧
      r.body = HostController.response true "Property Added Successfully" created ∧
      storedProperties f = rows ++ [created] := by
  obtain ⟨fs, rfl⟩ := truthy_of_field_json v "properties" _ (by decide) hfile
  have hget : (JsVal.json (Json.obj fs)).getProp? "properties" = some (.json (.arr rows)) := by
    rw [getProp_of_ne_null _ _ (by simp), hfile]
  unfold HostController.addProperty at hrun
  cases hbody : jsOr (.json reqBody) (.json (.obj [])) with
  | undefined => simp [hbody] at hrun
  | nan => simp [hbody] at hrun
  | json body =>
    simp only [hbody] at hrun
    split at hrun
    · simp only [Option.some.injEq, Prod.mk.injEq] at hrun
      rw [← hrun.1, response_success] at hok
      simp at hok
    · split at hrun
      · simp only [Option.some.injEq, Prod.mk.injEq] at hrun
        rw [← hrun.1, response_success] at hok
        simp at hok
      · split at hrun
        · simp only [Option.some.injEq, Prod.mk.injEq] at hrun
          rw [← hrun.1, response_success] at hok
          simp at hok
        · split at hrun
          · simp only [Option.some.injEq, Prod.mk.injEq] at hrun
            rw [← hrun.1, response_success] at hok
            simp at hok
          · split at hrun
            · simp only [Option.some.injEq, Prod.mk.injEq] at hrun
              rw [← hrun.1, response_success] at hok
              simp at hok
            · split at hrun
              · simp only [Option.some.injEq, Prod.mk.injEq] at hrun
                rw [← hrun.1, response_success] at hok
                simp at hok
              · simp only [fileDb.readJson, true_or, if_true, hget] at hrun
                cases hid : HostController.nextPropertyId rt rows with
                | none => simp [hid] at hrun
                | some newPropId =>
                  simp only [hid, assign_obj, Option.some.injEq, Prod.mk.injEq] at hrun
                  obtain ⟨hr, hf⟩ := hrun
                  refine ⟨newPropId, _, rfl, fun j hj => ?_, by rw [← hr], ?_⟩
                  · rw [hj]
                    exact newProperty_id j _
                  · rw [← hf]
                    simp only [fileDb.writeJson, true_or, if_true, storedProperties]
                    rw [field_assign_self]

/-- C8, counterexample: on the stored identifiers `[3, 2]` (pairwise distinct,
maximum 3) `addProperty` succeeds and stores the new record with `propertyId`
3, the last identifier plus one, not 4; the stored identifiers `[3, 2, 3]` are
no longer pairwise distinct.  On the single stored identifier
9007199254740992 (`2 ^ 53`) the sum rounds in double precision: the new record
gets `propertyId` 9007199254740992 again. -/
theorem addProperty_uses_last_id :
    (idsOf "propertyId" [propertyRow 3, propertyRow 2]).Nodup ∧
    (HostController.addProperty isoRuntime (.json unsortedProperties) samplePropertyBody).map
        (fun p => p.1.body.field "success") = some (.json (.bool true)) ∧
    (HostController.addProperty isoRuntime (.json unsortedProperties) samplePropertyBody).map
        (fun p => idsOf "propertyId" (storedProperties p.2))
      = some [.json (.num 3), .json (.num 2), .json (.num 3)] ∧
    ¬ ([JsVal.json (.num 3), .json (.num 2), .json (.num 3)]).Nodup ∧
    (HostController.addProperty isoRuntime
        (.json (.obj [("properties", .arr [propertyRow 9007199254740992])]))
        samplePropertyBody).map (fun p => p.1.body.field "success")
      = some (.json (.bool true)) ∧
    (HostController.addProperty isoRuntime
        (.json (.obj [("properties", .arr [propertyRow 9007199254740992])]))
        samplePropertyBody).map (fun p => idsOf "propertyId" (storedProperties p.2))
      = some [.json (.num 9007199254740992), .json (.num 9007199254740992)] ∧
    ¬ ([JsVal.json (.num 9007199254740992), .json (.num 9007199254740992)]).Nodup := by
  refine ⟨?_, rfl, rfl, ?_, rfl, rfl, ?_⟩
  · have h : idsOf "propertyId" [propertyRow 3, propertyRow 2]
        = [.json (.num 3), .json (.num 2)] := rfl
    rw [h]
    simp
  · simp
  · simp

theorem nextPropertyId_of_last (rt : JsRuntime) (rows : List Json) (ids : List Int)
    (hids : idsOf "propertyId" rows = ids.map (fun n => JsVal.json (.num n))) :
    HostController.nextPropertyId rt rows
      = some (.json (.num (roundDouble (ids.getLast?.getD 0 + 1)))) := by
  have hlast := congrArg List.getLast? hids
  simp only [idsOf, List.getLast?_map] at hlast
  unfold HostController.nextPropertyId
  cases hr : rows.getLast? with
  | none =>
    rw [hr] at hlast
    cases hi : ids.getLast? with
    | none => simp [jsPlusOne, concatOperand, toNumber]
    | some n => simp [hi] at hlast
  | some last =>
    rw [hr] at hlast
    cases hi : ids.getLast? with
    | none => simp [hi] at hlast
    | some n =>
      simp only [hi, Option.map_some', Option.some.injEq] at hlast
      have hne : last ≠ Json.null := by
        intro h
        subst h
        simp [Json.field] at hlast
      simp only [getProp_of_ne_null last _ hne, hlast]
      simp [jsPlusOne, concatOperand, toNumber]

/-- The last of a list of safe integers, or 0, is a safe integer. -/
theorem getLast_safe (ids : List Int)
    (hsafe : ∀ n ∈ ids, -9007199254740991 ≤ n ∧ n ≤ 9007199254740991) :
    -9007199254740991 ≤ ids.getLast?.getD 0 ∧ ids.getLast?.getD 0 ≤ 9007199254740991 := by
  rcases List.eq_nil_or_concat ids with he | ⟨L, b, he⟩
  · subst he
    simp
  · subst he
    rw [List.concat_eq_append, List.getLast?_concat]
    simp only [Option.getD_some]
    exact hsafe b (by simp)

/-- C8 as amended.  `addProperty` computes the new identifier from the last
stored record: `propertyId` is the last record's `propertyId` plus one, and 1
on the empty collection.  When the stored identifiers are integers of magnitude
at most 9007199254740991 (`2 ^ 53 - 1`) in strictly increasing order, that is
one more than the maximum, and after a successful `addProperty` the collection
is the old one followed by the new record with identifiers again strictly
increasing and pairwise distinct. -/
theorem addProperty_next_id (rt : JsRuntime) (v : Json) (rows : List Json) (ids : List Int)
    (reqBody : Json) (r : Reply) (f : FileState)
    (hfile : v.field "properties" = .json (.arr rows))
    (hids : idsOf "propertyId" rows = ids.map (fun n => JsVal.json (.num n)))
    (hsafe : ∀ n ∈ ids, -9007199254740991 ≤ n ∧ n ≤ 9007199254740991)
    (hsorted : ids.Pairwise (fun a b => a < b))
    (hrun : HostController.addProperty rt (.json v) reqBody = some (r, f))
    (hok : r.body.field "success" = .json (.bool true)) :
    ∃ created, storedProperties f = rows ++ [created] ∧
      created.field "propertyId" = .json (.num (ids.getLast?.getD 0 + 1)) ∧
      (∀ n ∈ ids, n < ids.getLast?.getD 0 + 1) ∧
      (ids = [] ∨ ids.getLast?.getD 0 ∈ ids) ∧
      (ids ++ [ids.getLast?.getD 0 + 1]).Pairwise (fun a b => a < b) ∧
      (idsOf "propertyId" (storedProperties f)).Nodup := by
  obtain ⟨newPropId, created, hnext, hcid, -, hstored⟩ :=
    addProperty_added rt v rows reqBody r f hfile hrun hok
  rw [nextPropertyId_of_last rt rows ids hids,
    roundDouble_exact _ (by have := getLast_safe ids hsafe; omega)
      (by have := getLast_safe ids hsafe; omega)] at hnext
  simp only [Option.some.injEq] at hnext
  have hcreated := hcid _ hnext.symm
  have hbound : ∀ n ∈ ids, n < ids.getLast?.getD 0 + 1 := by
    intro n hn
    rcases List.eq_nil_or_concat ids with he | ⟨L, b, he⟩
    · subst he
      simp at hn
    · subst he
      rw [List.concat_eq_append] at hn hsorted ⊢
      rw [List.getLast?_concat]
      simp only [Option.getD_some]
      rw [List.pairwise_append] at hsorted
      rcases List.mem_append.mp hn with h | h
      · have := hsorted.2.2 n h b (List.mem_singleton_self b)
        omega
      · rw [List.mem_singleton] at h
        omega
  have hmem : ids = [] ∨ ids.getLast?.getD 0 ∈ ids := by
    rcases List.eq_nil_or_concat ids with he | ⟨L, b, he⟩
    · exact Or.inl he
    · right
      subst he
      rw [List.concat_eq_append, List.getLast?_concat]
      simp
  have hsorted2 : (ids ++ [ids.getLast?.getD 0 + 1]).Pairwise (fun a b => a < b) := by
    rw [List.pairwise_append]
    refine ⟨hsorted, List.pairwise_singleton _ _, ?_⟩
    intro a ha b hb
    rw [List.mem_singleton] at hb
    subst hb
    exact hbound a ha
  refine ⟨created, hstored, hcreated, hbound, hmem, hsorted2, ?_⟩
  have hall : idsOf "propertyId" (storedProperties f)
      = (ids ++ [ids.getLast?.getD 0 + 1]).map (fun n => JsVal.json (.num n)) := by
    rw [hstored]
    simp only [idsOf, List.map_append, List.map_cons, List.map_nil] at hids ⊢
    rw [hids, hcreated]
  rw [hall]
  refine List.Nodup.map ?_ ?_
  · intro a b hab
    simpa using hab
  · exact hsorted2.imp (fun h => ne_of_lt h)

/-- C8 as amended, on the stored identifiers `[2, 5]`: the new record gets
`propertyId` 6 and the stored identifiers become `[2, 5, 6]`. -/
theorem addProperty_next_id_witness :
    idsOf "propertyId" (storedProperties (.json (.obj [("properties",
        .arr [propertyRow 2, propertyRow 5, sampleCreated])])))
      = [.json (.num 2), .json (.num 5), .json (.num 6)] ∧
    ∃ created, storedProperties (.json (.obj [("properties",
          .arr [propertyRow 2, propertyRow 5, sampleCreated])]))
        = [propertyRow 2, propertyRow 5] ++ [created] ∧
      created.field "propertyId" = .json (.num (([2, 5] : List Int).getLast?.getD 0 + 1)) ∧
      (∀ n ∈ ([2, 5] : List Int), n < ([2, 5] : List Int).getLast?.getD 0 + 1) ∧
      (([2, 5] : List Int) = [] ∨ ([2, 5] : List Int).getLast?.getD 0 ∈ ([2, 5] : List Int)) ∧
      (([2, 5] : List Int) ++ [([2, 5] : List Int).getLast?.getD 0 + 1]).Pairwise
        (fun a b => a < b) ∧
      (idsOf "propertyId" (storedProperties (.json (.obj [("properties",
        .arr [propertyRow 2, propertyRow 5, sampleCreated])])))).Nodup :=
  ⟨rfl, addProperty_next_id isoRuntime sortedProperties [propertyRow 2, propertyRow 5] [2, 5]
    samplePropertyBody
    ⟨200, HostController.response true "Property Added Successfully" sampleCreated⟩
    (.json (.obj [("properties", .arr [propertyRow 2, propertyRow 5, sampleCreated])]))
    rfl rfl (by decide) (by decide) rfl rfl⟩

/-! ## Locating and replacing a row -/

theorem findIndexM_absent (p : Json → Option Bool) (rows : List Json)
    (h : ∀ x ∈ rows, p x = some false) : findIndexM p rows = some none := by
  induction rows with
  | nil => rfl
  | cons c rest ih =>
    rw [findIndexM, h c (List.mem_cons_self _ _)]
    simp only
    rw [ih (fun x hx => h x (List.mem_cons_of_mem _ hx))]

theorem findIndexM_found (p : Json → Option Bool) (pre : List Json) (c : Json)
    (post : List Json) (hpre : ∀ x ∈ pre, p x = some false) (hc : p c = some true) :
    findIndexM p (pre ++ c :: post) = some (some pre.length) := by
  induction pre with
  | nil =>
    rw [List.nil_append, findIndexM, hc]
    rfl
  | cons a rest ih =>
    rw [List.cons_append, findIndexM, hpre a (List.mem_cons_self _ _)]
    simp only
    rw [ih (fun x hx => hpre x (List.mem_cons_of_mem _ hx))]
    rfl

theorem findIndexM_some_inv (p : Json → Option Bool) (rows : List Json) :
    ∀ i, findIndexM p rows = some (some i) →
    ∃ pre c post, rows = pre ++ c :: post ∧ pre.length = i ∧
      (∀ x ∈ pre, p x = some false) ∧ p c = some true := by
  induction rows with
  | nil =>
    intro i h
    simp [findIndexM] at h
  | cons a rest ih =>
    intro i h
    rw [findIndexM] at h
    cases hp : p a with
    | none => simp [hp] at h
    | some b =>
      cases b with
      | true =>
        simp only [hp, Option.some.injEq] at h
        exact ⟨[], a, rest, rfl, h, by simp, hp⟩
      | false =>
        simp only [hp] at h
        cases hr : findIndexM p rest with
        | none => simp [hr] at h
        | some o =>
          cases o with
          | none => simp [hr] at h
          | some j =>
            simp only [hr, Option.some.injEq] at h
            obtain ⟨pre, c, post, hrows, hlen, hpre, hc⟩ := ih j hr
            refine ⟨a :: pre, c, post, by rw [hrows]; rfl, by simp [hlen, h], ?_, hc⟩
            intro x hx
            rcases List.mem_cons.mp hx with rfl | hx
            · exact hp
            · exact hpre x hx

theorem findIndexM_none_inv (p : Json → Option Bool) (rows : List Json)
    (h : findIndexM p rows = some none) : ∀ x ∈ rows, p x = some false := by
  induction rows with
  | nil => simp
  | cons a rest ih =>
    rw [findIndexM] at h
    cases hp : p a with
    | none => simp [hp] at h
    | some b =>
      cases b with
      | true => simp [hp] at h
      | false =>
        simp only [hp] at h
        cases hr : findIndexM p rest with
        | none => simp [hr] at h
        | some o =>
          cases o with
          | some j => simp [hr] at h
          | none =>
            intro x hx
            rcases List.mem_cons.mp hx with rfl | hx
            · exact hp
            · exact ih hr x hx

theorem getElem?_mid (pre : List Json) (c : Json) (post : List Json) :
    (pre ++ c :: post)[pre.length]? = some c := by
  induction pre with
  | nil => simp
  | cons a rest ih => simpa using ih

theorem set_mid (pre : List Json) (c d : Json) (post : List Json) :
    (pre ++ c :: post).set pre.length d = pre ++ d :: post := by
  induction pre with
  | nil => rfl
  | cons a rest ih => simp [ih]

theorem complaintIdIs_other (rt : JsRuntime) (id : Int) (c : Json)
    (h : otherComplaint rt id c) : complaintIdIs rt id c = some false := by
  unfold complaintIdIs
  rw [getProp_of_ne_null c _ h.1]
  simp [h.2]

theorem complaintIdIs_match (rt : JsRuntime) (id : Int) (fs : List (String × Json))
    (h : toNumber rt ((Json.obj fs).field "complaintId") = some id) :
    complaintIdIs rt id (.obj fs) = some true := by
  unfold complaintIdIs
  rw [getProp_of_ne_null _ _ (by simp)]
  simp [h]

theorem field_setField_ne (fs : List (String × Json)) (k k' : String) (v : Json)
    (h : k ≠ k') : (Json.obj (setField k' v fs)).field k = (Json.obj fs).field k := by
  simp only [Json.field]
  rw [lookupField_setField_ne k k' v fs h]

theorem field_setField_self (fs : List (String × Json)) (k : String) (v : Json) :
    (Json.obj (setField k v fs)).field k = .json v := by
  simp only [Json.field]
  rw [lookupField_setField_self]

/-! ## Resolving a complaint -/

theorem jsOr_arr (rows : List Json) (d : JsVal) :
    (jsOr (.json (.arr rows)) d).asArray? = some rows := by
  simp [jsOr, JsVal.truthy, Json.truthy, JsVal.asArray?]

/-- C11. `PATCH /api/complaints/:id/resolve` for an admin caller and a numeric
id on a well-formed complaints file.  When no stored complaint has that
`complaintId` the response is `404 Complaint not found` and the file is as it
was.  Otherwise the first complaint with that `complaintId` gets
`complaintStatus` `closed` and `resolvedOn` today; every other field of it,
`complaintId` included, every other complaint, the order of the sequence and
the other keys of the document are unchanged, and the response carries the
updated record. -/
theorem resolveComplaint_updates_two_fields (rt : JsRuntime) (today : String)
    (top : List (String × Json)) (rows : List Json) (req : ComplaintRequest)
    (uid id : Int)
    (hfile : (Json.obj top).field "complaints" = .json (.arr rows))
    (hadmin : requireUser rt req = .ok (uid, "admin"))
    (hid : rt.stringToNumber req.idParam = some id) :
    ((∀ c ∈ rows, otherComplaint rt id c) →
      resolveComplaint rt today (.json (.obj top)) req
        = (⟨404, errorBody "Complaint not found"⟩, .json (.obj top))) ∧
    (∀ pre fs post, rows = pre ++ Json.obj fs :: post →
      (∀ c ∈ pre, otherComplaint rt id c) →
      toNumber rt ((Json.obj fs).field "complaintId") = some id →
      ∃ f, resolveComplaint rt today (.json (.obj top)) req = (⟨200, resolvedRow today fs⟩, f) ∧
        storedComplaints f = pre ++ resolvedRow today fs :: post ∧
        (resolvedRow today fs).field "complaintStatus" = .json (.str "closed") ∧
        (resolvedRow today fs).field "resolvedOn" = .json (.str today) ∧
        (∀ k, k ≠ "complaintStatus" → k ≠ "resolvedOn" →
          (resolvedRow today fs).field k = (Json.obj fs).field k) ∧
        ∃ top1, f = .json (.obj top1) ∧
          ∀ k, k ≠ "complaints" → (Json.obj top1).field k = (Json.obj top).field k) := by
  have hread := storageHandler_readStorage_eq (.obj top) rows hfile
  constructor
  · intro hnone
    have hfind := findIndexM_absent (complaintIdIs rt id) rows
      (fun c hc => complaintIdIs_other rt id c (hnone c hc))
    unfold resolveComplaint
    simp only [hadmin, hid, hread, hfile, jsOr_arr, hfind, ne_eq, not_true_eq_false, if_false]
  · intro pre fs post hrows hpre hmatch
    have hfind := findIndexM_found (complaintIdIs rt id) pre (.obj fs) post
      (fun c hc => complaintIdIs_other rt id c (hpre c hc)) (complaintIdIs_match rt id fs hmatch)
    refine ⟨.json (.obj (setField "complaints"
      (.arr (pre ++ resolvedRow today fs :: post)) top)), ?_, ?_, ?_, ?_, ?_, ?_⟩
    · unfold resolveComplaint
      simp only [hadmin, hid, hread, hfile, jsOr_arr, hrows, hfind, getElem?_mid, assign_obj,
        set_mid, assignField, ne_eq, not_true_eq_false, if_false]
      rfl
    · simp only [storedComplaints]
      rw [field_setField_self]
    · unfold resolvedRow
      rw [field_setField_ne _ _ _ _ (by decide), field_setField_self]
    · unfold resolvedRow
      rw [field_setField_self]
    · intro k h1 h2
      unfold resolvedRow
      rw [field_setField_ne _ _ _ _ h2, field_setField_ne _ _ _ _ h1]
    · exact ⟨_, rfl, fun k hk => field_setField_ne _ _ _ _ hk⟩

/-- C11 on the complaints 3, 5 and 4: an admin resolving complaint 9 gets the
`404` and the file stays; resolving complaint 5 rewrites only the second row. -/
theorem resolveComplaint_updates_two_fields_witness :
    resolveComplaint isoRuntime "2024-06-01"
        (.json (complaintsDoc [mkComplaint 3 42 "active" "", mkComplaint 5 43 "active" "",
          mkComplaint 4 42 "active" ""])) (mkComplaintRequest "1" "admin" "5")
      = (⟨200, mkComplaint 5 43 "closed" "2024-06-01"⟩,
          .json (complaintsDoc [mkComplaint 3 42 "active" "",
            mkComplaint 5 43 "closed" "2024-06-01", mkComplaint 4 42 "active" ""])) ∧
    (resolveComplaint isoRuntime "2024-06-01"
        (.json (.obj [("complaints", .arr [mkComplaint 3 42 "active" "",
          mkComplaint 5 43 "active" "", mkComplaint 4 42 "active" ""])]))
        (mkComplaintRequest "1" "admin" "9")
      = (⟨404, errorBody "Complaint not found"⟩,
          .json (.obj [("complaints", .arr [mkComplaint 3 42 "active" "",
            mkComplaint 5 43 "active" "", mkComplaint 4 42 "active" ""])]))) := by
  refine ⟨rfl, ?_⟩
  refine (resolveComplaint_updates_two_fields isoRuntime "2024-06-01"
    [("complaints", .arr [mkComplaint 3 42 "active" "", mkComplaint 5 43 "active" "",
      mkComplaint 4 42 "active" ""])]
    [mkComplaint 3 42 "active" "", mkComplaint 5 43 "active" "", mkComplaint 4 42 "active" ""]
    (mkComplaintRequest "1" "admin" "9") 1 9 rfl rfl rfl).1 ?_
  intro c hc
  simp only [List.mem_cons, List.mem_singleton, List.not_mem_nil, or_false] at hc
  rcases hc with rfl | rfl | rfl
  · exact ⟨by simp [mkComplaint], by decide⟩
  · exact ⟨by simp [mkComplaint], by decide⟩
  · exact ⟨by simp [mkComplaint], by decide⟩

/-! ## Soft-deleting a complaint -/

theorem softDeleteComplaint_admin (rt : JsRuntime) (file : FileState) (req : ComplaintRequest)
    (uid : Int) (huser : requireUser rt req = .ok (uid, "admin")) :
    softDeleteComplaint rt file req
      = (⟨403, errorBody "admin users cannot delete complaints"⟩, file) := by
  unfold softDeleteComplaint
  simp [huser]

theorem softDeleteComplaint_absent (rt : JsRuntime) (top : List (String × Json))
    (rows : List Json) (req : ComplaintRequest) (uid id : Int) (role : String)
    (hfile : (Json.obj top).field "complaints" = .json (.arr rows))
    (huser : requireUser rt req = .ok (uid, role)) (hrole : role ≠ "admin")
    (hid : rt.stringToNumber req.idParam = some id)
    (hnone : ∀ c ∈ rows, otherComplaint rt id c) :
    softDeleteComplaint rt (.json (.obj top)) req
      = (⟨404, errorBody "Complaint not found"⟩, .json (.obj top)) := by
  have hread := storageHandler_readStorage_eq (.obj top) rows hfile
  have hfind := findIndexM_absent (complaintIdIs rt id) rows
    (fun c hc => complaintIdIs_other rt id c (hnone c hc))
  unfold softDeleteComplaint
  simp only [huser, hid, hread, hfile, jsOr_arr, hfind, hrole, if_false]

theorem softDeleteComplaint_foreign (rt : JsRuntime) (top : List (String × Json))
    (rows pre : List Json) (fs : List (String × Json)) (post : List Json)
    (req : ComplaintRequest) (uid id : Int) (role : String)
    (hfile : (Json.obj top).field "complaints" = .json (.arr rows))
    (huser : requireUser rt req = .ok (uid, role)) (hrole : role ≠ "admin")
    (hid : rt.stringToNumber req.idParam = some id)
    (hfirst : firstComplaint rt id rows pre fs post)
    (howner : toNumber rt ((Json.obj fs).field "userId") ≠ some uid) :
    softDeleteComplaint rt (.json (.obj top)) req
      = (⟨403, errorBody "You can only delete your own complaints"⟩, .json (.obj top)) := by
  obtain ⟨hrows, hpre, hmatch⟩ := hfirst
  have hread := storageHandler_readStorage_eq (.obj top) rows hfile
  have hfind := findIndexM_found (complaintIdIs rt id) pre (.obj fs) post
    (fun c hc => complaintIdIs_other rt id c (hpre c hc)) (complaintIdIs_match rt id fs hmatch)
  unfold softDeleteComplaint
  simp only [huser, hid, hread, hfile, jsOr_arr, hrows, hfind, getElem?_mid, hrole, if_false,
    ne_eq, howner, not_false_eq_true, if_true]

theorem softDeleteComplaint_own (rt : JsRuntime) (top : List (String × Json))
    (rows pre : List Json) (fs : List (String × Json)) (post : List Json)
    (req : ComplaintRequest) (uid id : Int) (role : String)
    (hfile : (Json.obj top).field "complaints" = .json (.arr rows))
    (huser : requireUser rt req = .ok (uid, role)) (hrole : role ≠ "admin")
    (hid : rt.stringToNumber req.idParam = some id)
    (hfirst : firstComplaint rt id rows pre fs post)
    (howner : toNumber rt ((Json.obj fs).field "userId") = some uid) :
    softDeleteComplaint rt (.json (.obj top)) req
      = (⟨200, deletedRow fs⟩,
          .json (.obj (setField "complaints" (.arr (pre ++ deletedRow fs :: post)) top))) := by
  obtain ⟨hrows, hpre, hmatch⟩ := hfirst
  have hread := storageHandler_readStorage_eq (.obj top) rows hfile
  have hfind := findIndexM_found (complaintIdIs rt id) pre (.obj fs) post
    (fun c hc => complaintIdIs_other rt id c (hpre c hc)) (complaintIdIs_match rt id fs hmatch)
  unfold softDeleteComplaint
  simp only [huser, hid, hread, hfile, jsOr_arr, hrows, hfind, getElem?_mid, hrole, if_false,
    ne_eq, howner, not_true_eq_false, assign_obj, set_mid, assignField]
  rfl

/-- On a collection of records either no complaint has the identifier `id`, or
there is a first one. -/
theorem first_complaint_or_none (rt : JsRuntime) (id : Int) (rows : List Json)
    (hrows : ∀ c ∈ rows, c ≠ Json.null) :
    (∀ c ∈ rows, otherComplaint rt id c) ∨ ∃ pre fs post, firstComplaint rt id rows pre fs post := by
  induction rows with
  | nil => exact Or.inl (by simp)
  | cons a rest ih =>
    have ha : a ≠ Json.null := hrows a (List.mem_cons_self _ _)
    by_cases hm : toNumber rt (a.field "complaintId") = some id
    · right
      have hobj : ∃ fs, a = Json.obj fs := by
        cases a <;> simp [Json.field, toNumber] at hm ⊢
      obtain ⟨fs, rfl⟩ := hobj
      exact ⟨[], fs, rest, rfl, by simp, hm⟩
    · rcases ih (fun c hc => hrows c (List.mem_cons_of_mem _ hc)) with hall | ⟨pre, fs, post, h1, h2, h3⟩
      · left
        intro c hc
        rcases List.mem_cons.mp hc with rfl | hc
        · exact ⟨ha, hm⟩
        · exact hall c hc
      · right
        refine ⟨a :: pre, fs, post, by rw [h1]; rfl, ?_, h3⟩
        intro c hc
        rcases List.mem_cons.mp hc with rfl | hc
        · exact ⟨ha, hm⟩
        · exact h2 c hc

theorem firstComplaint_unique (rt : JsRuntime) (id : Int) (rows pre pre2 : List Json)
    (fs fs2 : List (String × Json)) (post post2 : List Json)
    (h1 : firstComplaint rt id rows pre fs post) (h2 : firstComplaint rt id rows pre2 fs2 post2) :
    fs = fs2 := by
  obtain ⟨e1, p1, m1⟩ := h1
  obtain ⟨e2, p2, m2⟩ := h2
  rw [e1] at e2
  clear e1
  induction pre generalizing pre2 with
  | nil =>
    cases pre2 with
    | nil =>
      simp only [List.nil_append, List.cons.injEq, Json.obj.injEq] at e2
      exact e2.1
    | cons b rest2 =>
      simp only [List.nil_append, List.cons_append, List.cons.injEq] at e2
      have := (p2 b (List.mem_cons_self _ _)).2
      rw [← e2.1] at this
      exact absurd m1 this
  | cons a rest ih =>
    cases pre2 with
    | nil =>
      simp only [List.nil_append, List.cons_append, List.cons.injEq] at e2
      have := (p1 a (List.mem_cons_self _ _)).2
      rw [e2.1] at this
      exact absurd m2 this
    | cons b rest2 =>
      simp only [List.cons_append, List.cons.injEq] at e2
      apply ih rest2
      · exact fun c hc => p1 c (List.mem_cons_of_mem _ hc)
      · exact e2.2
      · exact fun c hc => p2 c (List.mem_cons_of_mem _ hc)

theorem not_owns_of_absent (rt : JsRuntime) (id uid : Int) (rows : List Json)
    (hnone : ∀ c ∈ rows, otherComplaint rt id c) : ¬ ownsComplaint rt id uid rows := by
  rintro ⟨pre, fs, post, ⟨hrows, -, hmatch⟩, -⟩
  have hmem : Json.obj fs ∈ rows := by
    rw [hrows]
    simp
  exact (hnone _ hmem).2 hmatch

/-- C18. `PATCH /api/complaints/:id/delete` on a well-formed file of complaint
records, for a caller that passed the header check and a numeric id.  The
handler applies the soft-delete (answers `200` and stores the collection with
that complaint's `complaintStatus` set to `deleted`) exactly when the role is
not `admin` and the first stored complaint with that `complaintId` has the
caller's `userId`; an admin gets `403`, an unknown id `404`, another user's
complaint `403`, and in each of these cases, as for every response other than
`200`, the file stays as it was. -/
theorem softDeleteComplaint_only_owner (rt : JsRuntime) (top : List (String × Json))
    (rows : List Json) (req : ComplaintRequest) (uid id : Int) (role : String)
    (hfile : (Json.obj top).field "complaints" = .json (.arr rows))
    (huser : requireUser rt req = .ok (uid, role))
    (hid : rt.stringToNumber req.idParam = some id)
    (hrows : ∀ c ∈ rows, c ≠ Json.null) :
    ((softDeleteComplaint rt (.json (.obj top)) req).1.status = 200 ↔
      role ≠ "admin" ∧ ownsComplaint rt id uid rows) ∧
    (role ≠ "admin" → ∀ pre fs post, firstComplaint rt id rows pre fs post →
      toNumber rt ((Json.obj fs).field "userId") = some uid →
      softDeleteComplaint rt (.json (.obj top)) req = (⟨200, deletedRow fs⟩,
        .json (.obj (setField "complaints" (.arr (pre ++ deletedRow fs :: post)) top)))) ∧
    (role = "admin" → softDeleteComplaint rt (.json (.obj top)) req
      = (⟨403, errorBody "admin users cannot delete complaints"⟩, .json (.obj top))) ∧
    (role ≠ "admin" → (∀ c ∈ rows, otherComplaint rt id c) →
      softDeleteComplaint rt (.json (.obj top)) req
        = (⟨404, errorBody "Complaint not found"⟩, .json (.obj top))) ∧
    (role ≠ "admin" → ∀ pre fs post, firstComplaint rt id rows pre fs post →
      toNumber rt ((Json.obj fs).field "userId") ≠ some uid →
      softDeleteComplaint rt (.json (.obj top)) req
        = (⟨403, errorBody "You can only delete your own complaints"⟩, .json (.obj top))) ∧
    ((softDeleteComplaint rt (.json (.obj top)) req).1.status ≠ 200 →
      (softDeleteComplaint rt (.json (.obj top)) req).2 = .json (.obj top)) := by
  have hown := fun hrole pre fs post hfirst howner =>
    softDeleteComplaint_own rt top rows pre fs post req uid id role hfile huser hrole hid
      hfirst howner
  have hforeign := fun hrole pre fs post hfirst howner =>
    softDeleteComplaint_foreign rt top rows pre fs post req uid id role hfile huser hrole hid
      hfirst howner
  have habsent := fun hrole hnone =>
    softDeleteComplaint_absent rt top rows req uid id role hfile huser hrole hid hnone
  have hadmin : role = "admin" → softDeleteComplaint rt (.json (.obj top)) req
      = (⟨403, errorBody "admin users cannot delete complaints"⟩, .json (.obj top)) := by
    intro h
    subst h
    exact softDeleteComplaint_admin rt _ req uid huser
  refine ⟨?_, hown, hadmin, habsent, hforeign, ?_⟩
  · by_cases hrole : role = "admin"
    · rw [hadmin hrole]
      simp [hrole]
    · rcases first_complaint_or_none rt id rows hrows with hnone | ⟨pre, fs, post, hfirst⟩
      · rw [habsent hrole hnone]
        simp [not_owns_of_absent rt id uid rows hnone]
      · by_cases howner : toNumber rt ((Json.obj fs).field "userId") = some uid
        · rw [hown hrole pre fs post hfirst howner]
          simp only [true_iff]
          exact ⟨hrole, pre, fs, post, hfirst, howner⟩
        · rw [hforeign hrole pre fs post hfirst howner]
          simp only [Nat.reduceEqDiff, false_iff, not_and]
          rintro - ⟨pre2, fs2, post2, hfirst2, howner2⟩
          have := firstComplaint_unique rt id rows pre pre2 fs fs2 post post2 hfirst hfirst2
          subst this
          exact howner howner2
  · by_cases hrole : role = "admin"
    · rw [hadmin hrole]
      simp
    · rcases first_complaint_or_none rt id rows hrows with hnone | ⟨pre, fs, post, hfirst⟩
      · rw [habsent hrole hnone]
        simp
      · by_cases howner : toNumber rt ((Json.obj fs).field "userId") = some uid
        · rw [hown hrole pre fs post hfirst howner]
          simp
        · rw [hforeign hrole pre fs post hfirst howner]
          simp

/-- C18 on the complaints 3 (user 42), 5 (user 43) and 4 (user 42): host 43
soft-deletes complaint 5; client 42, an admin and an unknown id change
nothing. -/
theorem softDeleteComplaint_only_owner_witness :
    softDeleteComplaint isoRuntime (.json (complaintsDoc [mkComplaint 3 42 "active" "",
        mkComplaint 5 43 "active" "", mkComplaint 4 42 "active" ""]))
        (mkComplaintRequest "43" "host" "5")
      = (⟨200, mkComplaint 5 43 "deleted" ""⟩,
          .json (complaintsDoc [mkComplaint 3 42 "active" "", mkComplaint 5 43 "deleted" "",
            mkComplaint 4 42 "active" ""])) ∧
    ((softDeleteComplaint isoRuntime (.json (.obj [("complaints",
        .arr [mkComplaint 3 42 "active" "", mkComplaint 5 43 "active" "",
          mkComplaint 4 42 "active" ""])])) (mkComplaintRequest "42" "client" "5")).1.status
        ≠ 200 →
      (softDeleteComplaint isoRuntime (.json (.obj [("complaints",
        .arr [mkComplaint 3 42 "active" "", mkComplaint 5 43 "active" "",
          mkComplaint 4 42 "active" ""])])) (mkComplaintRequest "42" "client" "5")).2
        = .json (.obj [("complaints", .arr [mkComplaint 3 42 "active" "",
            mkComplaint 5 43 "active" "", mkComplaint 4 42 "active" ""])])) ∧
    (softDeleteComplaint isoRuntime (.json (.obj [("complaints",
        .arr [mkComplaint 3 42 "active" "", mkComplaint 5 43 "active" "",
          mkComplaint 4 42 "active" ""])])) (mkComplaintRequest "42" "client" "5")).1.status
      = 403 :=
  ⟨rfl,
    (softDeleteComplaint_only_owner isoRuntime
      [("complaints", .arr [mkComplaint 3 42 "active" "", mkComplaint 5 43 "active" "",
        mkComplaint 4 42 "active" ""])]
      [mkComplaint 3 42 "active" "", mkComplaint 5 43 "active" "", mkComplaint 4 42 "active" ""]
      (mkComplaintRequest "42" "client" "5") 42 5 "client" rfl rfl rfl
      (by simp [mkComplaint])).2.2.2.2.2,
    by decide⟩

/-! ## Removing rows -/

theorem keepOtherBookings_eq_filter (id : JsVal) (rows : List Json)
    (h : ∀ b ∈ rows, b ≠ Json.null) :
    keepOtherBookings id rows
      = some (rows.filter (fun b => !strictEq (b.field "bookingId") id)) := by
  induction rows with
  | nil => rfl
  | cons b rest ih =>
    rw [keepOtherBookings, getProp_of_ne_null b _ (h b (List.mem_cons_self _ _)),
      ih (fun x hx => h x (List.mem_cons_of_mem _ hx))]
    by_cases hb : strictEq (b.field "bookingId") id = true
    · simp [List.filter, hb]
    · simp [List.filter, hb]

theorem keepOtherNotifications_eq_filter (id : JsVal) (rows : List Json)
    (h : ∀ b ∈ rows, b ≠ Json.null) :
    keepOtherNotifications id rows
      = some (rows.filter (fun b => !strictEq (b.field "notificationId") id)) := by
  induction rows with
  | nil => rfl
  | cons b rest ih =>
    rw [keepOtherNotifications, getProp_of_ne_null b _ (h b (List.mem_cons_self _ _)),
      ih (fun x hx => h x (List.mem_cons_of_mem _ hx))]
    by_cases hb : strictEq (b.field "notificationId") id = true
    · simp [List.filter, hb]
    · simp [List.filter, hb]

theorem deleteBooking_eval (rt : JsRuntime) (rows : List Json) (idParam : String)
    (h : ∀ b ∈ rows, b ≠ Json.null) :
    deleteBooking rt (bookingFile rows) idParam
      = some (⟨200, messageBody "Booking deleted"⟩,
          bookingFile (rows.filter
            (fun b => !strictEq (b.field "bookingId") (ofNumber (rt.parseInt idParam))))) := by
  have h1 : (JsVal.json (readJSON (bookingFile rows))).getProp? "bookings"
      = some (.json (.arr rows)) := by
    simp [bookingFile, readJSON, JsVal.getProp?, Json.field, lookupField]
  unfold deleteBooking
  simp only [h1, jsOr_arr, keepOtherBookings_eq_filter _ rows h]
  rfl

/-- C15. `DELETE /bookings/:id` on a stored sequence of booking records: the
stored sequence afterwards is the previous one without the bookings whose
`bookingId` is the number `parseInt(id)` (under `===`), the others unchanged
and in their order.  `DELETE /api/notifications/:id` does the same on
`notificationId` with the number `Number(id)`. -/
theorem delete_removes_matching_rows (rt : JsRuntime) (bookings notifications : List Json)
    (top : List (String × Json)) (idParam : String)
    (hb : ∀ b ∈ bookings, b ≠ Json.null) (hn : ∀ n ∈ notifications, n ≠ Json.null)
    (hfile : (Json.obj top).field "notification" = .json (.arr notifications)) :
    (∃ f, deleteBooking rt (bookingFile bookings) idParam
        = some (⟨200, messageBody "Booking deleted"⟩, f) ∧
      storedBookings f = bookings.filter
        (fun b => !strictEq (b.field "bookingId") (ofNumber (rt.parseInt idParam)))) ∧
    (∃ f, deleteNotification rt (.json (.obj top)) idParam
        = (⟨200, messageBody "Notification deleted"⟩, f) ∧
      storedNotifications f = notifications.filter
        (fun n => !strictEq (n.field "notificationId")
          (ofNumber (rt.stringToNumber idParam)))) := by
  constructor
  · exact ⟨_, deleteBooking_eval rt bookings idParam hb, storedBookings_bookingFile _⟩
  · have hread := notificationHandler_readStorage_eq (.obj top) notifications hfile
    refine ⟨.json (.obj (setField "notification" (.arr (notifications.filter
      (fun n => !strictEq (n.field "notificationId")
        (ofNumber (rt.stringToNumber idParam))))) top)), ?_, ?_⟩
    · unfold deleteNotification
      simp only [hread, hfile, JsVal.asArray?,
        keepOtherNotifications_eq_filter _ notifications hn, assign_obj, assignField]
      rfl
    · simp only [storedNotifications]
      rw [field_setField_self]

/-- C15 on the bookings 1 and 2 and the notifications 2 and 7: deleting booking
2 leaves booking 1, deleting notification 2 leaves notification 7. -/
theorem delete_removes_matching_rows_witness :
    deleteBooking isoRuntime (bookingFile [juneBooking, laterBooking]) "2"
      = some (⟨200, messageBody "Booking deleted"⟩, bookingFile [juneBooking]) ∧
    deleteNotification isoRuntime (.json sampleNotifications) "2"
      = (⟨200, messageBody "Notification deleted"⟩,
          .json (.obj [("notification", .arr [notificationRow 7])])) ∧
    ((∃ f, deleteBooking isoRuntime (bookingFile [juneBooking, laterBooking]) "2"
        = some (⟨200, messageBody "Booking deleted"⟩, f) ∧
      storedBookings f = [juneBooking, laterBooking].filter
        (fun b => !strictEq (b.field "bookingId") (ofNumber (isoRuntime.parseInt "2")))) ∧
    (∃ f, deleteNotification isoRuntime
        (.json (.obj [("notification", .arr [notificationRow 2, notificationRow 7])])) "2"
        = (⟨200, messageBody "Notification deleted"⟩, f) ∧
      storedNotifications f = [notificationRow 2, notificationRow 7].filter
        (fun n => !strictEq (n.field "notificationId")
          (ofNumber (isoRuntime.stringToNumber "2"))))) :=
  ⟨rfl, rfl, delete_removes_matching_rows isoRuntime [juneBooking, laterBooking]
    [notificationRow 2, notificationRow 7]
    [("notification", .arr [notificationRow 2, notificationRow 7])] "2"
    (by simp [juneBooking, laterBooking, mkBooking]) (by simp [notificationRow]) rfl⟩

/-- C16, counterexample: on the store holding booking 1, `DELETE /bookings/2`
(no such booking) and `DELETE /bookings/1` (the booking is removed) return the
same response `200 Booking deleted`; and `DELETE /bookings/2` on a missing
file writes the file `{ bookings: [] }`. -/
theorem deleteBooking_absent_same_reply :
    replyOf (deleteBooking isoRuntime (bookingFile [juneBooking]) "2")
      = replyOf (deleteBooking isoRuntime (bookingFile [juneBooking]) "1") ∧
    deleteBooking isoRuntime (bookingFile [juneBooking]) "2"
      = some (⟨200, messageBody "Booking deleted"⟩, bookingFile [juneBooking]) ∧
    deleteBooking isoRuntime (bookingFile [juneBooking]) "1"
      = some (⟨200, messageBody "Booking deleted"⟩, bookingFile []) ∧
    deleteBooking isoRuntime .missing "2"
      = some (⟨200, messageBody "Booking deleted"⟩, bookingFile []) ∧
    FileState.missing ≠ bookingFile [] := by
  refine ⟨rfl, rfl, rfl, rfl, ?_⟩
  intro h
  simp [bookingFile] at h

/-- C16 as amended.  `DELETE /bookings/:id` has no "not removed" result: for
every stored sequence of booking records and every id that no stored booking
has, the response is `200 Booking deleted`, the same response as for any other
stored sequence and id (one that is removed included), and the collection
file is written back holding the same sequence. -/
theorem deleteBooking_absent_id (rt : JsRuntime) (rows : List Json) (idParam : String)
    (rows2 : List Json) (idParam2 : String)
    (hrows : ∀ b ∈ rows, b ≠ Json.null)
    (habsent : ∀ b ∈ rows,
      strictEq (b.field "bookingId") (ofNumber (rt.parseInt idParam)) = false)
    (hrows2 : ∀ b ∈ rows2, b ≠ Json.null) :
    deleteBooking rt (bookingFile rows) idParam
      = some (⟨200, messageBody "Booking deleted"⟩,
          writeJSON (.obj [("bookings", .arr rows)])) ∧
    replyOf (deleteBooking rt (bookingFile rows2) idParam2)
      = replyOf (deleteBooking rt (bookingFile rows) idParam) := by
  constructor
  · rw [deleteBooking_eval rt rows idParam hrows]
    have hfilter : rows.filter
        (fun b => !strictEq (b.field "bookingId") (ofNumber (rt.parseInt idParam))) = rows := by
      rw [List.filter_eq_self]
      intro b hb
      simp [habsent b hb]
    rw [hfilter]
    rfl
  · rw [deleteBooking_eval rt rows idParam hrows, deleteBooking_eval rt rows2 idParam2 hrows2]
    rfl

/-- C16 as amended, on the store holding booking 1: the id 2 (absent) against
the id 1 (removed). -/
theorem deleteBooking_absent_id_witness :
    deleteBooking isoRuntime (bookingFile [juneBooking]) "2"
      = some (⟨200, messageBody "Booking deleted"⟩,
          writeJSON (.obj [("bookings", .arr [juneBooking])])) ∧
    replyOf (deleteBooking isoRuntime (bookingFile [juneBooking]) "1")
      = replyOf (deleteBooking isoRuntime (bookingFile [juneBooking]) "2") :=
  deleteBooking_absent_id isoRuntime [juneBooking] "2" [juneBooking] "1"
    (by simp [juneBooking, mkBooking]) (by decide) (by simp [juneBooking, mkBooking])

/-! ## Reading a file of another shape -/

theorem storageHandler_ensure_reset (v : Json) (h : ¬ isWrapper "complaints" v) :
    storageHandler.ensureStorageFile (.json v) = .json storageHandler.emptyStorage := by
  unfold storageHandler.ensureStorageFile
  by_cases hc : (!v.truthy || !isArray (v.field "complaints")) = true
  · simp only [hc, if_true]
  · exfalso
    apply h
    simp only [Bool.or_eq_true, Bool.not_eq_true', not_or, Bool.not_eq_false] at hc
    cases hf : v.field "complaints" with
    | undefined => simp [hf, isArray] at hc
    | nan => simp [hf, isArray] at hc
    | json j =>
      cases j with
      | arr rows =>
        obtain ⟨top, rfl⟩ := truthy_of_field_json v "complaints" _ (by decide) hf
        exact ⟨top, rows, rfl, hf⟩
      | null => simp [hf, isArray] at hc
      | bool b => simp [hf, isArray] at hc
      | num n => simp [hf, isArray] at hc
      | str s => simp [hf, isArray] at hc
      | obj fs => simp [hf, isArray] at hc

theorem notificationHandler_ensure_reset (v : Json) (h : ¬ isWrapper "notification" v) :
    notificationHandler.ensureStorageFile (.json v)
      = .json notificationHandler.emptyStorage := by
  simp only [notificationHandler.ensureStorageFile]
  cases hg : (JsVal.json v).getProp? "notification" with
  | none => rfl
  | some n =>
    simp only
    by_cases hc : (!n.truthy || !isArray n) = true
    · simp only [hc, if_true]
    · exfalso
      apply h
      have hv : v ≠ Json.null := by
        intro hv
        subst hv
        simp [JsVal.getProp?] at hg
      rw [getProp_of_ne_null v _ hv] at hg
      simp only [Option.some.injEq] at hg
      simp only [Bool.or_eq_true, Bool.not_eq_true', not_or, Bool.not_eq_false] at hc
      cases n with
      | undefined => simp [isArray] at hc
      | nan => simp [isArray] at hc
      | json j =>
        cases j with
        | arr rows =>
          obtain ⟨top, rfl⟩ := truthy_of_field_json v "notification" _ (by decide) hg
          exact ⟨top, rows, rfl, hg⟩
        | null => simp [isArray] at hc
        | bool b => simp [isArray] at hc
        | num n => simp [isArray] at hc
        | str s => simp [isArray] at hc
        | obj fs => simp [isArray] at hc

/-- C19, counterexample: the complaints file holds the valid JSON object
`{ "items": [1] }`; `readStorage` returns the empty collection and the file
afterwards is `{ complaints: [] }`, not what it was.  The same happens to a
top-level array, and to the notification file under
`readNotificationStorage`. -/
theorem readStorage_overwrites_other_shape :
    storageHandler.readStorage (.json (.obj [("items", .arr [.num 1])]))
      = some (storageHandler.emptyStorage, .json storageHandler.emptyStorage) ∧
    FileState.json storageHandler.emptyStorage ≠ .json (.obj [("items", .arr [.num 1])]) ∧
    storageHandler.readStorage (.json (.arr [.num 1, .num 2]))
      = some (storageHandler.emptyStorage, .json storageHandler.emptyStorage) ∧
    notificationHandler.readNotificationStorage (.json (.obj [("items", .arr [.num 1])]))
      = some (notificationHandler.emptyStorage, .json notificationHandler.emptyStorage) ∧
    FileState.json notificationHandler.emptyStorage
      ≠ .json (.obj [("items", .arr [.num 1])]) := by
  refine ⟨rfl, ?_, rfl, rfl, ?_⟩
  · simp [storageHandler.emptyStorage]
  · simp [notificationHandler.emptyStorage]

/-- C19 as amended.  A read resets a file of another shape: when the complaints
file holds valid JSON that is not an object with a `complaints` array,
`readStorage` overwrites the file with `{ complaints: [] }` and returns that
empty collection; `readNotificationStorage` does the same to the notification
file with `{ notification: [] }`. -/
theorem read_resets_other_shape (vc vn : Json)
    (hc : ¬ isWrapper "complaints" vc) (hn : ¬ isWrapper "notification" vn) :
    storageHandler.readStorage (.json vc)
      = some (storageHandler.emptyStorage, .json storageHandler.emptyStorage) ∧
    notificationHandler.readNotificationStorage (.json vn)
      = some (notificationHandler.emptyStorage, .json notificationHandler.emptyStorage) := by
  constructor
  · unfold storageHandler.readStorage
    rw [storageHandler_ensure_reset vc hc]
    rfl
  · unfold notificationHandler.readNotificationStorage
    rw [notificationHandler_ensure_reset vn hn]
    rfl

/-- C19 as amended, on a top-level array in the complaints file and an object
without a `notification` array in the notification file. -/
theorem read_resets_other_shape_witness :
    storageHandler.readStorage (.json (.arr [.num 1, .num 2]))
      = some (storageHandler.emptyStorage, .json storageHandler.emptyStorage) ∧
    notificationHandler.readNotificationStorage (.json (.obj [("notification", .str "x")]))
      = some (notificationHandler.emptyStorage, .json notificationHandler.emptyStorage) :=
  read_resets_other_shape (.arr [.num 1, .num 2]) (.obj [("notification", .str "x")])
    (by
      rintro ⟨top, rows, h, -⟩
      simp at h)
    (by
      rintro ⟨top, rows, h, hf⟩
      simp only [Json.obj.injEq] at h
      subst h
      simp [Json.field, lookupField] at hf)

/-! ## Read failures of `readJson` -/

/-- C20, counterexample: the read of `PropertyStorage.json` fails with the
permission error `EACCES`; `readJson("properties.json")` does not fail with it
but resolves to the empty default `{ properties: [] }`. -/
theorem readJson_swallows_permission_error :
    fileDb.readJsonOutcome "properties.json" (.ioError "EACCES")
      = .ok (.json (.obj [("properties", .arr [])])) ∧
    fileDb.readJsonOutcome "properties.json" (.ioError "EACCES") ≠ .error "EACCES" := by
  refine ⟨rfl, ?_⟩
  intro h
  have h2 : fileDb.readJsonOutcome "properties.json" (.ioError "EACCES")
      = .ok (.json (.obj [("properties", .arr [])])) := rfl
  rw [h2] at h
  simp at h

/-- C20 as amended.  `readJson` never fails: for each of the three collection
names and every read failure, permission and other I/O errors included, it
resolves to the empty default of that name (`{ properties: [] }`,
`{ bookings: [] }` or `{ users: [] }`), as it does for a missing file, and
whatever the read attempt `a` yields the promise resolves. -/
theorem readJson_defaults_on_every_failure (name code : String) (a : ReadAttempt)
    (hname : name = "properties.json" ∨ name = "bookings.json" ∨ name = "users.json") :
    fileDb.readJsonOutcome name (.ioError code) = .ok (fileDb.defaultFor name) ∧
    fileDb.readJsonOutcome name (.content .missing) = .ok (fileDb.defaultFor name) ∧
    (∃ v, fileDb.readJsonOutcome name a = .ok v) ∧
    (fileDb.defaultFor name = .json (.obj [("properties", .arr [])]) ∨
      fileDb.defaultFor name = .json (.obj [("bookings", .arr [])]) ∨
      fileDb.defaultFor name = .json (.obj [("users", .arr [])])) := by
  refine ⟨?_, ?_, ?_, ?_⟩
  · simp [fileDb.readJsonOutcome, hname]
  · simp [fileDb.readJsonOutcome, hname]
  · unfold fileDb.readJsonOutcome
    rw [if_pos hname]
    cases a with
    | ioError c => exact ⟨_, rfl⟩
    | content file => cases file <;> exact ⟨_, rfl⟩
  · rcases hname with h | h | h <;> subst h <;> simp [fileDb.defaultFor]

/-- C20 as amended, on `bookings.json` and the error `EIO`. -/
theorem readJson_defaults_on_every_failure_witness :
    fileDb.readJsonOutcome "bookings.json" (.ioError "EIO")
      = .ok (fileDb.defaultFor "bookings.json") ∧
    fileDb.readJsonOutcome "bookings.json" (.content .missing)
      = .ok (fileDb.defaultFor "bookings.json") ∧
    (∃ v, fileDb.readJsonOutcome "bookings.json" (.ioError "EACCES") = .ok v) ∧
    (fileDb.defaultFor "bookings.json" = .json (.obj [("properties", .arr [])]) ∨
      fileDb.defaultFor "bookings.json" = .json (.obj [("bookings", .arr [])]) ∨
      fileDb.defaultFor "bookings.json" = .json (.obj [("users", .arr [])])) :=
  readJson_defaults_on_every_failure "bookings.json" "EIO" (.ioError "EACCES") (by decide)

theorem readJsonOutcome_content (name : String) (file : FileState) :
    fileDb.readJsonOutcome name (.content file) = .ok (fileDb.readJson name file) := by
  unfold fileDb.readJsonOutcome fileDb.readJson fileDb.defaultFor
  by_cases h : name = "properties.json" ∨ name = "bookings.json" ∨ name = "users.json"
  · rw [if_pos h, if_pos h]
    cases file <;> simp only
    all_goals
      by_cases h1 : name = "properties.json"
      · simp [h1]
      · by_cases h2 : name = "bookings.json"
        · simp [h2]
        · have h3 : name = "users.json" := by tauto
          simp [h3]
  · rw [if_neg h, if_neg h]

/-! ## Updating a property -/

/-- C12, evaluation at the failing input: the stored property 1 has
`propertyStatus` `DELETED`, 3 rooms, 2 bathrooms and 4 guests; the update whose
body carries only `propertyId` and `propertyName` succeeds and stores
`propertyStatus` `AVAILABLE`, 1 room, 1 bathroom and 1 guest, while
`propertyId`, `pricePerDay` and the address keep their values. -/
theorem updateProperty_resets_omitted_fields :
    (mkProperty 1 3 "Sea view flat" "DELETED").field "propertyStatus" = .json (.str "DELETED") ∧
    (mkProperty 1 3 "Sea view flat" "DELETED").field "noOfRooms" = .json (.num 3) ∧
    renameRequest.field "propertyStatus" = .undefined ∧
    renameRequest.field "noOfRooms" = .undefined ∧
    HostController.updateProperty isoRuntime "2024-06-01"
        (.json (propertiesDoc [mkProperty 1 3 "Sea view flat" "DELETED"])) (bookingFile [])
        renameRequest
      = some (⟨200, HostController.response true "Property Updated Successfully"
          renamedProperty⟩, .json (propertiesDoc [renamedProperty])) ∧
    renamedProperty.field "propertyStatus" = .json (.str "AVAILABLE") ∧
    renamedProperty.field "noOfRooms" = .json (.num 1) ∧
    renamedProperty.field "noOfBathrooms" = .json (.num 1) ∧
    renamedProperty.field "maxNoOfGuests" = .json (.num 1) ∧
    renamedProperty.field "propertyId" = .json (.num 1) ∧
    renamedProperty.field "pricePerDay" = .json (.num 1500) :=
  ⟨rfl, rfl, rfl, rfl, rfl, rfl, rfl, rfl, rfl, rfl, rfl⟩

/-! ## The users file -/

theorem setField_same (k : String) (v : Json) (fs : List (String × Json))
    (h : lookupField k fs = some v) : setField k v fs = fs := by
  induction fs with
  | nil => simp [lookupField] at h
  | cons p rest ih =>
    obtain ⟨a, w⟩ := p
    by_cases ha : a = k
    · subst ha
      simp only [lookupField, if_true, Option.some.injEq] at h
      subst h
      simp [setField]
    · simp only [lookupField, ha, if_false] at h
      simp [setField, ha, ih h]

theorem forall₂_set {R S : Json → Json → Prop} (l l1 : List Json)
    (h : List.Forall₂ R l l1) (himp : ∀ x y, R x y → S x y) :
    ∀ (idx : Nat) (a old : Json), l1[idx]? = some old → (∀ x, R x old → S x a) →
      List.Forall₂ S l (l1.set idx a) := by
  induction h with
  | nil =>
    intro idx a old hold
    simp at hold
  | cons hhead htail ih =>
    intro idx a old hold hR
    cases idx with
    | zero =>
      simp only [List.getElem?_cons_zero, Option.some.injEq] at hold
      subst hold
      exact List.Forall₂.cons (hR _ hhead) (htail.imp himp)
    | succ n =>
      simp only [List.getElem?_cons_succ] at hold
      exact List.Forall₂.cons (himp _ _ hhead) (ih n a old hold hR)

theorem normalizeIdsFrom_objects (nowAt : Nat → Int) (rows : List Json) :
    ∀ i, (∀ r ∈ rows, ∃ fs, r = Json.obj fs) →
    ∃ rows1, UserServices.normalizeIdsFrom nowAt i rows = some rows1 ∧
      List.Forall₂ (fun a b => (∀ k, k ≠ "userId" → b.field k = a.field k) ∧
        ((a.field "userId").truthy = true → b = a) ∧ ∃ fs1, b = Json.obj fs1) rows rows1 := by
  induction rows with
  | nil =>
    intro i _
    exact ⟨[], rfl, List.Forall₂.nil⟩
  | cons r rest ih =>
    intro i hobj
    obtain ⟨fs, rfl⟩ := hobj r (List.mem_cons_self _ _)
    obtain ⟨rest1, hrest, hrel⟩ := ih (i + 1) (fun x hx => hobj x (List.mem_cons_of_mem _ hx))
    obtain ⟨j, hj⟩ := jsOr_json ((Json.obj fs).field "userId") (.num (nowAt i + i))
    refine ⟨Json.obj (setField "userId" j fs) :: rest1, ?_,
      List.Forall₂.cons ⟨?_, ?_, _, rfl⟩ hrel⟩
    · rw [UserServices.normalizeIdsFrom, getProp_of_ne_null _ _ (by simp), hrest]
      simp only [hj, assignField, UserServices.spreadFields]
    · intro k hk
      exact field_setField_ne fs k "userId" j hk
    · intro htruthy
      have hsame : jsOr ((Json.obj fs).field "userId") (.json (.num (nowAt i + i)))
          = (Json.obj fs).field "userId" := by simp [jsOr, htruthy]
      rw [hsame] at hj
      have hl : lookupField "userId" fs = some j := by
        simp only [Json.field] at hj
        cases hlk : lookupField "userId" fs with
        | none => simp [hlk] at hj
        | some w =>
          simp only [hlk, JsVal.json.injEq] at hj
          rw [hj]
      rw [setField_same "userId" j fs hl]

theorem keepsField_of_normalized (k : String) (a b : Json)
    (h : (∀ k, k ≠ "userId" → b.field k = a.field k) ∧
      ((a.field "userId").truthy = true → b = a) ∧ ∃ fs1, b = Json.obj fs1) :
    keepsField k a b := by
  intro hk
  by_cases hu : k = "userId"
  · rw [h.2.1 (hk hu)]
  · exact h.1 k hu

theorem forall₂_keepsField_refl (k : String) (rows : List Json) :
    List.Forall₂ (keepsField k) rows rows :=
  List.forall₂_same.mpr (fun _ _ _ => rfl)

/-- What `readUsers` returns: the empty default with the file untouched, the
parsed document without `Users` with the file untouched, or the document with
normalized identifiers, written back. -/
theorem readUsers_cases (nowAt : Nat → Int) (file : FileState) :
    UserServices.readUsers nowAt file = (UserServices.noUsers, file) ∨
    (∃ parsed, UserServices.readUsers nowAt file = (parsed, file) ∧
      (parsed.field "Users").truthy = false) ∨
    (∃ top rows rows1, file = .json (.obj top) ∧
      (Json.obj top).field "Users" = .json (.arr rows) ∧
      UserServices.normalizeIds nowAt rows = some rows1 ∧
      UserServices.readUsers nowAt file = (.obj (setField "Users" (.arr rows1) top),
        .json (.obj (setField "Users" (.arr rows1) top)))) := by
  cases file with
  | missing => exact Or.inl rfl
  | empty => exact Or.inl rfl
  | malformed raw => exact Or.inl rfl
  | json parsed =>
    simp only [UserServices.readUsers]
    cases hg : (JsVal.json parsed).getProp? "Users" with
    | none => exact Or.inl rfl
    | some users =>
      have hne : parsed ≠ Json.null := by
        intro h
        subst h
        simp [JsVal.getProp?] at hg
      rw [getProp_of_ne_null _ _ hne] at hg
      simp only [Option.some.injEq] at hg
      simp only
      by_cases ht : users.truthy = true
      · rw [if_pos ht]
        cases ha : users.asArray? with
        | none => exact Or.inl rfl
        | some rows =>
          have hu : users = .json (.arr rows) := by
            cases users with
            | undefined => simp [JsVal.asArray?] at ha
            | nan => simp [JsVal.asArray?] at ha
            | json j =>
              cases j <;> simp [JsVal.asArray?] at ha
              rw [ha]
          subst hu
          obtain ⟨top, rfl⟩ := truthy_of_field_json parsed "Users" _ (by decide) hg
          simp only
          cases hn : UserServices.normalizeIds nowAt rows with
          | none => exact Or.inl rfl
          | some rows1 =>
            right
            right
            exact ⟨top, rows, rows1, rfl, hg, hn, rfl⟩
      · rw [if_neg ht]
        right
        left
        refine ⟨parsed, rfl, ?_⟩
        rw [hg]
        simpa using ht

theorem mem_setProp (k : String) (v : JsVal) (l : List (String × JsVal)) (kv : String × JsVal)
    (h : kv ∈ UserServices.setProp k v l) : kv = (k, v) ∨ kv ∈ l := by
  induction l with
  | nil =>
    simp only [UserServices.setProp, List.mem_singleton] at h
    exact Or.inl h
  | cons p rest ih =>
    obtain ⟨a, w⟩ := p
    by_cases ha : a = k
    · simp only [UserServices.setProp, ha, if_true, List.mem_cons] at h
      rcases h with h | h
      · exact Or.inl h
      · exact Or.inr (List.mem_cons_of_mem _ h)
    · simp only [UserServices.setProp, ha, if_false, List.mem_cons] at h
      rcases h with h | h
      · exact Or.inr (by rw [h]; exact List.mem_cons_self _ _)
      · rcases ih h with h | h
        · exact Or.inl h
        · exact Or.inr (List.mem_cons_of_mem _ h)

theorem lookupField_ne_none_of_mem (fs : List (String × Json)) (p : String × Json)
    (hmem : p ∈ fs) : lookupField p.1 fs ≠ none := by
  induction fs with
  | nil => simp at hmem
  | cons q rest ih =>
    obtain ⟨a, w⟩ := q
    by_cases ha : a = p.1
    · simp [lookupField, ha]
    · simp only [lookupField, ha, if_false]
      rcases List.mem_cons.mp hmem with hq | hq
      · rw [hq] at ha
        exact absurd rfl ha
      · exact ih hq

/-- The merge of `PUT /update` assigns only `status` and keys of the request
body other than `password`, `hashedPassword` and `securityAnswer`. -/
theorem updateProps_keys (fs : List (String × Json)) (user : Json) (kv : String × JsVal)
    (h : kv ∈ UserServices.updateProps fs user) :
    kv.1 = "status" ∨ (lookupField kv.1 fs ≠ none ∧ kv.1 ≠ "password" ∧
      kv.1 ≠ "hashedPassword" ∧ kv.1 ≠ "securityAnswer") := by
  unfold UserServices.updateProps at h
  rcases mem_setProp _ _ _ _ h with h | h
  · left
    rw [h]
  · right
    simp only [List.mem_map] at h
    obtain ⟨p, hp, rfl⟩ := h
    simp only [eraseField, List.mem_filter, bne_iff_ne, ne_eq] at hp
    obtain ⟨⟨⟨hmem, h1⟩, h2⟩, h3⟩ := hp
    exact ⟨lookupField_ne_none_of_mem fs p hmem, h1, h2, h3⟩

theorem mergeFields_field (u : List (String × Json)) (props : List (String × JsVal))
    (k : String) (h : ∀ kv ∈ props, k ≠ kv.1) :
    (Json.obj (UserServices.mergeFields (.obj u) props)).field k = (Json.obj u).field k := by
  simp only [Json.field, UserServices.mergeFields, UserServices.spreadFields]
  rw [lookupField_foldl_assign_ne k props u h]

theorem asArray_of_falsy (v : JsVal) (h : v.truthy = false) : v.asArray? = none := by
  cases v with
  | undefined => rfl
  | nan => rfl
  | json j => cases j <;> simp [JsVal.asArray?, JsVal.truthy, Json.truthy] at h ⊢

theorem storedUsers_setField (top : List (String × Json)) (rows : List Json) :
    storedUsers (.json (.obj (setField "Users" (.arr rows) top))) = rows := by
  simp only [storedUsers]
  rw [field_setField_self]

theorem storedUsers_of_field (top : List (String × Json)) (rows : List Json)
    (h : (Json.obj top).field "Users" = .json (.arr rows)) :
    storedUsers (.json (.obj top)) = rows := by
  simp only [storedUsers]
  rw [h]

/-- `PUT /api/users/update` keeps, for every stored user, each field that the
merge does not assign; identifiers of users without an assigned `userId` are
the exception (they are assigned on read). -/
theorem updateUser_preserves (rt : JsRuntime) (strip : String → String) (nowAt : Nat → Int)
    (file : FileState) (body : Json) (k : String)
    (hobj : ∀ r ∈ storedUsers file, ∃ fs, r = Json.obj fs)
    (hk : ∀ fs user, body = Json.obj fs → ∀ kv ∈ UserServices.updateProps fs user, k ≠ kv.1) :
    List.Forall₂ (keepsField k) (storedUsers file)
      (storedUsers (UserServices.updateUser rt strip nowAt file body).2) := by
  unfold UserServices.updateUser
  by_cases h1 : (!body.truthy || !(body.field "username").truthy) = true
  · rw [if_pos h1]
    exact forall₂_keepsField_refl k _
  · rw [if_neg h1]
    cases hc : UserServices.cleanUsername rt strip (body.field "username") with
    | none => exact forall₂_keepsField_refl k _
    | some cleaned =>
      simp only
      rcases readUsers_cases nowAt file with hr | ⟨parsed, hr, hfalsy⟩ |
        ⟨top, rows, rows1, hfile, hfield, hnorm, hr⟩
      · rw [hr]
        simp only [UserServices.noUsers, Json.field, lookupField, if_true, JsVal.asArray?,
          findIndexM]
        exact forall₂_keepsField_refl k _
      · rw [hr]
        simp only [asArray_of_falsy _ hfalsy]
        exact forall₂_keepsField_refl k _
      · rw [hr]
        subst hfile
        rw [storedUsers_of_field top rows hfield] at hobj ⊢
        obtain ⟨rows2, hrows2, hrel⟩ := normalizeIdsFrom_objects nowAt rows 0 hobj
        have he : rows2 = rows1 := by
          unfold UserServices.normalizeIds at hnorm
          rw [hrows2] at hnorm
          exact Option.some.inj hnorm
        subst he
        have hnormrel : List.Forall₂ (keepsField k) rows rows2 :=
          List.Forall₂.imp (fun a b h => keepsField_of_normalized k a b h) hrel
        simp only [field_setField_self, JsVal.asArray?]
        cases hfind : findIndexM (UserServices.usernameIs cleaned) rows2 with
        | none =>
          simp only [storedUsers_setField]
          exact hnormrel
        | some o =>
          cases o with
          | none =>
            simp only [storedUsers_setField]
            exact hnormrel
          | some idx =>
            simp only
            cases hget : rows2[idx]? with
            | none =>
              simp only [storedUsers_setField]
              exact hnormrel
            | some user =>
              cases body with
              | obj fs =>
                simp only [UserServices.writeUsers, storedUsers, Json.field, lookupField,
                  if_true]
                refine forall₂_set rows rows2 hrel
                  (fun x y h => keepsField_of_normalized k x y h) idx _ user hget ?_
                intro x hx
                obtain ⟨u, rfl⟩ := hx.2.2
                intro hid
                rw [mergeFields_field u _ k (hk fs (.obj u) rfl)]
                exact keepsField_of_normalized k x _ hx hid
              | null => simp only [storedUsers_setField]; exact hnormrel
              | bool b => simp only [storedUsers_setField]; exact hnormrel
              | num n => simp only [storedUsers_setField]; exact hnormrel
              | str t => simp only [storedUsers_setField]; exact hnormrel
              | arr xs => simp only [storedUsers_setField]; exact hnormrel

theorem lookupField_eraseField_self (k : String) (fs : List (String × Json)) :
    lookupField k (eraseField k fs) = none := by
  induction fs with
  | nil => rfl
  | cons p rest ih =>
    obtain ⟨a, w⟩ := p
    unfold eraseField at ih ⊢
    by_cases ha : a = k
    · rw [List.filter_cons]
      simp only [ha, bne_self_eq_false, Bool.false_eq_true, if_false]
      exact ih
    · rw [List.filter_cons]
      have hb : (a != k) = true := by simp [ha]
      simp only [hb, if_true, lookupField, ha, if_false]
      exact ih

theorem forall₂_and {R S : Json → Json → Prop} (l l1 : List Json)
    (h1 : List.Forall₂ R l l1) (h2 : List.Forall₂ S l l1) :
    List.Forall₂ (fun a b => R a b ∧ S a b) l l1 := by
  induction h1 with
  | nil => exact List.Forall₂.nil
  | cons hhead _ ih =>
    cases h2 with
    | cons shead stail => exact List.Forall₂.cons ⟨hhead, shead⟩ (ih stail)

/-- The `user` of the response of `PUT /api/users/update`, when there is one,
is an object without `hashedPassword` and `securityAnswer`. -/
theorem updateUser_reply_user (rt : JsRuntime) (strip : String → String) (nowAt : Nat → Int)
    (file : FileState) (body : Json) :
    (UserServices.updateUser rt strip nowAt file body).1.body.field "user" = .undefined ∨
    ∃ merged, (UserServices.updateUser rt strip nowAt file body).1.body.field "user"
      = .json (.obj (eraseField "securityAnswer" (eraseField "hashedPassword" merged))) := by
  unfold UserServices.updateUser
  repeat' split
  all_goals first
    | (left; rfl)
    | (right; exact ⟨_, rfl⟩)

/-- C14. `PUT /api/users/update` does not change passwords: for every users
file whose rows are records and every request body, whatever fields it
carries, each stored user has the same `hashedPassword`, `securityAnswer` and
`password` fields after the request as before (none is changed and none is
added), and the `user` object of the response has neither `hashedPassword` nor
`securityAnswer`. -/
theorem updateUser_keeps_password_fields (rt : JsRuntime) (strip : String → String)
    (nowAt : Nat → Int) (file : FileState) (body : Json)
    (hobj : ∀ r ∈ storedUsers file, ∃ fs, r = Json.obj fs) :
    List.Forall₂ (fun a b => b.field "hashedPassword" = a.field "hashedPassword" ∧
        b.field "securityAnswer" = a.field "securityAnswer" ∧
        b.field "password" = a.field "password")
      (storedUsers file) (storedUsers (UserServices.updateUser rt strip nowAt file body).2) ∧
    ∀ user, (UserServices.updateUser rt strip nowAt file body).1.body.field "user"
        = .json user →
      user.field "hashedPassword" = .undefined ∧ user.field "securityAnswer" = .undefined := by
  constructor
  · have hkeep : ∀ k, k = "hashedPassword" ∨ k = "securityAnswer" ∨ k = "password" →
        List.Forall₂ (fun a b => b.field k = a.field k) (storedUsers file)
          (storedUsers (UserServices.updateUser rt strip nowAt file body).2) := by
      intro k hk
      refine List.Forall₂.imp ?_ (updateUser_preserves rt strip nowAt file body k hobj ?_)
      · intro a b hab
        apply hab
        intro hid
        rcases hk with h | h | h <;> rw [h] at hid <;> exact absurd hid (by decide)
      · intro fs user _ kv hkv hkk
        rcases updateProps_keys fs user kv hkv with hs | ⟨-, h1, h2, h3⟩
        · rw [← hkk] at hs
          rcases hk with h | h | h <;> rw [h] at hs <;> exact absurd hs (by decide)
        · rw [← hkk] at h1 h2 h3
          rcases hk with h | h | h
          · exact h2 h
          · exact h3 h
          · exact h1 h
    exact forall₂_and _ _ (hkeep _ (Or.inl rfl))
      (forall₂_and _ _ (hkeep _ (Or.inr (Or.inl rfl))) (hkeep _ (Or.inr (Or.inr rfl))))
  · intro user huser
    rcases updateUser_reply_user rt strip nowAt file body with h | ⟨merged, h⟩
    · rw [h] at huser
      exact absurd huser (by simp)
    · rw [h] at huser
      simp only [JsVal.json.injEq] at huser
      subst huser
      constructor
      · simp only [Json.field]
        rw [lookupField_eraseField_ne _ _ _ (by decide), lookupField_eraseField_self]
      · simp only [Json.field]
        rw [lookupField_eraseField_self]

/-- C14 on the users alice and bob and a body for bob that carries `password`,
`hashedPassword` and `securityAnswer`: the stored hashes stay and the response
shows neither. -/
theorem updateUser_keeps_password_fields_witness :
    UserServices.updateUser isoRuntime stripSpaces fixedClock
        (.json (usersDoc [mkUser 7 "alice" "Active", mkUser 8 "bob" "Active"]))
        (.obj [("username", .str "bob"), ("password", .str "Passw0rd!"),
          ("hashedPassword", .str "forged"), ("securityAnswer", .str "forged"),
          ("email", .str "b@example.org")])
      = (⟨200, .obj [("success", .bool true), ("message", .str "Profile updated"),
          ("user", .obj [("userId", .num 8), ("username", .str "bob"),
            ("email", .str "b@example.org"), ("status", .str "Active"),
            ("role", .str "user")])]⟩,
        .json (usersDoc [mkUser 7 "alice" "Active",
          .obj [("userId", .num 8), ("username", .str "bob"), ("email", .str "b@example.org"),
            ("hashedPassword", .str "$2b$10$hash"), ("status", .str "Active"),
            ("role", .str "user"), ("securityAnswer", .str "$2b$10$answer")]])) ∧
    (List.Forall₂ (fun a b => b.field "hashedPassword" = a.field "hashedPassword" ∧
        b.field "securityAnswer" = a.field "securityAnswer" ∧
        b.field "password" = a.field "password")
      (storedUsers (.json (usersDoc [mkUser 7 "alice" "Active", mkUser 8 "bob" "Active"])))
      (storedUsers (UserServices.updateUser isoRuntime stripSpaces fixedClock
        (.json (usersDoc [mkUser 7 "alice" "Active", mkUser 8 "bob" "Active"]))
        (.obj [("username", .str "bob"), ("password", .str "Passw0rd!"),
          ("hashedPassword", .str "forged"), ("securityAnswer", .str "forged"),
          ("email", .str "b@example.org")])).2) ∧
    ∀ user, (UserServices.updateUser isoRuntime stripSpaces fixedClock
        (.json (usersDoc [mkUser 7 "alice" "Active", mkUser 8 "bob" "Active"]))
        (.obj [("username", .str "bob"), ("password", .str "Passw0rd!"),
          ("hashedPassword", .str "forged"), ("securityAnswer", .str "forged"),
          ("email", .str "b@example.org")])).1.body.field "user" = .json user →
      user.field "hashedPassword" = .undefined ∧ user.field "securityAnswer" = .undefined) :=
  ⟨rfl, updateUser_keeps_password_fields isoRuntime stripSpaces fixedClock
    (.json (usersDoc [mkUser 7 "alice" "Active", mkUser 8 "bob" "Active"]))
    (.obj [("username", .str "bob"), ("password", .str "Passw0rd!"),
      ("hashedPassword", .str "forged"), ("securityAnswer", .str "forged"),
      ("email", .str "b@example.org")])
    (by
      intro r hr
      have hs : storedUsers (.json (usersDoc [mkUser 7 "alice" "Active",
          mkUser 8 "bob" "Active"])) = [mkUser 7 "alice" "Active", mkUser 8 "bob" "Active"] :=
        rfl
      rw [hs] at hr
      simp only [List.mem_cons, List.mem_singleton, List.not_mem_nil, or_false] at hr
      rcases hr with rfl | rfl
      · exact ⟨_, rfl⟩
      · exact ⟨_, rfl⟩)⟩

/-- C13, counterexample: the stored user bob has `userId` 8; the update whose
body matches bob by username and carries `userId` 99 succeeds and the stored
`userId` of bob becomes 99. -/
theorem updateUser_overwrites_userId :
    (mkUser 8 "bob" "Active").field "userId" = .json (.num 8) ∧
    (UserServices.updateUser isoRuntime stripSpaces fixedClock
        (.json (usersDoc [mkUser 7 "alice" "Active", mkUser 8 "bob" "Active"]))
        (.obj [("username", .str "bob"), ("userId", .num 99)])).1.status = 200 ∧
    storedUsers (UserServices.updateUser isoRuntime stripSpaces fixedClock
        (.json (usersDoc [mkUser 7 "alice" "Active", mkUser 8 "bob" "Active"]))
        (.obj [("username", .str "bob"), ("userId", .num 99)])).2
      = [mkUser 7 "alice" "Active", mkUser 99 "bob" "Active"] ∧
    (mkUser 99 "bob" "Active").field "userId" = .json (.num 99) ∧
    JsVal.json (.num 99) ≠ .json (.num 8) := by
  refine ⟨rfl, rfl, rfl, rfl, ?_⟩
  simp

/-- C13 as amended.  `PUT /api/users/update` merges every field of the body into
the matched user, `userId` included; it leaves identifiers alone when the body
carries no `userId` field: then every stored user whose `userId` is assigned
(truthy) has the same `userId` after the request as before. -/
theorem updateUser_keeps_userId (rt : JsRuntime) (strip : String → String)
    (nowAt : Nat → Int) (file : FileState) (body : Json)
    (hobj : ∀ r ∈ storedUsers file, ∃ fs, r = Json.obj fs)
    (hbody : body.field "userId" = .undefined) :
    List.Forall₂ (fun a b => (a.field "userId").truthy = true →
        b.field "userId" = a.field "userId")
      (storedUsers file) (storedUsers (UserServices.updateUser rt strip nowAt file body).2) := by
  refine List.Forall₂.imp ?_ (updateUser_preserves rt strip nowAt file body "userId" hobj ?_)
  · intro a b hab htruthy
    exact hab (fun _ => htruthy)
  · intro fs user hfs kv hkv hkk
    subst hfs
    rcases updateProps_keys fs user kv hkv with hs | ⟨hl, -, -, -⟩
    · rw [← hkk] at hs
      exact absurd hs (by decide)
    · rw [← hkk] at hl
      apply hl
      simp only [Json.field] at hbody
      cases hlk : lookupField "userId" fs with
      | none => rfl
      | some w => simp [hlk] at hbody

/-- C13 as amended, on the users alice and bob and a body for bob that changes
the e-mail address only. -/
theorem updateUser_keeps_userId_witness :
    storedUsers (UserServices.updateUser isoRuntime stripSpaces fixedClock
        (.json (usersDoc [mkUser 7 "alice" "Active", mkUser 8 "bob" "Active"]))
        (.obj [("username", .str "bob"), ("email", .str "b@example.org")])).2
      = [mkUser 7 "alice" "Active",
          .obj [("userId", .num 8), ("username", .str "bob"), ("email", .str "b@example.org"),
            ("hashedPassword", .str "$2b$10$hash"), ("status", .str "Active"),
            ("role", .str "user"), ("securityAnswer", .str "$2b$10$answer")]] ∧
    List.Forall₂ (fun a b => (a.field "userId").truthy = true →
        b.field "userId" = a.field "userId")
      (storedUsers (.json (usersDoc [mkUser 7 "alice" "Active", mkUser 8 "bob" "Active"])))
      (storedUsers (UserServices.updateUser isoRuntime stripSpaces fixedClock
        (.json (usersDoc [mkUser 7 "alice" "Active", mkUser 8 "bob" "Active"]))
        (.obj [("username", .str "bob"), ("email", .str "b@example.org")])).2) :=
  ⟨rfl, updateUser_keeps_userId isoRuntime stripSpaces fixedClock
    (.json (usersDoc [mkUser 7 "alice" "Active", mkUser 8 "bob" "Active"]))
    (.obj [("username", .str "bob"), ("email", .str "b@example.org")])
    (by
      intro r hr
      have hs : storedUsers (.json (usersDoc [mkUser 7 "alice" "Active",
          mkUser 8 "bob" "Active"])) = [mkUser 7 "alice" "Active", mkUser 8 "bob" "Active"] :=
        rfl
      rw [hs] at hr
      simp only [List.mem_cons, List.mem_singleton, List.not_mem_nil, or_false] at hr
      rcases hr with rfl | rfl
      · exact ⟨_, rfl⟩
      · exact ⟨_, rfl⟩)
    rfl⟩

/-! ## Soft deletes -/

theorem obj_of_field_arr (v : Json) (k : String) (rows : List Json)
    (h : v.field k = .json (.arr rows)) : ∃ top, v = Json.obj top := by
  cases v with
  | obj top => exact ⟨top, rfl⟩
  | arr xs =>
    simp only [Json.field] at h
    split at h <;> simp at h
  | str s =>
    simp only [Json.field] at h
    split at h <;> simp at h
  | null => simp [Json.field] at h
  | bool b => simp [Json.field] at h
  | num n => simp [Json.field] at h

theorem eq_arr_of_asArray (v : JsVal) (rows : List Json) (h : v.asArray? = some rows) :
    v = .json (.arr rows) := by
  cases v with
  | undefined => simp [JsVal.asArray?] at h
  | nan => simp [JsVal.asArray?] at h
  | json j =>
    cases j <;> simp [JsVal.asArray?] at h
    rw [h]

/-- Setting one field of the row that `findIndex` located changes that field
of that record only, and the record is the first one the callback accepts. -/
theorem set_status_effect (p : Json → Option Bool) (rows : List Json) (idx : Nat)
    (row row1 : Json) (key : String) (v : Json)
    (hfind : findIndexM p rows = some (some idx)) (hget : rows[idx]? = some row)
    (hassign : row.assign? key (.json v) = some row1) :
    statusOnlyChanged p key v rows (rows.set idx row1) := by
  obtain ⟨pre, c, post, hrows, hlen, hpre, hc⟩ := findIndexM_some_inv p rows idx hfind
  subst hrows
  subst hlen
  rw [getElem?_mid] at hget
  simp only [Option.some.injEq] at hget
  subst hget
  rw [set_mid]
  cases c with
  | obj fs =>
    simp only [assign_obj, assignField, Option.some.injEq] at hassign
    subst hassign
    exact Or.inr ⟨pre, fs, post, rfl, hpre, hc, rfl⟩
  | arr xs =>
    simp only [Json.assign?, Option.some.injEq] at hassign
    subst hassign
    exact Or.inl rfl
  | null => simp [Json.assign?] at hassign
  | bool b => simp [Json.assign?] at hassign
  | num n => simp [Json.assign?] at hassign
  | str s => simp [Json.assign?] at hassign

theorem storedAt_setField (key : String) (top : List (String × Json)) (rows : List Json) :
    storedAt key (.json (.obj (setField key (.arr rows) top))) = rows := by
  simp only [storedAt]
  rw [field_setField_self]

theorem storedAt_of_field (key : String) (v : Json) (rows : List Json)
    (h : v.field key = .json (.arr rows)) : storedAt key (.json v) = rows := by
  simp only [storedAt]
  rw [h]

/-- The common body of the admin soft deletes changes at most the status field
of the first record of its collection whose `idKey` is `parseInt(id)`, whatever
the file and the id. -/
theorem admin_softDelete_effect (rt : JsRuntime)
    (collection idKey statusKey failure notFound done : String) (file : FileState)
    (id : String) :
    statusOnlyChanged (AdminServices.idIs rt idKey id) statusKey (.str "DELETED")
      (storedAt collection file)
      (storedAt collection (AdminServices.softDelete rt collection idKey statusKey failure
        notFound done file id).2) := by
  unfold AdminServices.softDelete
  simp only
  by_cases h1 : (!(AdminServices.readJSON file).truthy
      || !((AdminServices.readJSON file).field collection).truthy) = true
  · rw [if_pos h1]
    exact Or.inl rfl
  · rw [if_neg h1]
    cases ha : ((AdminServices.readJSON file).field collection).asArray? with
    | none => exact Or.inl rfl
    | some rows =>
      have hfield := eq_arr_of_asArray _ rows ha
      obtain ⟨top, htop⟩ := obj_of_field_arr _ _ _ hfield
      have hfile : file = .json (.obj top) := by
        cases file with
        | json v =>
          simp only [AdminServices.readJSON] at htop
          rw [htop]
        | missing => simp [AdminServices.readJSON] at htop
        | empty => simp [AdminServices.readJSON] at htop
        | malformed raw => simp [AdminServices.readJSON] at htop
      subst hfile
      simp only [AdminServices.readJSON] at hfield ⊢
      rw [storedAt_of_field collection _ rows hfield]
      cases hfind : findIndexM (AdminServices.idIs rt idKey id) rows with
      | none => simp only [storedAt_of_field collection _ rows hfield]; exact Or.inl rfl
      | some o =>
        cases o with
        | none => simp only [storedAt_of_field collection _ rows hfield]; exact Or.inl rfl
        | some idx =>
          simp only
          cases hget : rows[idx]? with
          | none => simp only [storedAt_of_field collection _ rows hfield]; exact Or.inl rfl
          | some row =>
            simp only
            cases hassign : row.assign? statusKey (.json (.str "DELETED")) with
            | none => simp only [storedAt_of_field collection _ rows hfield]; exact Or.inl rfl
            | some row1 =>
              simp only [assign_obj, assignField, AdminServices.writeJSON, storedAt_setField]
              exact set_status_effect _ rows idx row row1 statusKey _ hfind hget hassign

theorem isArray_iff (v : JsVal) : isArray v = true ↔ ∃ rows, v = .json (.arr rows) := by
  cases v with
  | undefined => simp [isArray]
  | nan => simp [isArray]
  | json j => cases j <;> simp [isArray]

/-- Whatever the complaints file holds, `readStorage` returns a wrapper object
and leaves that wrapper in the file; the stored complaints are those the file
held. -/
theorem readStorage_spec (file : FileState) :
    ∃ top rows, storageHandler.readStorage file = some (.obj top, .json (.obj top)) ∧
      (Json.obj top).field "complaints" = .json (.arr rows) ∧ storedComplaints file = rows := by
  have hempty : storageHandler.readStorage (.json storageHandler.emptyStorage)
      = some (storageHandler.emptyStorage, .json storageHandler.emptyStorage) := rfl
  have hreset : ∀ f, storageHandler.ensureStorageFile f = .json storageHandler.emptyStorage →
      storedComplaints f = [] →
      ∃ top rows, storageHandler.readStorage f = some (.obj top, .json (.obj top)) ∧
        (Json.obj top).field "complaints" = .json (.arr rows) ∧ storedComplaints f = rows := by
    intro f he hs
    refine ⟨[("complaints", .arr [])], [], ?_, rfl, hs⟩
    unfold storageHandler.readStorage
    rw [he]
    rfl
  cases file with
  | missing => exact hreset _ rfl rfl
  | empty => exact hreset _ rfl rfl
  | malformed raw => exact hreset _ rfl rfl
  | json v =>
    by_cases hc : (!v.truthy || !isArray (v.field "complaints")) = true
    · apply hreset
      · simp only [storageHandler.ensureStorageFile, hc, if_true]
      · simp only [storedComplaints]
        cases hf : v.field "complaints" with
        | undefined => rfl
        | nan => rfl
        | json j =>
          cases j with
          | arr rows =>
            exfalso
            obtain ⟨top, rfl⟩ := obj_of_field_arr v _ _ hf
            simp [hf, isArray, Json.truthy] at hc
          | null => rfl
          | bool b => rfl
          | num n => rfl
          | str s => rfl
          | obj fs => rfl
    · simp only [Bool.or_eq_true, Bool.not_eq_true', not_or, Bool.not_eq_false] at hc
      obtain ⟨rows, hrows⟩ := (isArray_iff _).mp hc.2
      obtain ⟨top, rfl⟩ := obj_of_field_arr v _ _ hrows
      exact ⟨top, rows, storageHandler_readStorage_eq _ rows hrows, hrows,
        by simp only [storedComplaints]; rw [hrows]⟩

theorem storedComplaints_setField (top : List (String × Json)) (rows : List Json) :
    storedComplaints (.json (.obj (setField "complaints" (.arr rows) top))) = rows := by
  simp only [storedComplaints]
  rw [field_setField_self]

theorem storedComplaints_of_field (top : List (String × Json)) (rows : List Json)
    (h : (Json.obj top).field "complaints" = .json (.arr rows)) :
    storedComplaints (.json (.obj top)) = rows := by
  simp only [storedComplaints]
  rw [h]

/-- `PATCH /api/complaints/:id/delete` changes at most the `complaintStatus` of
the first stored complaint whose `complaintId` is the one of the request,
whatever the file and the request. -/
theorem softDeleteComplaint_effect (rt : JsRuntime) (file : FileState)
    (req : ComplaintRequest) :
    statusOnlyChanged (complaintTarget rt req) "complaintStatus" (.str "deleted")
      (storedComplaints file) (storedComplaints (softDeleteComplaint rt file req).2) := by
  obtain ⟨top, rows, hread, hfield, hstored⟩ := readStorage_spec file
  have hsame : statusOnlyChanged (complaintTarget rt req) "complaintStatus" (.str "deleted")
      (storedComplaints file) (storedComplaints (.json (.obj top))) := by
    rw [storedComplaints_of_field top rows hfield, hstored]
    exact Or.inl rfl
  unfold softDeleteComplaint
  cases hu : requireUser rt req with
  | error e => exact Or.inl rfl
  | ok p =>
    obtain ⟨uid, role⟩ := p
    simp only
    by_cases hadmin : role = "admin"
    · rw [if_pos hadmin]
      exact Or.inl rfl
    · rw [if_neg hadmin]
      cases hid : rt.stringToNumber req.idParam with
      | none => exact Or.inl rfl
      | some id =>
        have ht : complaintTarget rt req = complaintIdIs rt id := by
          funext c
          simp only [complaintTarget, hid]
        rw [ht] at hsame ⊢
        simp only [hread, hfield, jsOr_arr]
        cases hfind : findIndexM (complaintIdIs rt id) rows with
        | none => exact hsame
        | some o =>
          cases o with
          | none => exact hsame
          | some idx =>
            simp only
            cases hget : rows[idx]? with
            | none => exact hsame
            | some complaint =>
              simp only
              by_cases howner : toNumber rt (complaint.field "userId") ≠ some uid
              · rw [if_pos howner]
                exact hsame
              · rw [if_neg howner]
                cases hassign : complaint.assign? "complaintStatus" (.json (.str "deleted")) with
                | none => exact hsame
                | some complaint1 =>
                  simp only [assign_obj, assignField, storageHandler.writeStorage,
                    storedComplaints_setField]
                  rw [hstored]
                  exact set_status_effect _ rows idx complaint complaint1 "complaintStatus" _
                    hfind hget hassign

theorem storedProperties_setField (top : List (String × Json)) (rows : List Json) :
    storedProperties (.json (.obj (setField "properties" (.arr rows) top))) = rows := by
  simp only [storedProperties]
  rw [field_setField_self]

/-- The properties document that the host handlers read: the file's document, or
the empty default when the file holds none. -/
theorem readJson_properties (file : FileState) :
    (∃ v, file = .json v ∧ fileDb.readJson "properties.json" file = .json v) ∨
    (fileDb.readJson "properties.json" file = .json (.obj [("properties", .arr [])]) ∧
      storedProperties file = []) := by
  cases file with
  | json v => exact Or.inl ⟨v, rfl, by simp [fileDb.readJson]⟩
  | missing => exact Or.inr ⟨by simp [fileDb.readJson], rfl⟩
  | empty => exact Or.inr ⟨by simp [fileDb.readJson], rfl⟩
  | malformed raw => exact Or.inr ⟨by simp [fileDb.readJson], rfl⟩

theorem ensureProperties_cases (propDB0 propDB : Json) (properties : List Json)
    (h : HostController.ensureProperties propDB0 = some (propDB, properties)) :
    (propDB0.field "properties" = .json (.arr properties) ∧ propDB = propDB0) ∨
      properties = [] := by
  unfold HostController.ensureProperties at h
  cases hg : (JsVal.json propDB0).getProp? "properties" with
  | none => simp [hg] at h
  | some stored =>
    have hne : propDB0 ≠ Json.null := by
      intro hn
      subst hn
      simp [JsVal.getProp?] at hg
    rw [getProp_of_ne_null _ _ hne] at hg
    simp only [Option.some.injEq] at hg
    rw [getProp_of_ne_null _ _ hne, hg] at h
    cases stored with
    | undefined =>
      simp only [Option.map_eq_some', Prod.mk.injEq] at h
      obtain ⟨_, -, -, h2⟩ := h
      exact Or.inr h2.symm
    | nan =>
      simp only [Option.map_eq_some', Prod.mk.injEq] at h
      obtain ⟨_, -, -, h2⟩ := h
      exact Or.inr h2.symm
    | json j =>
      cases j with
      | arr rows =>
        simp only [Option.some.injEq, Prod.mk.injEq] at h
        left
        rw [← h.2, ← h.1]
        exact ⟨hg, rfl⟩
      | null =>
        simp only [Option.map_eq_some', Prod.mk.injEq] at h
        obtain ⟨_, -, -, h2⟩ := h
        exact Or.inr h2.symm
      | bool b =>
        simp only [Option.map_eq_some', Prod.mk.injEq] at h
        obtain ⟨_, -, -, h2⟩ := h
        exact Or.inr h2.symm
      | num n =>
        simp only [Option.map_eq_some', Prod.mk.injEq] at h
        obtain ⟨_, -, -, h2⟩ := h
        exact Or.inr h2.symm
      | str s =>
        simp only [Option.map_eq_some', Prod.mk.injEq] at h
        obtain ⟨_, -, -, h2⟩ := h
        exact Or.inr h2.symm
      | obj fs =>
        simp only [Option.map_eq_some', Prod.mk.injEq] at h
        obtain ⟨_, -, -, h2⟩ := h
        exact Or.inr h2.symm

/-- The host handler `deleteProperty` changes at most the `propertyStatus` of
the first stored property whose `propertyId` is the one of the request,
whatever the files and the parameter. -/
theorem host_deleteProperty_effect (rt : JsRuntime) (today : String)
    (file bookings : FileState) (param : String) :
    statusOnlyChanged (HostController.propertyIdIs (ofNumber (rt.stringToNumber param)))
      "propertyStatus" (.str "DELETED") (storedProperties file)
      (storedProperties (fileAfter file
        (HostController.deleteProperty rt today file bookings param))) := by
  cases hrun : HostController.deleteProperty rt today file bookings param with
  | none => exact Or.inl rfl
  | some out =>
    obtain ⟨r, f⟩ := out
    simp only [fileAfter]
    unfold HostController.deleteProperty at hrun
    simp only at hrun
    cases hp : fileDb.readJson "properties.json" file with
    | undefined => simp [hp] at hrun
    | nan => simp [hp] at hrun
    | json propDB0 =>
      cases hb : fileDb.readJson "bookings.json" bookings with
      | undefined => simp [hp, hb] at hrun
      | nan => simp [hp, hb] at hrun
      | json bookingDB =>
        simp only [hp, hb] at hrun
        cases he : HostController.ensureProperties propDB0 with
        | none => simp [he] at hrun
        | some pair =>
          obtain ⟨propDB, properties⟩ := pair
          simp only [he] at hrun
          cases hfind : findIndexM
              (HostController.propertyIdIs (ofNumber (rt.stringToNumber param))) properties with
          | none => simp [hfind] at hrun
          | some o =>
            cases o with
            | none =>
              simp only [hfind, Option.some.injEq, Prod.mk.injEq] at hrun
              rw [← hrun.2]
              exact Or.inl rfl
            | some idx =>
              simp only [hfind] at hrun
              cases hg : (JsVal.json bookingDB).getProp? "bookings" with
              | none => simp [hg] at hrun
              | some stored =>
                simp only [hg] at hrun
                cases ha : (jsOr stored (.json (.arr []))).asArray? with
                | none => simp [ha] at hrun
                | some rows =>
                  simp only [ha] at hrun
                  cases hbl : HostController.blockedBy rt today
                      (ofNumber (rt.stringToNumber param)) rows with
                  | none => simp [hbl] at hrun
                  | some blocked =>
                    cases blocked with
                    | true =>
                      simp only [hbl, Option.some.injEq, Prod.mk.injEq] at hrun
                      rw [← hrun.2]
                      exact Or.inl rfl
                    | false =>
                      simp only [hbl] at hrun
                      cases hget : properties[idx]? with
                      | none => simp [hget] at hrun
                      | some prop =>
                        simp only [hget] at hrun
                        cases hassign : prop.assign? "propertyStatus"
                            (.json (.str "DELETED")) with
                        | none => simp [hassign] at hrun
                        | some prop1 =>
                          simp only [hassign] at hrun
                          have hne : properties ≠ [] := by
                            intro hn
                            subst hn
                            simp at hget
                          rcases ensureProperties_cases _ _ _ he with ⟨hfield, hdb⟩ | hnil
                          · subst hdb
                            obtain ⟨top, rfl⟩ := obj_of_field_arr _ _ _ hfield
                            have hfile : file = .json (.obj top) := by
                              rcases readJson_properties file with ⟨v, hv, hr⟩ | ⟨hr, -⟩
                              · rw [hr] at hp
                                simp only [JsVal.json.injEq] at hp
                                rw [hv, hp]
                              · rw [hr] at hp
                                simp only [JsVal.json.injEq] at hp
                                rw [← hp] at hfield
                                have : properties = [] := by
                                  simp [Json.field, lookupField] at hfield
                                  exact hfield
                                exact absurd this hne
                            simp only [assign_obj, assignField, Option.some.injEq,
                              Prod.mk.injEq] at hrun
                            rw [← hrun.2, hfile]
                            simp only [fileDb.writeJson, true_or, if_true,
                              storedProperties_setField]
                            have hs : storedProperties (.json (.obj top)) = properties := by
                              simp only [storedProperties]
                              rw [hfield]
                            rw [hs]
                            exact set_status_effect _ properties idx prop prop1
                              "propertyStatus" _ hfind hget hassign
                          · exact absurd hnil hne

theorem normalizeIdsFrom_id (nowAt : Nat → Int) (rows : List Json) :
    ∀ i, (∀ r ∈ rows, ∃ fs, r = Json.obj fs ∧ ((Json.obj fs).field "userId").truthy = true) →
    UserServices.normalizeIdsFrom nowAt i rows = some rows := by
  induction rows with
  | nil =>
    intro i _
    rfl
  | cons r rest ih =>
    intro i h
    obtain ⟨fs, rfl, htruthy⟩ := h r (List.mem_cons_self _ _)
    rw [UserServices.normalizeIdsFrom, getProp_of_ne_null _ _ (by simp),
      ih (i + 1) (fun x hx => h x (List.mem_cons_of_mem _ hx))]
    have hsame : jsOr ((Json.obj fs).field "userId") (.json (.num (nowAt i + i)))
        = (Json.obj fs).field "userId" := by simp [jsOr, htruthy]
    simp only [hsame, UserServices.spreadFields]
    cases hlk : lookupField "userId" fs with
    | none =>
      simp [Json.field, hlk, JsVal.truthy] at htruthy
    | some j =>
      have hf : (Json.obj fs).field "userId" = .json j := by simp [Json.field, hlk]
      rw [hf]
      simp only [assignField]
      rw [setField_same "userId" j fs hlk]

/-- `POST /api/users/delete` on a users file whose records all carry an assigned
`userId` changes at most the `status` of the first stored user whose `username`
is the cleaned name of the request. -/
theorem softDeleteUser_effect (rt : JsRuntime) (strip : String → String) (nowAt : Nat → Int)
    (file : FileState) (body : Json)
    (hids : ∀ r ∈ storedUsers file,
      ∃ fs, r = Json.obj fs ∧ ((Json.obj fs).field "userId").truthy = true) :
    statusOnlyChanged (deletedUserTarget rt strip body) "status" (.str "deleted")
      (storedUsers file)
      (storedUsers (UserServices.softDeleteUser rt strip nowAt file body).2) := by
  unfold UserServices.softDeleteUser
  cases hg : (JsVal.json body).getProp? "username" with
  | none => exact Or.inl rfl
  | some username =>
    simp only
    cases hc : UserServices.cleanUsername rt strip (jsOr username (.json (.str ""))) with
    | none => exact Or.inl rfl
    | some cleaned =>
      have ht : deletedUserTarget rt strip body = UserServices.usernameIs cleaned := by
        funext u
        simp only [deletedUserTarget, hg, hc]
      rw [ht]
      simp only
      rcases readUsers_cases nowAt file with hr | ⟨parsed, hr, hfalsy⟩ |
        ⟨top, rows, rows1, hfile, hfield, hnorm, hr⟩
      · rw [hr]
        simp only [UserServices.noUsers, Json.field, lookupField, if_true, JsVal.asArray?,
          findIndexM]
        exact Or.inl rfl
      · rw [hr]
        simp only [asArray_of_falsy _ hfalsy]
        exact Or.inl rfl
      · rw [hr]
        subst hfile
        rw [storedUsers_of_field top rows hfield] at hids ⊢
        have he : rows1 = rows := by
          unfold UserServices.normalizeIds at hnorm
          rw [normalizeIdsFrom_id nowAt rows 0 hids] at hnorm
          exact (Option.some.inj hnorm).symm
        subst he
        simp only [field_setField_self, JsVal.asArray?]
        cases hfind : findIndexM (UserServices.usernameIs cleaned) rows1 with
        | none =>
          simp only [storedUsers_setField]
          exact Or.inl rfl
        | some o =>
          cases o with
          | none =>
            simp only [storedUsers_setField]
            exact Or.inl rfl
          | some idx =>
            simp only
            cases hget : rows1[idx]? with
            | none =>
              simp only [storedUsers_setField]
              exact Or.inl rfl
            | some user =>
              simp only
              cases hassign : user.assign? "status" (.json (.str "deleted")) with
              | none =>
                simp only [storedUsers_setField]
                exact Or.inl rfl
              | some user1 =>
                simp only [UserServices.writeUsers, storedUsers, Json.field, lookupField,
                  if_true]
                exact set_status_effect _ rows1 idx user user1 "status" _ hfind hget hassign

/-- C17, counterexample: the users file holds bob without a `userId`;
`POST /api/users/delete` for bob succeeds and the stored record, the one the
request names, has besides `status` `deleted` a new field `userId`: more than
the status field of the targeted record changed. -/
theorem softDeleteUser_adds_userId :
    storedUsers (.json usersWithoutId)
      = [.obj [("username", .str "bob"), ("status", .str "Active")]] ∧
    UserServices.softDeleteUser isoRuntime stripSpaces fixedClock (.json usersWithoutId)
        (.obj [("username", .str "bob")])
      = (some ⟨200, .obj [("success", .bool true), ("message", .str "Account soft deleted")]⟩,
          .json (usersDoc [.obj [("username", .str "bob"), ("status", .str "deleted"),
            ("userId", .num 1700000000000)]])) ∧
    (Json.obj [("username", .str "bob"), ("status", .str "Active")]).field "userId"
      = .undefined ∧
    (Json.obj [("username", .str "bob"), ("status", .str "deleted"),
      ("userId", .num 1700000000000)]).field "userId" = .json (.num 1700000000000) ∧
    deletedUserTarget isoRuntime stripSpaces (.obj [("username", .str "bob")])
        (.obj [("username", .str "bob"), ("status", .str "Active")]) = some true ∧
    ¬ statusOnlyChanged
      (deletedUserTarget isoRuntime stripSpaces (.obj [("username", .str "bob")]))
      "status" (.str "deleted")
      [.obj [("username", .str "bob"), ("status", .str "Active")]]
      [.obj [("username", .str "bob"), ("status", .str "deleted"),
        ("userId", .num 1700000000000)]] := by
  refine ⟨rfl, rfl, rfl, rfl, rfl, ?_⟩
  rintro (h | ⟨pre, fs, post, h1, -, -, h2⟩)
  · simp at h
  · cases pre with
    | nil =>
      simp only [List.nil_append, List.cons.injEq] at h1 h2
      have hf := congrArg (fun j => Json.field j "userId") h2.1
      simp only at hf
      rw [field_setField_ne fs "userId" "status" _ (by decide), ← h1.1] at hf
      simp [Json.field, lookupField] at hf
    | cons a rest =>
      simp only [List.cons_append, List.cons.injEq] at h1
      have := congrArg List.length h1.2
      simp at this
      omega

/-- C17 as amended.  Soft-delete never physically removes a record: whatever
the files and the request, `PATCH /api/complaints/:id/delete`, the host
`deleteProperty`, the admin `DELETE /properties/:id` and `DELETE /users/:id`
leave the stored sequence as it was or with the status field
(`complaintStatus`, `propertyStatus`, `status`) of the targeted record set and
nothing else touched, the targeted record being the first stored record whose
identifier the handler's `findIndex` callback matches with the request;
`POST /api/users/delete` does the same, for the first stored user whose
`username` is the cleaned name of the request, on a users file whose records
all carry an assigned `userId`. -/
theorem softDelete_changes_status_only (rt : JsRuntime) (strip : String → String)
    (nowAt : Nat → Int) (today : String) (cfile pfile bfile ufile : FileState)
    (req : ComplaintRequest) (param : String) (body : Json)
    (hids : ∀ r ∈ storedUsers ufile,
      ∃ fs, r = Json.obj fs ∧ ((Json.obj fs).field "userId").truthy = true) :
    statusOnlyChanged (complaintTarget rt req) "complaintStatus" (.str "deleted")
      (storedComplaints cfile) (storedComplaints (softDeleteComplaint rt cfile req).2) ∧
    statusOnlyChanged (HostController.propertyIdIs (ofNumber (rt.stringToNumber param)))
      "propertyStatus" (.str "DELETED") (storedProperties pfile)
      (storedProperties (fileAfter pfile
        (HostController.deleteProperty rt today pfile bfile param))) ∧
    statusOnlyChanged (AdminServices.idIs rt "propertyId" param)
      "propertyStatus" (.str "DELETED") (storedProperties pfile)
      (storedProperties (AdminServices.deleteProperty rt pfile param).2) ∧
    statusOnlyChanged (AdminServices.idIs rt "userId" param)
      "status" (.str "DELETED") (storedUsers ufile)
      (storedUsers (AdminServices.deleteUser rt ufile param).2) ∧
    statusOnlyChanged (deletedUserTarget rt strip body)
      "status" (.str "deleted") (storedUsers ufile)
      (storedUsers (UserServices.softDeleteUser rt strip nowAt ufile body).2) :=
  ⟨softDeleteComplaint_effect rt cfile req,
    host_deleteProperty_effect rt today pfile bfile param,
    admin_softDelete_effect rt "properties" "propertyId" "propertyStatus"
      "Failed to read properties" "Property not found" "Property deleted successfully"
      pfile param,
    admin_softDelete_effect rt "Users" "userId" "status" "Failed to read users"
      "User not found" "User deleted successfully" ufile param,
    softDeleteUser_effect rt strip nowAt ufile body hids⟩

/-- C17 as amended, on two complaints, one property and the users alice and
bob: the request for complaint 2 sets the `complaintStatus` of complaint 2, the
request of bob sets the `status` of bob, and the other record is as before. -/
theorem softDelete_changes_status_only_witness :
    (∀ r ∈ storedUsers (.json (usersDoc [mkUser 7 "alice" "Active", mkUser 1 "bob" "Active"])),
      ∃ fs, r = Json.obj fs ∧ ((Json.obj fs).field "userId").truthy = true) ∧
    storedComplaints (softDeleteComplaint isoRuntime
        (.json (complaintsDoc [mkComplaint 1 5 "open" "", mkComplaint 2 6 "open" ""]))
        (mkComplaintRequest "6" "client" "2")).2
      = [mkComplaint 1 5 "open" "", mkComplaint 2 6 "deleted" ""] ∧
    storedUsers (UserServices.softDeleteUser isoRuntime stripSpaces fixedClock
        (.json (usersDoc [mkUser 7 "alice" "Active", mkUser 1 "bob" "Active"]))
        (.obj [("username", .str "bob")])).2
      = [mkUser 7 "alice" "Active", mkUser 1 "bob" "deleted"] ∧
    (statusOnlyChanged (complaintTarget isoRuntime (mkComplaintRequest "6" "client" "2"))
      "complaintStatus" (.str "deleted")
      (storedComplaints
        (.json (complaintsDoc [mkComplaint 1 5 "open" "", mkComplaint 2 6 "open" ""])))
      (storedComplaints (softDeleteComplaint isoRuntime
        (.json (complaintsDoc [mkComplaint 1 5 "open" "", mkComplaint 2 6 "open" ""]))
        (mkComplaintRequest "6" "client" "2")).2) ∧
    statusOnlyChanged (HostController.propertyIdIs (ofNumber (isoRuntime.stringToNumber "1")))
      "propertyStatus" (.str "DELETED")
      (storedProperties (.json (propertiesDoc [mkProperty 1 3 "Sea view flat" "AVAILABLE"])))
      (storedProperties (fileAfter
        (.json (propertiesDoc [mkProperty 1 3 "Sea view flat" "AVAILABLE"]))
        (HostController.deleteProperty isoRuntime "2025-06-15"
          (.json (propertiesDoc [mkProperty 1 3 "Sea view flat" "AVAILABLE"]))
          (bookingFile []) "1"))) ∧
    statusOnlyChanged (AdminServices.idIs isoRuntime "propertyId" "1")
      "propertyStatus" (.str "DELETED")
      (storedProperties (.json (propertiesDoc [mkProperty 1 3 "Sea view flat" "AVAILABLE"])))
      (storedProperties (AdminServices.deleteProperty isoRuntime
        (.json (propertiesDoc [mkProperty 1 3 "Sea view flat" "AVAILABLE"])) "1").2) ∧
    statusOnlyChanged (AdminServices.idIs isoRuntime "userId" "1")
      "status" (.str "DELETED")
      (storedUsers (.json (usersDoc [mkUser 7 "alice" "Active", mkUser 1 "bob" "Active"])))
      (storedUsers (AdminServices.deleteUser isoRuntime
        (.json (usersDoc [mkUser 7 "alice" "Active", mkUser 1 "bob" "Active"])) "1").2) ∧
    statusOnlyChanged
      (deletedUserTarget isoRuntime stripSpaces (.obj [("username", .str "bob")]))
      "status" (.str "deleted")
      (storedUsers (.json (usersDoc [mkUser 7 "alice" "Active", mkUser 1 "bob" "Active"])))
      (storedUsers (UserServices.softDeleteUser isoRuntime stripSpaces fixedClock
        (.json (usersDoc [mkUser 7 "alice" "Active", mkUser 1 "bob" "Active"]))
        (.obj [("username", .str "bob")])).2)) :=
  have hids : ∀ r ∈ storedUsers
      (.json (usersDoc [mkUser 7 "alice" "Active", mkUser 1 "bob" "Active"])),
      ∃ fs, r = Json.obj fs ∧ ((Json.obj fs).field "userId").truthy = true := by
    intro r hr
    have hs : storedUsers (.json (usersDoc [mkUser 7 "alice" "Active",
        mkUser 1 "bob" "Active"])) = [mkUser 7 "alice" "Active", mkUser 1 "bob" "Active"] :=
      rfl
    rw [hs] at hr
    simp only [List.mem_cons, List.mem_singleton, List.not_mem_nil, or_false] at hr
    rcases hr with rfl | rfl
    · exact ⟨_, rfl, rfl⟩
    · exact ⟨_, rfl, rfl⟩
  ⟨hids, rfl, rfl,
    softDelete_changes_status_only isoRuntime stripSpaces fixedClock "2025-06-15"
      (.json (complaintsDoc [mkComplaint 1 5 "open" "", mkComplaint 2 6 "open" ""]))
      (.json (propertiesDoc [mkProperty 1 3 "Sea view flat" "AVAILABLE"]))
      (bookingFile [])
      (.json (usersDoc [mkUser 7 "alice" "Active", mkUser 1 "bob" "Active"]))
      (mkComplaintRequest "6" "client" "2") "1" (.obj [("username", .str "bob")]) hids⟩

/-! ## The queued write -/

theorem storageHandler_ensure_wrapper (v : Json) (h : isWrapper "complaints" v) :
    storageHandler.ensureStorageFile (.json v) = .json v := by
  obtain ⟨top, rows, rfl, hf⟩ := h
  simp [storageHandler.ensureStorageFile, hf, isArray, Json.truthy]

theorem writeStorage_eq (file : FileState) (data : Json) :
    storageHandler.writeStorage file data = .json data := rfl

theorem writeNotificationStorage_eq (file : FileState) (data : Json) :
    notificationHandler.writeNotificationStorage file data = .json data := rfl

/-- With working I/O the queued callback leaves in the canonical file what
`writeStorage` is taken to store by the handlers. -/
theorem writeSteps_none (d : Disk) (data : Json) :
    (storageHandler.writeSteps .none d data).2.canonical
      = storageHandler.writeStorage d.canonical data := rfl

/-- C21, counterexample: the complaints file is absent and the rename of the
temporary file fails; afterwards the canonical file exists and holds
`{ complaints: [] }`.  A file holding other valid JSON is replaced likewise. -/
theorem writeStorage_failure_creates_file :
    (storageHandler.writeSteps (.rename "EIO") ⟨.missing, .missing⟩
        (.obj [("complaints", .arr [complaintRow 1])])).1 = .rejected "EIO" ∧
    (storageHandler.writeSteps (.rename "EIO") ⟨.missing, .missing⟩
        (.obj [("complaints", .arr [complaintRow 1])])).2.canonical
      = .json (.obj [("complaints", .arr [])]) ∧
    FileState.json (.obj [("complaints", .arr [])]) ≠ .missing ∧
    (storageHandler.writeSteps (.rename "EIO") ⟨.json (.obj [("items", .arr [.num 1])]), .missing⟩
        (.obj [("complaints", .arr [complaintRow 1])])).2.canonical
      = .json (.obj [("complaints", .arr [])]) := by
  refine ⟨rfl, rfl, ?_, rfl⟩
  intro h
  cases h

/-- C21 as amended.  A `writeStorage(data)` whose I/O fails after
`ensureStorageFile()` (at the write of the temporary file or at the rename)
rejects with the error and leaves the canonical file as `ensureStorageFile()`
left it: untouched when it held an object with a `complaints` array, and
holding `{ complaints: [] }` when it was missing, empty, malformed or of
another shape.  The data is in the canonical file only when no step fails. -/
theorem writeStorage_failure_keeps_ensured (d : Disk) (data : Json) (err : String)
    (left : FileState) (v w : Json) (raw : String)
    (hwrapper : isWrapper "complaints" v) (hother : ¬ isWrapper "complaints" w) :
    (storageHandler.writeSteps (.rename err) d data).1 = .rejected err ∧
    (storageHandler.writeSteps (.tempWrite err left) d data).1 = .rejected err ∧
    (storageHandler.writeSteps (.rename err) d data).2.canonical
      = storageHandler.ensureStorageFile d.canonical ∧
    (storageHandler.writeSteps (.tempWrite err left) d data).2.canonical
      = storageHandler.ensureStorageFile d.canonical ∧
    (storageHandler.writeSteps (.rename err) ⟨.json v, d.tmp⟩ data).2.canonical = .json v ∧
    (storageHandler.writeSteps (.tempWrite err left) ⟨.json v, d.tmp⟩ data).2.canonical
      = .json v ∧
    (storageHandler.writeSteps (.rename err) ⟨.missing, d.tmp⟩ data).2.canonical
      = .json storageHandler.emptyStorage ∧
    (storageHandler.writeSteps (.rename err) ⟨.empty, d.tmp⟩ data).2.canonical
      = .json storageHandler.emptyStorage ∧
    (storageHandler.writeSteps (.rename err) ⟨.malformed raw, d.tmp⟩ data).2.canonical
      = .json storageHandler.emptyStorage ∧
    (storageHandler.writeSteps (.rename err) ⟨.json w, d.tmp⟩ data).2.canonical
      = .json storageHandler.emptyStorage ∧
    (storageHandler.writeSteps .none d data).2.canonical = .json data :=
  ⟨rfl, rfl, rfl, rfl, storageHandler_ensure_wrapper v hwrapper,
    storageHandler_ensure_wrapper v hwrapper, rfl, rfl, rfl,
    storageHandler_ensure_reset w hother, rfl⟩

/-- C21 as amended, on the file `{ complaints: [ 3 ] }` and a rename that fails
with `EIO`: the file is as before; a top-level array in the file is replaced
by `{ complaints: [] }`. -/
theorem writeStorage_failure_keeps_ensured_witness :
    isWrapper "complaints" (.obj [("complaints", .arr [complaintRow 3])]) ∧
    ¬ isWrapper "complaints" (.arr [.num 1, .num 2]) ∧
    (storageHandler.writeSteps (.rename "EIO")
        ⟨.json (.obj [("complaints", .arr [complaintRow 3])]), .missing⟩
        (.obj [("complaints", .arr [complaintRow 4, complaintRow 3])])).2.canonical
      = .json (.obj [("complaints", .arr [complaintRow 3])]) ∧
    (storageHandler.writeSteps (.rename "EIO") ⟨.json (.arr [.num 1, .num 2]), .missing⟩
        (.obj [("complaints", .arr [complaintRow 4, complaintRow 3])])).2.canonical
      = .json storageHandler.emptyStorage :=
  have hw : isWrapper "complaints" (.obj [("complaints", .arr [complaintRow 3])]) :=
    ⟨_, _, rfl, rfl⟩
  have ho : ¬ isWrapper "complaints" (.arr [.num 1, .num 2]) := by
    rintro ⟨top, rows, h, -⟩
    simp at h
  ⟨hw, ho, (writeStorage_failure_keeps_ensured
    ⟨.json (.obj [("complaints", .arr [complaintRow 3])]), .missing⟩
    (.obj [("complaints", .arr [complaintRow 4, complaintRow 3])]) "EIO" .missing
    (.obj [("complaints", .arr [complaintRow 3])]) (.arr [.num 1, .num 2]) "" hw ho).2.2.2.2.1,
    rfl⟩

/-- C22. Round trip: whatever the complaints file held, after
`writeStorage(data)` succeeded for an object `data` whose `complaints` is an
array (of any records, with any other top-level keys) `readStorage` returns
`data` and leaves it in the file; likewise `readNotificationStorage` after
`writeNotificationStorage(data)` for `data` with an array under
`notification`. -/
theorem read_after_write_returns_data (dc dn : Disk) (topc topn : List (String × Json))
    (complaints notifications : List Json)
    (hc : (Json.obj topc).field "complaints" = .json (.arr complaints))
    (hn : (Json.obj topn).field "notification" = .json (.arr notifications)) :
    (storageHandler.writeStorageQueued .fulfilled .none dc (.obj topc)).1 = .fulfilled ∧
    storageHandler.readStorage
        (storageHandler.writeStorageQueued .fulfilled .none dc (.obj topc)).2.canonical
      = some (.obj topc, .json (.obj topc)) ∧
    storageHandler.readStorage (storageHandler.writeStorage dc.canonical (.obj topc))
      = some (.obj topc, .json (.obj topc)) ∧
    (notificationHandler.writeStorageQueued .fulfilled .none dn (.obj topn)).1 = .fulfilled ∧
    notificationHandler.readNotificationStorage
        (notificationHandler.writeStorageQueued .fulfilled .none dn (.obj topn)).2.canonical
      = some (.obj topn, .json (.obj topn)) ∧
    notificationHandler.readNotificationStorage
        (notificationHandler.writeNotificationStorage dn.canonical (.obj topn))
      = some (.obj topn, .json (.obj topn)) :=
  ⟨rfl, storageHandler_readStorage_eq (.obj topc) complaints hc,
    storageHandler_readStorage_eq (.obj topc) complaints hc, rfl,
    notificationHandler_readStorage_eq (.obj topn) notifications hn,
    notificationHandler_readStorage_eq (.obj topn) notifications hn⟩

/-- C22 on a malformed complaints file and a missing notification file: the
documents written carry a record with an unknown field and an extra top-level
key, and are read back as written. -/
theorem read_after_write_returns_data_witness :
    storageHandler.readStorage
        (storageHandler.writeStorageQueued .fulfilled .none ⟨.malformed "not json", .missing⟩
          (.obj [("version", .num 2), ("complaints", .arr [.obj [("complaintId", .num 1),
            ("internalNote", .obj [("tags", .arr [.str "vip", .null])])]])])).2.canonical
      = some (.obj [("version", .num 2), ("complaints", .arr [.obj [("complaintId", .num 1),
            ("internalNote", .obj [("tags", .arr [.str "vip", .null])])]])],
          .json (.obj [("version", .num 2), ("complaints", .arr [.obj [("complaintId", .num 1),
            ("internalNote", .obj [("tags", .arr [.str "vip", .null])])]])])) ∧
    notificationHandler.readNotificationStorage
        (notificationHandler.writeStorageQueued .fulfilled .none ⟨.missing, .missing⟩
          (.obj [("notification", .arr [.obj [("notificationId", .num 1),
            ("extra", .bool true)]]), ("owner", .str "ops")])).2.canonical
      = some (.obj [("notification", .arr [.obj [("notificationId", .num 1),
            ("extra", .bool true)]]), ("owner", .str "ops")],
          .json (.obj [("notification", .arr [.obj [("notificationId", .num 1),
            ("extra", .bool true)]]), ("owner", .str "ops")])) :=
  ⟨(read_after_write_returns_data ⟨.malformed "not json", .missing⟩ ⟨.missing, .missing⟩
      [("version", .num 2), ("complaints", .arr [.obj [("complaintId", .num 1),
        ("internalNote", .obj [("tags", .arr [.str "vip", .null])])]])]
      [("notification", .arr [.obj [("notificationId", .num 1), ("extra", .bool true)]]),
        ("owner", .str "ops")]
      [.obj [("complaintId", .num 1),
        ("internalNote", .obj [("tags", .arr [.str "vip", .null])])]]
      [.obj [("notificationId", .num 1), ("extra", .bool true)]] rfl rfl).2.1,
    rfl⟩

/-- Once `writeQueue` is rejected, every `writeStorage` call is rejected with the
same error and touches no file, whatever its data and however its own I/O would
go. -/
theorem writeAll_rejected (err : String) (d : Disk) (calls : List (WriteFault × Json)) :
    storageHandler.writeAll (.rejected err) d calls
      = (calls.map (fun _ => Settled.rejected err), .rejected err, d) := by
  induction calls with
  | nil => rfl
  | cons c rest ih =>
    obtain ⟨fault, data⟩ := c
    simp only [storageHandler.writeAll, storageHandler.writeStorageQueued, ih, List.map_cons]

theorem notification_writeAll_rejected (err : String) (d : Disk)
    (calls : List (WriteFault × Json)) :
    notificationHandler.writeAll (.rejected err) d calls
      = (calls.map (fun _ => Settled.rejected err), .rejected err, d) := by
  induction calls with
  | nil => rfl
  | cons c rest ih =>
    obtain ⟨fault, data⟩ := c
    simp only [notificationHandler.writeAll, notificationHandler.writeStorageQueued, ih,
      List.map_cons]

/-- C23, at the failing input and in general.  The complaints file holds
`{ complaints: [] }`; the first `writeStorage` fails at the rename with `EIO`,
the second has working I/O: both are rejected with `EIO` and the file still
holds `{ complaints: [] }`, the data of the second call is not written.  In
general, after a call whose temporary write or rename failed, every later call
of any sequence is rejected with the error of the failed call and leaves the
files as the failed call left them; the same for
`writeNotificationStorage`. -/
theorem failed_write_blocks_later_writes (d : Disk) (data : Json) (err : String)
    (left : FileState) (later : List (WriteFault × Json)) :
    storageHandler.writeAll .fulfilled
        ⟨.json (.obj [("complaints", .arr [])]), .missing⟩
        [(.rename "EIO", .obj [("complaints", .arr [complaintRow 1])]),
          (.none, .obj [("complaints", .arr [complaintRow 2])])]
      = ([.rejected "EIO", .rejected "EIO"], .rejected "EIO",
          ⟨.json (.obj [("complaints", .arr [])]),
            .json (.obj [("complaints", .arr [complaintRow 1])])⟩) ∧
    storageHandler.writeAll .fulfilled d ((.rename err, data) :: later)
      = (.rejected err :: later.map (fun _ => Settled.rejected err), .rejected err,
          ⟨storageHandler.ensureStorageFile d.canonical, .json data⟩) ∧
    storageHandler.writeAll .fulfilled d ((.tempWrite err left, data) :: later)
      = (.rejected err :: later.map (fun _ => Settled.rejected err), .rejected err,
          ⟨storageHandler.ensureStorageFile d.canonical, left⟩) ∧
    notificationHandler.writeAll .fulfilled d ((.rename err, data) :: later)
      = (.rejected err :: later.map (fun _ => Settled.rejected err), .rejected err,
          ⟨notificationHandler.ensureStorageFile d.canonical, .json data⟩) ∧
    notificationHandler.writeAll .fulfilled d ((.tempWrite err left, data) :: later)
      = (.rejected err :: later.map (fun _ => Settled.rejected err), .rejected err,
          ⟨notificationHandler.ensureStorageFile d.canonical, left⟩) := by
  refine ⟨rfl, ?_, ?_, ?_, ?_⟩
  · simp only [storageHandler.writeAll, storageHandler.writeStorageQueued,
      storageHandler.writeSteps, writeAll_rejected]
  · simp only [storageHandler.writeAll, storageHandler.writeStorageQueued,
      storageHandler.writeSteps, writeAll_rejected]
  · simp only [notificationHandler.writeAll, notificationHandler.writeStorageQueued,
      notificationHandler.writeSteps, notification_writeAll_rejected]
  · simp only [notificationHandler.writeAll, notificationHandler.writeStorageQueued,
      notificationHandler.writeSteps, notification_writeAll_rejected]

/-! ## Concurrent complaint creation -/

/-- A request that runs its three steps without another request in between is
the handler `postComplaint`. -/
theorem stepPost_thrice (rt : JsRuntime) (today : String) (file : FileState)
    (req : ComplaintRequest) :
    runSchedule rt today ⟨file, [.received req]⟩ [0, 0, 0]
      = ⟨(postComplaint rt today file req).2,
          [.answered (postComplaint rt today file req).1]⟩ := by
  have hfold : ∀ s : InFlight, runSchedule rt today s [0, 0, 0]
      = stepAt rt today (stepAt rt today (stepAt rt today s 0) 0) 0 := fun _ => rfl
  have hans : ∀ r f, stepAt rt today ⟨f, [.answered r]⟩ 0 = ⟨f, [.answered r]⟩ :=
    fun _ _ => rfl
  have hstep : ∀ p f, stepAt rt today ⟨f, [p]⟩ 0
      = ⟨(stepPost rt today f p).2, [(stepPost rt today f p).1]⟩ := fun _ _ => rfl
  rw [hfold]
  unfold postComplaint
  cases hu : requireUser rt req with
  | error e =>
    have h1 : stepPost rt today file (.received req) = (.answered e, file) := by
      simp only [stepPost, hu]
    rw [hstep, h1, hans, hans]
  | ok p =>
    obtain ⟨uid, role⟩ := p
    simp only
    by_cases hadmin : role = "admin"
    · have h1 : stepPost rt today file (.received req)
          = (.answered ⟨403, errorBody "admin users cannot create complaints"⟩, file) := by
        simp only [stepPost, hu, hadmin, if_true]
      rw [hstep, h1, hans, hans, if_pos hadmin]
    · rw [if_neg hadmin]
      cases hbody : jsOr (.json req.body) (.json (.obj [])) with
      | undefined =>
        have h1 : stepPost rt today file (.received req) = (.answered internalError, file) := by
          simp only [stepPost, hu, hadmin, if_false, hbody]
        rw [hstep, h1, hans, hans]
      | nan =>
        have h1 : stepPost rt today file (.received req) = (.answered internalError, file) := by
          simp only [stepPost, hu, hadmin, if_false, hbody]
        rw [hstep, h1, hans, hans]
      | json body =>
        simp only
        by_cases hb : (!(body.field "bookingId").truthy) = true
        · have h1 : stepPost rt today file (.received req)
              = (.answered ⟨400, errorBody "bookingId is required"⟩, file) := by
            simp only [stepPost, hu, hadmin, if_false, hbody, hb, Bool.false_eq_true, if_true]
          rw [hstep, h1, hans, hans, if_pos hb]
        · rw [if_neg hb]
          by_cases hd : (!(body.field "complaintDescription").truthy
              || rt.trim (body.field "complaintDescription").toStr = "") = true
          · have h1 : stepPost rt today file (.received req)
                = (.answered ⟨400, errorBody "complaintDescription is required"⟩, file) := by
              simp only [stepPost, hu, hadmin, if_false, hbody, hb, Bool.false_eq_true, hd, if_true]
            rw [hstep, h1, hans, hans, if_pos hd]
          · rw [if_neg hd]
            cases hn : toNumber rt (body.field "bookingId") with
            | none =>
              have h1 : stepPost rt today file (.received req)
                  = (.answered ⟨400, errorBody "bookingId must be a number"⟩, file) := by
                simp only [stepPost, hu, hadmin, if_false, hbody, hb, Bool.false_eq_true, hd, hn]
              rw [hstep, h1, hans, hans]
            | some n =>
              simp only
              cases hr : storageHandler.readStorage file with
              | none =>
                have h1 : stepPost rt today file (.received req)
                    = (.answered internalError, storageHandler.ensureStorageFile file) := by
                  simp only [stepPost, hu, hadmin, if_false, hbody, hb, Bool.false_eq_true, hd, hn, hr]
                rw [hstep, h1, hans, hans]
              | some sf =>
                obtain ⟨storage, file1⟩ := sf
                have h1 : stepPost rt today file (.received req)
                    = (.read uid role n (rt.trim (body.field "complaintDescription").toStr)
                        storage, file1) := by
                  simp only [stepPost, hu, hadmin, if_false, hbody, hb, Bool.false_eq_true, hd, hn, hr]
                rw [hstep, h1]
                simp only
                cases hg : storageHandler.getNextComplaintId rt file1 with
                | none =>
                  have h2 : stepPost rt today file1
                      (.read uid role n (rt.trim (body.field "complaintDescription").toStr)
                        storage)
                      = (.answered internalError, storageHandler.ensureStorageFile file1) := by
                    simp only [stepPost, hg]
                  rw [hstep, h2, hans]
                | some idf =>
                  obtain ⟨newId, file2⟩ := idf
                  have h2 : stepPost rt today file1
                      (.read uid role n (rt.trim (body.field "complaintDescription").toStr)
                        storage)
                      = (.numbered uid role n
                          (rt.trim (body.field "complaintDescription").toStr) storage newId,
                          file2) := by
                    simp only [stepPost, hg]
                  rw [hstep, h2, hstep]
                  simp only [stepPost]
                  cases ha : (storage.field "complaints").asArray? with
                  | none => rfl
                  | some rows =>
                    simp only
                    cases hs : storage.assign? "complaints"
                        (.json (.arr (newComplaint newId n uid role
                          (rt.trim (body.field "complaintDescription").toStr) today :: rows))) with
                    | none => rfl
                    | some storage1 => rfl

/-- A `201` response of `POST /api/complaints` on a well-formed file, step by
step: the first step leaves the request with the document as its snapshot, the
identifier is the one `getNextComplaintId` gives on that document, and the
stored document is the snapshot with the new record in front. -/
theorem postComplaint_steps (rt : JsRuntime) (today : String) (top : List (String × Json))
    (rows : List Json) (req : ComplaintRequest)
    (hfile : (Json.obj top).field "complaints" = .json (.arr rows))
    (hok : (postComplaint rt today (.json (.obj top)) req).1.status = 201) :
    ∃ uid role n d newId,
      stepPost rt today (.json (.obj top)) (.received req)
        = (.read uid role n d (.obj top), .json (.obj top)) ∧
      storageHandler.getNextComplaintId rt (.json (.obj top))
        = some (newId, .json (.obj top)) ∧
      postComplaint rt today (.json (.obj top)) req
        = (⟨201, newComplaint newId n uid role d today⟩,
            .json (.obj (setField "complaints"
              (.arr (newComplaint newId n uid role d today :: rows)) top))) := by
  have hread := storageHandler_readStorage_eq (.obj top) rows hfile
  unfold postComplaint at hok ⊢
  cases hu : requireUser rt req with
  | error e =>
    simp only [hu] at hok
    have := requireUser_error_status rt req e hu
    omega
  | ok p =>
    obtain ⟨uid, role⟩ := p
    simp only [hu] at hok ⊢
    by_cases hadmin : role = "admin"
    · rw [if_pos hadmin] at hok
      simp at hok
    · rw [if_neg hadmin] at hok ⊢
      cases hbody : jsOr (.json req.body) (.json (.obj [])) with
      | undefined =>
        simp only [hbody] at hok
        simp [internalError] at hok
      | nan =>
        simp only [hbody] at hok
        simp [internalError] at hok
      | json body =>
        simp only [hbody] at hok ⊢
        by_cases hb : (!(body.field "bookingId").truthy) = true
        · rw [if_pos hb] at hok
          simp at hok
        · rw [if_neg hb] at hok ⊢
          by_cases hd : (!(body.field "complaintDescription").truthy
              || rt.trim (body.field "complaintDescription").toStr = "") = true
          · rw [if_pos hd] at hok
            simp at hok
          · rw [if_neg hd] at hok ⊢
            cases hn : toNumber rt (body.field "bookingId") with
            | none =>
              simp only [hn] at hok
              simp at hok
            | some n =>
              simp only [hn, hread] at hok ⊢
              cases hg : storageHandler.getNextComplaintId rt (.json (.obj top)) with
              | none =>
                simp only [hg] at hok
                simp [internalError] at hok
              | some idf =>
                obtain ⟨newId, file2⟩ := idf
                have hfile2 : file2 = .json (.obj top) := by
                  simp only [storageHandler.getNextComplaintId, hread] at hg
                  cases ha : (jsOr ((Json.obj top).field "complaints")
                      (.json (.arr []))).asArray? with
                  | none => simp [ha] at hg
                  | some cs =>
                    simp only [ha] at hg
                    cases hm : maxIdFrom rt "complaintId" 0 cs with
                    | none => simp [hm] at hg
                    | some m =>
                      simp only [hm, Option.some.injEq, Prod.mk.injEq] at hg
                      exact hg.2.symm
                subst hfile2
                refine ⟨uid, role, n, rt.trim (body.field "complaintDescription").toStr, newId,
                  ?_, rfl, ?_⟩
                · simp only [stepPost, hu, hadmin, if_false, hbody, hb, Bool.false_eq_true, hd,
                    hn, hread]
                · simp only [hfile, JsVal.asArray?, assign_obj, assignField,
                    storageHandler.writeStorage]

theorem storedComplaints_cons_inv (f : FileState) (c : Json) (cs : List Json)
    (h : storedComplaints f = c :: cs) :
    ∃ top, f = .json (.obj top) ∧ (Json.obj top).field "complaints" = .json (.arr (c :: cs)) := by
  cases f with
  | missing => simp [storedComplaints] at h
  | empty => simp [storedComplaints] at h
  | malformed raw => simp [storedComplaints] at h
  | json v =>
    simp only [storedComplaints] at h
    cases hv : v.field "complaints" with
    | undefined => simp [hv] at h
    | nan => simp [hv] at h
    | json j =>
      cases j with
      | arr xs =>
        simp only [hv] at h
        subst h
        obtain ⟨top, rfl⟩ := truthy_of_field_json v "complaints" _ (by decide) hv
        exact ⟨top, rfl, hv⟩
      | null => simp [hv] at h
      | bool b => simp [hv] at h
      | num n => simp [hv] at h
      | str s => simp [hv] at h
      | obj fs => simp [hv] at h

/-- The identifier of a complaint created on a collection of positive integer
identifiers of at most 9007199254740991 is a positive integer that no stored
complaint has: 1, or one more than a stored identifier. -/
theorem postComplaint_fresh (rt : JsRuntime) (today : String) (v : Json) (rows : List Json)
    (req : ComplaintRequest) (r : Reply) (f : FileState)
    (hfile : v.field "complaints" = .json (.arr rows))
    (hpos : ∀ c ∈ rows, ∃ n : Int, 0 < n ∧ n ≤ 9007199254740991 ∧
      c.field "complaintId" = .json (.num n))
    (hrun : postComplaint rt today (.json v) req = (r, f)) (hok : r.status = 201) :
    (∃ n : Int, 0 < n ∧ (n = 1 ∨ ∃ c ∈ rows, c.field "complaintId" = .json (.num (n - 1))) ∧
      r.body.field "complaintId" = .json (.num n)) ∧
    r.body.field "complaintId" ∉ idsOf "complaintId" rows ∧
    storedComplaints f = r.body :: rows := by
  obtain ⟨newId, hid, hbody, hstored⟩ :=
    postComplaint_created rt today v rows req r f hfile hrun hok
  obtain ⟨m, hm, hub, hnil, hcons⟩ := getNextComplaintId_spec rt v rows hfile hpos
  rw [hid] at hm
  simp only [Option.some.injEq, Prod.mk.injEq, and_true] at hm
  have hm0 : 0 ≤ m := by
    by_cases hr : rows = []
    · rw [hnil hr]
    · obtain ⟨c, hc, hcm⟩ := hcons hr
      obtain ⟨n, hn, -, hcn⟩ := hpos c hc
      rw [hcm] at hcn
      simp only [JsVal.json.injEq, Json.num.injEq] at hcn
      omega
  have hfrom : newId = 1 ∨ ∃ c ∈ rows, c.field "complaintId" = .json (.num (newId - 1)) := by
    by_cases hr : rows = []
    · left
      have := hnil hr
      omega
    · right
      obtain ⟨c, hc, hcm⟩ := hcons hr
      refine ⟨c, hc, ?_⟩
      rw [hcm]
      have : m = newId - 1 := by omega
      rw [this]
  refine ⟨⟨newId, by omega, hfrom, hbody⟩, ?_, hstored⟩
  intro hmem
  simp only [idsOf, List.mem_map] at hmem
  obtain ⟨c, hc, heq⟩ := hmem
  rw [hbody] at heq
  have := hub c hc newId heq
  omega

/-- Requests served in turn on a collection of pairwise-distinct positive
integer identifiers, all answered `201`, where the number of requests added to
any stored identifier stays at or below 9007199254740992 (`2 ^ 53`): the stored
sequence is the new records, latest first, in front of the old rows, and the
identifiers stay pairwise distinct. -/
theorem serveInTurn_created (rt : JsRuntime) (today : String) (reqs : List ComplaintRequest) :
    ∀ (v : Json) (rows : List Json) (rs : List Reply) (f : FileState),
    v.field "complaints" = .json (.arr rows) →
    (reqs.length : Int) ≤ 9007199254740992 →
    (∀ c ∈ rows, ∃ n : Int, 0 < n ∧ n + (reqs.length : Int) ≤ 9007199254740992 ∧
      c.field "complaintId" = .json (.num n)) →
    (idsOf "complaintId" rows).Nodup →
    serveInTurn rt today (.json v) reqs = (rs, f) →
    (∀ r ∈ rs, r.status = 201) →
    rs.length = reqs.length ∧
    storedComplaints f = (rs.map (fun r => r.body)).reverse ++ rows ∧
    (idsOf "complaintId" (storedComplaints f)).Nodup := by
  induction reqs with
  | nil =>
    intro v rows rs f hfile _ _ hnodup hrun _
    simp only [serveInTurn, Prod.mk.injEq] at hrun
    obtain ⟨h1, h2⟩ := hrun
    subst h1
    subst h2
    obtain ⟨top, rfl⟩ := truthy_of_field_json v "complaints" _ (by decide) hfile
    rw [storedComplaints_of_field top rows hfile]
    exact ⟨rfl, rfl, hnodup⟩
  | cons req rest ih =>
    intro v rows rs f hfile hlen hpos hnodup hrun hok
    simp only [List.length_cons, Nat.cast_add, Nat.cast_one] at hlen hpos
    simp only [serveInTurn] at hrun
    cases hp : postComplaint rt today (.json v) req with
    | mk r file1 =>
      cases hs : serveInTurn rt today file1 rest with
      | mk rs1 file2 =>
        simp only [hp, hs, Prod.mk.injEq] at hrun
        obtain ⟨h1, h2⟩ := hrun
        subst h1
        subst h2
        have hr : r.status = 201 := hok r (List.mem_cons_self _ _)
        have hsafe : ∀ c ∈ rows, ∃ n : Int, 0 < n ∧ n ≤ 9007199254740991 ∧
            c.field "complaintId" = .json (.num n) := by
          intro c hc
          obtain ⟨n, h0, hb, hcn⟩ := hpos c hc
          exact ⟨n, h0, by omega, hcn⟩
        obtain ⟨⟨newId, hnew0, hfrom, hnewid⟩, hfresh, hstored⟩ :=
          postComplaint_fresh rt today v rows req r file1 hfile hsafe hp hr
        obtain ⟨top1, rfl, hfile1⟩ := storedComplaints_cons_inv file1 r.body rows hstored
        have hnewb : newId + (rest.length : Int) ≤ 9007199254740992 := by
          rcases hfrom with h | ⟨c, hc, hcm⟩
          · omega
          · obtain ⟨n, h0, hb, hcn⟩ := hpos c hc
            rw [hcm] at hcn
            simp only [JsVal.json.injEq, Json.num.injEq] at hcn
            omega
        have hpos1 : ∀ c ∈ r.body :: rows, ∃ n : Int, 0 < n ∧
            n + (rest.length : Int) ≤ 9007199254740992 ∧
            c.field "complaintId" = .json (.num n) := by
          intro c hc
          rcases List.mem_cons.mp hc with h | h
          · rw [h]
            exact ⟨newId, hnew0, hnewb, hnewid⟩
          · obtain ⟨n, h0, hb, hcn⟩ := hpos c h
            exact ⟨n, h0, by omega, hcn⟩
        have hnodup1 : (idsOf "complaintId" (r.body :: rows)).Nodup := by
          simp only [idsOf, List.map_cons, List.nodup_cons]
          exact ⟨hfresh, hnodup⟩
        obtain ⟨hlen1, hst, hnd⟩ := ih (.obj top1) (r.body :: rows) rs1 file2 hfile1
          (by omega) hpos1 hnodup1 hs (fun x hx => hok x (List.mem_cons_of_mem _ hx))
        refine ⟨by simp [hlen1], ?_, hnd⟩
        rw [hst]
        simp

/-- The orders in which two requests can take their first two steps each. -/
theorem perm_two_two (pre : List Nat) (h : pre.Perm [0, 0, 1, 1]) :
    pre = [0, 0, 1, 1] ∨ pre = [0, 1, 0, 1] ∨ pre = [0, 1, 1, 0] ∨
    pre = [1, 0, 0, 1] ∨ pre = [1, 0, 1, 0] ∨ pre = [1, 1, 0, 0] := by
  have hl := h.length_eq
  have hc := h.count_eq 0
  have hm : ∀ x ∈ pre, x = 0 ∨ x = 1 := by
    intro x hx
    have := h.subset hx
    simpa using this
  rcases pre with _ | ⟨a, _ | ⟨b, _ | ⟨c, _ | ⟨d, _ | ⟨e, t⟩⟩⟩⟩⟩ <;> simp at hl
  have ha := hm a (by simp)
  have hb := hm b (by simp)
  have hc1 := hm c (by simp)
  have hd := hm d (by simp)
  rcases ha with rfl | rfl <;> rcases hb with rfl | rfl <;> rcases hc1 with rfl | rfl <;>
    rcases hd with rfl | rfl <;> revert hc <;> decide

/-- The orders in which two requests can take their last step. -/
theorem perm_one_one (post : List Nat) (h : post.Perm [0, 1]) :
    post = [0, 1] ∨ post = [1, 0] := by
  have hl := h.length_eq
  have hc := h.count_eq 0
  have hm : ∀ x ∈ post, x = 0 ∨ x = 1 := by
    intro x hx
    have := h.subset hx
    simpa using this
  rcases post with _ | ⟨a, _ | ⟨b, _ | ⟨c, t⟩⟩⟩ <;> simp at hl
  have ha := hm a (by simp)
  have hb := hm b (by simp)
  rcases ha with rfl | rfl <;> rcases hb with rfl | rfl <;> revert hc <;> decide

/-- Two requests that both read the collection and take their identifier before
either write is applied, in any order of their steps: both are answered with
the record each would get alone, and the file ends as the request whose write
is applied last would leave it alone. -/
theorem race_overwrites (rt : JsRuntime) (today : String) (top : List (String × Json))
    (rows : List Json) (req1 req2 : ComplaintRequest) (pre post : List Nat)
    (hfile : (Json.obj top).field "complaints" = .json (.arr rows))
    (hok1 : (postComplaint rt today (.json (.obj top)) req1).1.status = 201)
    (hok2 : (postComplaint rt today (.json (.obj top)) req2).1.status = 201)
    (hpre : pre.Perm [0, 0, 1, 1]) (hpost : post.Perm [0, 1]) :
    runSchedule rt today ⟨.json (.obj top), [.received req1, .received req2]⟩ (pre ++ post)
      = ⟨(postComplaint rt today (.json (.obj top)) (lastServed req1 req2 post)).2,
          [.answered (postComplaint rt today (.json (.obj top)) req1).1,
            .answered (postComplaint rt today (.json (.obj top)) req2).1]⟩ := by
  obtain ⟨u1, ro1, n1, d1, id1, hs1, hg1, hp1⟩ :=
    postComplaint_steps rt today top rows req1 hfile hok1
  obtain ⟨u2, ro2, n2, d2, id2, hs2, hg2, hp2⟩ :=
    postComplaint_steps rt today top rows req2 hfile hok2
  have hstep0 : ∀ p q f, stepAt rt today ⟨f, [p, q]⟩ 0
      = ⟨(stepPost rt today f p).2, [(stepPost rt today f p).1, q]⟩ := fun _ _ _ => rfl
  have hstep1 : ∀ p q f, stepAt rt today ⟨f, [p, q]⟩ 1
      = ⟨(stepPost rt today f q).2, [p, (stepPost rt today f q).1]⟩ := fun _ _ _ => rfl
  have hnum : ∀ u ro n d newId, storageHandler.getNextComplaintId rt (.json (.obj top))
        = some (newId, .json (.obj top)) →
      stepPost rt today (.json (.obj top)) (.read u ro n d (.obj top))
        = (.numbered u ro n d (.obj top) newId, .json (.obj top)) := by
    intro u ro n d newId hg
    simp only [stepPost, hg]
  have hwrite : ∀ f u ro n d newId,
      stepPost rt today f (.numbered u ro n d (.obj top) newId)
        = (.answered ⟨201, newComplaint newId n u ro d today⟩,
            .json (.obj (setField "complaints"
              (.arr (newComplaint newId n u ro d today :: rows)) top))) := by
    intro f u ro n d newId
    simp only [stepPost, hfile, JsVal.asArray?, assign_obj, assignField,
      storageHandler.writeStorage]
  have r0 : ∀ q, stepAt rt today ⟨.json (.obj top), [.received req1, q]⟩ 0
      = ⟨.json (.obj top), [.read u1 ro1 n1 d1 (.obj top), q]⟩ := by
    intro q
    rw [hstep0, hs1]
  have r1 : ∀ p, stepAt rt today ⟨.json (.obj top), [p, .received req2]⟩ 1
      = ⟨.json (.obj top), [p, .read u2 ro2 n2 d2 (.obj top)]⟩ := by
    intro p
    rw [hstep1, hs2]
  have i0 : ∀ q, stepAt rt today ⟨.json (.obj top), [.read u1 ro1 n1 d1 (.obj top), q]⟩ 0
      = ⟨.json (.obj top), [.numbered u1 ro1 n1 d1 (.obj top) id1, q]⟩ := by
    intro q
    rw [hstep0, hnum u1 ro1 n1 d1 id1 hg1]
  have i1 : ∀ p, stepAt rt today ⟨.json (.obj top), [p, .read u2 ro2 n2 d2 (.obj top)]⟩ 1
      = ⟨.json (.obj top), [p, .numbered u2 ro2 n2 d2 (.obj top) id2]⟩ := by
    intro p
    rw [hstep1, hnum u2 ro2 n2 d2 id2 hg2]
  have w0 : ∀ f q, stepAt rt today ⟨f, [.numbered u1 ro1 n1 d1 (.obj top) id1, q]⟩ 0
      = ⟨.json (.obj (setField "complaints"
            (.arr (newComplaint id1 n1 u1 ro1 d1 today :: rows)) top)),
          [.answered ⟨201, newComplaint id1 n1 u1 ro1 d1 today⟩, q]⟩ := by
    intro f q
    rw [hstep0, hwrite]
  have w1 : ∀ f p, stepAt rt today ⟨f, [p, .numbered u2 ro2 n2 d2 (.obj top) id2]⟩ 1
      = ⟨.json (.obj (setField "complaints"
            (.arr (newComplaint id2 n2 u2 ro2 d2 today :: rows)) top)),
          [p, .answered ⟨201, newComplaint id2 n2 u2 ro2 d2 today⟩]⟩ := by
    intro f p
    rw [hstep1, hwrite]
  have hl0 : lastServed req1 req2 [1, 0] = req1 := rfl
  have hl1 : lastServed req1 req2 [0, 1] = req2 := rfl
  rcases perm_two_two pre hpre with h | h | h | h | h | h <;>
    rcases perm_one_one post hpost with g | g <;>
    subst h <;> subst g <;>
    simp only [hl0, hl1, hp1, hp2, runSchedule, List.cons_append, List.nil_append, List.foldl,
      r0, r1, i0, i1, w0, w1]

/-- C24, counterexample: two requests on the complaints 3, 5 and 4.  Both read
the collection and take their identifier before either write is applied: both
are answered `201` with `complaintId` 6, and the persisted collection holds one
new record, the one of the second request; the insert of the first is lost. -/
theorem concurrent_posts_share_id :
    runSchedule isoRuntime "2024-06-01" twoInFlight [0, 1, 0, 1, 0, 1]
      = ⟨.json (.obj [("complaints",
            .arr [secondCreated 6, complaintRow 3, complaintRow 5, complaintRow 4])]),
          [.answered ⟨201, firstCreated 6⟩, .answered ⟨201, secondCreated 6⟩]⟩ ∧
    (firstCreated 6).field "complaintId" = (secondCreated 6).field "complaintId" ∧
    (storedComplaints (runSchedule isoRuntime "2024-06-01" twoInFlight
      [0, 1, 0, 1, 0, 1]).file).length = 3 + 1 ∧
    firstCreated 6 ∉ storedComplaints (runSchedule isoRuntime "2024-06-01" twoInFlight
      [0, 1, 0, 1, 0, 1]).file := by
  have h : runSchedule isoRuntime "2024-06-01" twoInFlight [0, 1, 0, 1, 0, 1]
      = ⟨.json (.obj [("complaints",
            .arr [secondCreated 6, complaintRow 3, complaintRow 5, complaintRow 4])]),
          [.answered ⟨201, firstCreated 6⟩, .answered ⟨201, secondCreated 6⟩]⟩ := rfl
  refine ⟨h, rfl, ?_, ?_⟩
  · rw [h]
    rfl
  · rw [h]
    simp [storedComplaints, Json.field, lookupField, firstCreated, secondCreated, newComplaint,
      mkObj, assignField, setField, complaintRow]

/-- C24 as amended.  Identifiers are unique for requests served in turn, not
for requests that overlap.  On a collection whose `complaintId` values are
pairwise-distinct positive integers, N `POST /api/complaints` requests served
one after the other and all answered `201`, with N and every stored identifier
plus N at most 9007199254740992 (`2 ^ 53`), leave the N new records, latest
first, in front of the old rows, with pairwise-distinct identifiers.  When two
requests both read the collection and take their identifier before either
write is applied, in whatever order these steps and the two writes come (the
schedule is an arrangement `pre` of the steps 0, 0, 1, 1 followed by an
arrangement `post` of the writes 0, 1; the queue orders the writes only), each
is answered with the record it would get alone, both records carry the same
`complaintId`, and the persisted collection is the old rows with the record of
the request written last only. -/
theorem complaint_ids_distinct_in_turn (rt : JsRuntime) (today : String)
    (top : List (String × Json)) (rows : List Json) (reqs : List ComplaintRequest)
    (rs : List Reply) (f : FileState) (req1 req2 : ComplaintRequest) (pre post : List Nat)
    (hfile : (Json.obj top).field "complaints" = .json (.arr rows))
    (hlen : (reqs.length : Int) ≤ 9007199254740992)
    (hpos : ∀ c ∈ rows, ∃ n : Int, 0 < n ∧ n + (reqs.length : Int) ≤ 9007199254740992 ∧
      c.field "complaintId" = .json (.num n))
    (hnodup : (idsOf "complaintId" rows).Nodup)
    (hrun : serveInTurn rt today (.json (.obj top)) reqs = (rs, f))
    (hok : ∀ r ∈ rs, r.status = 201)
    (hok1 : (postComplaint rt today (.json (.obj top)) req1).1.status = 201)
    (hok2 : (postComplaint rt today (.json (.obj top)) req2).1.status = 201)
    (hpre : pre.Perm [0, 0, 1, 1]) (hpost : post.Perm [0, 1]) :
    (rs.length = reqs.length ∧
      storedComplaints f = (rs.map (fun r => r.body)).reverse ++ rows ∧
      (storedComplaints f).length = reqs.length + rows.length ∧
      (idsOf "complaintId" (storedComplaints f)).Nodup) ∧
    (runSchedule rt today ⟨.json (.obj top), [.received req1, .received req2]⟩ (pre ++ post)
      = ⟨(postComplaint rt today (.json (.obj top)) (lastServed req1 req2 post)).2,
          [.answered (postComplaint rt today (.json (.obj top)) req1).1,
            .answered (postComplaint rt today (.json (.obj top)) req2).1]⟩ ∧
      (postComplaint rt today (.json (.obj top)) req1).1.body.field "complaintId"
        = (postComplaint rt today (.json (.obj top)) req2).1.body.field "complaintId" ∧
      storedComplaints
          (postComplaint rt today (.json (.obj top)) (lastServed req1 req2 post)).2
        = (postComplaint rt today (.json (.obj top)) (lastServed req1 req2 post)).1.body
          :: rows) := by
  constructor
  · obtain ⟨hlen1, hst, hnd⟩ :=
      serveInTurn_created rt today reqs (.obj top) rows rs f hfile hlen hpos hnodup hrun hok
    refine ⟨hlen1, hst, ?_, hnd⟩
    rw [hst]
    simp only [List.length_append, List.length_reverse, List.length_map, hlen1]
  · refine ⟨race_overwrites rt today top rows req1 req2 pre post hfile hok1 hok2 hpre hpost,
      ?_, ?_⟩
    · obtain ⟨u1, ro1, n1, d1, id1, -, hg1, hp1⟩ :=
        postComplaint_steps rt today top rows req1 hfile hok1
      obtain ⟨u2, ro2, n2, d2, id2, -, hg2, hp2⟩ :=
        postComplaint_steps rt today top rows req2 hfile hok2
      rw [hg1] at hg2
      simp only [Option.some.injEq, Prod.mk.injEq, and_true] at hg2
      rw [hp1, hp2, hg2]
      simp only [newComplaint_id]
    · have hokl : (postComplaint rt today (.json (.obj top))
          (lastServed req1 req2 post)).1.status = 201 := by
        unfold lastServed
        split
        · exact hok1
        · exact hok2
      obtain ⟨u, ro, n, d, newId, -, -, hp⟩ :=
        postComplaint_steps rt today top rows (lastServed req1 req2 post) hfile hokl
      rw [hp]
      exact storedComplaints_setField top _

/-- C24 as amended, on the complaints 3, 5 and 4 and the requests of users 42
and 43: served in turn they get the identifiers 6 and 7 and both records are
stored; scheduled read 0, read 1, id 1, id 0, write 1, write 0 both are
answered with identifier 6 and only the record of user 42 is stored. -/
theorem complaint_ids_distinct_in_turn_witness :
    serveInTurn isoRuntime "2024-06-01" (.json sampleComplaints)
        [sampleComplaintRequest, secondComplaintRequest]
      = ([⟨201, firstCreated 6⟩, ⟨201, secondCreated 7⟩],
          .json (.obj [("complaints", .arr [secondCreated 7, firstCreated 6, complaintRow 3,
            complaintRow 5, complaintRow 4])])) ∧
    (idsOf "complaintId" (storedComplaints
      (.json (.obj [("complaints", .arr [secondCreated 7, firstCreated 6, complaintRow 3,
        complaintRow 5, complaintRow 4])])))).Nodup ∧
    runSchedule isoRuntime "2024-06-01"
        ⟨.json (.obj [("complaints", .arr [complaintRow 3, complaintRow 5, complaintRow 4])]),
          [.received sampleComplaintRequest, .received secondComplaintRequest]⟩
        ([0, 1, 1, 0] ++ [1, 0])
      = ⟨.json (.obj [("complaints",
            .arr [firstCreated 6, complaintRow 3, complaintRow 5, complaintRow 4])]),
          [.answered ⟨201, firstCreated 6⟩, .answered ⟨201, secondCreated 6⟩]⟩ :=
  have h := complaint_ids_distinct_in_turn isoRuntime "2024-06-01"
    [("complaints", .arr [complaintRow 3, complaintRow 5, complaintRow 4])]
    [complaintRow 3, complaintRow 5, complaintRow 4]
    [sampleComplaintRequest, secondComplaintRequest]
    [⟨201, firstCreated 6⟩, ⟨201, secondCreated 7⟩]
    (.json (.obj [("complaints", .arr [secondCreated 7, firstCreated 6, complaintRow 3,
      complaintRow 5, complaintRow 4])]))
    sampleComplaintRequest secondComplaintRequest [0, 1, 1, 0] [1, 0] rfl
    (by decide)
    (by
      intro c hc
      simp only [List.mem_cons, List.mem_singleton, List.not_mem_nil, or_false] at hc
      rcases hc with rfl | rfl | rfl
      · exact ⟨3, by decide, by decide, rfl⟩
      · exact ⟨5, by decide, by decide, rfl⟩
      · exact ⟨4, by decide, by decide, rfl⟩)
    (by simp [idsOf, complaintRow, Json.field, lookupField])
    rfl
    (by
      intro r hr
      simp only [List.mem_cons, List.mem_singleton, List.not_mem_nil, or_false] at hr
      rcases hr with rfl | rfl <;> rfl)
    rfl rfl (by decide) (by decide)
  ⟨rfl, h.1.2.2.2, h.2.1⟩

/-! ## Bookings eligible for a complaint -/

theorem keepEligible_mem (rt : JsRuntime) (cal : LocalCalendar) (today userId : Int)
    (userRole : String) (rows : List Json) :
    ∀ kept, UserServices.keepEligible rt cal today userId userRole rows = some kept →
      kept = rows.filter
        (fun b => UserServices.eligibleRow rt cal today userId userRole b == some true) := by
  induction rows with
  | nil =>
    intro kept h
    simp only [UserServices.keepEligible, Option.some.injEq] at h
    rw [← h]
    rfl
  | cons b rest ih =>
    intro kept h
    simp only [UserServices.keepEligible] at h
    cases hb : UserServices.eligibleRow rt cal today userId userRole b with
    | none => simp [hb] at h
    | some keep =>
      simp only [hb] at h
      cases hr : UserServices.keepEligible rt cal today userId userRole rest with
      | none => simp [hr] at h
      | some kept1 =>
        simp only [hr, Option.some.injEq] at h
        rw [← h, ih kept1 hr]
        cases keep <;> simp [List.filter_cons, hb]

/-- The three date criteria of the filter callback are one interval test. -/
theorem isEligible_iff (cal : LocalCalendar) (hmono : StrictMono cal.midnight)
    (today ci co : Int) (hle : ci ≤ co) :
    UserServices.isEligible cal today (some ci) (some co) = true ↔
      ci ≤ today ∧ today ≤ co + 7 := by
  have h1 : ∀ a b, cal.midnight a ≤ cal.midnight b ↔ a ≤ b := fun a b => hmono.le_iff_le
  have h2 : ∀ a b, cal.midnight a < cal.midnight b ↔ a < b := fun a b => hmono.lt_iff_lt
  have h3 : ∀ a b, cal.midnight a = cal.midnight b ↔ a = b :=
    fun a b => hmono.injective.eq_iff
  simp only [UserServices.isEligible, Option.map_some', numEq, numLt, dateLe, Bool.or_eq_true,
    Bool.and_eq_true, decide_eq_true_eq, h1, h2, h3]
  omega

/-- C25. `GET /eligible-bookings/:userId` on a stored sequence on which the
filter does not throw: the response lists the `bookingId` of the bookings kept,
in stored order, and a booking of the user (`userId` for the role `client`,
`hostId` otherwise) whose dates parse to the local days `ci ≤ co` is kept if and
only if `ci ≤ today ≤ co + 7`; the three criteria of the handler say no more
than that. -/
theorem eligibleBookings_interval (rt : JsRuntime) (cal : LocalCalendar)
    (today userId : Int) (param rawRole : String) (rows kept : List Json) (b : Json)
    (ci co : Int)
    (hmono : StrictMono cal.midnight)
    (hparam : rt.stringToNumber param = some userId) (hid : userId ≠ 0)
    (hrole : rt.toLowerCase rawRole ≠ "")
    (hkept : UserServices.keepEligible rt cal today userId (rt.toLowerCase rawRole) rows
      = some kept)
    (hb : b ∈ rows)
    (howner : numEq (toNumber rt
      (b.field (if rt.toLowerCase rawRole = "client" then "userId" else "hostId")))
      (some userId) = true)
    (hci : UserServices.parseLocalDate rt cal (b.field "checkInDate") = some (some ci))
    (hco : UserServices.parseLocalDate rt cal (b.field "checkOutDate") = some (some co))
    (hle : ci ≤ co) :
    UserServices.eligibleBookings rt cal today (bookingFile rows) param (some rawRole)
      = ⟨200, .obj [("success", .bool true),
          ("bookingIds", .arr (kept.map UserServices.bookingIdOf))]⟩ ∧
    kept.Sublist rows ∧
    (b ∈ kept ↔ ci ≤ today ∧ today ≤ co + 7) ∧
    (UserServices.isEligible cal today (some ci) (some co) = true ↔
      ci ≤ today ∧ today ≤ co + 7) := by
  have hfilter := keepEligible_mem rt cal today userId (rt.toLowerCase rawRole) rows kept hkept
  have hne : b ≠ Json.null := by
    intro h
    subst h
    simp [Json.field, toNumber, numEq] at howner
  have hrow : UserServices.eligibleRow rt cal today userId (rt.toLowerCase rawRole) b
      = some (UserServices.isEligible cal today (some ci) (some co)) := by
    simp only [UserServices.eligibleRow, getProp_of_ne_null b _ hne, howner, hci, hco,
      Bool.not_true, Bool.false_eq_true, if_false]
  have hiff := isEligible_iff cal hmono today ci co hle
  refine ⟨?_, ?_, ?_, hiff⟩
  · simp only [UserServices.eligibleBookings, hparam, Option.map_some', hid, hrole, or_self,
      if_false, bookingFile, JsVal.getProp?, Json.field, lookupField, if_true, jsOr,
      JsVal.truthy, Json.truthy, JsVal.asArray?, hkept]
  · rw [hfilter]
    exact List.filter_sublist _
  · rw [hfilter, List.mem_filter, hrow, ← hiff]
    simp [hb]

/-- C25 for client 42 on 2024-06-20 (local time UTC+05:30): the stay that ended
on 2024-06-15 is listed, the stay that ended on 2024-06-05 and the stay of
another guest are not. -/
theorem eligibleBookings_interval_witness :
    UserServices.eligibleBookings isoRuntime istCalendar (daysFromCivil 2024 6 20)
        (bookingFile [mkStay 1 42 9 "2024-06-10" "2024-06-15",
          mkStay 2 42 9 "2024-06-01" "2024-06-05", mkStay 3 77 9 "2024-06-18" "2024-06-25"])
        "42" (some "Client")
      = ⟨200, .obj [("success", .bool true), ("bookingIds", .arr [.num 1])]⟩ ∧
    (mkStay 1 42 9 "2024-06-10" "2024-06-15" ∈ [mkStay 1 42 9 "2024-06-10" "2024-06-15"] ↔
      daysFromCivil 2024 6 10 ≤ daysFromCivil 2024 6 20 ∧
        daysFromCivil 2024 6 20 ≤ daysFromCivil 2024 6 15 + 7) :=
  have h := eligibleBookings_interval isoRuntime istCalendar (daysFromCivil 2024 6 20) 42
    "42" "Client"
    [mkStay 1 42 9 "2024-06-10" "2024-06-15", mkStay 2 42 9 "2024-06-01" "2024-06-05",
      mkStay 3 77 9 "2024-06-18" "2024-06-25"]
    [mkStay 1 42 9 "2024-06-10" "2024-06-15"] (mkStay 1 42 9 "2024-06-10" "2024-06-15")
    (daysFromCivil 2024 6 10) (daysFromCivil 2024 6 15)
    (by
      intro a b hab
      simp only [istCalendar]
      omega)
    rfl (by decide) (by decide) rfl (List.mem_cons_self _ _) rfl rfl rfl (by decide)
  ⟨rfl, h.2.2.1⟩

/-! ## Revenue -/

theorem ownedBy_eq_filter (userId : JsVal) (props : List Json)
    (h : ∀ p ∈ props, p ≠ Json.null) :
    HostController.ownedBy userId props
      = some (props.filter (fun p => strictEq (p.field "userId") userId)) := by
  induction props with
  | nil => rfl
  | cons p rest ih =>
    have hp := h p (List.mem_cons_self _ _)
    rw [HostController.ownedBy, getProp_of_ne_null p _ hp,
      ih (fun x hx => h x (List.mem_cons_of_mem _ hx))]
    by_cases hs : strictEq (p.field "userId") userId = true
    · simp [List.filter_cons, hs]
    · simp [List.filter_cons, hs]

theorem numAdd_zero (total : Option Int) : numAdd total (some 0) = total := by
  cases total <;> simp [numAdd]

theorem priceFor_unowned (hostProps : List Json) (pid : JsVal)
    (h : hostProps.any (fun p => strictEq (p.field "propertyId") pid) = false) :
    HostController.priceFor hostProps pid = .json (.num 0) := by
  have hfind : hostProps.find? (fun p => strictEq (p.field "propertyId") pid) = none := by
    rw [List.find?_eq_none]
    intro x hx
    rw [List.any_eq_false] at h
    exact h x hx
  simp only [HostController.priceFor, hfind]

theorem any_propertyId (owned : List Json) (pid : JsVal) :
    (owned.map (fun p => p.field "propertyId")).any (fun x => strictEq x pid)
      = owned.any (fun p => strictEq (p.field "propertyId") pid) := by
  induction owned with
  | nil => rfl
  | cons p rest ih => simp only [List.map_cons, List.any_cons, ih]

/-- The loop of `revenue` adds, to the running total, the nights times the price
of the confirmed bookings with valid dates on a property of the host; every
other booking leaves the total as it is. -/
theorem revenueLoop_eq (rt : JsRuntime) (userId : Option Int) (owned : List Json)
    (rows : List Json) (h : ∀ b ∈ rows, b ≠ Json.null) :
    ∀ total, HostController.revenueLoop rt userId owned total rows
      = some ((rows.filter (fun b =>
          strictEq (b.field "bookingStatus") (.json (.bool true))
            && (newDate rt (b.field "checkInDate")).isSome
            && (newDate rt (b.field "checkOutDate")).isSome
            && owned.any (fun p => strictEq (p.field "propertyId") (b.field "propertyId")))).foldl
        (fun total b => numAdd total (numTimes rt
          (HostController.countNights rt (b.field "checkInDate") (b.field "checkOutDate"))
          (HostController.priceFor owned (b.field "propertyId")))) total) := by
  induction rows with
  | nil =>
    intro total
    rfl
  | cons b rest ih =>
    intro total
    have hb := h b (List.mem_cons_self _ _)
    have ih1 := ih (fun x hx => h x (List.mem_cons_of_mem _ hx))
    rw [HostController.revenueLoop, getProp_of_ne_null b _ hb, any_propertyId, List.filter_cons]
    cases hown : owned.any (fun p => strictEq (p.field "propertyId") (b.field "propertyId"))
    · have hprice := priceFor_unowned owned (b.field "propertyId") hown
      have hzero : numTimes rt (HostController.countNights rt (b.field "checkInDate")
          (b.field "checkOutDate")) (.json (.num 0)) = some 0 := by
        simp [numTimes, toNumber]
      simp only [Bool.and_false, Bool.false_eq_true, if_false, Bool.not_false, Bool.and_true]
      cases hhost : numEq (toNumber rt (b.field "hostId")) userId
      · simp only [Bool.not_false, if_true, ih1]
      · simp only [Bool.not_true, Bool.false_eq_true, if_false]
        cases hstatus : strictEq (b.field "bookingStatus") (.json (.bool true))
        · simp only [Bool.not_false, if_true, ih1]
        · simp only [Bool.not_true, Bool.false_eq_true, if_false]
          cases hci : newDate rt (b.field "checkInDate") with
          | none => simp only [dateIsNaN, Option.isNone_none, Bool.true_or, if_true, ih1]
          | some ci =>
            cases hco : newDate rt (b.field "checkOutDate") with
            | none => simp only [dateIsNaN, Option.isNone_none, Bool.or_true, if_true, ih1]
            | some co =>
              simp only [dateIsNaN, Option.isNone_some, Bool.or_false, Bool.false_eq_true,
                if_false, hprice, hzero, numAdd_zero, ih1]
    · simp only [Bool.and_true, Bool.not_true, Bool.and_false, Bool.false_eq_true, if_false]
      cases hstatus : strictEq (b.field "bookingStatus") (.json (.bool true))
      · simp only [Bool.not_false, if_true, ih1, Bool.false_and, Bool.false_eq_true, if_false]
      · simp only [Bool.not_true, Bool.false_eq_true, if_false, Bool.true_and]
        cases hci : newDate rt (b.field "checkInDate") with
        | none =>
          simp only [dateIsNaN, Option.isNone_none, Bool.true_or, if_true, ih1,
            Option.isSome_none, Bool.false_and, Bool.false_eq_true, if_false]
        | some ci =>
          cases hco : newDate rt (b.field "checkOutDate") with
          | none =>
            simp only [dateIsNaN, Option.isNone_none, Bool.or_true, if_true, ih1,
              Option.isSome_none, Option.isSome_some, Bool.and_false, Bool.false_eq_true,
              if_false]
          | some co =>
            simp only [dateIsNaN, Option.isNone_some, Bool.or_false, Bool.false_eq_true,
              if_false, Option.isSome_some, Bool.and_true, if_true, ih1, List.foldl_cons]

theorem countNights_whole_days (rt : JsRuntime) (start stop : JsVal) (s k : Int)
    (hstart : newDate rt start = some s) (hstop : newDate rt stop = some (s + k * 86400000)) :
    HostController.countNights rt start stop = if 0 < k then k else 1 := by
  have hdiv : (s + k * 86400000 - s + 43200000) / 86400000 = k := by omega
  simp only [HostController.countNights, hstart, hstop, hdiv, gt_iff_lt]

/-- C26. `revenue` on stores of records: the response carries as `totalRevenue`
the sum, over the stored bookings with `bookingStatus === true` and valid dates
whose `propertyId` is that of a property owned by `userId`, of
`countNights(checkInDate, checkOutDate)` times the price of that property
(`pricePerDay`, else `pricePreDay`, else 0); cancelled bookings and bookings
matched by `hostId` only are not in the sum.  `countNights` of two valid dates
`k` whole days apart is `k` when positive and 1 otherwise. -/
theorem revenue_is_spec_sum (rt : JsRuntime) (props bookings : List Json) (param : String)
    (start stop : JsVal) (s k : Int)
    (hprops : ∀ p ∈ props, p ≠ Json.null) (hbookings : ∀ b ∈ bookings, b ≠ Json.null)
    (hstart : newDate rt start = some s) (hstop : newDate rt stop = some (s + k * 86400000)) :
    HostController.revenue rt (.json (propertiesDoc props)) (bookingFile bookings) param
      = some ⟨200, HostController.response true "Revenue calculated"
          (mkObj [("totalRevenue", ofNumber
            (HostController.revenueBySpec rt (rt.stringToNumber param) props bookings))])⟩ ∧
    HostController.countNights rt start stop = (if 0 < k then k else 1) := by
  refine ⟨?_, countNights_whole_days rt start stop s k hstart hstop⟩
  simp only [HostController.revenue, fileDb.readJson, propertiesDoc, bookingFile, true_or,
    or_true, if_true, JsVal.getProp?, Json.field, lookupField, jsOr, JsVal.truthy, Json.truthy,
    JsVal.asArray?, ownedBy_eq_filter _ props hprops,
    revenueLoop_eq rt _ _ bookings hbookings, HostController.revenueBySpec]

/-- C26 for host 9, who owns property 1 at 1500 a day: the confirmed stay of
three nights counts 4500; the cancelled stay, the stay on property 5 that names
host 9 only in `hostId`, and the stay with an invalid date count nothing. -/
theorem revenue_is_spec_sum_witness :
    HostController.revenue isoRuntime
        (.json (propertiesDoc [mkProperty 1 3 "Sea view flat" "AVAILABLE",
          .obj [("propertyId", .num 5), ("userId", .num 4), ("pricePerDay", .num 900)]]))
        (bookingFile [mkHostBooking 1 1 9 "2024-06-10" "2024-06-13" true,
          mkHostBooking 2 1 9 "2024-07-01" "2024-07-05" false,
          mkHostBooking 3 5 9 "2024-06-10" "2024-06-12" true,
          mkHostBooking 4 1 9 "2024-06-31" "2024-07-02" true]) "9"
      = some ⟨200, HostController.response true "Revenue calculated"
          (.obj [("totalRevenue", .num 4500)])⟩ ∧
    HostController.revenueBySpec isoRuntime (isoRuntime.stringToNumber "9")
        [mkProperty 1 3 "Sea view flat" "AVAILABLE",
          .obj [("propertyId", .num 5), ("userId", .num 4), ("pricePerDay", .num 900)]]
        [mkHostBooking 1 1 9 "2024-06-10" "2024-06-13" true,
          mkHostBooking 2 1 9 "2024-07-01" "2024-07-05" false,
          mkHostBooking 3 5 9 "2024-06-10" "2024-06-12" true,
          mkHostBooking 4 1 9 "2024-06-31" "2024-07-02" true] = some 4500 ∧
    HostController.countNights isoRuntime (.json (.str "2024-06-10"))
      (.json (.str "2024-06-13")) = 3 :=
  have h := revenue_is_spec_sum isoRuntime
    [mkProperty 1 3 "Sea view flat" "AVAILABLE",
      .obj [("propertyId", .num 5), ("userId", .num 4), ("pricePerDay", .num 900)]]
    [mkHostBooking 1 1 9 "2024-06-10" "2024-06-13" true,
      mkHostBooking 2 1 9 "2024-07-01" "2024-07-05" false,
      mkHostBooking 3 5 9 "2024-06-10" "2024-06-12" true,
      mkHostBooking 4 1 9 "2024-06-31" "2024-07-02" true] "9"
    (.json (.str "2024-06-10")) (.json (.str "2024-06-13")) (daysFromCivil 2024 6 10 * 86400000) 3
    (by simp [mkProperty]) (by simp [mkHostBooking]) rfl rfl
  ⟨rfl, rfl, h.2⟩

/-! ## Passwords -/

theorem not_terminator_of_passwordChar (c : Char) (h : isPasswordChar c = true) :
    isLineTerminator c = false := by
  simp only [isPasswordChar, isUpperAscii, isLowerAscii, isDigitAscii, isSpecialChar,
    Bool.or_eq_true, decide_eq_true_eq] at h
  simp only [isLineTerminator, Bool.or_eq_false_iff, decide_eq_false_iff_not]
  omega

theorem lookahead_eq_any (inClass : Char → Bool) (cs : List Char)
    (h : cs.all isPasswordChar = true) : lookahead inClass cs = cs.any inClass := by
  induction cs with
  | nil => rfl
  | cons c rest ih =>
    simp only [List.all_cons, Bool.and_eq_true] at h
    simp only [lookahead, List.any_cons, not_terminator_of_passwordChar c h.1, ih h.2,
      Bool.not_false, Bool.true_and]

/-- The regular expression of `isStrongPassword` accepts exactly the strings of
at least 8 characters, all of them ASCII letters, ASCII digits or one of
`@$!%*?&`, with a lower-case letter, an upper-case letter, a digit and one of
`@$!%*?&` among them. -/
theorem isStrongPassword_iff (p : String) :
    UserServices.isStrongPassword (.json (.str p)) = true ↔
      8 ≤ p.length ∧
      (∀ c ∈ p.data, isUpperAscii c = true ∨ isLowerAscii c = true ∨ isDigitAscii c = true
        ∨ isSpecialChar c = true) ∧
      (∃ c ∈ p.data, isLowerAscii c = true) ∧ (∃ c ∈ p.data, isUpperAscii c = true) ∧
      (∃ c ∈ p.data, isDigitAscii c = true) ∧ (∃ c ∈ p.data, isSpecialChar c = true) := by
  have hlen : p.length = p.data.length := rfl
  have hall : p.data.all isPasswordChar = true ↔
      ∀ c ∈ p.data, isUpperAscii c = true ∨ isLowerAscii c = true ∨ isDigitAscii c = true
        ∨ isSpecialChar c = true := by
    simp only [List.all_eq_true, isPasswordChar, Bool.or_eq_true, or_assoc]
  simp only [UserServices.isStrongPassword, JsVal.toStr, Json.toStr, Bool.and_eq_true,
    decide_eq_true_eq]
  constructor
  · rintro ⟨⟨⟨⟨h1, h2⟩, h3⟩, h4⟩, h5, h6⟩
    rw [lookahead_eq_any _ _ h5, List.any_eq_true] at h1 h2 h3 h4
    exact ⟨by rw [hlen]; exact h6, hall.mp h5, h1, h2, h3, h4⟩
  · rintro ⟨h6, h5, h1, h2, h3, h4⟩
    have h5a := hall.mpr h5
    rw [lookahead_eq_any _ _ h5a, lookahead_eq_any _ _ h5a, lookahead_eq_any _ _ h5a,
      lookahead_eq_any _ _ h5a]
    simp only [List.any_eq_true]
    exact ⟨⟨⟨⟨h1, h2⟩, h3⟩, h4⟩, h5a, by rw [← hlen]; exact h6⟩

@[simp] theorem serverError_status : UserServices.serverError.status = 500 := rfl

@[simp] theorem failure_status (status : Nat) (message : String) :
    (UserServices.failure status message).status = status := rfl

@[simp] theorem weakPassword_status : UserServices.weakPassword.status = 400 := rfl

@[simp] theorem userNotFound_status : UserServices.userNotFound.status = 404 := rfl

/-- With a weak password `POST /signup` answers 400 or 500 and leaves the users
file as it was. -/
theorem signup_weak (rt : JsRuntime) (strip : String → String) (nowAt : Nat → Int) (now : Int)
    (bc : Bcrypt) (file : FileState) (body : Json)
    (hweak : UserServices.isStrongPassword (body.field "password") = false) :
    (UserServices.signup rt strip nowAt now bc file body).1.status ≠ 200 ∧
    (UserServices.signup rt strip nowAt now bc file body).2 = file := by
  unfold UserServices.signup
  cases hg : (JsVal.json body).getProp? "username" with
  | none => exact ⟨by simp, rfl⟩
  | some username =>
    simp only
    by_cases h1 : (!username.truthy || !(body.field "password").truthy) = true
    · rw [if_pos h1]
      exact ⟨by simp, rfl⟩
    · rw [if_neg h1]
      by_cases h2 : (!(body.field "securityQuestion").truthy
          || !(body.field "securityAnswer").truthy) = true
      · rw [if_pos h2]
        exact ⟨by simp, rfl⟩
      · rw [if_neg h2]
        cases hc : UserServices.cleanUsername rt strip username with
        | none => exact ⟨by simp, rfl⟩
        | some cleaned =>
          simp only [hweak, Bool.not_false, if_true]
          exact ⟨by simp, trivial⟩

theorem storeNewPassword_weak (bc : Bcrypt) (done : String) (file1 : FileState)
    (usersArray : List Json) (idx : Nat) (user : Json) (newPassword : JsVal)
    (hweak : UserServices.isStrongPassword newPassword = false) :
    UserServices.storeNewPassword bc done file1 usersArray idx user newPassword
      = (UserServices.weakPassword, file1) := by
  simp only [UserServices.storeNewPassword, hweak, Bool.not_false, if_true]

/-- With a weak new password `POST /reset-password` answers 400 or 500 and
leaves the users file as it was or as `readUsers` left it. -/
theorem resetPassword_weak (rt : JsRuntime) (strip : String → String) (nowAt : Nat → Int)
    (bc : Bcrypt) (file : FileState) (body : Json)
    (hweak : UserServices.isStrongPassword (body.field "newPassword") = false) :
    (UserServices.resetPassword rt strip nowAt bc file body).1.status ≠ 200 ∧
    ((UserServices.resetPassword rt strip nowAt bc file body).2 = file ∨
      (UserServices.resetPassword rt strip nowAt bc file body).2
        = (UserServices.readUsers nowAt file).2) := by
  unfold UserServices.resetPassword
  cases hg : (JsVal.json body).getProp? "username" with
  | none => exact ⟨by simp, Or.inl rfl⟩
  | some username =>
    simp only
    cases hc : UserServices.cleanUsername rt strip (jsOr username (.json (.str ""))) with
    | none => exact ⟨by simp, Or.inl rfl⟩
    | some cleaned =>
      simp only
      cases hr : UserServices.readUsers nowAt file with
      | mk users file1 =>
        simp only
        cases ha : (users.field "Users").asArray? with
        | none => exact ⟨by simp, Or.inr rfl⟩
        | some usersArray =>
          simp only
          cases hf : findIndexM (UserServices.usernameIs cleaned) usersArray with
          | none => exact ⟨by simp, Or.inr rfl⟩
          | some found =>
            cases found with
            | none => exact ⟨by simp, Or.inr rfl⟩
            | some idx =>
              simp only
              cases hu : usersArray[idx]? with
              | none => exact ⟨by simp, Or.inr rfl⟩
              | some user =>
                cases hans : jsOr (body.field "answer") (.json (.str "")) with
                | undefined => exact ⟨by simp, Or.inr rfl⟩
                | nan => exact ⟨by simp, Or.inr rfl⟩
                | json j =>
                  cases j with
                  | str answer =>
                    simp only
                    cases hv : UserServices.verifyHashPassword bc (.json (.str (rt.trim answer)))
                        (jsOr (user.field "securityAnswer") (.json (.str ""))) with
                    | none => exact ⟨by simp, Or.inr rfl⟩
                    | some ok =>
                      cases ok with
                      | false => exact ⟨by simp, Or.inr rfl⟩
                      | true =>
                        simp only [storeNewPassword_weak _ _ _ _ _ _ _ hweak]
                        exact ⟨by simp, Or.inr trivial⟩
                  | null => exact ⟨by simp, Or.inr rfl⟩
                  | bool b => exact ⟨by simp, Or.inr rfl⟩
                  | num n => exact ⟨by simp, Or.inr rfl⟩
                  | arr xs => exact ⟨by simp, Or.inr rfl⟩
                  | obj fs => exact ⟨by simp, Or.inr rfl⟩

/-- With a weak new password `POST /change-password` answers 400, 404 or 500 and
leaves the users file as it was or as `readUsers` left it. -/
theorem changePassword_weak (rt : JsRuntime) (strip : String → String) (nowAt : Nat → Int)
    (bc : Bcrypt) (file : FileState) (body : Json)
    (hweak : UserServices.isStrongPassword (body.field "newPassword") = false) :
    (UserServices.changePassword rt strip nowAt bc file body).1.status ≠ 200 ∧
    ((UserServices.changePassword rt strip nowAt bc file body).2 = file ∨
      (UserServices.changePassword rt strip nowAt bc file body).2
        = (UserServices.readUsers nowAt file).2) := by
  unfold UserServices.changePassword
  cases hg : (JsVal.json body).getProp? "username" with
  | none => exact ⟨by simp, Or.inl rfl⟩
  | some username =>
    simp only
    by_cases h1 : (!username.truthy || !(body.field "oldPassword").truthy
        || !(body.field "newPassword").truthy) = true
    · rw [if_pos h1]
      exact ⟨by simp, Or.inl rfl⟩
    · rw [if_neg h1]
      cases hc : UserServices.cleanUsername rt strip username with
      | none => exact ⟨by simp, Or.inl rfl⟩
      | some cleaned =>
        simp only
        cases hr : UserServices.readUsers nowAt file with
        | mk users file1 =>
          simp only
          cases ha : (users.field "Users").asArray? with
          | none => exact ⟨by simp, Or.inr rfl⟩
          | some usersArray =>
            simp only
            cases hf : findIndexM (UserServices.usernameIs cleaned) usersArray with
            | none => exact ⟨by simp, Or.inr rfl⟩
            | some found =>
              cases found with
              | none => exact ⟨by simp, Or.inr rfl⟩
              | some idx =>
                simp only
                cases hu : usersArray[idx]? with
                | none => exact ⟨by simp, Or.inr rfl⟩
                | some user =>
                  simp only
                  cases hv : UserServices.verifyHashPassword bc (body.field "oldPassword")
                      (user.field "hashedPassword") with
                  | none => exact ⟨by simp, Or.inr rfl⟩
                  | some ok =>
                    cases ok with
                    | false => exact ⟨by simp, Or.inr rfl⟩
                    | true =>
                      simp only [storeNewPassword_weak _ _ _ _ _ _ _ hweak]
                      exact ⟨by simp, Or.inr trivial⟩

/-- The read step `readUsers` keeps every field of every stored user, the
`userId` of a user that has none apart. -/
theorem readUsers_keeps (nowAt : Nat → Int) (file : FileState) (k : String)
    (hobj : ∀ r ∈ storedUsers file, ∃ fs, r = Json.obj fs) :
    List.Forall₂ (keepsField k) (storedUsers file)
      (storedUsers (UserServices.readUsers nowAt file).2) := by
  rcases readUsers_cases nowAt file with h | ⟨parsed, h, -⟩ | ⟨top, rows, rows1, hfile, hfield, hn, h⟩
  · rw [h]
    exact forall₂_keepsField_refl k _
  · rw [h]
    exact forall₂_keepsField_refl k _
  · rw [h]
    subst hfile
    rw [storedUsers_setField, storedUsers_of_field top rows hfield]
    rw [storedUsers_of_field top rows hfield] at hobj
    obtain ⟨rows2, hn2, hrel⟩ := normalizeIdsFrom_objects nowAt rows 0 hobj
    rw [UserServices.normalizeIds, hn2] at hn
    simp only [Option.some.injEq] at hn
    subst hn
    exact hrel.imp (fun a b hab => keepsField_of_normalized k a b hab)

theorem forall₂_hash_of_file (nowAt : Nat → Int) (file f : FileState)
    (hobj : ∀ r ∈ storedUsers file, ∃ fs, r = Json.obj fs)
    (h : f = file ∨ f = (UserServices.readUsers nowAt file).2) :
    List.Forall₂ (fun a b => b.field "hashedPassword" = a.field "hashedPassword")
      (storedUsers file) (storedUsers f) := by
  rcases h with h | h
  · rw [h]
    exact List.forall₂_same.mpr (fun _ _ => rfl)
  · rw [h]
    exact (readUsers_keeps nowAt file "hashedPassword" hobj).imp
      (fun a b hab => hab (fun hk => absurd hk (by decide)))

/-- C27. `isStrongPassword(p)` is true exactly for the strings `p` of at least 8
characters, all of them ASCII letters, ASCII digits or one of `@$!%*?&`, with at
least one lower-case letter, one upper-case letter, one digit and one of
`@$!%*?&`.  Signup, reset-password and change-password store no new hash for a
password on which it is false: signup then answers without success and leaves
the users file as it was; reset-password and change-password answer without
success and every stored user keeps its `hashedPassword` (no user is added or
removed). -/
theorem strong_password_required (p : String) (rt : JsRuntime) (strip : String → String)
    (nowAt : Nat → Int) (now : Int) (bc : Bcrypt) (file : FileState)
    (signupBody resetBody changeBody : Json)
    (hobj : ∀ r ∈ storedUsers file, ∃ fs, r = Json.obj fs)
    (hsignup : UserServices.isStrongPassword (signupBody.field "password") = false)
    (hreset : UserServices.isStrongPassword (resetBody.field "newPassword") = false)
    (hchange : UserServices.isStrongPassword (changeBody.field "newPassword") = false) :
    (UserServices.isStrongPassword (.json (.str p)) = true ↔
      8 ≤ p.length ∧
      (∀ c ∈ p.data, isUpperAscii c = true ∨ isLowerAscii c = true ∨ isDigitAscii c = true
        ∨ isSpecialChar c = true) ∧
      (∃ c ∈ p.data, isLowerAscii c = true) ∧ (∃ c ∈ p.data, isUpperAscii c = true) ∧
      (∃ c ∈ p.data, isDigitAscii c = true) ∧ (∃ c ∈ p.data, isSpecialChar c = true)) ∧
    ((UserServices.signup rt strip nowAt now bc file signupBody).1.status ≠ 200 ∧
      (UserServices.signup rt strip nowAt now bc file signupBody).2 = file) ∧
    ((UserServices.resetPassword rt strip nowAt bc file resetBody).1.status ≠ 200 ∧
      List.Forall₂ (fun a b => b.field "hashedPassword" = a.field "hashedPassword")
        (storedUsers file)
        (storedUsers (UserServices.resetPassword rt strip nowAt bc file resetBody).2)) ∧
    ((UserServices.changePassword rt strip nowAt bc file changeBody).1.status ≠ 200 ∧
      List.Forall₂ (fun a b => b.field "hashedPassword" = a.field "hashedPassword")
        (storedUsers file)
        (storedUsers (UserServices.changePassword rt strip nowAt bc file changeBody).2)) := by
  refine ⟨isStrongPassword_iff p, signup_weak rt strip nowAt now bc file signupBody hsignup,
    ?_, ?_⟩
  · obtain ⟨h1, h2⟩ := resetPassword_weak rt strip nowAt bc file resetBody hreset
    exact ⟨h1, forall₂_hash_of_file nowAt file _ hobj h2⟩
  · obtain ⟨h1, h2⟩ := changePassword_weak rt strip nowAt bc file changeBody hchange
    exact ⟨h1, forall₂_hash_of_file nowAt file _ hobj h2⟩

/-- C27 on the account of alice: `Abcdef1!` is strong, `abcdefg1!` (no upper-case
letter) is not; changing to the weak password is refused and the file stays,
changing to the strong one stores its hash. -/
theorem strong_password_required_witness :
    UserServices.isStrongPassword (.json (.str "Abcdef1!")) = true ∧
    UserServices.isStrongPassword (.json (.str "abcdefg1!")) = false ∧
    UserServices.changePassword isoRuntime stripSpaces fixedClock plainBcrypt
        (.json (usersDoc [mkAccount 7 "alice" "Active" "OldPass1!"]))
        (.obj [("username", .str "alice"), ("oldPassword", .str "OldPass1!"),
          ("newPassword", .str "abcdefg1!")])
      = (UserServices.weakPassword,
          .json (usersDoc [mkAccount 7 "alice" "Active" "OldPass1!"])) ∧
    UserServices.changePassword isoRuntime stripSpaces fixedClock plainBcrypt
        (.json (usersDoc [mkAccount 7 "alice" "Active" "OldPass1!"]))
        (.obj [("username", .str "alice"), ("oldPassword", .str "OldPass1!"),
          ("newPassword", .str "Abcdef1!")])
      = (UserServices.success "Password changed successfully",
          .json (usersDoc [mkAccount 7 "alice" "Active" "Abcdef1!"])) ∧
    ((UserServices.signup isoRuntime stripSpaces fixedClock 1700000000000 plainBcrypt
        (.json (usersDoc [mkAccount 7 "alice" "Active" "OldPass1!"]))
        (.obj [("username", .str "Carol"), ("password", .str "abcdefg1!"),
          ("securityQuestion", .str "Pet?"), ("securityAnswer", .str "rex")])).1.status ≠ 200 ∧
      (UserServices.signup isoRuntime stripSpaces fixedClock 1700000000000 plainBcrypt
        (.json (usersDoc [mkAccount 7 "alice" "Active" "OldPass1!"]))
        (.obj [("username", .str "Carol"), ("password", .str "abcdefg1!"),
          ("securityQuestion", .str "Pet?"), ("securityAnswer", .str "rex")])).2
        = .json (usersDoc [mkAccount 7 "alice" "Active" "OldPass1!"])) :=
  have h := strong_password_required "Abcdef1!" isoRuntime stripSpaces fixedClock 1700000000000
    plainBcrypt (.json (usersDoc [mkAccount 7 "alice" "Active" "OldPass1!"]))
    (.obj [("username", .str "Carol"), ("password", .str "abcdefg1!"),
      ("securityQuestion", .str "Pet?"), ("securityAnswer", .str "rex")])
    (.obj [("username", .str "alice"), ("answer", .str "rex"), ("newPassword", .str "short")])
    (.obj [("username", .str "alice"), ("oldPassword", .str "OldPass1!"),
      ("newPassword", .str "abcdefg1!")])
    (by
      intro r hr
      have hs : storedUsers (.json (usersDoc [mkAccount 7 "alice" "Active" "OldPass1!"]))
          = [mkAccount 7 "alice" "Active" "OldPass1!"] := rfl
      rw [hs] at hr
      simp only [List.mem_singleton] at hr
      exact ⟨_, hr⟩)
    rfl rfl rfl
  ⟨rfl, rfl, rfl, rfl, h.2.1⟩

/-! ## Usernames and account status -/

/-- C28, at the failing input.  The users file holds alice and bob, both stored
under their cleaned usernames.  `PUT /api/users/update` with the body
`{ username: "Bob", email: ... }` finds bob through `cleanUsername("Bob")`,
answers 200 and stores the record with `username` `"Bob"`, which is not a fixed
point of `cleanUsername`.  Afterwards the same update and a login of `Bob` do
not find the user.  Signup, in contrast, stores the cleaned name. -/
theorem updateUser_stores_raw_username :
    UserServices.cleanUsername isoRuntime stripSpaces (.json (.str "Bob")) = some "bob" ∧
    (UserServices.updateUser isoRuntime stripSpaces fixedClock (.json twoAccounts)
        (.obj [("username", .str "Bob"), ("email", .str "b@example.org")])).1.status = 200 ∧
    storedUsers (UserServices.updateUser isoRuntime stripSpaces fixedClock (.json twoAccounts)
        (.obj [("username", .str "Bob"), ("email", .str "b@example.org")])).2
      = [mkAccount 7 "alice" "Active" "AlicePass1!",
          .obj [("userId", .num 8), ("username", .str "Bob"), ("email", .str "b@example.org"),
            ("phone", .str "555-0100"), ("hashedPassword", .str "hash:BobPass1!"),
            ("status", .str "Active"), ("role", .str "user"),
            ("securityAnswer", .str "hash:rex")]] ∧
    (UserServices.updateUser isoRuntime stripSpaces fixedClock
        (UserServices.updateUser isoRuntime stripSpaces fixedClock (.json twoAccounts)
          (.obj [("username", .str "Bob"), ("email", .str "b@example.org")])).2
        (.obj [("username", .str "Bob"), ("email", .str "b@example.org")])).1
      = UserServices.userNotFound ∧
    (UserServices.login isoRuntime stripSpaces fixedClock plainBcrypt
        (UserServices.updateUser isoRuntime stripSpaces fixedClock (.json twoAccounts)
          (.obj [("username", .str "Bob"), ("email", .str "b@example.org")])).2
        (.obj [("username", .str "Bob"), ("password", .str "BobPass1!")])).1
      = UserServices.failure 400 "Invalid username" ∧
    (UserServices.login isoRuntime stripSpaces fixedClock plainBcrypt (.json twoAccounts)
        (.obj [("username", .str "Bob"), ("password", .str "BobPass1!")])).1.status = 200 ∧
    (storedUsers (UserServices.signup isoRuntime stripSpaces fixedClock 1700000000000
        plainBcrypt (.json twoAccounts)
        (.obj [("username", .str " Carol "), ("password", .str "Abcdef1!"),
          ("securityQuestion", .str "Pet?"), ("securityAnswer", .str "rex")])).2).map
        (fun u => u.field "username")
      = [.json (.str "alice"), .json (.str "bob"), .json (.str "carol")] :=
  ⟨rfl, rfl, rfl, rfl, rfl, rfl, rfl⟩

/-- C29, at the failing input.  The admin blocks bob (`PUT /users/8/block` with
`block: true`): the stored status becomes `"Blocked"`.  The admin deletes bob
(`DELETE /users/8`): the stored status becomes `"DELETED"`.  In both cases the
login of bob with his password is answered 200 `Login successful`, because the
login handler tests for `"blocked"` and `"deleted"`.  A user deleted through
`POST /api/users/delete` (status `"deleted"`) is refused with 403. -/
theorem login_ignores_admin_status :
    AdminServices.blockUser isoRuntime (.json twoAccounts) "8" (.obj [("block", .bool true)])
      = (⟨200, .obj [("success", .bool true), ("message", .str "User blocked successfully"),
          ("data", .obj [("userId", .num 8), ("username", .str "bob"),
            ("userMail", .str "a@example.org"), ("userPhone", .str "555-0100"),
            ("userRole", .str "user"), ("userStatus", .str "Blocked")])]⟩,
          .json (bobWithStatus "Blocked")) ∧
    UserServices.login isoRuntime stripSpaces fixedClock plainBcrypt
        (.json (bobWithStatus "Blocked")) bobLogin
      = (⟨200, .obj [("success", .bool true), ("message", .str "Login successful"),
          ("user", bobSafe "Blocked")]⟩, .json (bobWithStatus "Blocked")) ∧
    AdminServices.deleteUser isoRuntime (.json twoAccounts) "8"
      = (⟨200, .obj [("success", .bool true), ("message", .str "User deleted successfully")]⟩,
          .json (bobWithStatus "DELETED")) ∧
    UserServices.login isoRuntime stripSpaces fixedClock plainBcrypt
        (.json (bobWithStatus "DELETED")) bobLogin
      = (⟨200, .obj [("success", .bool true), ("message", .str "Login successful"),
          ("user", bobSafe "DELETED")]⟩, .json (bobWithStatus "DELETED")) ∧
    UserServices.softDeleteUser isoRuntime stripSpaces fixedClock (.json twoAccounts)
        (.obj [("username", .str "bob")])
      = (some (UserServices.success "Account soft deleted"), .json (bobWithStatus "deleted")) ∧
    UserServices.login isoRuntime stripSpaces fixedClock plainBcrypt
        (.json (bobWithStatus "deleted")) bobLogin
      = (UserServices.failure 403 "Account deleted", .json (bobWithStatus "deleted")) ∧
    UserServices.login isoRuntime stripSpaces fixedClock plainBcrypt
        (.json (bobWithStatus "blocked")) bobLogin
      = (UserServices.failure 403 "Account blocked", .json (bobWithStatus "blocked")) :=
  ⟨rfl, rfl, rfl, rfl, rfl, rfl, rfl⟩

/-! ## Bookings of a host -/

/-- On a users document that keeps its users under `Users`, the entry of a
booking carries the `guestInfo` of no guest. -/
theorem bookingEntry_noGuest (hostProps rows : List Json) (b entry : Json)
    (h : HostController.bookingEntry hostProps (usersDoc rows) b = some entry) :
    entry.field "guestInfo" = .json noGuest := by
  have husers : (JsVal.json (usersDoc rows)).getProp? "users" = some .undefined := rfl
  have hnone : (jsOr JsVal.undefined (.json (.arr []))).asArray? = some [] := rfl
  simp only [HostController.bookingEntry, husers, hnone, HostController.findGuest,
    Option.some.injEq] at h
  rw [← h]
  simp only [List.foldl]
  exact field_assign_self _ _ _

theorem bookingEntries_noGuest (hostProps rows : List Json) (kept : List Json) :
    ∀ entries, HostController.bookingEntries hostProps (usersDoc rows) kept = some entries →
      ∀ e ∈ entries, e.field "guestInfo" = .json noGuest := by
  induction kept with
  | nil =>
    intro entries h e he
    simp only [HostController.bookingEntries, Option.some.injEq] at h
    rw [← h] at he
    simp at he
  | cons b rest ih =>
    intro entries h e he
    simp only [HostController.bookingEntries] at h
    cases hb : HostController.bookingEntry hostProps (usersDoc rows) b with
    | none => simp [hb] at h
    | some entry =>
      simp only [hb] at h
      cases hr : HostController.bookingEntries hostProps (usersDoc rows) rest with
      | none => simp [hr] at h
      | some entries1 =>
        simp only [hr, Option.some.injEq] at h
        rw [← h] at he
        rcases List.mem_cons.mp he with he | he
        · rw [he]
          exact bookingEntry_noGuest hostProps rows b entry hb
        · exact ih entries1 hr e he

/-- C30, at the failing input and in general.  The user store holds bob
(`userId` 8, with e-mail and phone) under `Users`; host 9 owns property 1 and
bob booked it.  The entry of `viewBookings` for that booking has the
`guestInfo` `{ name: "", email: "", phone: "" }`: the handler looks for the
guest in `userDB.users`.  With the same users under `users` the entry carries
bob's details.  In general, for every user store that keeps its users under
`Users` and every response of `viewBookings`, every entry has that empty
`guestInfo`. -/
theorem viewBookings_guest_lookup_misses (rt : JsRuntime) (properties bookings : FileState)
    (rows : List Json) (param : String) (reply : Reply) (entries : List Json) (e : Json)
    (hrun : HostController.viewBookings rt properties bookings (.json (usersDoc rows)) param
      = some reply)
    (hdata : reply.body.field "data" = .json (.arr entries)) (he : e ∈ entries) :
    e.field "guestInfo" = .json noGuest ∧
    HostController.viewBookings isoRuntime
        (.json (propertiesDoc [mkProperty 1 3 "Sea view flat" "AVAILABLE"]))
        (bookingFile [bobBooking]) (.json twoAccounts) "9"
      = some ⟨200, HostController.response true "Bookings loaded" (.arr [bobEntry noGuest])⟩ ∧
    HostController.viewBookings isoRuntime
        (.json (propertiesDoc [mkProperty 1 3 "Sea view flat" "AVAILABLE"]))
        (bookingFile [bobBooking])
        (.json (.obj [("users", .arr [mkAccount 7 "alice" "Active" "AlicePass1!",
          mkAccount 8 "bob" "Active" "BobPass1!"])])) "9"
      = some ⟨200, HostController.response true "Bookings loaded"
          (.arr [bobEntry (.obj [("name", .str "bob"), ("email", .str "a@example.org"),
            ("phone", .str "555-0100")])])⟩ := by
  refine ⟨?_, rfl, rfl⟩
  have husers : fileDb.readJson "users.json" (.json (usersDoc rows))
      = .json (usersDoc rows) := rfl
  simp only [HostController.viewBookings, husers] at hrun
  cases hp : fileDb.readJson "properties.json" properties with
  | undefined => simp [hp] at hrun
  | nan => simp [hp] at hrun
  | json propsDB =>
    cases hb : fileDb.readJson "bookings.json" bookings with
    | undefined => simp [hp, hb] at hrun
    | nan => simp [hp, hb] at hrun
    | json bookingDB =>
      simp only [hp, hb] at hrun
      cases h1 : (JsVal.json propsDB).getProp? "properties" with
      | none => simp [h1] at hrun
      | some storedProps =>
        simp only [h1] at hrun
        cases h2 : (jsOr storedProps (.json (.arr []))).asArray? with
        | none => simp [h2] at hrun
        | some props =>
          simp only [h2] at hrun
          cases h3 : HostController.ownedBy (ofNumber (rt.stringToNumber param)) props with
          | none => simp [h3] at hrun
          | some hostProps =>
            simp only [h3] at hrun
            cases h4 : (JsVal.json bookingDB).getProp? "bookings" with
            | none => simp [h4] at hrun
            | some stored =>
              simp only [h4] at hrun
              cases h5 : (jsOr stored (.json (.arr []))).asArray? with
              | none => simp [h5] at hrun
              | some bookingRows =>
                simp only [h5] at hrun
                cases h6 : HostController.keepHostBookings hostProps bookingRows with
                | none => simp [h6] at hrun
                | some kept =>
                  simp only [h6] at hrun
                  cases h7 : HostController.bookingEntries hostProps (usersDoc rows) kept with
                  | none => simp [h7] at hrun
                  | some result =>
                    simp only [h7, Option.some.injEq] at hrun
                    rw [← hrun] at hdata
                    have hres : entries = result := by
                      simp [HostController.response, Json.field, lookupField] at hdata
                      exact hdata.symm
                    subst hres
                    exact bookingEntries_noGuest hostProps rows kept entries h7 e he

/-- C30 as evaluated for host 9: the response exists, its only entry is the one
of bob's booking, and its `guestInfo` is empty although bob is stored with
`username` `bob`, an e-mail address and a phone number. -/
theorem viewBookings_guest_lookup_misses_witness :
    (bobEntry noGuest).field "guestInfo" = .json noGuest ∧
    (mkAccount 8 "bob" "Active" "BobPass1!").field "email" = .json (.str "a@example.org") ∧
    (mkAccount 8 "bob" "Active" "BobPass1!").field "userId" = bobBooking.field "userId" :=
  ⟨(viewBookings_guest_lookup_misses isoRuntime
      (.json (propertiesDoc [mkProperty 1 3 "Sea view flat" "AVAILABLE"]))
      (bookingFile [bobBooking])
      [mkAccount 7 "alice" "Active" "AlicePass1!", mkAccount 8 "bob" "Active" "BobPass1!"]
      "9" ⟨200, HostController.response true "Bookings loaded" (.arr [bobEntry noGuest])⟩
      [bobEntry noGuest] (bobEntry noGuest) rfl rfl (List.mem_cons_self _ _)).1,
    rfl, rfl⟩

end Sprint3
